import Mathlib

/-! # CMF2IMF: the MIDI-to-OPL translation engine of `cmf.cpp`

A shallow embedding of `cmf::player` (src/cmf.cpp, src/cmf.hpp) and of the two
host callbacks of src/main.cpp.

Modelling conventions.

* `uint8_t`, `uint16_t`, `uint32_t` values are `Nat` with an explicit `% 2^w`
  wherever the C++ code narrows; `int` values are `Int` (the note counter is
  not wrapped: the model is the C++ semantics up to `INT_MAX` note-ons).
* The two callbacks `cbSetRegister` / `cbDelay` are recorded, in call order, in
  the field `out` of the player state.
* `std::istream` is a byte list with a read position and the two state bits
  `eofbit` / `failbit`.  The stream is opened by `main.cpp` without
  `exceptions(...)`, so a failed extraction throws nothing: it sets the bits and
  leaves the destination variable as it was.  `seekg` clears `eofbit` before
  anything else, also on a failed stream.
* Where the destination of a failed extraction is an uninitialised local, its
  content is indeterminate.  Such contents are supplied by `u : Nat → Nat`
  (one entry per uninitialised byte-sized local) and are universally
  quantified in the theorems.  The memory returned by `new SBI[128]` and the
  memory behind it are supplied the same way by `heap : Nat → SBI`.
* `std::cout` logging is dropped.
* `double` arithmetic (`pow`, `sqrt`) is modelled by exact real arithmetic,
  evaluated with integer roots.
-/

namespace cmf

/-! ## Callbacks -/

/-- One invocation of a host callback: `cbSetRegister(r, v)` or `cbDelay(ms)`. -/
inductive Out where
  | reg (r v : Nat)
  | delay (ms : Nat)
deriving DecidableEq, Repr

/-- Whether a callback record is a register write. -/
def Out.isReg : Out → Bool
  | .reg _ _ => true
  | .delay _ => false

/-! ## The input stream -/

/-- A `std::istream` over a file: content, get position, `eofbit`, `failbit`. -/
structure IStream where
  bytes : List Nat
  pos : Nat
  eofbit : Bool
  failbit : Bool
deriving DecidableEq, Repr

namespace IStream

/-- A freshly opened stream over `bs`. -/
def ofBytes (bs : List Nat) : IStream := ⟨bs, 0, false, false⟩

/-- The method `good()`: neither `eofbit` nor `failbit` is set. -/
def good (s : IStream) : Bool := !s.eofbit && !s.failbit

/-- The unread remainder of the stream. -/
def rest (s : IStream) : List Nat := s.bytes.drop s.pos

/-- The stream with the get position moved on by `n`. -/
def skip (s : IStream) (n : Nat) : IStream := { s with pos := s.pos + n }

/-- The extraction `s >> u8(x)`: `read(&x, 1)`.  On a stream that is not good the
read only sets `failbit`; at the end of the data it sets `eofbit` and `failbit`.
In both cases `x` keeps its previous content `dest`. -/
def u8 (s : IStream) (dest : Nat) : Nat × IStream :=
  if s.good then
    match s.bytes[s.pos]? with
    | some b => (b % 256, s.skip 1)
    | none => (dest, { s with eofbit := true, failbit := true })
  else (dest, { s with failbit := true })

/-- The call `read(buf, n)`: `some` of the `n` bytes, or `none` (with `eofbit`
and `failbit` set and the position at the end) when fewer than `n` are left. -/
def readN (s : IStream) (n : Nat) : Option (List Nat) × IStream :=
  if s.good then
    if s.pos + n ≤ s.bytes.length then
      (some (((s.bytes.drop s.pos).take n).map (· % 256)), s.skip n)
    else (none, { s with pos := max s.pos s.bytes.length, eofbit := true, failbit := true })
  else (none, { s with failbit := true })

/-- The extraction `s >> u16le(x)`; on a short read `x` is left with the
indeterminate content `dest`. -/
def u16le (s : IStream) (dest : Nat) : Nat × IStream :=
  match s.readN 2 with
  | (some [a, b], s1) => (a + 256 * b, s1)
  | (_, s1) => (dest, s1)

/-- The call `seekg(off, std::ios::cur)`: `eofbit` is cleared first; then
nothing more happens on a failed stream; a position before the start of the
file sets `failbit`; a position behind the end is accepted (the next read
meets the end of the file). -/
def seekCur (s : IStream) (off : Int) : IStream :=
  if s.failbit then { s with eofbit := false }
  else if (s.pos : Int) + off < 0 then { s with eofbit := false, failbit := true }
  else { s with pos := ((s.pos : Int) + off).toNat, eofbit := false }

/-- The call `seekg(p)` / `seekg(p, std::ios::beg)`: `eofbit` is cleared first;
then nothing more happens on a failed stream. -/
def seekBeg (s : IStream) (p : Nat) : IStream :=
  if s.failbit then { s with eofbit := false } else { s with pos := p, eofbit := false }

end IStream

/-! ## Data model (cmf.hpp) -/

/-- The struct `CMFHEADER`. -/
structure CMFHEADER where
  iInstrumentBlockOffset : Nat
  iMusicOffset : Nat
  iTicksPerQuarterNote : Nat
  iTicksPerSecond : Nat
  iTagOffsetTitle : Nat
  iTagOffsetComposer : Nat
  iTagOffsetRemarks : Nat
  iChannelsInUse : List Nat
  iNumInstruments : Nat
  iTempo : Nat
deriving DecidableEq, Repr

/-- The struct `OPERATOR`. -/
structure OPERATOR where
  iCharMult : Nat
  iScalingOutput : Nat
  iAttackDecay : Nat
  iSustainRelease : Nat
  iWaveSel : Nat
deriving DecidableEq, Repr

/-- The struct `SBI`; `op0` is `op[0]` (modulator), `op1` is `op[1]` (carrier). -/
structure SBI where
  op0 : OPERATOR
  op1 : OPERATOR
  iConnection : Nat
deriving DecidableEq, Repr

/-- The array access `sbi.op[i]` for `i` in `0..1`. -/
def SBI.op (b : SBI) (i : Nat) : OPERATOR := if i = 0 then b.op0 else b.op1

/-- The struct `MIDICHANNEL`. -/
structure MIDICHANNEL where
  iPatch : Int
  iPitchbend : Int
deriving DecidableEq, Repr

/-- The struct `OPLCHANNEL`. -/
structure OPLCHANNEL where
  iNoteStart : Int
  iMIDINote : Int
  iMIDIChannel : Int
  iMIDIPatch : Int
deriving DecidableEq, Repr

/-- The state of a `cmf::player`, with the record `out` of the callbacks made
so far.  Arrays are functions of the index. -/
structure Player where
  data : IStream
  out : List Out
  cmfHeader : CMFHEADER
  pInstruments : Nat → SBI
  bPercussive : Bool
  iCurrentRegs : Nat → Nat
  iTranspose : Int
  iPrevCommand : Nat
  iNoteCount : Int
  chMIDI : Nat → MIDICHANNEL
  chOPL : Nat → OPLCHANNEL

/-- The player with its stream replaced (the stream is a reference member). -/
def Player.setData (p : Player) (s : IStream) : Player := { p with data := s }

/-- The assignment `this->iPrevCommand = c`. -/
def Player.setPrev (p : Player) (c : Nat) : Player := { p with iPrevCommand := c }

/-- Array store `a[i] = v`. -/
def setAt {α : Type} (a : Nat → α) (i : Nat) (v : α) : Nat → α :=
  fun j => if j = i then v else a j

/-! ## Constants -/

def BASE_CHAR_MULT : Nat := 0x20
def BASE_SCAL_LEVL : Nat := 0x40
def BASE_ATCK_DCAY : Nat := 0x60
def BASE_SUST_RLSE : Nat := 0x80
def BASE_FNUM_L : Nat := 0xA0
def BASE_KEYON_FREQ : Nat := 0xB0
def BASE_RHYTHM : Nat := 0xBD
def BASE_WAVE : Nat := 0xE0
def BASE_FEED_CONN : Nat := 0xC0
def OPLBIT_KEYON : Nat := 0x20

/-- The macro `OPLOFFSET(channel)`. -/
def OPLOFFSET (channel : Nat) : Nat := (channel / 3) * 8 + (channel % 3)

/-- The table `cDefaultPatches`: 16 patches of 11 bytes. -/
def cDefaultPatches : List Nat :=
  [0x01, 0x11, 0x4F, 0x00, 0xF1, 0xD2, 0x53, 0x74, 0x00, 0x00, 0x06,
   0x07, 0x12, 0x4F, 0x00, 0xF2, 0xF2, 0x60, 0x72, 0x00, 0x00, 0x08,
   0x31, 0xA1, 0x1C, 0x80, 0x51, 0x54, 0x03, 0x67, 0x00, 0x00, 0x0E,
   0x31, 0xA1, 0x1C, 0x80, 0x41, 0x92, 0x0B, 0x3B, 0x00, 0x00, 0x0E,
   0x31, 0x16, 0x87, 0x80, 0xA1, 0x7D, 0x11, 0x43, 0x00, 0x00, 0x08,
   0x30, 0xB1, 0xC8, 0x80, 0xD5, 0x61, 0x19, 0x1B, 0x00, 0x00, 0x0C,
   0xF1, 0x21, 0x01, 0x00, 0x97, 0xF1, 0x17, 0x18, 0x00, 0x00, 0x08,
   0x32, 0x16, 0x87, 0x80, 0xA1, 0x7D, 0x10, 0x33, 0x00, 0x00, 0x08,
   0x01, 0x12, 0x4F, 0x00, 0x71, 0x52, 0x53, 0x7C, 0x00, 0x00, 0x0A,
   0x02, 0x03, 0x8D, 0x00, 0xD7, 0xF5, 0x37, 0x18, 0x00, 0x00, 0x04,
   0x21, 0x21, 0xD1, 0x00, 0xA3, 0xA4, 0x46, 0x25, 0x00, 0x00, 0x0A,
   0x22, 0x22, 0x0F, 0x00, 0xF6, 0xF6, 0x95, 0x36, 0x00, 0x00, 0x0A,
   0xE1, 0xE1, 0x00, 0x00, 0x44, 0x54, 0x24, 0x34, 0x02, 0x02, 0x07,
   0xA5, 0xB1, 0xD2, 0x80, 0x81, 0xF1, 0x03, 0x05, 0x00, 0x00, 0x02,
   0x71, 0x22, 0xC5, 0x00, 0x6E, 0x8B, 0x17, 0x0E, 0x00, 0x00, 0x02,
   0x32, 0x21, 0x16, 0x80, 0x73, 0x75, 0x24, 0x57, 0x00, 0x00, 0x0E]

/-- The read `cDefaultPatches[i]`, converted to `uint8_t`. -/
def defaultPatchByte (i : Nat) : Nat := cDefaultPatches.getD i 0

/-! ## Reading a variable-length number -/

/-- The loop of `player::readMIDINumber`: `n` iterations remain, `i` is the
loop counter, `iValue` the accumulator (a `uint32_t`). -/
def readMIDINumberLoop (u : Nat → Nat) : Nat → Nat → Nat → IStream → Nat × IStream
  | 0, _, iValue, s => (iValue, s)
  | n + 1, i, iValue, s =>
    let r := s.u8 (u i % 256)
    let iNext := r.1
    let iValue := (iValue <<< 7) % 2 ^ 32
    let iValue := iValue ||| (iNext &&& 0x7F)
    if iNext &&& 0x80 = 0 then (iValue, r.2)
    else readMIDINumberLoop u n (i + 1) iValue r.2

/-- The method `player::readMIDINumber`, on the stream. -/
def readMIDINumber (u : Nat → Nat) (s : IStream) : Nat × IStream :=
  readMIDINumberLoop u 4 0 0 s

/-! ## Register writes and instrument binding -/

/-- The method `player::setReg`: invoke the callback, then update the mirror.
Both parameters are `uint8_t`. -/
def setReg (p : Player) (iRegister iValue : Nat) : Player :=
  { p with
    out := p.out ++ [Out.reg (iRegister % 256) (iValue % 256)]
    iCurrentRegs := setAt p.iCurrentRegs (iRegister % 256) (iValue % 256) }

/-- The method `player::writeInstrumentSettings`. -/
def writeInstrumentSettings (p : Player)
    (iChannel iOperatorSource iOperatorDest iInstrument : Nat) : Player :=
  let iOPLOffset := OPLOFFSET iChannel % 256
  let iOPLOffset := if iOperatorDest ≠ 0 then (iOPLOffset + 3) % 256 else iOPLOffset
  let o := (p.pInstruments iInstrument).op iOperatorSource
  let p := setReg p (BASE_CHAR_MULT + iOPLOffset) o.iCharMult
  let p := setReg p (BASE_SCAL_LEVL + iOPLOffset) o.iScalingOutput
  let p := setReg p (BASE_ATCK_DCAY + iOPLOffset) o.iAttackDecay
  let p := setReg p (BASE_SUST_RLSE + iOPLOffset) o.iSustainRelease
  let p := setReg p (BASE_WAVE + iOPLOffset) o.iWaveSel
  setReg p (BASE_FEED_CONN + iChannel) (p.pInstruments iInstrument).iConnection

/-- The method `player::getPercChannel`. -/
def getPercChannel (iChannel : Nat) : Nat :=
  if iChannel = 11 then 7 - 1
  else if iChannel = 12 then 8 - 1
  else if iChannel = 13 then 9 - 1
  else if iChannel = 14 then 9 - 1
  else if iChannel = 15 then 8 - 1
  else 0

/-- The assignment `this->chOPL[i].iMIDIPatch = v`. -/
def setOPLPatch (p : Player) (i : Nat) (v : Int) : Player :=
  { p with chOPL := setAt p.chOPL i { p.chOPL i with iMIDIPatch := v } }

/-- The method `player::MIDIchangeInstrument`; its three parameters are
`uint8_t`. -/
def MIDIchangeInstrument (p : Player) (iOPLChannel iMIDIChannel iNewInstrument : Nat) :
    Player :=
  if iMIDIChannel > 10 ∧ p.bPercussive = true then
    let p :=
      if iMIDIChannel = 11 then
        writeInstrumentSettings (writeInstrumentSettings p (7 - 1) 0 0 iNewInstrument)
          (7 - 1) 1 1 iNewInstrument
      else if iMIDIChannel = 12 then writeInstrumentSettings p (8 - 1) 0 1 iNewInstrument
      else if iMIDIChannel = 13 then writeInstrumentSettings p (9 - 1) 0 0 iNewInstrument
      else if iMIDIChannel = 14 then writeInstrumentSettings p (9 - 1) 0 1 iNewInstrument
      else if iMIDIChannel = 15 then writeInstrumentSettings p (8 - 1) 0 0 iNewInstrument
      else p
    setOPLPatch p iOPLChannel iNewInstrument
  else
    let p := writeInstrumentSettings p iOPLChannel 0 0 iNewInstrument
    let p := writeInstrumentSettings p iOPLChannel 1 1 iNewInstrument
    setOPLPatch p iOPLChannel iNewInstrument

/-- Conversion of an `int` to `uint8_t`. -/
def toU8 (i : Int) : Nat := (i % 256).toNat

/-! ## Frequency and level calculation -/

/-- Binary search for the integer `q`-th root of `N`: the bits below `b` are
still to be decided, `r` holds the bits decided so far. -/
def irootAux (q N : Nat) : Nat → Nat → Nat
  | 0, r => r
  | b + 1, r => irootAux q N b (if (r + 2 ^ b) ^ q ≤ N then r + 2 ^ b else r)

/-- The largest `r < 2 ^ bits` with `r ^ q ≤ N`: the integer `q`-th root of `N`
when `N < 2 ^ (q * bits)`. -/
def iroot (q N bits : Nat) : Nat := irootAux q N bits 0

/-- The exponent of `pow` in `cmfNoteOn`, multiplied by `12 * 8192`:
`((iNote + (iPitchbend - 8192) / 8192.0 + iTranspose / 128 - 9) / 12.0 - (iBlock - 20))`,
where `iTranspose / 128` is a division of two `int`s. -/
def freqExponent (iNote : Nat) (iPitchbend iTranspose : Int) (iBlock : Nat) : Int :=
  8192 * ((iNote : Int) + Int.tdiv iTranspose 128 - 9) + (iPitchbend - 8192)
    - 98304 * ((iBlock : Int) - 20)

/-- The value `(uint16_t)(d + 0.5)` of `cmfNoteOn`, where
`d = pow(2, e) * 440.0 / 32.0 / 50000.0` and `e = freqExponent / 98304`.
With `x = 2 * d = 2 ^ e * 11 / 20000` the result is `(floor x + 1) / 2`, and
`floor x` is obtained from the integer root of `2 ^ a * 11 ^ q`, where `a / q` is
`e` in lowest terms; the root is below `2 ^ (a / q + 5)`. -/
def oplFNum (iNote : Nat) (iPitchbend iTranspose : Int) (iBlock : Nat) : Nat :=
  let A := freqExponent iNote iPitchbend iTranspose iBlock
  if A < 0 then 0
  else
    let g := Nat.gcd A.toNat 98304
    let q := 98304 / g
    let a := A.toNat / g
    ((iroot q (2 ^ a * 11 ^ q) (a / q + 5) / 20000 + 1) / 2) % 65536

/-- The value `int iLevel = 0x25 - sqrt(iVelocity * 16)`: the conversion of the
`double` to `int` truncates towards zero. -/
def levelOfVelocity (iVelocity : Nat) : Int :=
  let n := iVelocity * 16
  let fl := Nat.sqrt n
  let ce := if fl * fl = n then fl else fl + 1
  if ce ≤ 0x25 then (0x25 : Int) - ce else -((fl : Int) - 0x25)

/-! ## Note on / note off -/

/-- The voice count `this->bPercussive ? 6 : 9`. -/
def numChannels (p : Player) : Nat := if p.bPercussive then 6 else 9

/-- The first loop of the melodic branch of `cmfNoteOn`, running `i` from `n - 1`
down to `0`; `acc` is `iOPLChannel`.  The `break` returns at once. -/
def findFree (chOPL : Nat → OPLCHANNEL) (iPatch : Int) : Nat → Int → Int
  | 0, acc => acc
  | i + 1, acc =>
    if (chOPL i).iNoteStart = 0 then
      if (chOPL i).iMIDIPatch = iPatch then (i : Int)
      else findFree chOPL iPatch i (i : Int)
    else findFree chOPL iPatch i acc

/-- The second loop of the melodic branch of `cmfNoteOn`: `i` runs from `1` to
`n - 1`, the state is `(iOPLChannel, iEarliest)`. -/
def findEarliest (chOPL : Nat → OPLCHANNEL) (n : Nat) : Nat :=
  ((List.range' 1 (n - 1)).foldl
    (fun (st : Nat × Int) i =>
      if (chOPL i).iNoteStart < st.2 then (i, (chOPL i).iNoteStart) else st)
    (0, (chOPL 0).iNoteStart)).1

/-- The three assignments `chOPL[v].iNoteStart = ++iNoteCount`,
`chOPL[v].iMIDIChannel = iChannel`, `chOPL[v].iMIDINote = iNote`. -/
def startNote (p : Player) (v iChannel iNote : Nat) : Player :=
  { p with
    iNoteCount := p.iNoteCount + 1
    chOPL := setAt p.chOPL v
      { p.chOPL v with
        iNoteStart := p.iNoteCount + 1
        iMIDIChannel := (iChannel : Int)
        iMIDINote := (iNote : Int) } }

/-- The voice chosen by the melodic branch of `cmfNoteOn`. -/
def chooseVoice (p : Player) (iChannel : Nat) : Nat :=
  let iOPLChannel := findFree p.chOPL (p.chMIDI iChannel).iPatch (numChannels p) (-1)
  if iOPLChannel = -1 then findEarliest p.chOPL (numChannels p) else iOPLChannel.toNat

/-- The block of `cmfNoteOn`: `iNote / 12`, less one when above 1. -/
def noteBlock (iNote : Nat) : Nat :=
  let iBlock := iNote / 12
  if iBlock > 1 then iBlock - 1 else iBlock

/-- The clamped `iLevel` of the percussive branch of `cmfNoteOn`. -/
def percLevel (iVelocity : Nat) : Int :=
  let iLevel := levelOfVelocity iVelocity
  let iLevel := if iVelocity > 0x7b then 0 else iLevel
  let iLevel := if iLevel < 0 then 0 else iLevel
  if iLevel > 0x3F then 0x3F else iLevel

/-- The register `iOPLOffset` that receives the level in the percussive branch
of `cmfNoteOn`. -/
def percLevelReg (iChannel : Nat) : Nat :=
  let iOPLOffset := BASE_SCAL_LEVL + OPLOFFSET (getPercChannel iChannel)
  if iChannel = 11 then iOPLOffset + 3 else iOPLOffset

/-- The rhythm-register writes of the percussive branch of `cmfNoteOn`: switch
the drum off if its bit is set in the mirror, then switch it on. -/
def percRetrigger (p : Player) (iBit : Nat) : Player :=
  let p :=
    if p.iCurrentRegs BASE_RHYTHM &&& iBit ≠ 0 then
      setReg p BASE_RHYTHM (p.iCurrentRegs BASE_RHYTHM &&& (0xFF ^^^ iBit))
    else p
  setReg p BASE_RHYTHM (p.iCurrentRegs BASE_RHYTHM ||| iBit)

/-- The percussive branch of `player::cmfNoteOn`. -/
def noteOnPerc (p : Player) (iChannel iNote iVelocity iBlock iOPLFNum : Nat) : Player :=
  let iPercChannel := getPercChannel iChannel
  let p := MIDIchangeInstrument p iPercChannel iChannel (toU8 (p.chMIDI iChannel).iPatch)
  let iLevel := percLevel iVelocity
  let iOPLOffset := percLevelReg iChannel
  let p := setReg p iOPLOffset ((p.iCurrentRegs iOPLOffset &&& 0xC0) ||| iLevel.toNat)
  let p := setReg p (BASE_FNUM_L + iPercChannel) (iOPLFNum &&& 0xFF)
  let p := setReg p (BASE_KEYON_FREQ + iPercChannel)
    ((iBlock <<< 2) ||| ((iOPLFNum >>> 8) &&& 0x03))
  let iBit := (1 <<< (15 - iChannel)) % 256
  let p := percRetrigger p iBit
  startNote p iPercChannel iChannel iNote

/-- The instrument check of the melodic branch of `cmfNoteOn`: rebind voice
`iOPLChannel` when its patch differs from the channel's. -/
def rebind (p : Player) (iOPLChannel iChannel : Nat) : Player :=
  if (p.chOPL iOPLChannel).iMIDIPatch ≠ (p.chMIDI iChannel).iPatch then
    MIDIchangeInstrument p iOPLChannel iChannel (toU8 (p.chMIDI iChannel).iPatch)
  else p

/-- The melodic branch of `player::cmfNoteOn`. -/
def noteOnMelodic (p : Player) (iChannel iNote iBlock iOPLFNum : Nat) : Player :=
  let iOPLChannel := chooseVoice p iChannel
  let p := rebind p iOPLChannel iChannel
  let p := startNote p iOPLChannel iChannel iNote
  let p := setReg p (BASE_FNUM_L + iOPLChannel) (iOPLFNum &&& 0xFF)
  setReg p (BASE_KEYON_FREQ + iOPLChannel)
    (OPLBIT_KEYON ||| (iBlock <<< 2) ||| ((iOPLFNum &&& 0x300) >>> 8))

/-- The method `player::cmfNoteOn` (compiled without `USE_VELOCITY`). -/
def cmfNoteOn (p : Player) (iChannel iNote iVelocity : Nat) : Player :=
  let iBlock := noteBlock iNote
  let iOPLFNum := oplFNum iNote (p.chMIDI iChannel).iPitchbend p.iTranspose iBlock
  if iChannel > 10 ∧ p.bPercussive = true then
    noteOnPerc p iChannel iNote iVelocity iBlock iOPLFNum
  else noteOnMelodic p iChannel iNote iBlock iOPLFNum

/-- The assignment `this->chOPL[i].iNoteStart = 0`. -/
def freeVoice (p : Player) (i : Nat) : Player :=
  { p with chOPL := setAt p.chOPL i { p.chOPL i with iNoteStart := 0 } }

/-- The search loop of the melodic branch of `cmfNoteOff`: the first voice below
`numChannels` that sounds `(iChannel, iNote)`. -/
def findNote (p : Player) (iChannel iNote : Nat) : Option Nat :=
  (List.range (numChannels p)).find? (fun i =>
    decide ((p.chOPL i).iMIDIChannel = (iChannel : Int)) &&
    decide ((p.chOPL i).iMIDINote = (iNote : Int)) &&
    decide ((p.chOPL i).iNoteStart ≠ 0))

/-- The percussive branch of `player::cmfNoteOff`. -/
def noteOffPerc (p : Player) (iChannel iNote : Nat) : Player :=
  let iOPLChannel := getPercChannel iChannel
  if (p.chOPL iOPLChannel).iMIDINote ≠ (iNote : Int) then p
  else
    let p := setReg p BASE_RHYTHM
      (p.iCurrentRegs BASE_RHYTHM &&& (0xFF ^^^ (1 <<< (15 - iChannel))))
    freeVoice p iOPLChannel

/-- The melodic branch of `player::cmfNoteOff`. -/
def noteOffMelodic (p : Player) (iChannel iNote : Nat) : Player :=
  match findNote p iChannel iNote with
  | none => p
  | some i =>
    let p := freeVoice p i
    setReg p (BASE_KEYON_FREQ + i)
      (p.iCurrentRegs (BASE_KEYON_FREQ + i) &&& (0xFF ^^^ OPLBIT_KEYON))

/-- The method `player::cmfNoteOff`. -/
def cmfNoteOff (p : Player) (iChannel iNote _iVelocity : Nat) : Player :=
  if iChannel > 10 ∧ p.bPercussive = true then noteOffPerc p iChannel iNote
  else noteOffMelodic p iChannel iNote

/-! ## Controllers -/

/-- The method `player::MIDIcontroller`. -/
def MIDIcontroller (p : Player) (_iChannel iController iValue : Nat) : Player :=
  if iController = 0x63 then
    if iValue ≠ 0 then
      setReg p BASE_RHYTHM ((p.iCurrentRegs BASE_RHYTHM &&& 0x3F) ||| (iValue <<< 6))
    else setReg p BASE_RHYTHM (p.iCurrentRegs BASE_RHYTHM &&& 0x3F)
  else if iController = 0x66 then p
  else if iController = 0x67 then
    let p := { p with bPercussive := decide (iValue ≠ 0) }
    if p.bPercussive then setReg p BASE_RHYTHM (p.iCurrentRegs BASE_RHYTHM ||| 0x20)
    else setReg p BASE_RHYTHM (p.iCurrentRegs BASE_RHYTHM &&& (0xFF ^^^ 0x20))
  else if iController = 0x68 then { p with iTranspose := (iValue : Int) }
  else if iController = 0x69 then { p with iTranspose := -(iValue : Int) }
  else p

/-! ## One step of the event reader -/

/-- Ways in which a call does not return. -/
inductive Fault where
  | fuel
  | divByZero
deriving DecidableEq, Repr

/-- The callback `cbDelay`, whose parameter is a `uint16_t`. -/
def cbDelay (p : Player) (ms : Nat) : Player :=
  { p with out := p.out ++ [Out.delay (ms % 65536)] }

/-- The Sysex loop `do { data >> u8(iNextByte); } while ((iNextByte & 0x80) == 0);`
with `fuel` bounding the number of iterations: `none` when the loop is still
running after `fuel` iterations. -/
def sysexLoop : Nat → IStream → Nat → Option IStream
  | 0, _, _ => none
  | fuel + 1, s, iNextByte =>
    let r := s.u8 iNextByte
    if r.1 &&& 0x80 = 0 then sysexLoop fuel r.2 r.1 else some r.2

/-- The extraction of two data bytes `data >> u8(a) >> u8(b)` into fresh
locals. -/
def read2 (u : Nat → Nat) (s : IStream) : Nat × Nat × IStream :=
  let r1 := s.u8 (u 5 % 256)
  let r2 := r1.2.u8 (u 6 % 256)
  (r1.1, r2.1, r2.2)

/-- The assignment `this->chMIDI[iChannel].iPatch = v`. -/
def setPatch (p : Player) (iChannel : Nat) (v : Int) : Player :=
  { p with chMIDI := setAt p.chMIDI iChannel { p.chMIDI iChannel with iPatch := v } }

/-- The assignment `this->chMIDI[iChannel].iPitchbend = v`. -/
def setPitchbend (p : Player) (iChannel : Nat) (v : Int) : Player :=
  { p with chMIDI := setAt p.chMIDI iChannel { p.chMIDI iChannel with iPitchbend := v } }

/-- The cases `0x80` to `0xE0` (and `default`) of the `switch` of
`player::tick`: the state after a channel message. -/
def channelEvent (u : Nat → Nat) (p : Player) (iCommand : Nat) : Player :=
  let iChannel := iCommand &&& 0x0F
  let hi := iCommand &&& 0xF0
  if hi = 0x80 then
    let r := read2 u p.data
    cmfNoteOff (p.setData r.2.2) iChannel r.1 r.2.1
  else if hi = 0x90 then
    let r := read2 u p.data
    if r.2.1 ≠ 0 then cmfNoteOn (p.setData r.2.2) iChannel r.1 r.2.1
    else cmfNoteOff (p.setData r.2.2) iChannel r.1 r.2.1
  else if hi = 0xA0 then p.setData (read2 u p.data).2.2
  else if hi = 0xB0 then
    let r := read2 u p.data
    MIDIcontroller (p.setData r.2.2) iChannel r.1 r.2.1
  else if hi = 0xC0 then
    let r := p.data.u8 (u 5 % 256)
    setPatch (p.setData r.2) iChannel (r.1 : Int)
  else if hi = 0xD0 then p.setData (p.data.u8 (u 5 % 256)).2
  else if hi = 0xE0 then
    let r := read2 u p.data
    let iValue := (((r.2.1 &&& 0x7F) <<< 7) ||| (r.1 &&& 0x7F)) % 65536
    setPitchbend (p.setData r.2.2) iChannel (iValue : Int)
  else p

/-- The case `0xF0` of the `switch` of `player::tick`: the inner `switch` over
the system messages, with what `tick` returns. -/
def systemEvent (u : Nat → Nat) (fuel : Nat) (p : Player) (iCommand : Nat) :
    Except Fault (Bool × Player) :=
  if iCommand = 0xF0 then
    match sysexLoop fuel p.data (u 7 % 256) with
    | none => .error Fault.fuel
    | some s => .ok (true, p.setData s)
  else if iCommand = 0xF1 then .ok (true, p.setData (p.data.seekCur 1))
  else if iCommand = 0xF2 then .ok (true, p.setData (p.data.seekCur 2))
  else if iCommand = 0xF3 then .ok (true, p.setData (p.data.seekCur 1))
  else if iCommand = 0xFC then .ok (false, p)
  else if iCommand = 0xFF then
    let r := p.data.u8 (u 8 % 256)
    if r.1 = 0x2F then .ok (false, p.setData r.2)
    else .ok (true, p.setData r.2)
  else .ok (true, p)

/-- The `switch` of `player::tick`, entered with a command byte whose high
bit is set, and the `return true` behind it. -/
def tickEvent (u : Nat → Nat) (fuel : Nat) (p : Player) (iCommand : Nat) :
    Except Fault (Bool × Player) :=
  if iCommand &&& 0xF0 = 0xF0 then systemEvent u fuel p iCommand
  else .ok (true, channelEvent u p iCommand)

/-- The statement `if (iDelay) this->cbDelay((iDelay * 1000) / iTicksPerSecond);`
of `player::tick`: the product is a `uint32_t`. -/
def waitDelay (p : Player) (iDelay : Nat) : Player :=
  if iDelay ≠ 0 then cbDelay p ((iDelay * 1000) % 2 ^ 32 / p.cmfHeader.iTicksPerSecond)
  else p

/-- The command byte of `player::tick` after running-status resolution,
together with the player state at that point: `iRead` is the byte just
extracted into `iCommand`. -/
def resolveStatus (p : Player) (iRead : Nat) : Nat × Player :=
  if iRead &&& 0x80 ≠ 0 then (iRead, p.setPrev iRead)
  else (p.iPrevCommand, p.setData (p.data.seekCur (-1)))

/-- The method `player::tick`.  `u` supplies the contents of uninitialised
locals, `fuel` bounds the Sysex loop.  The result is the returned `bool` and
the new state, or the reason why the call does not return. -/
def tick (u : Nat → Nat) (fuel : Nat) (p : Player) : Except Fault (Bool × Player) :=
  if p.data.eofbit then .ok (false, p)
  else
    let r := readMIDINumber u p.data
    let iDelay := r.1
    let p := p.setData r.2
    if iDelay ≠ 0 ∧ p.cmfHeader.iTicksPerSecond = 0 then .error Fault.divByZero
    else
      let p := waitDelay p iDelay
      let r := p.data.u8 (u 4 % 256)
      let c := resolveStatus (p.setData r.2) r.1
      if c.1 &&& 0x80 = 0 then .ok (false, c.2)
      else tickEvent u fuel c.2 c.1

/-! ## Construction and initialisation -/

/-- The state set up by the constructor `player::player` once the header has
been read; `pInstruments` is still `NULL`. -/
def mkPlayer (data : IStream) (hdr : CMFHEADER) : Player :=
  { data := data
    out := []
    cmfHeader := hdr
    pInstruments := fun _ => ⟨⟨0, 0, 0, 0, 0⟩, ⟨0, 0, 0, 0, 0⟩, 0⟩
    bPercussive := false
    iCurrentRegs := fun _ => 0
    iTranspose := 0
    iPrevCommand := 0
    iNoteCount := 0
    chMIDI := fun _ => ⟨0, 8192⟩
    chOPL := fun _ => ⟨0, 0, 0, -1⟩ }

/-- The constructor `player::player`: check signature and version, read the
header.  `u 10 ..` supply the indeterminate contents a header field keeps when
its read falls short. -/
def player (u : Nat → Nat) (bytes : List Nat) : Except String Player :=
  let s := IStream.ofBytes bytes
  let sig := s.readN 4
  if sig.1 ≠ some [0x43, 0x54, 0x4D, 0x46] then
    .error "Input file is not a CMF file! (CTMF header missing)"
  else
    let iVer := sig.2.u16le (u 10 % 65536)
    if iVer.1 ≠ 0x0101 ∧ iVer.1 ≠ 0x0100 then .error "CMF file is not v1.0 or v1.1"
    else
      let f1 := iVer.2.u16le (u 11 % 65536)
      let f2 := f1.2.u16le (u 12 % 65536)
      let f3 := f2.2.u16le (u 13 % 65536)
      let f4 := f3.2.u16le (u 14 % 65536)
      let f5 := f4.2.u16le (u 15 % 65536)
      let f6 := f5.2.u16le (u 16 % 65536)
      let f7 := f6.2.u16le (u 17 % 65536)
      let ch := f7.2.readN 16
      let inUse := ch.1.getD ((List.range 16).map (fun i => u (20 + i) % 256))
      if iVer.1 = 0x0100 then
        let n := ch.2.u8 (u 18 % 256)
        .ok (mkPlayer n.2 ⟨f1.1, f2.1, f3.1, f4.1, f5.1, f6.1, f7.1, inUse, n.1, u 19 % 65536⟩)
      else
        let n := ch.2.u16le (u 18 % 65536)
        let t := n.2.u16le (u 19 % 65536)
        .ok (mkPlayer t.2 ⟨f1.1, f2.1, f3.1, f4.1, f5.1, f6.1, f7.1, inUse, n.1, t.1⟩)

/-- One instrument record of `player::init`: eleven `u8` extractions into the
fields of the (so far uninitialised) slot `old`, in file order. -/
def readSBI (s : IStream) (old : SBI) : SBI × IStream :=
  let a0 := s.u8 (old.op0.iCharMult % 256)
  let a1 := a0.2.u8 (old.op1.iCharMult % 256)
  let a2 := a1.2.u8 (old.op0.iScalingOutput % 256)
  let a3 := a2.2.u8 (old.op1.iScalingOutput % 256)
  let a4 := a3.2.u8 (old.op0.iAttackDecay % 256)
  let a5 := a4.2.u8 (old.op1.iAttackDecay % 256)
  let a6 := a5.2.u8 (old.op0.iSustainRelease % 256)
  let a7 := a6.2.u8 (old.op1.iSustainRelease % 256)
  let a8 := a7.2.u8 (old.op0.iWaveSel % 256)
  let a9 := a8.2.u8 (old.op1.iWaveSel % 256)
  let a10 := a9.2.u8 (old.iConnection % 256)
  (⟨⟨a0.1, a2.1, a4.1, a6.1, a8.1⟩, ⟨a1.1, a3.1, a5.1, a7.1, a9.1⟩, a10.1⟩, a10.2)

/-- The first loop of `player::init`: `n` records remain, `i` is the slot. -/
def loadInstruments : Nat → Nat → Player → Player
  | 0, _, p => p
  | n + 1, i, p =>
    let r := readSBI p.data (p.pInstruments i)
    loadInstruments n (i + 1)
      { p.setData (r.2.seekCur 5) with pInstruments := setAt p.pInstruments i r.1 }

/-- The default patch copied into slot `i` by the second loop of `player::init`. -/
def defaultSBI (i : Nat) : SBI :=
  let b := fun k => defaultPatchByte ((i % 16) * 11 + k)
  ⟨⟨b 0, b 2, b 4, b 6, b 8⟩, ⟨b 1, b 3, b 5, b 7, b 9⟩, b 10⟩

/-- The second loop of `player::init`: `n` slots remain, `i` is the slot. -/
def fillDefaults : Nat → Nat → Player → Player
  | 0, _, p => p
  | n + 1, i, p =>
    fillDefaults n (i + 1) { p with pInstruments := setAt p.pInstruments i (defaultSBI i) }

/-- The third loop of `player::init`, the percussion presetting: `n` rounds
remain, `i` and `j` are the loop variables. -/
def presetPercussion : Nat → Int → Nat → Player → Player
  | 0, _, _, p => p
  | n + 1, i, j, p =>
    let p := setPatch p j i
    presetPercussion n (i + 1) (j + 1) (MIDIchangeInstrument p (getPercChannel j) j (toU8 i))

/-- The method `player::init`; `heap` is the content of the memory that
`new SBI[128]` returns (and of what lies behind it). -/
def init (heap : Nat → SBI) (p : Player) : Player :=
  let p := p.setData (p.data.seekBeg p.cmfHeader.iInstrumentBlockOffset)
  let p := { p with pInstruments := heap }
  let p := loadInstruments p.cmfHeader.iNumInstruments 0 p
  let p := fillDefaults (128 - p.cmfHeader.iNumInstruments) p.cmfHeader.iNumInstruments p
  let p := { p with bPercussive := true }
  let p := presetPercussion 5 ((p.cmfHeader.iNumInstruments : Int) - 5) 11 p
  let p := { p with bPercussive := false }
  let p := p.setData (p.data.seekBeg p.cmfHeader.iMusicOffset)
  let p := setReg p 0x01 0x20
  let p := setReg p 0x08 0x00
  let p := setReg p (BASE_FNUM_L + 8) (514 &&& 0xFF)
  let p := setReg p (BASE_KEYON_FREQ + 8) ((1 <<< 2) ||| (514 >>> 8))
  let p := setReg p (BASE_FNUM_L + 7) (509 &&& 0xFF)
  let p := setReg p (BASE_KEYON_FREQ + 7) ((2 <<< 2) ||| (509 >>> 8))
  let p := setReg p (BASE_FNUM_L + 6) (432 &&& 0xFF)
  let p := setReg p (BASE_KEYON_FREQ + 6) ((2 <<< 2) ||| (432 >>> 8))
  let p := setReg p 0xBD 0xC0
  p.setPrev 0

/-! ## Specification-side definitions -/

/-- Spec: the concatenation of the 7-bit groups of `bs`, first byte most
significant: the sum of `(b_i & 0x7F) * 128 ^ (k - 1 - i)` over the `k` bytes. -/
def concat7 (bs : List Nat) : Nat :=
  ((List.range bs.length).map
    (fun i => (bs.getD i 0 &&& 0x7F) * 128 ^ (bs.length - 1 - i))).sum

/-- A complete delta-time encoding as `readMIDINumber` consumes it: one to four
bytes, every byte but the last with the high bit set, and the last byte with
the high bit clear unless it is the fourth. -/
def IsVarLen (bs : List Nat) : Prop :=
  bs ≠ [] ∧ bs.length ≤ 4 ∧ (∀ b ∈ bs, b < 256) ∧ (∀ b ∈ bs.dropLast, 128 ≤ b) ∧
    (bs.length = 4 ∨ ∀ b ∈ bs.getLast?, b < 128)

/-- The callbacks made between state `p` and the later state `q`. -/
def emitted (p q : Player) : List Out := q.out.drop p.out.length

/-- The command byte on which `player::tick` dispatches (after running-status
resolution), for a call entered with `eofbit` clear. -/
def tickCommand (u : Nat → Nat) (p : Player) : Nat :=
  let r := readMIDINumber u p.data
  let c := r.2.u8 (u 4 % 256)
  (resolveStatus (p.setData c.2) c.1).1

/-- The stream of `player::tick` at the point where the `switch` is entered. -/
def tickStream (u : Nat → Nat) (p : Player) : IStream :=
  let r := readMIDINumber u p.data
  let c := r.2.u8 (u 4 % 256)
  (resolveStatus (p.setData c.2) c.1).2.data

/-- The delta-time that `player::tick` decodes. -/
def tickDelay (u : Nat → Nat) (p : Player) : Nat := (readMIDINumber u p.data).1

/-- The callbacks made from `p` to `q` are register writes only, and each
write `(r, v)` satisfies `R r v`. -/
def WritesIn (R : Nat → Nat → Prop) (p q : Player) : Prop :=
  ∃ w : List Out, q.out = p.out ++ w ∧ ∀ o ∈ w, ∃ r v, o = Out.reg r v ∧ R r v

/-- No condition on a register write. -/
def AnyReg : Nat → Nat → Prop := fun _ _ => True

/-- The state of `player::tick` at the point where the `switch` is entered. -/
def tickEntry (u : Nat → Nat) (p : Player) : Player :=
  let r := readMIDINumber u p.data
  let q := waitDelay (p.setData r.2) r.1
  let c := q.data.u8 (u 4 % 256)
  (resolveStatus (q.setData c.2) c.1).2

/-- Two streams that cannot be told apart by reading on: same unread
remainder, same state bits. -/
def StreamEq (s t : IStream) : Prop :=
  s.rest = t.rest ∧ s.eofbit = t.eofbit ∧ s.failbit = t.failbit

/-- Two player states that agree in everything but the stream, whose streams
agree in their unread remainder and state bits. -/
def SameUpToStream (p q : Player) : Prop :=
  q.setData p.data = p ∧ StreamEq p.data q.data

/-- Two outcomes of `tick` that agree: the same fault, or the same returned
value with states that agree up to the stream. -/
def ResultEq : Except Fault (Bool × Player) → Except Fault (Bool × Player) → Prop
  | .ok r1, .ok r2 => r1.1 = r2.1 ∧ SameUpToStream r1.2 r2.2
  | .error e1, .error e2 => e1 = e2
  | _, _ => False

/-- Whether voice `i` is sounding: its note-start counter is non-zero. -/
def sounding (p : Player) (i : Nat) : Bool := decide ((p.chOPL i).iNoteStart ≠ 0)

/-- The number of voices (of the nine) whose note-start counter is non-zero. -/
def soundingCount (p : Player) : Nat := ((List.range 9).filter (sounding p)).length

/-- The voice on which `cmfNoteOn` starts the note: the fixed percussion voice
in the percussive branch, the chosen voice in the melodic branch. -/
def noteOnVoice (p : Player) (iChannel : Nat) : Nat :=
  if iChannel > 10 ∧ p.bPercussive = true then getPercChannel iChannel
  else chooseVoice p iChannel

/-- No two distinct sounding voices record the same (channel, note) pair. -/
def UniqueNotes (p : Player) : Prop :=
  ∀ i j, i < 9 → j < 9 → i ≠ j → sounding p i = true → sounding p j = true →
    ¬ ((p.chOPL i).iMIDIChannel = (p.chOPL j).iMIDIChannel ∧
       (p.chOPL i).iMIDINote = (p.chOPL j).iMIDINote)

/-- Some sounding voice records the pair `(iChannel, iNote)`. -/
def isSounding (p : Player) (iChannel iNote : Nat) : Prop :=
  ∃ i, i < 9 ∧ sounding p i = true ∧ (p.chOPL i).iMIDIChannel = (iChannel : Int) ∧
    (p.chOPL i).iMIDINote = (iNote : Int)

/-- The registers that belong to voice `v`: the five registers of each of its
two operators and its `0xA0`, `0xB0`, `0xC0` registers. -/
def voiceRegs (v : Nat) : List Nat :=
  let o := OPLOFFSET v
  [0x20 + o, 0x40 + o, 0x60 + o, 0x80 + o, 0xE0 + o,
   0x20 + o + 3, 0x40 + o + 3, 0x60 + o + 3, 0x80 + o + 3, 0xE0 + o + 3,
   0xA0 + v, 0xB0 + v, 0xC0 + v]

/-- The bit of the rhythm register that belongs to percussion channel
`iChannel`: `1 << (15 - iChannel)`. -/
def percBit (iChannel : Nat) : Nat := (1 <<< (15 - iChannel)) % 256

/-- A register write that stays with voice `v`: it addresses a register of `v`,
or it addresses the rhythm register and keeps every bit but the one of
channel `iChannel` as it is in the mirror of `p`. -/
def VoiceWrite (p : Player) (v iChannel : Nat) (r val : Nat) : Prop :=
  r ∈ voiceRegs v ∨
    (r = BASE_RHYTHM ∧
      val &&& (0xFF ^^^ percBit iChannel) =
        p.iCurrentRegs BASE_RHYTHM &&& (0xFF ^^^ percBit iChannel))

/-- A write to a register of voice `v`. -/
def InVoice (v : Nat) : Nat → Nat → Prop := fun r _ => r ∈ voiceRegs v

/-- The register mirror of `q` agrees with that of `p` outside the registers
in `S`. -/
def MirrorFrame (S : Nat → Prop) (p q : Player) : Prop :=
  ∀ r, ¬ S r → q.iCurrentRegs r = p.iCurrentRegs r

/-- The tick that `p` is about to make is a note-on with non-zero velocity for a
(channel, note) pair that a sounding voice already records. -/
def tickRestartsNote (u : Nat → Nat) (p : Player) : Prop :=
  p.data.eofbit = false ∧ tickCommand u p &&& 0xF0 = 0x90 ∧
    (read2 u (tickStream u p)).2.1 ≠ 0 ∧
    isSounding p (tickCommand u p &&& 0x0F) (read2 u (tickStream u p)).1

/-! ## Concrete inputs used by the examples -/

/-- Indeterminate bytes that are all zero. -/
def zeroU : Nat → Nat := fun _ => 0

/-- A heap that is all zero. -/
def zeroHeap : Nat → SBI := fun _ => ⟨⟨0, 0, 0, 0, 0⟩, ⟨0, 0, 0, 0, 0⟩, 0⟩

/-- A complete version 1.1 header of 40 bytes: instrument block and music both
at offset 40, 96 ticks per quarter note, `tps` ticks per second (below 256),
no tags, `n` instruments (below 256), tempo 120. -/
def headerBytes (tps n : Nat) : List Nat :=
  [0x43, 0x54, 0x4D, 0x46, 0x01, 0x01, 0x28, 0x00, 0x28, 0x00, 0x60, 0x00, tps, 0x00,
   0, 0, 0, 0, 0, 0,
   0, 0, 0, 0, 0, 0, 0, 0, 0, 0, 0, 0, 0, 0, 0, 0,
   n, 0x00, 0x78, 0x00]

/-- The header that the constructor reads from `headerBytes tps n`. -/
def headerOf (tps n : Nat) : CMFHEADER :=
  ⟨0x28, 0x28, 0x60, tps, 0, 0, 0, List.replicate 16 0, n, 0x78⟩

/-- The player that the constructor builds from `headerBytes tps n ++ music`. -/
def playerOf (tps n : Nat) (music : List Nat) : Player :=
  mkPlayer ⟨headerBytes tps n ++ music, 40, false, false⟩ (headerOf tps n)

/-- The host loop `while (p.tick()) { }` cut off after `n` calls: the state
after the last call made (`none` when a call does not return). -/
def runTicks (u : Nat → Nat) (fuel : Nat) : Nat → Player → Option Player
  | 0, p => some p
  | n + 1, p =>
    match tick u fuel p with
    | .error _ => none
    | .ok (true, q) => runTicks u fuel n q
    | .ok (false, q) => some q

/-- The note-start, note, channel and patch of the voices `is` after running
`n` ticks on the file `headerBytes 120 0 ++ music`, after `init`, together
with the rhythm flag and the number of sounding voices. -/
def voicesAfter (music : List Nat) (n : Nat) (is : List Nat) :
    Option (List OPLCHANNEL × Bool × Nat) :=
  (runTicks zeroU 0 n (init zeroHeap (playerOf 120 0 music))).map
    (fun q => (is.map q.chOPL, q.bPercussive, soundingCount q))

/-- A music stream: seven note-ons on channel 0
(notes 60 to 66), then controller 0x67 with value 1. -/
def sevenNotesThenRhythm : List Nat :=
  [0x00, 0x90, 60, 127, 0x00, 61, 127, 0x00, 62, 127, 0x00, 63, 127, 0x00, 64, 127,
   0x00, 65, 127, 0x00, 66, 127, 0x00, 0xB0, 0x67, 0x01]

/-! ## Further specification-side definitions and example files -/

/-- The F-number computed from the exponent `A / 98304` (the body of `oplFNum`). -/
def fnumOfExponent (A : Int) : Nat :=
  if A < 0 then 0
  else
    let g := Nat.gcd A.toNat 98304
    let q := 98304 / g
    let a := A.toNat / g
    ((iroot q (2 ^ a * 11 ^ q) (a / q + 5) / 20000 + 1) / 2) % 65536

/-- Spec: the exponent of the frequency formula, multiplied by `12 * 8192`,
when the transpose `t` counts 1/128 semitones as a rational:
`(iNote + (iPitchbend - 8192) / 8192 + t / 128 - 9) / 12 - (iBlock - 20)`. -/
def specFreqExponent (iNote : Nat) (iPitchbend t : Int) (iBlock : Nat) : Int :=
  8192 * ((iNote : Int) - 9) + 64 * t + (iPitchbend - 8192) - 98304 * ((iBlock : Int) - 20)

/-- Five instrument records of 16 bytes: the first five default patches, each
followed by five padding bytes `0xFF`. -/
def fiveRecords : List Nat :=
  [0x01, 0x11, 0x4F, 0x00, 0xF1, 0xD2, 0x53, 0x74, 0x00, 0x00, 0x06, 0xFF, 0xFF, 0xFF, 0xFF, 0xFF,
   0x07, 0x12, 0x4F, 0x00, 0xF2, 0xF2, 0x60, 0x72, 0x00, 0x00, 0x08, 0xFF, 0xFF, 0xFF, 0xFF, 0xFF,
   0x31, 0xA1, 0x1C, 0x80, 0x51, 0x54, 0x03, 0x67, 0x00, 0x00, 0x0E, 0xFF, 0xFF, 0xFF, 0xFF, 0xFF,
   0x31, 0xA1, 0x1C, 0x80, 0x41, 0x92, 0x0B, 0x3B, 0x00, 0x00, 0x0E, 0xFF, 0xFF, 0xFF, 0xFF, 0xFF,
   0x31, 0x16, 0x87, 0x80, 0xA1, 0x7D, 0x11, 0x43, 0x00, 0x00, 0x08, 0xFF, 0xFF, 0xFF, 0xFF, 0xFF]

/-- A complete version 1.1 header of 40 bytes: instrument block at offset 40,
music at offset 120, 96 ticks per quarter note, `tps` ticks per second (below
256), no tags, five instruments, tempo 120. -/
def headerFive (tps : Nat) : List Nat :=
  [0x43, 0x54, 0x4D, 0x46, 0x01, 0x01, 0x28, 0x00, 0x78, 0x00, 0x60, 0x00, tps, 0x00,
   0, 0, 0, 0, 0, 0,
   0, 0, 0, 0, 0, 0, 0, 0, 0, 0, 0, 0, 0, 0, 0, 0,
   0x05, 0x00, 0x78, 0x00]

/-- A complete file: the header `headerFive tps`, the five records of
`fiveRecords`, then `music`. -/
def fileWithFive (tps : Nat) (music : List Nat) : List Nat :=
  headerFive tps ++ fiveRecords ++ music

/-- The program of `main`: construct the player on the file `bytes`, call
`init`, then `tick` at most `n` times. -/
def playFile (heap : Nat → SBI) (bytes : List Nat) (n : Nat) : Option Player :=
  match player zeroU bytes with
  | .ok p => runTicks zeroU 0 n (init heap p)
  | .error _ => none

/-- The values written to the rhythm register `0xBD`, in call order, among the
callbacks `out`. -/
def rhythmWrites : List Out → List Nat
  | [] => []
  | .reg r v :: t => if r = BASE_RHYTHM then v :: rhythmWrites t else rhythmWrites t
  | .delay _ :: t => rhythmWrites t

/-- The player that the constructor builds from `fileWithFive tps music`. -/
def playerFive (tps : Nat) (music : List Nat) : Player :=
  mkPlayer ⟨fileWithFive tps music, 40, false, false⟩
    ⟨0x28, 0x78, 0x60, tps, 0, 0, 0, List.replicate 16 0, 5, 0x78⟩

/-- Spec: the instrument that eleven bytes describe, in the order modulator
char/mult, carrier char/mult, modulator scaling/level, carrier scaling/level,
modulator attack/decay, carrier attack/decay, modulator sustain/release,
carrier sustain/release, modulator wave, carrier wave, connection. -/
def sbiOfBytes (b : List Nat) : SBI :=
  ⟨⟨b.getD 0 0, b.getD 2 0, b.getD 4 0, b.getD 6 0, b.getD 8 0⟩,
   ⟨b.getD 1 0, b.getD 3 0, b.getD 5 0, b.getD 7 0, b.getD 9 0⟩, b.getD 10 0⟩

/-- Spec: the eleven bytes of entry `k` of the default table. -/
def tableEntry (k : Nat) : List Nat := (cDefaultPatches.drop (11 * k)).take 11

/-- Spec: the first eleven of the 16 bytes of record `i` of an instrument block
that starts at offset `off` of the file `bytes`. -/
def recordBytes (bytes : List Nat) (off i : Nat) : List Nat :=
  ((bytes.drop (off + 16 * i)).take 11).map (· % 256)

/-- The stream over other file content, at the same position and in the same
state. -/
def IStream.setBytes (s : IStream) (bs : List Nat) : IStream := ⟨bs, s.pos, s.eofbit, s.failbit⟩

/-- The player with its instrument table replaced. -/
def Player.setInstr (p : Player) (t : Nat → SBI) : Player := { p with pInstruments := t }

/-! ## The host (main.cpp) -/

/-- The state of the host `main` of main.cpp: its variable `delay` and the
records (delay, register, value) written to the output file so far.  The
words `u16le(0)` that `main` writes in front of the first record are left
out. -/
structure Host where
  delay : Nat
  imf : List (Nat × Nat × Nat)
deriving DecidableEq, Repr

/-- The function `setDelay` of main.cpp, `*keep = delay`; its parameter is a
`uint16_t`. -/
def setDelay (h : Host) (delay : Nat) : Host := { h with delay := delay % 65536 }

/-- The function `setRegister` of main.cpp: the record written is
`u16le((unsigned long)*preDelay * speed / 1000)`, `u8(reg)`, `u8(val)`, and
`*preDelay` is reset.  `unsigned long` has 64 bits; `speed` is an `int` that the
multiplication converts to `unsigned long`. -/
def setRegister (speed : Int) (h : Host) (reg val : Nat) : Host :=
  let delay := (h.delay * (speed % 2 ^ 64).toNat) % 2 ^ 64 / 1000
  { delay := 0, imf := h.imf ++ [(delay % 65536, reg % 256, val % 256)] }

/-- The host callbacks applied to the callbacks `out` of the player, in call
order. -/
def hostRun (speed : Int) : Host → List Out → Host
  | h, [] => h
  | h, .reg r v :: t => hostRun speed (setRegister speed h r v) t
  | h, .delay d :: t => hostRun speed (setDelay h d) t

/-! ## Voice predicates -/

/-- Voice `i` is free: its note-start counter is zero. -/
def isFree (p : Player) (i : Nat) : Prop := (p.chOPL i).iNoteStart = 0

/-- Voice `i` is free and loaded with the instrument of MIDI channel `c`. -/
def isFreeMatch (p : Player) (c i : Nat) : Prop :=
  isFree p i ∧ (p.chOPL i).iMIDIPatch = (p.chMIDI c).iPatch

/-! ## Instrument binding -/

/-- All five fields of an operator are bytes. -/
def OPERATOR.isBytes (o : OPERATOR) : Prop :=
  o.iCharMult < 256 ∧ o.iScalingOutput < 256 ∧ o.iAttackDecay < 256 ∧
    o.iSustainRelease < 256 ∧ o.iWaveSel < 256

/-- All eleven fields of an instrument are bytes. -/
def SBI.isBytes (t : SBI) : Prop := t.op0.isBytes ∧ t.op1.isBytes ∧ t.iConnection < 256

/-- Spec: the operator offset `(v / 3) * 8 + v % 3` of voice `v`. -/
def specOffset (v : Nat) : Nat := (v / 3) * 8 + v % 3

/-- Spec: the register writes that bind instrument `t` to the melodic voice `v`:
the five registers of the modulator at offset `o`, the connection register,
the five registers of the carrier at offset `o + 3`, the connection register
again. -/
def bindingWrites (t : SBI) (v : Nat) : List Out :=
  [Out.reg (0x20 + specOffset v) t.op0.iCharMult,
   Out.reg (0x40 + specOffset v) t.op0.iScalingOutput,
   Out.reg (0x60 + specOffset v) t.op0.iAttackDecay,
   Out.reg (0x80 + specOffset v) t.op0.iSustainRelease,
   Out.reg (0xE0 + specOffset v) t.op0.iWaveSel,
   Out.reg (0xC0 + v) t.iConnection,
   Out.reg (0x20 + specOffset v + 3) t.op1.iCharMult,
   Out.reg (0x40 + specOffset v + 3) t.op1.iScalingOutput,
   Out.reg (0x60 + specOffset v + 3) t.op1.iAttackDecay,
   Out.reg (0x80 + specOffset v + 3) t.op1.iSustainRelease,
   Out.reg (0xE0 + specOffset v + 3) t.op1.iWaveSel,
   Out.reg (0xC0 + v) t.iConnection]

/-- Voice `i` is sounding and records the pair `(c, n)`. -/
def soundsNote (p : Player) (c n i : Nat) : Prop :=
  (p.chOPL i).iMIDIChannel = (c : Int) ∧ (p.chOPL i).iMIDINote = (n : Int) ∧
    (p.chOPL i).iNoteStart ≠ 0

/-- Every value of the register mirror is a byte (the mirror is a `uint8_t`
array). -/
def MirrorBytes (p : Player) : Prop := ∀ r, p.iCurrentRegs r < 256

/-- Spec: the operator offsets that belong to the drum of percussion channel
`c`: bass drum 0x10 and 0x13, snare 0x14, tom 0x12, cymbal 0x15, hi-hat 0x11. -/
def drumSlots (c : Nat) : List Nat :=
  if c = 11 then [0x10, 0x13]
  else if c = 12 then [0x14]
  else if c = 13 then [0x12]
  else if c = 14 then [0x15]
  else if c = 15 then [0x11]
  else []

/-- Spec: the operator offset that a per-operator timbre register addresses
(bases 0x20, 0x40, 0x60, 0x80, 0xE0, offsets 0..0x15); `none` for any other
register. -/
def timbreOffset (r : Nat) : Option Nat :=
  if 0x20 ≤ r ∧ r ≤ 0x35 then some (r - 0x20)
  else if 0x40 ≤ r ∧ r ≤ 0x55 then some (r - 0x40)
  else if 0x60 ≤ r ∧ r ≤ 0x75 then some (r - 0x60)
  else if 0x80 ≤ r ∧ r ≤ 0x95 then some (r - 0x80)
  else if 0xE0 ≤ r ∧ r ≤ 0xF5 then some (r - 0xE0)
  else none

/-- Spec: register `r` is no timbre register, or it addresses an operator of
the drum of channel `c`. -/
def ownTimbre (c r : Nat) : Bool :=
  match timbreOffset r with
  | none => true
  | some off => decide (off ∈ drumSlots c)

/-- A register write that, if it addresses a timbre register, addresses an
operator of the drum of channel `c`. -/
@[reducible] def OwnTimbre (c : Nat) : Nat → Nat → Prop := fun r _ => ownTimbre c r = true

/-- Spec: the fixed voice of a percussion channel. -/
def specPercVoice (c : Nat) : Nat :=
  if c = 11 then 6 else if c = 12 then 7 else if c = 13 then 8 else if c = 14 then 8 else 7

/-- Spec: the exponent of the frequency formula, multiplied by `12 * 8192`,
when a pitch bend `b` shifts the note by `2 * (b - 8192) / 8192` semitones:
`(iNote + 2 * (iPitchbend - 8192) / 8192 + iTranspose / 128 - 9) / 12 - (iBlock - 20)`. -/
def specBendExponent (iNote : Nat) (iPitchbend iTranspose : Int) (iBlock : Nat) : Int :=
  8192 * ((iNote : Int) + Int.tdiv iTranspose 128 - 9) + 2 * (iPitchbend - 8192)
    - 98304 * ((iBlock : Int) - 20)

/-- A heap that is zero in the 128 slots of the instrument bank and holds the
byte `v` in every field of what lies behind them. -/
def heapBehind (v : Nat) : Nat → SBI :=
  fun i => if i < 128 then zeroHeap i else ⟨⟨v, v, v, v, v⟩, ⟨v, v, v, v, v⟩, v⟩

/-- Spec: the last value passed to the register-write callback for register
`r` among the callbacks `out`, and 0 if there is none. -/
def lastWritten (out : List Out) (r : Nat) : Nat :=
  out.foldl (fun acc o =>
    match o with
    | .reg r2 v => if r2 = r then v else acc
    | .delay _ => acc) 0

/-- The register mirror holds, for every register, the last value passed to the
register-write callback for it. -/
def Synced (p : Player) : Prop := ∀ r, p.iCurrentRegs r = lastWritten p.out r

/-- The rhythm flag is set exactly when bit `0x20` of the mirror of register
`0xBD` is set. -/
def FlagOK (p : Player) : Prop :=
  p.bPercussive = true ↔ p.iCurrentRegs BASE_RHYTHM &&& 0x20 ≠ 0

/-- Stale contents of the uninitialised locals of `tick`: the command byte
`0x90` and the data bytes `60` and `127` of a note-on, zero elsewhere. -/
def staleNoteOn : Nat → Nat :=
  fun i => if i = 4 then 0x90 else if i = 5 then 60 else if i = 6 then 127 else 0

/-- A heap that holds the byte `v` in every field. -/
def constHeap (v : Nat) : Nat → SBI := fun _ => ⟨⟨v, v, v, v, v⟩, ⟨v, v, v, v, v⟩, v⟩

/-! # Basic lemmas -/

section stream
variable (s : IStream) (n m : Nat)

@[simp] theorem skip_bytes : (s.skip n).bytes = s.bytes := rfl
@[simp] theorem skip_pos : (s.skip n).pos = s.pos + n := rfl
@[simp] theorem skip_eofbit : (s.skip n).eofbit = s.eofbit := rfl
@[simp] theorem skip_failbit : (s.skip n).failbit = s.failbit := rfl
@[simp] theorem skip_good : (s.skip n).good = s.good := rfl
@[simp] theorem skip_skip : (s.skip n).skip m = s.skip (n + m) := by
  simp [IStream.skip, Nat.add_assoc]
@[simp] theorem skip_zero : s.skip 0 = s := rfl

theorem skip_rest : (s.skip n).rest = s.rest.drop n := by
  simp [IStream.rest, IStream.skip, List.drop_drop, Nat.add_comm]

end stream

theorem good_eofbit (s : IStream) (hg : s.good = true) : s.eofbit = false := by
  simp [IStream.good] at hg; exact hg.1

theorem good_failbit (s : IStream) (hg : s.good = true) : s.failbit = false := by
  simp [IStream.good] at hg; exact hg.2

theorem rest_advance (s : IStream) (l tl : List Nat) (h : s.rest = l ++ tl) :
    (s.skip l.length).rest = tl := by
  rw [skip_rest, h, List.drop_left]

theorem getElem?_of_rest (s : IStream) (l : List Nat) (h : s.rest = l) (j : Nat) :
    s.bytes[s.pos + j]? = l[j]? := by
  rw [← h, IStream.rest, List.getElem?_drop]

theorem u8_of_getElem? (s : IStream) (d b : Nat) (hg : s.good = true)
    (hb : s.bytes[s.pos]? = some b) : s.u8 d = (b % 256, s.skip 1) := by
  simp [IStream.u8, hg, hb]

theorem u8_step (s : IStream) (d b : Nat) (tl : List Nat) (hg : s.good = true)
    (h : s.rest = b :: tl) : s.u8 d = (b % 256, s.skip 1) := by
  have h0 := getElem?_of_rest s _ h 0
  simp at h0
  exact u8_of_getElem? s d b hg h0

theorem rest_skip_one (s : IStream) (b : Nat) (tl : List Nat) (h : s.rest = b :: tl) :
    (s.skip 1).rest = tl := by
  rw [skip_rest, h]; rfl

theorem and_two_pow_eq (x i : Nat) : x &&& 2 ^ i = if x.testBit i then 2 ^ i else 0 := by
  apply Nat.eq_of_testBit_eq
  intro j
  by_cases hij : i = j
  · subst hij
    cases h : x.testBit i <;> simp [h, Nat.testBit_two_pow_self]
  · cases h : x.testBit i <;> simp [h, Nat.testBit_two_pow_of_ne hij]

theorem land_0x80_eq_zero_iff (b : Nat) (h : b < 256) : b &&& 0x80 = 0 ↔ b < 128 := by
  have h1 := and_two_pow_eq b 7
  have h2 : b.testBit 7 = decide (b / 2 ^ 7 % 2 = 1) := Nat.testBit_to_div_mod
  norm_num at h1 h2
  rw [h1]
  by_cases hb : b < 128
  · have : b / 128 % 2 = 0 := by omega
    simp [h2, this, hb]
  · have : b / 128 % 2 = 1 := by omega
    simp [h2, this, hb]

theorem land_0x7F (b : Nat) : b &&& 0x7F = b % 128 :=
  Nat.and_pow_two_sub_one_eq_mod b 7

theorem shl7_lor (v b : Nat) (hv : v < 2 ^ 25) :
    (v <<< 7) % 2 ^ 32 ||| (b &&& 0x7F) = v * 128 + b % 128 := by
  have h1 : v <<< 7 = 2 ^ 7 * v := by rw [Nat.shiftLeft_eq, Nat.mul_comm]
  have h2 : 2 ^ 7 * v < 2 ^ 32 := by omega
  rw [h1, Nat.mod_eq_of_lt h2, land_0x7F,
    ← Nat.mul_add_lt_is_or (Nat.mod_lt b (by decide : 128 > 0)) v]
  omega

theorem land_0x80_ne_zero (b : Nat) (h : b < 256) (h2 : 128 ≤ b) : ¬ (b &&& 0x80 = 0) := by
  rw [land_0x80_eq_zero_iff b h]; omega

/-- On a good stream that starts with a complete delta-time encoding `bs`,
`readMIDINumber` consumes exactly `bs` and returns its 7-bit concatenation. -/
theorem readMIDINumber_decodes (u : Nat → Nat) (s : IStream) (bs tl : List Nat)
    (hg : s.good = true) (hr : s.rest = bs ++ tl) (hv : IsVarLen bs) :
    readMIDINumber u s = (concat7 bs, s.skip bs.length) ∧ concat7 bs < 2 ^ 28 := by
  obtain ⟨hne, hlen, hlt, hcont, hlast⟩ := hv
  match bs, hne, hlen, hlt, hcont, hlast with
  | [a], _, _, hlt, _, hlast =>
    have ha : a < 128 := by simpa using hlast
    have e1 := u8_step s (u 0 % 256) a tl hg hr
    have ha' : a % 256 = a := Nat.mod_eq_of_lt (by omega)
    have hz := (land_0x80_eq_zero_iff a (by omega)).2 ha
    simp [readMIDINumber, readMIDINumberLoop, e1, ha', hz, concat7, land_0x7F, List.range_succ]
    omega
  | [a, b], _, _, hlt, hcont, hlast =>
    have ha : 128 ≤ a ∧ a < 256 := ⟨by simpa using hcont, hlt a (by simp)⟩
    have hb : b < 128 := by simpa using hlast
    have e1 := u8_step s (u 0 % 256) a (b :: tl) hg hr
    have r1 := rest_skip_one s a _ hr
    have e2 := u8_step _ (u 1 % 256) b tl (by simpa using hg) r1
    have ha' : a % 256 = a := Nat.mod_eq_of_lt (by omega)
    have hb' : b % 256 = b := Nat.mod_eq_of_lt (by omega)
    have hza := land_0x80_ne_zero a ha.2 ha.1
    have hzb := (land_0x80_eq_zero_iff b (by omega)).2 hb
    have k1 := shl7_lor 0 a (by norm_num)
    have k2 := shl7_lor (a % 128) b (by omega)
    simp only [Nat.zero_mul, Nat.zero_add] at k1
    simp only [readMIDINumber, readMIDINumberLoop, e1, e2, ha', hb', hza, hzb, k1, k2, if_true,
      if_false]
    simp [concat7, land_0x7F, List.range_succ, Nat.add_assoc]
    omega
  | [a, b, c], _, _, hlt, hcont, hlast =>
    have ha : 128 ≤ a ∧ a < 256 := ⟨hcont a (by simp), hlt a (by simp)⟩
    have hb : 128 ≤ b ∧ b < 256 := ⟨hcont b (by simp), hlt b (by simp)⟩
    have hc : c < 128 := by simpa using hlast
    have e1 := u8_step s (u 0 % 256) a (b :: c :: tl) hg hr
    have r1 := rest_skip_one s a _ hr
    have e2 := u8_step _ (u 1 % 256) b (c :: tl) (by simpa using hg) r1
    have r2 := rest_skip_one _ b _ r1
    have e3 := u8_step _ (u 2 % 256) c tl (by simpa using hg) r2
    have ha' : a % 256 = a := Nat.mod_eq_of_lt (by omega)
    have hb' : b % 256 = b := Nat.mod_eq_of_lt (by omega)
    have hc' : c % 256 = c := Nat.mod_eq_of_lt (by omega)
    have hza := land_0x80_ne_zero a ha.2 ha.1
    have hzb := land_0x80_ne_zero b hb.2 hb.1
    have hzc := (land_0x80_eq_zero_iff c (by omega)).2 hc
    have k1 := shl7_lor 0 a (by norm_num)
    have k2 := shl7_lor (a % 128) b (by omega)
    have k3 := shl7_lor (a % 128 * 128 + b % 128) c (by omega)
    simp only [Nat.zero_mul, Nat.zero_add] at k1
    simp only [readMIDINumber, readMIDINumberLoop, e1, e2, e3, ha', hb', hc', hza, hzb, hzc,
      k1, k2, k3, if_true, if_false]
    simp [concat7, land_0x7F, List.range_succ, Nat.add_assoc]
    omega
  | [a, b, c, d], _, _, hlt, hcont, _ =>
    have ha : 128 ≤ a ∧ a < 256 := ⟨hcont a (by simp), hlt a (by simp)⟩
    have hb : 128 ≤ b ∧ b < 256 := ⟨hcont b (by simp), hlt b (by simp)⟩
    have hc : 128 ≤ c ∧ c < 256 := ⟨hcont c (by simp), hlt c (by simp)⟩
    have hd : d < 256 := hlt d (by simp)
    have e1 := u8_step s (u 0 % 256) a (b :: c :: d :: tl) hg hr
    have r1 := rest_skip_one s a _ hr
    have e2 := u8_step _ (u 1 % 256) b (c :: d :: tl) (by simpa using hg) r1
    have r2 := rest_skip_one _ b _ r1
    have e3 := u8_step _ (u 2 % 256) c (d :: tl) (by simpa using hg) r2
    have r3 := rest_skip_one _ c _ r2
    have e4 := u8_step _ (u 3 % 256) d tl (by simpa using hg) r3
    have ha' : a % 256 = a := Nat.mod_eq_of_lt (by omega)
    have hb' : b % 256 = b := Nat.mod_eq_of_lt (by omega)
    have hc' : c % 256 = c := Nat.mod_eq_of_lt (by omega)
    have hd' : d % 256 = d := Nat.mod_eq_of_lt (by omega)
    have hza := land_0x80_ne_zero a ha.2 ha.1
    have hzb := land_0x80_ne_zero b hb.2 hb.1
    have hzc := land_0x80_ne_zero c hc.2 hc.1
    have k1 := shl7_lor 0 a (by norm_num)
    have k2 := shl7_lor (a % 128) b (by omega)
    have k3 := shl7_lor (a % 128 * 128 + b % 128) c (by omega)
    have k4 := shl7_lor ((a % 128 * 128 + b % 128) * 128 + c % 128) d (by omega)
    simp only [Nat.zero_mul, Nat.zero_add] at k1
    simp only [readMIDINumber, readMIDINumberLoop, e1, e2, e3, e4, ha', hb', hc', hd', hza, hzb,
      hzc, k1, k2, k3, k4, if_true, if_false, ite_self]
    simp [concat7, land_0x7F, List.range_succ, Nat.add_assoc]
    omega
  | _ :: _ :: _ :: _ :: _ :: _, _, hlen, _, _, _ => simp at hlen

/-! ## Frame lemmas: which fields an operation leaves alone -/

section frame0
variable (p : Player) (a : Nat) (s : IStream) (i : Int)

@[simp] theorem setData_data : (p.setData s).data = s := rfl
@[simp] theorem setData_out : (p.setData s).out = p.out := rfl
@[simp] theorem setData_cmfHeader : (p.setData s).cmfHeader = p.cmfHeader := rfl
@[simp] theorem setData_pInstruments : (p.setData s).pInstruments = p.pInstruments := rfl
@[simp] theorem setData_bPercussive : (p.setData s).bPercussive = p.bPercussive := rfl
@[simp] theorem setData_iCurrentRegs : (p.setData s).iCurrentRegs = p.iCurrentRegs := rfl
@[simp] theorem setData_iTranspose : (p.setData s).iTranspose = p.iTranspose := rfl
@[simp] theorem setData_iPrevCommand : (p.setData s).iPrevCommand = p.iPrevCommand := rfl
@[simp] theorem setData_iNoteCount : (p.setData s).iNoteCount = p.iNoteCount := rfl
@[simp] theorem setData_chMIDI : (p.setData s).chMIDI = p.chMIDI := rfl
@[simp] theorem setData_chOPL : (p.setData s).chOPL = p.chOPL := rfl
@[simp] theorem setPrev_data : (p.setPrev a).data = p.data := rfl
@[simp] theorem setPrev_out : (p.setPrev a).out = p.out := rfl
@[simp] theorem setPrev_cmfHeader : (p.setPrev a).cmfHeader = p.cmfHeader := rfl
@[simp] theorem setPrev_pInstruments : (p.setPrev a).pInstruments = p.pInstruments := rfl
@[simp] theorem setPrev_bPercussive : (p.setPrev a).bPercussive = p.bPercussive := rfl
@[simp] theorem setPrev_iCurrentRegs : (p.setPrev a).iCurrentRegs = p.iCurrentRegs := rfl
@[simp] theorem setPrev_iTranspose : (p.setPrev a).iTranspose = p.iTranspose := rfl
@[simp] theorem setPrev_iPrevCommand : (p.setPrev a).iPrevCommand = a := rfl
@[simp] theorem setPrev_iNoteCount : (p.setPrev a).iNoteCount = p.iNoteCount := rfl
@[simp] theorem setPrev_chMIDI : (p.setPrev a).chMIDI = p.chMIDI := rfl
@[simp] theorem setPrev_chOPL : (p.setPrev a).chOPL = p.chOPL := rfl
@[simp] theorem setPatch_data : (setPatch p a i).data = p.data := rfl
@[simp] theorem setPatch_out : (setPatch p a i).out = p.out := rfl
@[simp] theorem setPatch_cmfHeader : (setPatch p a i).cmfHeader = p.cmfHeader := rfl
@[simp] theorem setPatch_pInstruments : (setPatch p a i).pInstruments = p.pInstruments := rfl
@[simp] theorem setPatch_bPercussive : (setPatch p a i).bPercussive = p.bPercussive := rfl
@[simp] theorem setPatch_iCurrentRegs : (setPatch p a i).iCurrentRegs = p.iCurrentRegs := rfl
@[simp] theorem setPatch_iTranspose : (setPatch p a i).iTranspose = p.iTranspose := rfl
@[simp] theorem setPatch_iPrevCommand : (setPatch p a i).iPrevCommand = p.iPrevCommand := rfl
@[simp] theorem setPatch_iNoteCount : (setPatch p a i).iNoteCount = p.iNoteCount := rfl
@[simp] theorem setPatch_chMIDI : (setPatch p a i).chMIDI =
    setAt p.chMIDI a { p.chMIDI a with iPatch := i } := rfl
@[simp] theorem setPatch_chOPL : (setPatch p a i).chOPL = p.chOPL := rfl
@[simp] theorem setPitchbend_data : (setPitchbend p a i).data = p.data := rfl
@[simp] theorem setPitchbend_out : (setPitchbend p a i).out = p.out := rfl
@[simp] theorem setPitchbend_cmfHeader : (setPitchbend p a i).cmfHeader = p.cmfHeader := rfl
@[simp] theorem setPitchbend_pInstruments : (setPitchbend p a i).pInstruments = p.pInstruments := rfl
@[simp] theorem setPitchbend_bPercussive : (setPitchbend p a i).bPercussive = p.bPercussive := rfl
@[simp] theorem setPitchbend_iCurrentRegs : (setPitchbend p a i).iCurrentRegs = p.iCurrentRegs := rfl
@[simp] theorem setPitchbend_iTranspose : (setPitchbend p a i).iTranspose = p.iTranspose := rfl
@[simp] theorem setPitchbend_iPrevCommand : (setPitchbend p a i).iPrevCommand = p.iPrevCommand := rfl
@[simp] theorem setPitchbend_iNoteCount : (setPitchbend p a i).iNoteCount = p.iNoteCount := rfl
@[simp] theorem setPitchbend_chMIDI : (setPitchbend p a i).chMIDI =
    setAt p.chMIDI a { p.chMIDI a with iPitchbend := i } := rfl
@[simp] theorem setPitchbend_chOPL : (setPitchbend p a i).chOPL = p.chOPL := rfl
@[simp] theorem setData_self : p.setData p.data = p := rfl
@[simp] theorem setData_setData (t : IStream) : (p.setData s).setData t = p.setData t := rfl

end frame0

section frame
variable (p : Player) (a b c d : Nat)

@[simp] theorem setReg_data : (setReg p a b).data = p.data := rfl
@[simp] theorem setReg_cmfHeader : (setReg p a b).cmfHeader = p.cmfHeader := rfl
@[simp] theorem setReg_pInstruments : (setReg p a b).pInstruments = p.pInstruments := rfl
@[simp] theorem setReg_bPercussive : (setReg p a b).bPercussive = p.bPercussive := rfl
@[simp] theorem setReg_iTranspose : (setReg p a b).iTranspose = p.iTranspose := rfl
@[simp] theorem setReg_iPrevCommand : (setReg p a b).iPrevCommand = p.iPrevCommand := rfl
@[simp] theorem setReg_iNoteCount : (setReg p a b).iNoteCount = p.iNoteCount := rfl
@[simp] theorem setReg_chMIDI : (setReg p a b).chMIDI = p.chMIDI := rfl
@[simp] theorem setReg_chOPL : (setReg p a b).chOPL = p.chOPL := rfl
@[simp] theorem setReg_out :
    (setReg p a b).out = p.out ++ [Out.reg (a % 256) (b % 256)] := rfl
@[simp] theorem setReg_iCurrentRegs :
    (setReg p a b).iCurrentRegs = setAt p.iCurrentRegs (a % 256) (b % 256) := rfl

@[simp] theorem wis_data : (writeInstrumentSettings p a b c d).data = p.data := rfl
@[simp] theorem wis_cmfHeader :
    (writeInstrumentSettings p a b c d).cmfHeader = p.cmfHeader := rfl
@[simp] theorem wis_pInstruments :
    (writeInstrumentSettings p a b c d).pInstruments = p.pInstruments := rfl
@[simp] theorem wis_bPercussive :
    (writeInstrumentSettings p a b c d).bPercussive = p.bPercussive := rfl
@[simp] theorem wis_iTranspose :
    (writeInstrumentSettings p a b c d).iTranspose = p.iTranspose := rfl
@[simp] theorem wis_iPrevCommand :
    (writeInstrumentSettings p a b c d).iPrevCommand = p.iPrevCommand := rfl
@[simp] theorem wis_iNoteCount :
    (writeInstrumentSettings p a b c d).iNoteCount = p.iNoteCount := rfl
@[simp] theorem wis_chMIDI : (writeInstrumentSettings p a b c d).chMIDI = p.chMIDI := rfl
@[simp] theorem wis_chOPL : (writeInstrumentSettings p a b c d).chOPL = p.chOPL := rfl

end frame



section frame2
variable (p : Player) (a b c d e : Nat) (s : IStream)

@[simp] theorem setOPLPatch_data (i : Int) : (setOPLPatch p a i).data = p.data := rfl
@[simp] theorem setOPLPatch_cmfHeader (i : Int) : (setOPLPatch p a i).cmfHeader = p.cmfHeader := rfl
@[simp] theorem setOPLPatch_pInstruments (i : Int) : (setOPLPatch p a i).pInstruments = p.pInstruments := rfl
@[simp] theorem setOPLPatch_bPercussive (i : Int) : (setOPLPatch p a i).bPercussive = p.bPercussive := rfl
@[simp] theorem setOPLPatch_iTranspose (i : Int) : (setOPLPatch p a i).iTranspose = p.iTranspose := rfl
@[simp] theorem setOPLPatch_iPrevCommand (i : Int) : (setOPLPatch p a i).iPrevCommand = p.iPrevCommand := rfl
@[simp] theorem setOPLPatch_iNoteCount (i : Int) : (setOPLPatch p a i).iNoteCount = p.iNoteCount := rfl
@[simp] theorem setOPLPatch_chMIDI (i : Int) : (setOPLPatch p a i).chMIDI = p.chMIDI := rfl
@[simp] theorem setOPLPatch_out (i : Int) : (setOPLPatch p a i).out = p.out := rfl
@[simp] theorem setOPLPatch_iCurrentRegs (i : Int) : (setOPLPatch p a i).iCurrentRegs = p.iCurrentRegs := rfl
@[simp] theorem setOPLPatch_chOPL (i : Int) : (setOPLPatch p a i).chOPL =
    setAt p.chOPL a { p.chOPL a with iMIDIPatch := i } := rfl

@[simp] theorem mci_data : (MIDIchangeInstrument p a b c).data = p.data := by
  unfold MIDIchangeInstrument; split_ifs <;> simp

@[simp] theorem mci_cmfHeader : (MIDIchangeInstrument p a b c).cmfHeader = p.cmfHeader := by
  unfold MIDIchangeInstrument; split_ifs <;> simp

@[simp] theorem mci_pInstruments : (MIDIchangeInstrument p a b c).pInstruments = p.pInstruments := by
  unfold MIDIchangeInstrument; split_ifs <;> simp

@[simp] theorem mci_bPercussive : (MIDIchangeInstrument p a b c).bPercussive = p.bPercussive := by
  unfold MIDIchangeInstrument; split_ifs <;> simp

@[simp] theorem mci_iTranspose : (MIDIchangeInstrument p a b c).iTranspose = p.iTranspose := by
  unfold MIDIchangeInstrument; split_ifs <;> simp

@[simp] theorem mci_iPrevCommand : (MIDIchangeInstrument p a b c).iPrevCommand = p.iPrevCommand := by
  unfold MIDIchangeInstrument; split_ifs <;> simp

@[simp] theorem mci_iNoteCount : (MIDIchangeInstrument p a b c).iNoteCount = p.iNoteCount := by
  unfold MIDIchangeInstrument; split_ifs <;> simp

@[simp] theorem mci_chMIDI : (MIDIchangeInstrument p a b c).chMIDI = p.chMIDI := by
  unfold MIDIchangeInstrument; split_ifs <;> simp

@[simp] theorem mci_chOPL : (MIDIchangeInstrument p a b c).chOPL =
    setAt p.chOPL a { p.chOPL a with iMIDIPatch := (c : Int) } := by
  unfold MIDIchangeInstrument; split_ifs <;> simp

@[simp] theorem startNote_chOPL : (startNote p a b c).chOPL = setAt p.chOPL a
    { p.chOPL a with iNoteStart := p.iNoteCount + 1, iMIDIChannel := (b : Int),
                     iMIDINote := (c : Int) } := rfl
@[simp] theorem startNote_iNoteCount : (startNote p a b c).iNoteCount = p.iNoteCount + 1 := rfl
@[simp] theorem startNote_out : (startNote p a b c).out = p.out := rfl
@[simp] theorem startNote_iCurrentRegs : (startNote p a b c).iCurrentRegs = p.iCurrentRegs := rfl
@[simp] theorem freeVoice_chOPL : (freeVoice p a).chOPL =
    setAt p.chOPL a { p.chOPL a with iNoteStart := 0 } := rfl
@[simp] theorem freeVoice_out : (freeVoice p a).out = p.out := rfl
@[simp] theorem freeVoice_iCurrentRegs : (freeVoice p a).iCurrentRegs = p.iCurrentRegs := rfl
@[simp] theorem startNote_data : (startNote p a b c).data = p.data := rfl
@[simp] theorem startNote_cmfHeader : (startNote p a b c).cmfHeader = p.cmfHeader := rfl
@[simp] theorem startNote_pInstruments : (startNote p a b c).pInstruments = p.pInstruments := rfl
@[simp] theorem startNote_bPercussive : (startNote p a b c).bPercussive = p.bPercussive := rfl
@[simp] theorem startNote_iTranspose : (startNote p a b c).iTranspose = p.iTranspose := rfl
@[simp] theorem startNote_iPrevCommand : (startNote p a b c).iPrevCommand = p.iPrevCommand := rfl
@[simp] theorem startNote_chMIDI : (startNote p a b c).chMIDI = p.chMIDI := rfl
@[simp] theorem freeVoice_data : (freeVoice p a).data = p.data := rfl
@[simp] theorem freeVoice_cmfHeader : (freeVoice p a).cmfHeader = p.cmfHeader := rfl
@[simp] theorem freeVoice_pInstruments : (freeVoice p a).pInstruments = p.pInstruments := rfl
@[simp] theorem freeVoice_bPercussive : (freeVoice p a).bPercussive = p.bPercussive := rfl
@[simp] theorem freeVoice_iTranspose : (freeVoice p a).iTranspose = p.iTranspose := rfl
@[simp] theorem freeVoice_iPrevCommand : (freeVoice p a).iPrevCommand = p.iPrevCommand := rfl
@[simp] theorem freeVoice_chMIDI : (freeVoice p a).chMIDI = p.chMIDI := rfl
@[simp] theorem freeVoice_iNoteCount : (freeVoice p a).iNoteCount = p.iNoteCount := rfl

@[simp] theorem retrig_data : (percRetrigger p a).data = p.data := by
  unfold percRetrigger; split_ifs <;> rfl

@[simp] theorem retrig_cmfHeader : (percRetrigger p a).cmfHeader = p.cmfHeader := by
  unfold percRetrigger; split_ifs <;> rfl

@[simp] theorem retrig_pInstruments : (percRetrigger p a).pInstruments = p.pInstruments := by
  unfold percRetrigger; split_ifs <;> rfl

@[simp] theorem retrig_bPercussive : (percRetrigger p a).bPercussive = p.bPercussive := by
  unfold percRetrigger; split_ifs <;> rfl

@[simp] theorem retrig_iTranspose : (percRetrigger p a).iTranspose = p.iTranspose := by
  unfold percRetrigger; split_ifs <;> rfl

@[simp] theorem retrig_iPrevCommand : (percRetrigger p a).iPrevCommand = p.iPrevCommand := by
  unfold percRetrigger; split_ifs <;> rfl

@[simp] theorem retrig_chMIDI : (percRetrigger p a).chMIDI = p.chMIDI := by
  unfold percRetrigger; split_ifs <;> rfl

@[simp] theorem retrig_iNoteCount : (percRetrigger p a).iNoteCount = p.iNoteCount := by
  unfold percRetrigger; split_ifs <;> rfl

@[simp] theorem retrig_chOPL : (percRetrigger p a).chOPL = p.chOPL := by
  unfold percRetrigger; split_ifs <;> rfl

@[simp] theorem rebind_data : (rebind p a b).data = p.data := by
  unfold rebind; split_ifs <;> simp

@[simp] theorem rebind_cmfHeader : (rebind p a b).cmfHeader = p.cmfHeader := by
  unfold rebind; split_ifs <;> simp

@[simp] theorem rebind_pInstruments : (rebind p a b).pInstruments = p.pInstruments := by
  unfold rebind; split_ifs <;> simp

@[simp] theorem rebind_bPercussive : (rebind p a b).bPercussive = p.bPercussive := by
  unfold rebind; split_ifs <;> simp

@[simp] theorem rebind_iTranspose : (rebind p a b).iTranspose = p.iTranspose := by
  unfold rebind; split_ifs <;> simp

@[simp] theorem rebind_iPrevCommand : (rebind p a b).iPrevCommand = p.iPrevCommand := by
  unfold rebind; split_ifs <;> simp

@[simp] theorem rebind_chMIDI : (rebind p a b).chMIDI = p.chMIDI := by
  unfold rebind; split_ifs <;> simp

@[simp] theorem rebind_iNoteCount : (rebind p a b).iNoteCount = p.iNoteCount := by
  unfold rebind; split_ifs <;> simp

@[simp] theorem noteOnPerc_data : (noteOnPerc p a b c d e).data = p.data := by
  simp [noteOnPerc]

@[simp] theorem noteOnPerc_cmfHeader : (noteOnPerc p a b c d e).cmfHeader = p.cmfHeader := by
  simp [noteOnPerc]

@[simp] theorem noteOnPerc_pInstruments : (noteOnPerc p a b c d e).pInstruments = p.pInstruments := by
  simp [noteOnPerc]

@[simp] theorem noteOnPerc_bPercussive : (noteOnPerc p a b c d e).bPercussive = p.bPercussive := by
  simp [noteOnPerc]

@[simp] theorem noteOnPerc_iTranspose : (noteOnPerc p a b c d e).iTranspose = p.iTranspose := by
  simp [noteOnPerc]

@[simp] theorem noteOnPerc_iPrevCommand : (noteOnPerc p a b c d e).iPrevCommand = p.iPrevCommand := by
  simp [noteOnPerc]

@[simp] theorem noteOnPerc_chMIDI : (noteOnPerc p a b c d e).chMIDI = p.chMIDI := by
  simp [noteOnPerc]

@[simp] theorem noteOnMelodic_data : (noteOnMelodic p a b c d).data = p.data := by
  simp [noteOnMelodic]

@[simp] theorem noteOnMelodic_cmfHeader : (noteOnMelodic p a b c d).cmfHeader = p.cmfHeader := by
  simp [noteOnMelodic]

@[simp] theorem noteOnMelodic_pInstruments : (noteOnMelodic p a b c d).pInstruments = p.pInstruments := by
  simp [noteOnMelodic]

@[simp] theorem noteOnMelodic_bPercussive : (noteOnMelodic p a b c d).bPercussive = p.bPercussive := by
  simp [noteOnMelodic]

@[simp] theorem noteOnMelodic_iTranspose : (noteOnMelodic p a b c d).iTranspose = p.iTranspose := by
  simp [noteOnMelodic]

@[simp] theorem noteOnMelodic_iPrevCommand : (noteOnMelodic p a b c d).iPrevCommand = p.iPrevCommand := by
  simp [noteOnMelodic]

@[simp] theorem noteOnMelodic_chMIDI : (noteOnMelodic p a b c d).chMIDI = p.chMIDI := by
  simp [noteOnMelodic]

@[simp] theorem noteOn_data : (cmfNoteOn p a b c).data = p.data := by
  unfold cmfNoteOn; split_ifs <;> simp

@[simp] theorem noteOn_cmfHeader : (cmfNoteOn p a b c).cmfHeader = p.cmfHeader := by
  unfold cmfNoteOn; split_ifs <;> simp

@[simp] theorem noteOn_pInstruments : (cmfNoteOn p a b c).pInstruments = p.pInstruments := by
  unfold cmfNoteOn; split_ifs <;> simp

@[simp] theorem noteOn_bPercussive : (cmfNoteOn p a b c).bPercussive = p.bPercussive := by
  unfold cmfNoteOn; split_ifs <;> simp

@[simp] theorem noteOn_iTranspose : (cmfNoteOn p a b c).iTranspose = p.iTranspose := by
  unfold cmfNoteOn; split_ifs <;> simp

@[simp] theorem noteOn_iPrevCommand : (cmfNoteOn p a b c).iPrevCommand = p.iPrevCommand := by
  unfold cmfNoteOn; split_ifs <;> simp

@[simp] theorem noteOn_chMIDI : (cmfNoteOn p a b c).chMIDI = p.chMIDI := by
  unfold cmfNoteOn; split_ifs <;> simp

@[simp] theorem noteOn_iNoteCount : (cmfNoteOn p a b c).iNoteCount = p.iNoteCount + 1 := by
  unfold cmfNoteOn; split_ifs <;> simp [noteOnPerc, noteOnMelodic]

@[simp] theorem noteOffPerc_data : (noteOffPerc p a b).data = p.data := by
  simp only [noteOffPerc]; split_ifs <;> rfl

@[simp] theorem noteOffPerc_cmfHeader : (noteOffPerc p a b).cmfHeader = p.cmfHeader := by
  simp only [noteOffPerc]; split_ifs <;> rfl

@[simp] theorem noteOffPerc_pInstruments : (noteOffPerc p a b).pInstruments = p.pInstruments := by
  simp only [noteOffPerc]; split_ifs <;> rfl

@[simp] theorem noteOffPerc_bPercussive : (noteOffPerc p a b).bPercussive = p.bPercussive := by
  simp only [noteOffPerc]; split_ifs <;> rfl

@[simp] theorem noteOffPerc_iTranspose : (noteOffPerc p a b).iTranspose = p.iTranspose := by
  simp only [noteOffPerc]; split_ifs <;> rfl

@[simp] theorem noteOffPerc_iPrevCommand : (noteOffPerc p a b).iPrevCommand = p.iPrevCommand := by
  simp only [noteOffPerc]; split_ifs <;> rfl

@[simp] theorem noteOffPerc_chMIDI : (noteOffPerc p a b).chMIDI = p.chMIDI := by
  simp only [noteOffPerc]; split_ifs <;> rfl

@[simp] theorem noteOffPerc_iNoteCount : (noteOffPerc p a b).iNoteCount = p.iNoteCount := by
  simp only [noteOffPerc]; split_ifs <;> rfl

@[simp] theorem noteOffMelodic_data : (noteOffMelodic p a b).data = p.data := by
  unfold noteOffMelodic; split <;> rfl

@[simp] theorem noteOffMelodic_cmfHeader : (noteOffMelodic p a b).cmfHeader = p.cmfHeader := by
  unfold noteOffMelodic; split <;> rfl

@[simp] theorem noteOffMelodic_pInstruments : (noteOffMelodic p a b).pInstruments = p.pInstruments := by
  unfold noteOffMelodic; split <;> rfl

@[simp] theorem noteOffMelodic_bPercussive : (noteOffMelodic p a b).bPercussive = p.bPercussive := by
  unfold noteOffMelodic; split <;> rfl

@[simp] theorem noteOffMelodic_iTranspose : (noteOffMelodic p a b).iTranspose = p.iTranspose := by
  unfold noteOffMelodic; split <;> rfl

@[simp] theorem noteOffMelodic_iPrevCommand : (noteOffMelodic p a b).iPrevCommand = p.iPrevCommand := by
  unfold noteOffMelodic; split <;> rfl

@[simp] theorem noteOffMelodic_chMIDI : (noteOffMelodic p a b).chMIDI = p.chMIDI := by
  unfold noteOffMelodic; split <;> rfl

@[simp] theorem noteOffMelodic_iNoteCount : (noteOffMelodic p a b).iNoteCount = p.iNoteCount := by
  unfold noteOffMelodic; split <;> rfl

@[simp] theorem noteOff_data : (cmfNoteOff p a b c).data = p.data := by
  unfold cmfNoteOff; split_ifs <;> simp

@[simp] theorem noteOff_cmfHeader : (cmfNoteOff p a b c).cmfHeader = p.cmfHeader := by
  unfold cmfNoteOff; split_ifs <;> simp

@[simp] theorem noteOff_pInstruments : (cmfNoteOff p a b c).pInstruments = p.pInstruments := by
  unfold cmfNoteOff; split_ifs <;> simp

@[simp] theorem noteOff_bPercussive : (cmfNoteOff p a b c).bPercussive = p.bPercussive := by
  unfold cmfNoteOff; split_ifs <;> simp

@[simp] theorem noteOff_iTranspose : (cmfNoteOff p a b c).iTranspose = p.iTranspose := by
  unfold cmfNoteOff; split_ifs <;> simp

@[simp] theorem noteOff_iPrevCommand : (cmfNoteOff p a b c).iPrevCommand = p.iPrevCommand := by
  unfold cmfNoteOff; split_ifs <;> simp

@[simp] theorem noteOff_chMIDI : (cmfNoteOff p a b c).chMIDI = p.chMIDI := by
  unfold cmfNoteOff; split_ifs <;> simp

@[simp] theorem noteOff_iNoteCount : (cmfNoteOff p a b c).iNoteCount = p.iNoteCount := by
  unfold cmfNoteOff; split_ifs <;> simp

@[simp] theorem ctl_data : (MIDIcontroller p a b c).data = p.data := by
  simp only [MIDIcontroller]; split_ifs <;> simp

@[simp] theorem ctl_cmfHeader : (MIDIcontroller p a b c).cmfHeader = p.cmfHeader := by
  simp only [MIDIcontroller]; split_ifs <;> simp

@[simp] theorem ctl_pInstruments : (MIDIcontroller p a b c).pInstruments = p.pInstruments := by
  simp only [MIDIcontroller]; split_ifs <;> simp

@[simp] theorem ctl_iPrevCommand : (MIDIcontroller p a b c).iPrevCommand = p.iPrevCommand := by
  simp only [MIDIcontroller]; split_ifs <;> simp

@[simp] theorem ctl_iNoteCount : (MIDIcontroller p a b c).iNoteCount = p.iNoteCount := by
  simp only [MIDIcontroller]; split_ifs <;> simp

@[simp] theorem ctl_chMIDI : (MIDIcontroller p a b c).chMIDI = p.chMIDI := by
  simp only [MIDIcontroller]; split_ifs <;> simp

@[simp] theorem ctl_chOPL : (MIDIcontroller p a b c).chOPL = p.chOPL := by
  simp only [MIDIcontroller]; split_ifs <;> simp

end frame2


/-! ## The prefix of a tick: delta-time and status byte -/

section tickPrefix
variable (p : Player) (d : Nat)

@[simp] theorem cbDelay_data : (cbDelay p d).data = p.data := rfl
@[simp] theorem cbDelay_out : (cbDelay p d).out = p.out ++ [Out.delay (d % 65536)] := rfl
@[simp] theorem cbDelay_iPrevCommand : (cbDelay p d).iPrevCommand = p.iPrevCommand := rfl
@[simp] theorem cbDelay_cmfHeader : (cbDelay p d).cmfHeader = p.cmfHeader := rfl
@[simp] theorem cbDelay_chOPL : (cbDelay p d).chOPL = p.chOPL := rfl
@[simp] theorem cbDelay_chMIDI : (cbDelay p d).chMIDI = p.chMIDI := rfl
@[simp] theorem cbDelay_iCurrentRegs : (cbDelay p d).iCurrentRegs = p.iCurrentRegs := rfl
@[simp] theorem cbDelay_bPercussive : (cbDelay p d).bPercussive = p.bPercussive := rfl
@[simp] theorem cbDelay_iTranspose : (cbDelay p d).iTranspose = p.iTranspose := rfl
@[simp] theorem cbDelay_iNoteCount : (cbDelay p d).iNoteCount = p.iNoteCount := rfl
@[simp] theorem cbDelay_pInstruments : (cbDelay p d).pInstruments = p.pInstruments := rfl

@[simp] theorem waitDelay_data : (waitDelay p d).data = p.data := by
  unfold waitDelay; split_ifs <;> rfl
@[simp] theorem waitDelay_iPrevCommand : (waitDelay p d).iPrevCommand = p.iPrevCommand := by
  unfold waitDelay; split_ifs <;> rfl
@[simp] theorem waitDelay_cmfHeader : (waitDelay p d).cmfHeader = p.cmfHeader := by
  unfold waitDelay; split_ifs <;> rfl
@[simp] theorem waitDelay_chOPL : (waitDelay p d).chOPL = p.chOPL := by
  unfold waitDelay; split_ifs <;> rfl
@[simp] theorem waitDelay_chMIDI : (waitDelay p d).chMIDI = p.chMIDI := by
  unfold waitDelay; split_ifs <;> rfl
@[simp] theorem waitDelay_iCurrentRegs : (waitDelay p d).iCurrentRegs = p.iCurrentRegs := by
  unfold waitDelay; split_ifs <;> rfl
@[simp] theorem waitDelay_bPercussive : (waitDelay p d).bPercussive = p.bPercussive := by
  unfold waitDelay; split_ifs <;> rfl
@[simp] theorem waitDelay_iTranspose : (waitDelay p d).iTranspose = p.iTranspose := by
  unfold waitDelay; split_ifs <;> rfl
@[simp] theorem waitDelay_iNoteCount : (waitDelay p d).iNoteCount = p.iNoteCount := by
  unfold waitDelay; split_ifs <;> rfl
@[simp] theorem waitDelay_pInstruments : (waitDelay p d).pInstruments = p.pInstruments := by
  unfold waitDelay; split_ifs <;> rfl

@[simp] theorem waitDelay_zero : waitDelay p 0 = p := by simp [waitDelay]

theorem waitDelay_setData (s : IStream) :
    waitDelay (p.setData s) d = (waitDelay p d).setData s := by
  unfold waitDelay; split_ifs <;> rfl

end tickPrefix

/-- A tick on a stream that holds a delta-time and then a status byte. -/
theorem tick_status (u : Nat → Nat) (fuel : Nat) (p : Player) (delta tl : List Nat) (st : Nat)
    (hg : p.data.good = true) (hr : p.data.rest = delta ++ st :: tl) (hv : IsVarLen delta)
    (h1 : 128 ≤ st) (h2 : st < 256)
    (ht : concat7 delta ≠ 0 → p.cmfHeader.iTicksPerSecond ≠ 0) :
    tick u fuel p = tickEvent u fuel
      (((waitDelay p (concat7 delta)).setData (p.data.skip (delta.length + 1))).setPrev st)
      st := by
  have hd := (readMIDINumber_decodes u p.data delta (st :: tl) hg hr hv).1
  have hr2 := rest_advance p.data delta (st :: tl) hr
  have e := u8_step _ (u 4 % 256) st tl (by simpa using hg) hr2
  have hst : st % 256 = st := Nat.mod_eq_of_lt h2
  have hne := land_0x80_ne_zero st h2 h1
  have hne2 : ¬ (concat7 delta ≠ 0 ∧ p.cmfHeader.iTicksPerSecond = 0) := fun h => ht h.1 h.2
  simp only [tick, good_eofbit _ hg, hd, resolveStatus, waitDelay_data, e, hst, hne, hne2,
    if_true, if_false, ne_eq, not_false_eq_true, Bool.false_eq_true, setData_data,
    setData_cmfHeader, waitDelay_setData, skip_skip, setData_setData]

/-- A tick on a stream that holds a delta-time and then a data byte: running
status. -/
theorem tick_running (u : Nat → Nat) (fuel : Nat) (p : Player) (delta tl : List Nat) (d : Nat)
    (hg : p.data.good = true) (hr : p.data.rest = delta ++ d :: tl) (hv : IsVarLen delta)
    (h1 : d < 128) (hs : 128 ≤ p.iPrevCommand) (hs2 : p.iPrevCommand < 256)
    (ht : concat7 delta ≠ 0 → p.cmfHeader.iTicksPerSecond ≠ 0) :
    tick u fuel p = tickEvent u fuel
      ((waitDelay p (concat7 delta)).setData (p.data.skip delta.length)) p.iPrevCommand := by
  have hd := (readMIDINumber_decodes u p.data delta (d :: tl) hg hr hv).1
  have hr2 := rest_advance p.data delta (d :: tl) hr
  have e := u8_step _ (u 4 % 256) d tl (by simpa using hg) hr2
  have hst : d % 256 = d := Nat.mod_eq_of_lt (by omega)
  have hz := (land_0x80_eq_zero_iff d (by omega)).2 h1
  have hne := land_0x80_ne_zero _ hs2 hs
  have hne2 : ¬ (concat7 delta ≠ 0 ∧ p.cmfHeader.iTicksPerSecond = 0) := fun h => ht h.1 h.2
  have hsk : IStream.seekCur (p.data.skip (delta.length + 1)) (-1) =
      p.data.skip delta.length := by
    have hf : (p.data.skip (delta.length + 1)).failbit = false := good_failbit _ hg
    have : ¬ ((((p.data.skip (delta.length + 1)).pos : Int) + -1) < 0) := by
      simp only [skip_pos]; omega
    unfold IStream.seekCur
    rw [hf, if_neg (by simp), if_neg this]
    simp only [IStream.skip]
    congr 1
    all_goals first | omega | exact (good_failbit _ hg).symm | exact (good_eofbit _ hg).symm
  simp only [tick, good_eofbit _ hg, hd, resolveStatus, waitDelay_data, e, hst, hz, hne, hne2,
    if_true, if_false, ne_eq, not_false_eq_true, Bool.false_eq_true, not_true_eq_false,
    waitDelay_iPrevCommand, hsk, setData_data, setData_cmfHeader, waitDelay_setData, skip_skip,
    setData_setData, setData_iPrevCommand]


/-! ## Initialisation -/

@[simp] theorem setAt_same {α : Type} (a : Nat → α) (i : Nat) (v : α) : setAt a i v i = v := by
  simp [setAt]

theorem setAt_ne {α : Type} (a : Nat → α) (i j : Nat) (v : α) (h : j ≠ i) :
    setAt a i v j = a j := by
  simp [setAt, h]

@[simp] theorem fillDefaults_data (n i : Nat) (p : Player) :
    (fillDefaults n i p).data = p.data := by
  induction n generalizing i p with
  | zero => rfl
  | succ n ih => simp [fillDefaults, ih]

@[simp] theorem fillDefaults_out (n i : Nat) (p : Player) :
    (fillDefaults n i p).out = p.out := by
  induction n generalizing i p with
  | zero => rfl
  | succ n ih => simp [fillDefaults, ih]

@[simp] theorem fillDefaults_cmfHeader (n i : Nat) (p : Player) :
    (fillDefaults n i p).cmfHeader = p.cmfHeader := by
  induction n generalizing i p with
  | zero => rfl
  | succ n ih => simp [fillDefaults, ih]

@[simp] theorem fillDefaults_bPercussive (n i : Nat) (p : Player) :
    (fillDefaults n i p).bPercussive = p.bPercussive := by
  induction n generalizing i p with
  | zero => rfl
  | succ n ih => simp [fillDefaults, ih]

@[simp] theorem fillDefaults_iCurrentRegs (n i : Nat) (p : Player) :
    (fillDefaults n i p).iCurrentRegs = p.iCurrentRegs := by
  induction n generalizing i p with
  | zero => rfl
  | succ n ih => simp [fillDefaults, ih]

@[simp] theorem fillDefaults_iTranspose (n i : Nat) (p : Player) :
    (fillDefaults n i p).iTranspose = p.iTranspose := by
  induction n generalizing i p with
  | zero => rfl
  | succ n ih => simp [fillDefaults, ih]

@[simp] theorem fillDefaults_iPrevCommand (n i : Nat) (p : Player) :
    (fillDefaults n i p).iPrevCommand = p.iPrevCommand := by
  induction n generalizing i p with
  | zero => rfl
  | succ n ih => simp [fillDefaults, ih]

@[simp] theorem fillDefaults_iNoteCount (n i : Nat) (p : Player) :
    (fillDefaults n i p).iNoteCount = p.iNoteCount := by
  induction n generalizing i p with
  | zero => rfl
  | succ n ih => simp [fillDefaults, ih]

@[simp] theorem fillDefaults_chMIDI (n i : Nat) (p : Player) :
    (fillDefaults n i p).chMIDI = p.chMIDI := by
  induction n generalizing i p with
  | zero => rfl
  | succ n ih => simp [fillDefaults, ih]

@[simp] theorem fillDefaults_chOPL (n i : Nat) (p : Player) :
    (fillDefaults n i p).chOPL = p.chOPL := by
  induction n generalizing i p with
  | zero => rfl
  | succ n ih => simp [fillDefaults, ih]

theorem fillDefaults_pInstruments (n i : Nat) (p : Player) (j : Nat) :
    (fillDefaults n i p).pInstruments j =
      if i ≤ j ∧ j < i + n then defaultSBI j else p.pInstruments j := by
  induction n generalizing i p with
  | zero =>
    have : ¬ (i ≤ j ∧ j < i) := by omega
    simp [fillDefaults, this]
  | succ n ih =>
    simp only [fillDefaults, ih]
    by_cases h1 : i + 1 ≤ j ∧ j < i + 1 + n
    · have : i ≤ j ∧ j < i + (n + 1) := by omega
      simp [h1, this]
    · by_cases h2 : j = i
      · subst h2; simp
      · have : ¬ (i ≤ j ∧ j < i + (n + 1)) := by omega
        simp [h1, this, setAt_ne _ _ _ _ h2]

@[simp] theorem loadInstruments_out (n i : Nat) (p : Player) :
    (loadInstruments n i p).out = p.out := by
  induction n generalizing i p with
  | zero => rfl
  | succ n ih => simp [loadInstruments, ih]

@[simp] theorem loadInstruments_cmfHeader (n i : Nat) (p : Player) :
    (loadInstruments n i p).cmfHeader = p.cmfHeader := by
  induction n generalizing i p with
  | zero => rfl
  | succ n ih => simp [loadInstruments, ih]

@[simp] theorem loadInstruments_bPercussive (n i : Nat) (p : Player) :
    (loadInstruments n i p).bPercussive = p.bPercussive := by
  induction n generalizing i p with
  | zero => rfl
  | succ n ih => simp [loadInstruments, ih]

@[simp] theorem loadInstruments_iCurrentRegs (n i : Nat) (p : Player) :
    (loadInstruments n i p).iCurrentRegs = p.iCurrentRegs := by
  induction n generalizing i p with
  | zero => rfl
  | succ n ih => simp [loadInstruments, ih]

@[simp] theorem loadInstruments_iTranspose (n i : Nat) (p : Player) :
    (loadInstruments n i p).iTranspose = p.iTranspose := by
  induction n generalizing i p with
  | zero => rfl
  | succ n ih => simp [loadInstruments, ih]

@[simp] theorem loadInstruments_iPrevCommand (n i : Nat) (p : Player) :
    (loadInstruments n i p).iPrevCommand = p.iPrevCommand := by
  induction n generalizing i p with
  | zero => rfl
  | succ n ih => simp [loadInstruments, ih]

@[simp] theorem loadInstruments_iNoteCount (n i : Nat) (p : Player) :
    (loadInstruments n i p).iNoteCount = p.iNoteCount := by
  induction n generalizing i p with
  | zero => rfl
  | succ n ih => simp [loadInstruments, ih]

@[simp] theorem loadInstruments_chMIDI (n i : Nat) (p : Player) :
    (loadInstruments n i p).chMIDI = p.chMIDI := by
  induction n generalizing i p with
  | zero => rfl
  | succ n ih => simp [loadInstruments, ih]

@[simp] theorem loadInstruments_chOPL (n i : Nat) (p : Player) :
    (loadInstruments n i p).chOPL = p.chOPL := by
  induction n generalizing i p with
  | zero => rfl
  | succ n ih => simp [loadInstruments, ih]

@[simp] theorem presetPercussion_data (n : Nat) (i : Int) (j : Nat) (p : Player) :
    (presetPercussion n i j p).data = p.data := by
  induction n generalizing i j p with
  | zero => rfl
  | succ n ih => simp [presetPercussion, ih]

@[simp] theorem presetPercussion_cmfHeader (n : Nat) (i : Int) (j : Nat) (p : Player) :
    (presetPercussion n i j p).cmfHeader = p.cmfHeader := by
  induction n generalizing i j p with
  | zero => rfl
  | succ n ih => simp [presetPercussion, ih]

@[simp] theorem presetPercussion_pInstruments (n : Nat) (i : Int) (j : Nat) (p : Player) :
    (presetPercussion n i j p).pInstruments = p.pInstruments := by
  induction n generalizing i j p with
  | zero => rfl
  | succ n ih => simp [presetPercussion, ih]

@[simp] theorem presetPercussion_bPercussive (n : Nat) (i : Int) (j : Nat) (p : Player) :
    (presetPercussion n i j p).bPercussive = p.bPercussive := by
  induction n generalizing i j p with
  | zero => rfl
  | succ n ih => simp [presetPercussion, ih]

@[simp] theorem presetPercussion_iTranspose (n : Nat) (i : Int) (j : Nat) (p : Player) :
    (presetPercussion n i j p).iTranspose = p.iTranspose := by
  induction n generalizing i j p with
  | zero => rfl
  | succ n ih => simp [presetPercussion, ih]

@[simp] theorem presetPercussion_iPrevCommand (n : Nat) (i : Int) (j : Nat) (p : Player) :
    (presetPercussion n i j p).iPrevCommand = p.iPrevCommand := by
  induction n generalizing i j p with
  | zero => rfl
  | succ n ih => simp [presetPercussion, ih]

@[simp] theorem presetPercussion_iNoteCount (n : Nat) (i : Int) (j : Nat) (p : Player) :
    (presetPercussion n i j p).iNoteCount = p.iNoteCount := by
  induction n generalizing i j p with
  | zero => rfl
  | succ n ih => simp [presetPercussion, ih]

section initFacts
variable (heap : Nat → SBI) (p : Player)

@[simp] theorem init_cmfHeader : (init heap p).cmfHeader = p.cmfHeader := by simp [init]
@[simp] theorem init_bPercussive : (init heap p).bPercussive = false := by simp [init]
@[simp] theorem init_iTranspose : (init heap p).iTranspose = p.iTranspose := by simp [init]
@[simp] theorem init_iPrevCommand : (init heap p).iPrevCommand = 0 := by simp [init]
@[simp] theorem init_iNoteCount : (init heap p).iNoteCount = p.iNoteCount := by simp [init]

theorem init_chOPL (k : Nat) :
    (init heap p).chOPL k =
      if k = 6 then { p.chOPL 6 with iMIDIPatch := toU8 ((p.cmfHeader.iNumInstruments : Int) - 5) }
      else if k = 7 then
        { p.chOPL 7 with iMIDIPatch := toU8 ((p.cmfHeader.iNumInstruments : Int) - 5 + 1 + 1 + 1 + 1) }
      else if k = 8 then
        { p.chOPL 8 with iMIDIPatch := toU8 ((p.cmfHeader.iNumInstruments : Int) - 5 + 1 + 1 + 1) }
      else p.chOPL k := by
  simp only [init, presetPercussion, setReg_chOPL, setData_chOPL, setPrev_chOPL, mci_chOPL,
    setPatch_chOPL, fillDefaults_chOPL, loadInstruments_chOPL, getPercChannel]
  simp [setAt]
  split_ifs <;> simp_all

theorem init_chMIDI_low (j : Nat) (h : j < 11) : (init heap p).chMIDI j = p.chMIDI j := by
  simp only [init, presetPercussion, setReg_chMIDI, setData_chMIDI, setPrev_chMIDI, mci_chMIDI,
    setPatch_chMIDI, fillDefaults_chMIDI, loadInstruments_chMIDI]
  simp [setAt]
  split_ifs <;> first | omega | rfl

theorem init_pInstruments_default (j : Nat) (h1 : p.cmfHeader.iNumInstruments ≤ j)
    (h2 : j < 128) : (init heap p).pInstruments j = defaultSBI j := by
  simp only [init, setReg_pInstruments, setData_pInstruments, setPrev_pInstruments,
    presetPercussion_pInstruments, fillDefaults_pInstruments, loadInstruments_cmfHeader,
    setData_cmfHeader]
  rw [if_pos]
  omega

theorem init_data_zero (h : p.cmfHeader.iNumInstruments = 0) :
    (init heap p).data =
      (p.data.seekBeg p.cmfHeader.iInstrumentBlockOffset).seekBeg p.cmfHeader.iMusicOffset := by
  simp [init, h, loadInstruments]

end initFacts


/-! ## Constructor, event reads, concrete values -/

@[simp] theorem u8_bytes (s : IStream) (d : Nat) : (s.u8 d).2.bytes = s.bytes := by
  unfold IStream.u8; split_ifs
  · split <;> rfl
  · rfl

@[simp] theorem readN_bytes (s : IStream) (n : Nat) : (s.readN n).2.bytes = s.bytes := by
  unfold IStream.readN; split_ifs <;> rfl

@[simp] theorem u16le_bytes (s : IStream) (d : Nat) : (s.u16le d).2.bytes = s.bytes := by
  unfold IStream.u16le
  split
  · rename_i h; rw [← readN_bytes s 2, h]
  · rename_i h; rw [← readN_bytes s 2, h]

theorem player_ok (u : Nat → Nat) (bytes : List Nat) (p : Player) (h : player u bytes = .ok p) :
    p = mkPlayer p.data p.cmfHeader ∧ p.data.bytes = bytes := by
  unfold player at h
  simp only [] at h
  split_ifs at h
  · injection h with h; subst h; exact ⟨rfl, by simp [mkPlayer, IStream.ofBytes]⟩
  · injection h with h; subst h; exact ⟨rfl, by simp [mkPlayer, IStream.ofBytes]⟩

theorem read2_step (u : Nat → Nat) (s : IStream) (a b : Nat) (tl : List Nat)
    (hg : s.good = true) (h : s.rest = a :: b :: tl) :
    read2 u s = (a % 256, b % 256, s.skip 2) := by
  have e1 := u8_step s (u 5 % 256) a (b :: tl) hg h
  have e2 := u8_step _ (u 6 % 256) b tl (by simpa using hg) (rest_skip_one s a _ h)
  simp [read2, e1, e2]

theorem oplFNum_60 : oplFNum 60 8192 0 4 = 343 := by decide!



theorem tickEvent_noteOn (u : Nat → Nat) (fuel : Nat) (p : Player) (c a b : Nat) (tl : List Nat)
    (hc : c &&& 0xF0 = 0x90) (hg : p.data.good = true) (hr : p.data.rest = a :: b :: tl)
    (hb : b % 256 ≠ 0) :
    tickEvent u fuel p c =
      .ok (true, cmfNoteOn (p.setData (p.data.skip 2)) (c &&& 0x0F) (a % 256) (b % 256)) := by
  simp [tickEvent, channelEvent, hc, read2_step u p.data a b tl hg hr, hb]

theorem tickEvent_noteOn_zero (u : Nat → Nat) (fuel : Nat) (p : Player) (c a b : Nat)
    (tl : List Nat) (hc : c &&& 0xF0 = 0x90) (hg : p.data.good = true)
    (hr : p.data.rest = a :: b :: tl) (hb : b % 256 = 0) :
    tickEvent u fuel p c =
      .ok (true, cmfNoteOff (p.setData (p.data.skip 2)) (c &&& 0x0F) (a % 256) (b % 256)) := by
  simp [tickEvent, channelEvent, hc, read2_step u p.data a b tl hg hr, hb]

theorem tickEvent_noteOff (u : Nat → Nat) (fuel : Nat) (p : Player) (c a b : Nat)
    (tl : List Nat) (hc : c &&& 0xF0 = 0x80) (hg : p.data.good = true)
    (hr : p.data.rest = a :: b :: tl) :
    tickEvent u fuel p c =
      .ok (true, cmfNoteOff (p.setData (p.data.skip 2)) (c &&& 0x0F) (a % 256) (b % 256)) := by
  simp [tickEvent, channelEvent, hc, read2_step u p.data a b tl hg hr]

theorem defaultSBI_zero :
    defaultSBI 0 = ⟨⟨0x01, 0x4F, 0xF1, 0x53, 0x00⟩, ⟨0x11, 0x00, 0xD2, 0x74, 0x00⟩, 0x06⟩ := by
  rfl

theorem seekBeg_good (s : IStream) (n : Nat) (hg : s.good = true) :
    s.seekBeg n = ⟨s.bytes, n, s.eofbit, s.failbit⟩ := by
  simp [IStream.seekBeg, good_failbit s hg, good_eofbit s hg]

theorem isVarLen_zero : IsVarLen [0] := by
  refine ⟨by simp, by simp, by simp, by simp, Or.inr (by simp)⟩


theorem player_headerBytes (u : Nat → Nat) (tps n : Nat) (music : List Nat)
    (ht : tps < 256) (hn : n < 256) :
    player u (headerBytes tps n ++ music) = .ok (playerOf tps n music) := by
  have h1 : tps % 256 = tps := Nat.mod_eq_of_lt ht
  have h2 : n % 256 = n := Nat.mod_eq_of_lt hn
  simp [player, headerBytes, IStream.ofBytes, IStream.readN, IStream.u16le, IStream.good,
    IStream.skip, playerOf, headerOf, h1, h2]

/-! ## Register-write records -/

theorem WritesIn.refl (R : Nat → Nat → Prop) (p : Player) : WritesIn R p p :=
  ⟨[], by simp, by simp⟩

theorem WritesIn.trans {R : Nat → Nat → Prop} {p q r : Player} (h1 : WritesIn R p q)
    (h2 : WritesIn R q r) : WritesIn R p r := by
  obtain ⟨w1, e1, a1⟩ := h1
  obtain ⟨w2, e2, a2⟩ := h2
  refine ⟨w1 ++ w2, by rw [e2, e1, List.append_assoc], ?_⟩
  intro o ho
  rcases List.mem_append.1 ho with h | h
  · exact a1 o h
  · exact a2 o h

theorem WritesIn.mono {R S : Nat → Nat → Prop} {p q : Player} (h : WritesIn R p q)
    (hs : ∀ r v, R r v → S r v) : WritesIn S p q := by
  obtain ⟨w, e, a⟩ := h
  exact ⟨w, e, fun o ho => by obtain ⟨r, v, h1, h2⟩ := a o ho; exact ⟨r, v, h1, hs r v h2⟩⟩

theorem WritesIn.of_out_eq {R : Nat → Nat → Prop} {p q : Player} (h : q.out = p.out) :
    WritesIn R p q := ⟨[], by simp [h], by simp⟩

theorem WritesIn.setReg (R : Nat → Nat → Prop) (p : Player) (a b : Nat)
    (h : R (a % 256) (b % 256)) : WritesIn R p (setReg p a b) :=
  ⟨[Out.reg (a % 256) (b % 256)], rfl, by
    intro o ho
    simp only [List.mem_singleton] at ho
    exact ⟨_, _, ho, h⟩⟩

theorem WritesIn.congr_right {R : Nat → Nat → Prop} {p q q' : Player} (h : WritesIn R p q)
    (e : q'.out = q.out) : WritesIn R p q' := by
  obtain ⟨w, e1, a⟩ := h
  exact ⟨w, by rw [e, e1], a⟩

theorem WritesIn.congr_left {R : Nat → Nat → Prop} {p p' q : Player} (h : WritesIn R p q)
    (e : p'.out = p.out) : WritesIn R p' q := by
  obtain ⟨w, e1, a⟩ := h
  exact ⟨w, by rw [e, e1], a⟩

section anyReg
variable (p : Player) (a b c d e : Nat)

theorem any_setReg : WritesIn AnyReg p (setReg p a b) := WritesIn.setReg _ _ _ _ trivial

theorem any_wis : WritesIn AnyReg p (writeInstrumentSettings p a b c d) := by
  unfold writeInstrumentSettings
  exact (((((any_setReg _ _ _).trans (any_setReg _ _ _)).trans (any_setReg _ _ _)).trans
    (any_setReg _ _ _)).trans (any_setReg _ _ _)).trans (any_setReg _ _ _)

theorem any_mci : WritesIn AnyReg p (MIDIchangeInstrument p a b c) := by
  simp only [MIDIchangeInstrument]
  split_ifs
  · exact ((any_wis p (7 - 1) 0 0 c).trans (any_wis _ (7 - 1) 1 1 c)).congr_right
      (setOPLPatch_out _ _ _)
  · exact (any_wis p (8 - 1) 0 1 c).congr_right (setOPLPatch_out _ _ _)
  · exact (any_wis p (9 - 1) 0 0 c).congr_right (setOPLPatch_out _ _ _)
  · exact (any_wis p (9 - 1) 0 1 c).congr_right (setOPLPatch_out _ _ _)
  · exact (any_wis p (8 - 1) 0 0 c).congr_right (setOPLPatch_out _ _ _)
  · exact (WritesIn.refl AnyReg p).congr_right (setOPLPatch_out _ _ _)
  · exact ((any_wis p a 0 0 c).trans (any_wis _ a 1 1 c)).congr_right
      (setOPLPatch_out _ _ _)

theorem any_retrigger : WritesIn AnyReg p (percRetrigger p a) := by
  unfold percRetrigger
  split_ifs
  · exact (any_setReg _ _ _).trans (any_setReg _ _ _)
  · exact any_setReg _ _ _

theorem any_rebind : WritesIn AnyReg p (rebind p a b) := by
  unfold rebind
  split_ifs
  · exact any_mci _ _ _ _
  · exact WritesIn.refl _ _

theorem any_noteOnPerc : WritesIn AnyReg p (noteOnPerc p a b c d e) := by
  unfold noteOnPerc
  refine WritesIn.congr_right ?_ (startNote_out _ _ _ _)
  exact ((((any_mci _ _ _ _).trans (any_setReg _ _ _)).trans (any_setReg _ _ _)).trans
    (any_setReg _ _ _)).trans (any_retrigger _ _)

theorem any_noteOnMelodic : WritesIn AnyReg p (noteOnMelodic p a b c d) := by
  unfold noteOnMelodic
  refine WritesIn.trans (WritesIn.trans ?_ (any_setReg _ _ _)) (any_setReg _ _ _)
  exact (any_rebind _ _ _).congr_right (startNote_out _ _ _ _)

theorem any_noteOn : WritesIn AnyReg p (cmfNoteOn p a b c) := by
  unfold cmfNoteOn
  split_ifs
  · exact any_noteOnPerc _ _ _ _ _ _
  · exact any_noteOnMelodic _ _ _ _ _

theorem any_noteOff : WritesIn AnyReg p (cmfNoteOff p a b c) := by
  unfold cmfNoteOff
  split_ifs
  · simp only [noteOffPerc]
    split_ifs
    · exact WritesIn.refl _ _
    · exact (any_setReg _ _ _).congr_right (freeVoice_out _ _)
  · unfold noteOffMelodic
    split
    · exact WritesIn.refl _ _
    · exact WritesIn.congr_left (any_setReg _ _ _) rfl

theorem any_controller : WritesIn AnyReg p (MIDIcontroller p a b c) := by
  simp only [MIDIcontroller]
  split_ifs
  all_goals
    first
      | exact WritesIn.refl _ _
      | exact any_setReg _ _ _

end anyReg

theorem resolveStatus_fst (p : Player) (c : Nat) :
    (resolveStatus p c).1 = if c &&& 0x80 ≠ 0 then c else p.iPrevCommand := by
  unfold resolveStatus; split_ifs <;> rfl

theorem tick_unfold (u : Nat → Nat) (fuel : Nat) (p : Player) (he : p.data.eofbit = false)
    (ht : tickDelay u p ≠ 0 → p.cmfHeader.iTicksPerSecond ≠ 0) :
    tick u fuel p =
      if tickCommand u p &&& 0x80 = 0 then .ok (false, tickEntry u p)
      else tickEvent u fuel (tickEntry u p) (tickCommand u p) := by
  have h2 : ¬ ((readMIDINumber u p.data).1 ≠ 0 ∧ p.cmfHeader.iTicksPerSecond = 0) :=
    fun h => ht h.1 h.2
  simp only [tick, he, Bool.false_eq_true, if_false, setData_cmfHeader, h2, tickCommand,
    tickEntry, waitDelay_data, setData_data, resolveStatus_fst, waitDelay_iPrevCommand,
    setData_iPrevCommand]

/-! ## Structure of a tick -/

theorem systemEvent_ok (u : Nat → Nat) (fuel : Nat) (p q : Player) (c : Nat) (b : Bool)
    (h : systemEvent u fuel p c = .ok (b, q)) : q = p.setData q.data := by
  simp only [systemEvent] at h
  split_ifs at h
  · split at h
    · cases h
    · injection h with h; injection h with h1 h2; subst h2; rfl
  all_goals (injection h with h; injection h with h1 h2; subst h2; rfl)

theorem systemEvent_false_iff (u : Nat → Nat) (fuel : Nat) (p : Player) (c : Nat) :
    (∃ q, systemEvent u fuel p c = .ok (false, q)) ↔
      c = 0xFC ∨ (c = 0xFF ∧ (p.data.u8 (u 8 % 256)).1 = 0x2F) := by
  simp only [systemEvent]
  split_ifs with h1 h2 h3 h4 h5 h6 h7
  · subst h1
    constructor
    · rintro ⟨q, hq⟩
      split at hq
      · cases hq
      · injection hq with hq; injection hq with h1 h2; cases h1
    · rintro (h | h) <;> simp at h
  · subst h2; simp
  · subst h3; simp
  · subst h4; simp
  · subst h5; simp
  · subst h6; simp [h7]
  · subst h6; simp [h7]
  · simp [h5, h6]

theorem tickEvent_false_iff (u : Nat → Nat) (fuel : Nat) (p : Player) (c : Nat) :
    (∃ q, tickEvent u fuel p c = .ok (false, q)) ↔
      c = 0xFC ∨ (c = 0xFF ∧ (p.data.u8 (u 8 % 256)).1 = 0x2F) := by
  unfold tickEvent
  split_ifs with h
  · exact systemEvent_false_iff u fuel p c
  · constructor
    · rintro ⟨q, hq⟩
      injection hq with hq; injection hq with h1 h2; cases h1
    · rintro (h1 | ⟨h1, -⟩) <;> (subst h1; exact absurd (by decide) h)

theorem any_channelEvent (u : Nat → Nat) (p : Player) (c : Nat) :
    WritesIn AnyReg p (channelEvent u p c) := by
  simp only [channelEvent]
  split_ifs
  · exact WritesIn.congr_left (any_noteOff _ _ _ _) rfl
  · exact WritesIn.congr_left (any_noteOn _ _ _ _) rfl
  · exact WritesIn.congr_left (any_noteOff _ _ _ _) rfl
  · exact WritesIn.of_out_eq rfl
  · exact WritesIn.congr_left (any_controller _ _ _ _) rfl
  · exact WritesIn.of_out_eq rfl
  · exact WritesIn.of_out_eq rfl
  · exact WritesIn.of_out_eq rfl
  · exact WritesIn.refl _ _

theorem any_tickEvent (u : Nat → Nat) (fuel : Nat) (p q : Player) (c : Nat) (b : Bool)
    (h : tickEvent u fuel p c = .ok (b, q)) : WritesIn AnyReg p q := by
  unfold tickEvent at h
  split_ifs at h
  · have := systemEvent_ok u fuel p q c b h
    exact WritesIn.of_out_eq (by rw [this]; rfl)
  · injection h with h; injection h with h1 h2; subst h2
    exact any_channelEvent u p c

/-- What a tick that returns `false` leaves untouched. -/
theorem tickEvent_false_frame (u : Nat → Nat) (fuel : Nat) (p q : Player) (c : Nat)
    (h : tickEvent u fuel p c = .ok (false, q)) : q = p.setData q.data := by
  unfold tickEvent at h
  split_ifs at h
  · exact systemEvent_ok u fuel p q c false h
  · injection h with h; injection h with h1 h2; cases h1

section entry
variable (u : Nat → Nat) (p : Player)

theorem resolveStatus_snd_out (c : Nat) : (resolveStatus p c).2.out = p.out := by
  unfold resolveStatus; split_ifs <;> rfl
theorem resolveStatus_snd_chMIDI (c : Nat) : (resolveStatus p c).2.chMIDI = p.chMIDI := by
  unfold resolveStatus; split_ifs <;> rfl
theorem resolveStatus_snd_chOPL (c : Nat) : (resolveStatus p c).2.chOPL = p.chOPL := by
  unfold resolveStatus; split_ifs <;> rfl
theorem resolveStatus_snd_iCurrentRegs (c : Nat) :
    (resolveStatus p c).2.iCurrentRegs = p.iCurrentRegs := by
  unfold resolveStatus; split_ifs <;> rfl
theorem resolveStatus_snd_bPercussive (c : Nat) :
    (resolveStatus p c).2.bPercussive = p.bPercussive := by
  unfold resolveStatus; split_ifs <;> rfl
theorem resolveStatus_snd_iTranspose (c : Nat) :
    (resolveStatus p c).2.iTranspose = p.iTranspose := by
  unfold resolveStatus; split_ifs <;> rfl
theorem resolveStatus_snd_iNoteCount (c : Nat) :
    (resolveStatus p c).2.iNoteCount = p.iNoteCount := by
  unfold resolveStatus; split_ifs <;> rfl
theorem resolveStatus_snd_pInstruments (c : Nat) :
    (resolveStatus p c).2.pInstruments = p.pInstruments := by
  unfold resolveStatus; split_ifs <;> rfl
theorem resolveStatus_snd_cmfHeader (c : Nat) :
    (resolveStatus p c).2.cmfHeader = p.cmfHeader := by
  unfold resolveStatus; split_ifs <;> rfl

theorem waitDelay_out (d : Nat) : (waitDelay p d).out = p.out ++
    (if d = 0 then [] else
      [Out.delay (((d * 1000) % 2 ^ 32 / p.cmfHeader.iTicksPerSecond) % 65536)]) := by
  unfold waitDelay; split_ifs <;> simp_all

theorem tickEntry_out : (tickEntry u p).out = p.out ++
    (if tickDelay u p = 0 then [] else
      [Out.delay (((tickDelay u p * 1000) % 2 ^ 32 / p.cmfHeader.iTicksPerSecond) % 65536)]) := by
  simp only [tickEntry, resolveStatus_snd_out, setData_out, waitDelay_out, tickDelay,
    setData_cmfHeader]

@[simp] theorem tickEntry_chMIDI : (tickEntry u p).chMIDI = p.chMIDI := by
  simp [tickEntry, resolveStatus_snd_chMIDI]
@[simp] theorem tickEntry_chOPL : (tickEntry u p).chOPL = p.chOPL := by
  simp [tickEntry, resolveStatus_snd_chOPL]
@[simp] theorem tickEntry_iCurrentRegs : (tickEntry u p).iCurrentRegs = p.iCurrentRegs := by
  simp [tickEntry, resolveStatus_snd_iCurrentRegs]
@[simp] theorem tickEntry_bPercussive : (tickEntry u p).bPercussive = p.bPercussive := by
  simp [tickEntry, resolveStatus_snd_bPercussive]
@[simp] theorem tickEntry_iTranspose : (tickEntry u p).iTranspose = p.iTranspose := by
  simp [tickEntry, resolveStatus_snd_iTranspose]
@[simp] theorem tickEntry_iNoteCount : (tickEntry u p).iNoteCount = p.iNoteCount := by
  simp [tickEntry, resolveStatus_snd_iNoteCount]
@[simp] theorem tickEntry_pInstruments : (tickEntry u p).pInstruments = p.pInstruments := by
  simp [tickEntry, resolveStatus_snd_pInstruments]
@[simp] theorem tickEntry_cmfHeader : (tickEntry u p).cmfHeader = p.cmfHeader := by
  simp [tickEntry, resolveStatus_snd_cmfHeader]

theorem tickEntry_data : (tickEntry u p).data = tickStream u p := by
  simp only [tickEntry, tickStream, waitDelay_data, setData_data, resolveStatus]
  split_ifs <;> simp [waitDelay_iPrevCommand]

end entry

theorem tick_eof (u : Nat → Nat) (fuel : Nat) (p : Player) (he : p.data.eofbit = true) :
    tick u fuel p = .ok (false, p) := by
  simp [tick, he]

theorem emitted_append (p q : Player) (w : List Out) (h : q.out = p.out ++ w) :
    emitted p q = w := by
  simp [emitted, h]

theorem init_tps (heap : Nat → SBI) (tps n : Nat) (music : List Nat) :
    (init heap (playerOf tps n music)).cmfHeader.iTicksPerSecond = tps := by
  simp [playerOf, mkPlayer, headerOf]

/-! ## The Sysex loop; ticks that return -/

theorem u8_not_good (s : IStream) (d : Nat) (h : s.good = false) :
    s.u8 d = (d, { s with failbit := true }) := by
  simp [IStream.u8, h]

theorem u8_at_end (s : IStream) (d : Nat) (h : s.rest = []) :
    (s.u8 d).1 = d ∧ (s.u8 d).2.good = false := by
  by_cases hg : s.good = true
  · have : s.bytes[s.pos]? = none := by
      have := getElem?_of_rest s [] h 0
      simpa using this
    simp only [IStream.u8, hg, if_true, this]
    simp [IStream.good]
  · have hg' : s.good = false := by simpa using hg
    rw [u8_not_good s d hg']
    simp [IStream.good]

/-- Once the stream is not good, the Sysex loop re-tests the same stale byte for
ever. -/
theorem sysexLoop_not_good (fuel : Nat) (s : IStream) (d : Nat) (hg : s.good = false)
    (hd : d &&& 0x80 = 0) : sysexLoop fuel s d = none := by
  induction fuel generalizing s with
  | zero => rfl
  | succ n ih =>
    have e := u8_not_good s d hg
    simp only [sysexLoop, e, hd, if_true]
    exact ih _ (by simp [IStream.good])

/-- At the end of the data, with a stale byte whose high bit is clear, the
Sysex loop never ends. -/
theorem sysexLoop_at_end (fuel : Nat) (s : IStream) (d : Nat) (h : s.rest = [])
    (hd : d &&& 0x80 = 0) : sysexLoop fuel s d = none := by
  cases fuel with
  | zero => rfl
  | succ n =>
    obtain ⟨e1, e2⟩ := u8_at_end s d h
    simp only [sysexLoop, e1, hd, if_true]
    exact sysexLoop_not_good n _ d e2 hd

theorem systemEvent_returns (u : Nat → Nat) (fuel : Nat) (p : Player) (c : Nat)
    (h : c ≠ 0xF0) : ∃ b q, systemEvent u fuel p c = .ok (b, q) := by
  simp only [systemEvent, if_neg h]
  split_ifs <;> exact ⟨_, _, rfl⟩

theorem tickEvent_returns (u : Nat → Nat) (fuel : Nat) (p : Player) (c : Nat)
    (h : c ≠ 0xF0) : ∃ b q, tickEvent u fuel p c = .ok (b, q) := by
  unfold tickEvent
  split_ifs
  · exact systemEvent_returns u fuel p c h
  · exact ⟨_, _, rfl⟩

theorem isVarLen_single (a : Nat) (h : a < 128) : IsVarLen [a] := by
  refine ⟨by simp, by simp, ?_, by simp, Or.inr (by simpa using h)⟩
  intro b hb
  simp only [List.mem_singleton] at hb
  omega

theorem concat7_single (a : Nat) (h : a < 128) : concat7 [a] = a := by
  simp [concat7, List.range_succ, land_0x7F]
  omega

/-! ## Independence of the stream representation -/

theorem StreamEq.rfl_stream (s : IStream) : StreamEq s s := ⟨rfl, rfl, rfl⟩

theorem StreamEq.good {s t : IStream} (h : StreamEq s t) : s.good = t.good := by
  simp [IStream.good, h.2.1, h.2.2]

theorem StreamEq.getElem? {s t : IStream} (h : StreamEq s t) :
    s.bytes[s.pos]? = t.bytes[t.pos]? := by
  have h1 := getElem?_of_rest s _ rfl 0
  have h2 := getElem?_of_rest t _ rfl 0
  simp only [Nat.add_zero] at h1 h2
  rw [h1, h2, h.1]

theorem StreamEq.skip {s t : IStream} (h : StreamEq s t) (n : Nat) :
    StreamEq (s.skip n) (t.skip n) := by
  refine ⟨?_, h.2.1, h.2.2⟩
  rw [skip_rest, skip_rest, h.1]

theorem u8_congr {s t : IStream} (h : StreamEq s t) (d : Nat) :
    (s.u8 d).1 = (t.u8 d).1 ∧ StreamEq (s.u8 d).2 (t.u8 d).2 := by
  unfold IStream.u8
  rw [h.good, h.getElem?]
  split_ifs
  · cases hb : t.bytes[t.pos]? with
    | none => exact ⟨rfl, h.1, rfl, rfl⟩
    | some b => exact ⟨rfl, h.skip 1⟩
  · exact ⟨rfl, h.1, h.2.1, rfl⟩

theorem read2_congr (u : Nat → Nat) {s t : IStream} (h : StreamEq s t) :
    (read2 u s).1 = (read2 u t).1 ∧ (read2 u s).2.1 = (read2 u t).2.1 ∧
      StreamEq (read2 u s).2.2 (read2 u t).2.2 := by
  obtain ⟨a1, a2⟩ := u8_congr h (u 5 % 256)
  obtain ⟨b1, b2⟩ := u8_congr a2 (u 6 % 256)
  exact ⟨a1, b1, b2⟩

theorem seekCur_congr {s t : IStream} (h : StreamEq s t) (n : Nat) :
    StreamEq (s.seekCur (n : Int)) (t.seekCur (n : Int)) := by
  unfold IStream.seekCur
  rw [h.2.2]
  split_ifs with h1 h2 h3
  · exact ⟨h.1, rfl, rfl⟩
  · omega
  · omega
  · omega
  · have e1 : ((s.pos : Int) + n).toNat = s.pos + n := by omega
    have e2 : ((t.pos : Int) + n).toNat = t.pos + n := by omega
    rw [e1, e2]
    exact ⟨(h.skip n).1, rfl, rfl⟩

theorem sysexLoop_congr (fuel : Nat) {s t : IStream} (h : StreamEq s t) (d : Nat) :
    (sysexLoop fuel s d = none ∧ sysexLoop fuel t d = none) ∨
      ∃ s2 t2, sysexLoop fuel s d = some s2 ∧ sysexLoop fuel t d = some t2 ∧ StreamEq s2 t2 := by
  induction fuel generalizing s t d with
  | zero => exact Or.inl ⟨rfl, rfl⟩
  | succ n ih =>
    obtain ⟨a1, a2⟩ := u8_congr h d
    simp only [sysexLoop, ← a1]
    split_ifs
    · exact ih a2 _
    · exact Or.inr ⟨_, _, rfl, rfl, a2⟩

/-! Handlers do not look at the stream. -/

section commute
variable (p : Player) (s : IStream) (a b c d e : Nat)

theorem setReg_setData : setReg (p.setData s) a b = (setReg p a b).setData s := rfl
theorem wis_setData : writeInstrumentSettings (p.setData s) a b c d =
    (writeInstrumentSettings p a b c d).setData s := rfl
theorem setOPLPatch_setData (i : Int) :
    setOPLPatch (p.setData s) a i = (setOPLPatch p a i).setData s := rfl
theorem startNote_setData : startNote (p.setData s) a b c = (startNote p a b c).setData s := rfl
theorem freeVoice_setData : freeVoice (p.setData s) a = (freeVoice p a).setData s := rfl
theorem setPatch_setData (i : Int) :
    setPatch (p.setData s) a i = (setPatch p a i).setData s := rfl
theorem setPitchbend_setData (i : Int) :
    setPitchbend (p.setData s) a i = (setPitchbend p a i).setData s := rfl

theorem mci_setData : MIDIchangeInstrument (p.setData s) a b c =
    (MIDIchangeInstrument p a b c).setData s := by
  simp only [MIDIchangeInstrument, setData_bPercussive, wis_setData, setOPLPatch_setData]
  split_ifs <;> simp only [setOPLPatch_setData]

theorem retrigger_setData : percRetrigger (p.setData s) a = (percRetrigger p a).setData s := by
  simp only [percRetrigger, setData_iCurrentRegs, setReg_setData]
  split_ifs <;> simp only [setData_iCurrentRegs, setReg_setData]

theorem rebind_setData : rebind (p.setData s) a b = (rebind p a b).setData s := by
  simp only [rebind, setData_chOPL, setData_chMIDI, mci_setData]
  split_ifs <;> rfl

theorem noteOnPerc_setData : noteOnPerc (p.setData s) a b c d e =
    (noteOnPerc p a b c d e).setData s := by
  simp only [noteOnPerc, setData_chMIDI, mci_setData, setData_iCurrentRegs, setReg_setData,
    retrigger_setData, startNote_setData]

theorem chooseVoice_setData : chooseVoice (p.setData s) a = chooseVoice p a := rfl

theorem noteOnMelodic_setData : noteOnMelodic (p.setData s) a b c d =
    (noteOnMelodic p a b c d).setData s := by
  simp only [noteOnMelodic, chooseVoice_setData, rebind_setData, startNote_setData,
    setReg_setData]

theorem noteOn_setData : cmfNoteOn (p.setData s) a b c = (cmfNoteOn p a b c).setData s := by
  simp only [cmfNoteOn, setData_chMIDI, setData_iTranspose, setData_bPercussive,
    noteOnPerc_setData, noteOnMelodic_setData]
  split_ifs <;> rfl

theorem noteOff_setData : cmfNoteOff (p.setData s) a b c = (cmfNoteOff p a b c).setData s := by
  have hf : findNote (p.setData s) a b = findNote p a b := rfl
  simp only [cmfNoteOff, noteOffPerc, noteOffMelodic, setData_bPercussive, setData_chOPL,
    setData_iCurrentRegs, setReg_setData, freeVoice_setData, hf]
  split_ifs
  · rfl
  · rfl
  · cases findNote p a b <;> rfl

theorem controller_setData : MIDIcontroller (p.setData s) a b c =
    (MIDIcontroller p a b c).setData s := by
  simp only [MIDIcontroller]
  split_ifs <;> rfl

end commute

theorem sameUpToStream_setData (x : Player) {s t : IStream} (h : StreamEq s t) :
    SameUpToStream (x.setData s) (x.setData t) := ⟨rfl, h⟩

theorem channelEvent_congr (u : Nat → Nat) (p : Player) {s t : IStream} (c : Nat)
    (h : StreamEq s t) :
    SameUpToStream (channelEvent u (p.setData s) c) (channelEvent u (p.setData t) c) := by
  obtain ⟨r1, r2, r3⟩ := read2_congr u h
  obtain ⟨v1, v2⟩ := u8_congr h (u 5 % 256)
  simp only [channelEvent, setData_data, setData_setData, noteOff_setData, noteOn_setData,
    controller_setData, setPatch_setData, setPitchbend_setData, r1, r2, v1]
  split_ifs
  all_goals first
    | exact sameUpToStream_setData _ r3
    | exact sameUpToStream_setData _ v2
    | exact sameUpToStream_setData _ h

theorem systemEvent_congr (u : Nat → Nat) (fuel : Nat) (p : Player) {s t : IStream} (c : Nat)
    (h : StreamEq s t) :
    ResultEq (systemEvent u fuel (p.setData s) c) (systemEvent u fuel (p.setData t) c) := by
  obtain ⟨v1, v2⟩ := u8_congr h (u 8 % 256)
  simp only [systemEvent, setData_data, setData_setData, v1]
  split_ifs
  · rcases sysexLoop_congr fuel h (u 7 % 256) with ⟨e1, e2⟩ | ⟨s2, t2, e1, e2, e3⟩
    · rw [e1, e2]; exact rfl
    · rw [e1, e2]; exact ⟨rfl, sameUpToStream_setData _ e3⟩
  · exact ⟨rfl, sameUpToStream_setData _ (seekCur_congr h 1)⟩
  · exact ⟨rfl, sameUpToStream_setData _ (seekCur_congr h 2)⟩
  · exact ⟨rfl, sameUpToStream_setData _ (seekCur_congr h 1)⟩
  · exact ⟨rfl, sameUpToStream_setData _ h⟩
  · exact ⟨rfl, sameUpToStream_setData _ v2⟩
  · exact ⟨rfl, sameUpToStream_setData _ v2⟩
  · exact ⟨rfl, sameUpToStream_setData _ h⟩

theorem tickEvent_congr (u : Nat → Nat) (fuel : Nat) (p : Player) {s t : IStream} (c : Nat)
    (h : StreamEq s t) :
    ResultEq (tickEvent u fuel (p.setData s) c) (tickEvent u fuel (p.setData t) c) := by
  unfold tickEvent
  split_ifs
  · exact systemEvent_congr u fuel p c h
  · exact ⟨rfl, channelEvent_congr u p c h⟩

theorem tick_divByZero (u : Nat → Nat) (fuel : Nat) (p : Player) (he : p.data.eofbit = false)
    (hd : tickDelay u p ≠ 0) (ht : p.cmfHeader.iTicksPerSecond = 0) :
    tick u fuel p = .error Fault.divByZero := by
  have : (readMIDINumber u p.data).1 ≠ 0 := hd
  simp [tick, he, this, ht]

theorem init_playerOf_data (heap : Nat → SBI) (tps : Nat) (music : List Nat) :
    (init heap (playerOf tps 0 music)).data =
      ⟨headerBytes tps 0 ++ music, 40, false, false⟩ := by
  rw [init_data_zero heap _ rfl]; rfl

theorem init_playerOf_good (heap : Nat → SBI) (tps : Nat) (music : List Nat) :
    (init heap (playerOf tps 0 music)).data.good = true := by
  rw [init_playerOf_data]; rfl

theorem init_playerOf_rest (heap : Nat → SBI) (tps : Nat) (music : List Nat) :
    (init heap (playerOf tps 0 music)).data.rest = music := by
  rw [init_playerOf_data]; rfl

theorem setPrev_setData_self (p : Player) (c : Nat) :
    (p.setPrev c).setData p.data = p.setPrev c := rfl

theorem nibbles (c : Nat) (h : c < 16) :
    (0x90 ||| c) &&& 0xF0 = 0x90 ∧ (0x90 ||| c) &&& 0x0F = c ∧
    (0x80 ||| c) &&& 0xF0 = 0x80 ∧ (0x80 ||| c) &&& 0x0F = c ∧
    128 ≤ (0x90 ||| c) ∧ (0x90 ||| c) < 256 ∧ 128 ≤ (0x80 ||| c) ∧ (0x80 ||| c) < 256 := by
  interval_cases c <;> decide

section commutePrev
variable (p : Player) (x a b c : Nat)

theorem noteOff_setPrev : cmfNoteOff (p.setPrev x) a b c = (cmfNoteOff p a b c).setPrev x := by
  have hf : findNote (p.setPrev x) a b = findNote p a b := rfl
  simp only [cmfNoteOff, noteOffPerc, noteOffMelodic, setPrev_bPercussive, setPrev_chOPL,
    setPrev_iCurrentRegs, hf]
  split_ifs
  · rfl
  · rfl
  · cases findNote p a b <;> rfl

theorem noteOff_velocity : cmfNoteOff p a b c = cmfNoteOff p a b 0 := rfl

end commutePrev

/-! ## Voice allocation -/

theorem findFree_range (chOPL : Nat → OPLCHANNEL) (iPatch : Int) (n : Nat) (acc : Int) :
    findFree chOPL iPatch n acc = acc ∨
      (0 ≤ findFree chOPL iPatch n acc ∧ findFree chOPL iPatch n acc < n) := by
  induction n generalizing acc with
  | zero => exact Or.inl rfl
  | succ n ih =>
    simp only [findFree]
    split_ifs
    · right; constructor <;> omega
    · rcases ih (n : Int) with h | h
      · right; rw [h]; constructor <;> omega
      · right; constructor <;> omega
    · rcases ih acc with h | h
      · exact Or.inl h
      · right; constructor <;> omega

theorem foldl_earliest_lt (chOPL : Nat → OPLCHANNEL) (l : List Nat) (n : Nat)
    (hl : ∀ i ∈ l, i < n) (st : Nat × Int) (hst : st.1 < n) :
    (l.foldl (fun (st : Nat × Int) i =>
      if (chOPL i).iNoteStart < st.2 then (i, (chOPL i).iNoteStart) else st) st).1 < n := by
  induction l generalizing st with
  | nil => exact hst
  | cons a l ih =>
    simp only [List.foldl_cons]
    apply ih (fun i hi => hl i (List.mem_cons_of_mem _ hi))
    split_ifs
    · exact hl a (List.mem_cons_self _ _)
    · exact hst

theorem findEarliest_lt (chOPL : Nat → OPLCHANNEL) (n : Nat) (hn : 0 < n) :
    findEarliest chOPL n < n := by
  unfold findEarliest
  apply foldl_earliest_lt
  · intro i hi
    rw [List.mem_range'_1] at hi
    omega
  · exact hn

theorem chooseVoice_lt (p : Player) (c : Nat) : chooseVoice p c < numChannels p := by
  have hn : 0 < numChannels p := by unfold numChannels; split_ifs <;> decide
  unfold chooseVoice
  simp only []
  split_ifs with h
  · exact findEarliest_lt _ _ hn
  · rcases findFree_range p.chOPL (p.chMIDI c).iPatch (numChannels p) (-1) with h1 | h1
    · exact absurd h1 h
    · omega

theorem noteOn_chOPL_ne (p : Player) (c n v i : Nat) (h : i ≠ noteOnVoice p c) :
    (cmfNoteOn p c n v).chOPL i = p.chOPL i := by
  unfold noteOnVoice at h
  unfold cmfNoteOn
  split_ifs with hc
  · rw [if_pos hc] at h
    simp [noteOnPerc, setAt_ne _ _ _ _ h]
  · rw [if_neg hc] at h
    simp only [noteOnMelodic, rebind, setReg_chOPL, startNote_chOPL]
    split_ifs <;> simp [setAt_ne _ _ _ _ h]

theorem noteOn_chOPL_self (p : Player) (c n v : Nat) :
    ((cmfNoteOn p c n v).chOPL (noteOnVoice p c)).iNoteStart = p.iNoteCount + 1 ∧
    ((cmfNoteOn p c n v).chOPL (noteOnVoice p c)).iMIDINote = (n : Int) ∧
    ((cmfNoteOn p c n v).chOPL (noteOnVoice p c)).iMIDIChannel = (c : Int) := by
  unfold noteOnVoice
  unfold cmfNoteOn
  split_ifs with hc
  · simp [noteOnPerc]
  · simp only [noteOnMelodic, rebind, setReg_chOPL, startNote_chOPL]
    split_ifs <;> simp

theorem soundingCount_le (p : Player) : soundingCount p ≤ 9 := by
  unfold soundingCount
  exact (List.length_filter_le _ _).trans (by simp)

theorem soundingCount_le_six (p : Player)
    (h : ∀ i, 6 ≤ i → i < 9 → sounding p i = false) : soundingCount p ≤ 6 := by
  unfold soundingCount
  have e : List.range 9 = List.range 6 ++ [6, 7, 8] := by decide
  rw [e, List.filter_append, List.length_append]
  have h6 := h 6 (by decide) (by decide)
  have h7 := h 7 (by decide) (by decide)
  have h8 := h 8 (by decide) (by decide)
  have : ([6, 7, 8] : List Nat).filter (sounding p) = [] := by
    simp [List.filter, h6, h7, h8]
  rw [this]
  exact (Nat.add_zero _).le.trans ((List.length_filter_le _ _).trans (by simp))

/-! ## Uniqueness of sounding notes -/

theorem uniqueNotes_congr (p q : Player) (h : q.chOPL = p.chOPL) (hp : UniqueNotes p) :
    UniqueNotes q := by
  intro i j hi hj hij si sj
  simp only [sounding, h] at si sj ⊢
  exact hp i j hi hj hij si sj

theorem noteOff_chOPL (p : Player) (c n v i : Nat) :
    (cmfNoteOff p c n v).chOPL i = p.chOPL i ∨
      (cmfNoteOff p c n v).chOPL i = { p.chOPL i with iNoteStart := 0 } := by
  unfold cmfNoteOff
  split_ifs
  · simp only [noteOffPerc]
    split_ifs
    · exact Or.inl rfl
    · simp only [freeVoice_chOPL, setReg_chOPL]
      by_cases h : i = getPercChannel c
      · subst h; right; simp
      · left; exact setAt_ne _ _ _ _ h
  · unfold noteOffMelodic
    split
    · exact Or.inl rfl
    · rename_i k hk
      simp only [freeVoice_chOPL, setReg_chOPL]
      by_cases h : i = k
      · subst h; right; simp
      · left; exact setAt_ne _ _ _ _ h

theorem uniqueNotes_noteOff (p : Player) (c n v : Nat) (hp : UniqueNotes p) :
    UniqueNotes (cmfNoteOff p c n v) := by
  intro i j hi hj hij si sj
  have key : ∀ k, sounding (cmfNoteOff p c n v) k = true →
      sounding p k = true ∧ (cmfNoteOff p c n v).chOPL k = p.chOPL k := by
    intro k hk
    rcases noteOff_chOPL p c n v k with h | h
    · exact ⟨by simpa [sounding, h] using hk, h⟩
    · simp [sounding, h] at hk
  obtain ⟨a1, a2⟩ := key i si
  obtain ⟨b1, b2⟩ := key j sj
  rw [a2, b2]
  exact hp i j hi hj hij a1 b1

theorem uniqueNotes_noteOn (p : Player) (c n v : Nat) (hp : UniqueNotes p)
    (hs : ¬ isSounding p c n) : UniqueNotes (cmfNoteOn p c n v) := by
  obtain ⟨-, e2, e3⟩ := noteOn_chOPL_self p c n v
  intro i j hi hj hij si sj
  by_cases h1 : i = noteOnVoice p c
  · have h2 : j ≠ noteOnVoice p c := fun h => hij (h1.trans h.symm)
    have ej := noteOn_chOPL_ne p c n v j h2
    rw [h1, e2, e3, ej]
    rintro ⟨x1, x2⟩
    exact hs ⟨j, hj, by simpa [sounding, ej] using sj, x1.symm, x2.symm⟩
  · have ei := noteOn_chOPL_ne p c n v i h1
    by_cases h2 : j = noteOnVoice p c
    · rw [h2, e2, e3, ei]
      rintro ⟨x1, x2⟩
      exact hs ⟨i, hi, by simpa [sounding, ei] using si, x1, x2⟩
    · have ej := noteOn_chOPL_ne p c n v j h2
      rw [ei, ej]
      exact hp i j hi hj hij (by simpa [sounding, ei] using si) (by simpa [sounding, ej] using sj)

theorem isSounding_congr (p q : Player) (h : q.chOPL = p.chOPL) (c n : Nat) :
    isSounding q c n ↔ isSounding p c n := by
  simp only [isSounding, sounding, h]

theorem uniqueNotes_init (heap : Nat → SBI) (s : IStream) (hdr : CMFHEADER) :
    UniqueNotes (init heap (mkPlayer s hdr)) := by
  intro i j hi hj hij si sj
  have : sounding (init heap (mkPlayer s hdr)) i = false := by
    simp only [sounding, init_chOPL]
    split_ifs <;> simp [mkPlayer]
  rw [this] at si
  cases si

theorem uniqueNotes_setData (p : Player) (s : IStream) (hp : UniqueNotes p) :
    UniqueNotes (p.setData s) := uniqueNotes_congr p (p.setData s) rfl hp

theorem isSounding_setData (p : Player) (s : IStream) (c n : Nat) :
    isSounding (p.setData s) c n ↔ isSounding p c n := isSounding_congr p (p.setData s) rfl c n

theorem uniqueNotes_channelEvent (u : Nat → Nat) (p : Player) (c : Nat) (hp : UniqueNotes p)
    (hs : ¬ (c &&& 0xF0 = 0x90 ∧ (read2 u p.data).2.1 ≠ 0 ∧
      isSounding p (c &&& 0x0F) (read2 u p.data).1)) :
    UniqueNotes (channelEvent u p c) := by
  simp only [channelEvent]
  split_ifs with h1 h2 h3 h4 h5 h6 h7 h8
  · exact uniqueNotes_noteOff _ _ _ _ (uniqueNotes_setData _ _ hp)
  · apply uniqueNotes_noteOn _ _ _ _ (uniqueNotes_setData _ _ hp)
    intro h
    exact hs ⟨h2, h3, (isSounding_setData _ _ _ _).1 h⟩
  · exact uniqueNotes_noteOff _ _ _ _ (uniqueNotes_setData _ _ hp)
  · exact uniqueNotes_setData _ _ hp
  · exact uniqueNotes_congr (p.setData _) _ (ctl_chOPL _ _ _ _) (uniqueNotes_setData _ _ hp)
  · exact uniqueNotes_congr (p.setData _) _ (setPatch_chOPL _ _ _) (uniqueNotes_setData _ _ hp)
  · exact uniqueNotes_setData _ _ hp
  · exact uniqueNotes_congr (p.setData _) _ (setPitchbend_chOPL _ _ _)
      (uniqueNotes_setData _ _ hp)
  · exact hp

/-! ## Register writes of a note-on and the note-off that follows -/

theorem MirrorFrame.same (S : Nat → Prop) (p : Player) : MirrorFrame S p p := fun _ _ => rfl

theorem MirrorFrame.comp {S : Nat → Prop} {p q r : Player} (h1 : MirrorFrame S p q)
    (h2 : MirrorFrame S q r) : MirrorFrame S p r :=
  fun x hx => (h2 x hx).trans (h1 x hx)

theorem MirrorFrame.write (S : Nat → Prop) (p : Player) (a b : Nat) (h : S (a % 256)) :
    MirrorFrame S p (setReg p a b) := by
  intro r hr
  have : r ≠ a % 256 := fun e => hr (e ▸ h)
  simp [setAt, this]

theorem MirrorFrame.mirror_eq {S : Nat → Prop} {p q q2 : Player} (h : MirrorFrame S p q)
    (e : q2.iCurrentRegs = q.iCurrentRegs) : MirrorFrame S p q2 :=
  fun x hx => by rw [e]; exact h x hx

theorem wis_voice (p : Player) (ch src dst ins : Nat) (hch : ch ≤ 8) :
    WritesIn (InVoice ch) p (writeInstrumentSettings p ch src dst ins) := by
  unfold writeInstrumentSettings
  simp only []
  have key : ∀ base, base = BASE_CHAR_MULT ∨ base = BASE_SCAL_LEVL ∨ base = BASE_ATCK_DCAY ∨
      base = BASE_SUST_RLSE ∨ base = BASE_WAVE → ∀ val,
      InVoice ch ((base + (if dst ≠ 0 then (OPLOFFSET ch % 256 + 3) % 256
        else OPLOFFSET ch % 256)) % 256) val := by
    intro base hb val
    simp only [InVoice, voiceRegs, OPLOFFSET, List.mem_cons, List.mem_singleton,
      BASE_CHAR_MULT, BASE_SCAL_LEVL, BASE_ATCK_DCAY, BASE_SUST_RLSE, BASE_WAVE] at hb ⊢
    split_ifs <;> omega
  have keyc : ∀ val, InVoice ch ((BASE_FEED_CONN + ch) % 256) val := by
    intro val
    simp only [InVoice, voiceRegs, OPLOFFSET, List.mem_cons, List.mem_singleton, BASE_FEED_CONN]
    omega
  exact (((((WritesIn.setReg _ _ _ _ (key _ (Or.inl rfl) _)).trans
    (WritesIn.setReg _ _ _ _ (key _ (Or.inr (Or.inl rfl)) _))).trans
    (WritesIn.setReg _ _ _ _ (key _ (Or.inr (Or.inr (Or.inl rfl))) _))).trans
    (WritesIn.setReg _ _ _ _ (key _ (Or.inr (Or.inr (Or.inr (Or.inl rfl)))) _))).trans
    (WritesIn.setReg _ _ _ _ (key _ (Or.inr (Or.inr (Or.inr (Or.inr rfl)))) _))).trans
    (WritesIn.setReg _ _ _ _ (keyc _))

theorem mci_voice_melodic (p : Player) (a b c : Nat) (ha : a ≤ 8)
    (hm : ¬ (b > 10 ∧ p.bPercussive = true)) :
    WritesIn (InVoice a) p (MIDIchangeInstrument p a b c) := by
  simp only [MIDIchangeInstrument, if_neg hm]
  exact ((wis_voice p a 0 0 c ha).trans (wis_voice _ a 1 1 c ha)).congr_right
    (setOPLPatch_out _ _ _)

theorem mci_voice_perc (p : Player) (a b c : Nat) (hm : b > 10 ∧ p.bPercussive = true) :
    WritesIn (InVoice (getPercChannel b)) p (MIDIchangeInstrument p a b c) := by
  simp only [MIDIchangeInstrument, if_pos hm]
  split_ifs with h1 h2 h3 h4 h5
  · subst h1
    exact ((wis_voice p 6 0 0 c (by decide)).trans (wis_voice _ 6 1 1 c (by decide))).congr_right
      (setOPLPatch_out _ _ _)
  · subst h2
    exact (wis_voice p 7 0 1 c (by decide)).congr_right (setOPLPatch_out _ _ _)
  · subst h3
    exact (wis_voice p 8 0 0 c (by decide)).congr_right (setOPLPatch_out _ _ _)
  · subst h4
    exact (wis_voice p 8 0 1 c (by decide)).congr_right (setOPLPatch_out _ _ _)
  · subst h5
    exact (wis_voice p 7 0 0 c (by decide)).congr_right (setOPLPatch_out _ _ _)
  · exact (WritesIn.refl _ p).congr_right (setOPLPatch_out _ _ _)

theorem wis_frame (p : Player) (ch src dst ins : Nat) (hch : ch ≤ 8) :
    MirrorFrame (· ∈ voiceRegs ch) p (writeInstrumentSettings p ch src dst ins) := by
  unfold writeInstrumentSettings
  simp only []
  have key : ∀ base, base = BASE_CHAR_MULT ∨ base = BASE_SCAL_LEVL ∨ base = BASE_ATCK_DCAY ∨
      base = BASE_SUST_RLSE ∨ base = BASE_WAVE →
      (base + (if dst ≠ 0 then (OPLOFFSET ch % 256 + 3) % 256
        else OPLOFFSET ch % 256)) % 256 ∈ voiceRegs ch := by
    intro base hb
    simp only [voiceRegs, OPLOFFSET, List.mem_cons, List.mem_singleton,
      BASE_CHAR_MULT, BASE_SCAL_LEVL, BASE_ATCK_DCAY, BASE_SUST_RLSE, BASE_WAVE] at hb ⊢
    split_ifs <;> omega
  have keyc : (BASE_FEED_CONN + ch) % 256 ∈ voiceRegs ch := by
    simp only [voiceRegs, OPLOFFSET, List.mem_cons, List.mem_singleton, BASE_FEED_CONN]
    omega
  exact (((((MirrorFrame.write _ _ _ _ (key _ (Or.inl rfl))).comp
    (MirrorFrame.write _ _ _ _ (key _ (Or.inr (Or.inl rfl))))).comp
    (MirrorFrame.write _ _ _ _ (key _ (Or.inr (Or.inr (Or.inl rfl)))))).comp
    (MirrorFrame.write _ _ _ _ (key _ (Or.inr (Or.inr (Or.inr (Or.inl rfl))))))).comp
    (MirrorFrame.write _ _ _ _ (key _ (Or.inr (Or.inr (Or.inr (Or.inr rfl))))))).comp
    (MirrorFrame.write _ _ _ _ keyc)

theorem mci_frame_perc (p : Player) (a b c : Nat) (hm : b > 10 ∧ p.bPercussive = true) :
    MirrorFrame (· ∈ voiceRegs (getPercChannel b)) p (MIDIchangeInstrument p a b c) := by
  simp only [MIDIchangeInstrument, if_pos hm]
  split_ifs with h1 h2 h3 h4 h5
  · subst h1
    exact ((wis_frame p 6 0 0 c (by decide)).comp (wis_frame _ 6 1 1 c (by decide))).mirror_eq
      (setOPLPatch_iCurrentRegs _ _ _)
  · subst h2
    exact (wis_frame p 7 0 1 c (by decide)).mirror_eq (setOPLPatch_iCurrentRegs _ _ _)
  · subst h3
    exact (wis_frame p 8 0 0 c (by decide)).mirror_eq (setOPLPatch_iCurrentRegs _ _ _)
  · subst h4
    exact (wis_frame p 8 0 1 c (by decide)).mirror_eq (setOPLPatch_iCurrentRegs _ _ _)
  · subst h5
    exact (wis_frame p 7 0 0 c (by decide)).mirror_eq (setOPLPatch_iCurrentRegs _ _ _)
  · exact (MirrorFrame.same _ p).mirror_eq (setOPLPatch_iCurrentRegs _ _ _)

/-! Bits of the rhythm register. -/

theorem mod256_eq_and (w : Nat) : w % 256 = w &&& 255 :=
  (Nat.and_pow_two_sub_one_eq_mod w 8).symm

theorem keep_mask_and (x m : Nat) (hm : 255 &&& m = m) : ((x &&& m) % 256) &&& m = x &&& m := by
  rw [mod256_eq_and, Nat.and_assoc, Nat.and_assoc, hm, Nat.and_self]

theorem keep_mask_or (y b m : Nat) (hm : 255 &&& m = m) (hb : m &&& b = 0) :
    ((y ||| b) % 256) &&& m = y &&& m := by
  rw [mod256_eq_and, Nat.and_assoc, hm, Nat.and_comm, Nat.and_or_distrib_left, hb,
    Nat.or_zero, Nat.and_comm]

theorem percBit_facts (c : Nat) (h1 : 11 ≤ c) (h2 : c ≤ 15) :
    255 &&& (0xFF ^^^ percBit c) = 0xFF ^^^ percBit c ∧
    (0xFF ^^^ percBit c) &&& percBit c = 0 ∧
    1 <<< (15 - c) = percBit c ∧ getPercChannel c ≤ 8 ∧
    BASE_RHYTHM ∉ voiceRegs (getPercChannel c) ∧
    percLevelReg c % 256 ∈ voiceRegs (getPercChannel c) ∧
    (BASE_FNUM_L + getPercChannel c) % 256 ∈ voiceRegs (getPercChannel c) ∧
    (BASE_KEYON_FREQ + getPercChannel c) % 256 ∈ voiceRegs (getPercChannel c) := by
  interval_cases c <;> decide

/-- The rhythm-register writes of a percussion note-on keep every bit but the
drum's own. -/
theorem retrigger_writes (p : Player) (b x : Nat) (hm : 255 &&& (0xFF ^^^ b) = 0xFF ^^^ b)
    (hb : (0xFF ^^^ b) &&& b = 0)
    (hx : p.iCurrentRegs BASE_RHYTHM &&& (0xFF ^^^ b) = x &&& (0xFF ^^^ b)) :
    WritesIn (fun r v => r = BASE_RHYTHM ∧ v &&& (0xFF ^^^ b) = x &&& (0xFF ^^^ b)) p
        (percRetrigger p b) ∧
      (percRetrigger p b).iCurrentRegs BASE_RHYTHM &&& (0xFF ^^^ b) = x &&& (0xFF ^^^ b) := by
  have hB : BASE_RHYTHM % 256 = BASE_RHYTHM := by decide
  simp only [percRetrigger]
  split_ifs with h
  · have e0 : (p.iCurrentRegs BASE_RHYTHM &&& (0xFF ^^^ b)) % 256 &&& (0xFF ^^^ b) =
        x &&& (0xFF ^^^ b) := by
      rw [keep_mask_and _ _ hm, hx]
    have e2 : ((setReg p BASE_RHYTHM (p.iCurrentRegs BASE_RHYTHM &&& (0xFF ^^^ b))).iCurrentRegs
        BASE_RHYTHM ||| b) % 256 &&& (0xFF ^^^ b) = x &&& (0xFF ^^^ b) := by
      rw [keep_mask_or _ _ _ hm hb]
      simp only [setReg_iCurrentRegs, hB, setAt_same]
      exact e0
    have w1 := WritesIn.setReg (fun r v => r = BASE_RHYTHM ∧
      v &&& (0xFF ^^^ b) = x &&& (0xFF ^^^ b)) p BASE_RHYTHM
      (p.iCurrentRegs BASE_RHYTHM &&& (0xFF ^^^ b)) ⟨hB, e0⟩
    have w2 := WritesIn.setReg (fun r v => r = BASE_RHYTHM ∧
      v &&& (0xFF ^^^ b) = x &&& (0xFF ^^^ b))
      (setReg p BASE_RHYTHM (p.iCurrentRegs BASE_RHYTHM &&& (0xFF ^^^ b))) BASE_RHYTHM
      ((setReg p BASE_RHYTHM (p.iCurrentRegs BASE_RHYTHM &&& (0xFF ^^^ b))).iCurrentRegs
        BASE_RHYTHM ||| b) ⟨hB, e2⟩
    refine ⟨w1.trans w2, ?_⟩
    rw [setReg_iCurrentRegs, hB, setAt_same]
    exact e2
  · have e2 : (p.iCurrentRegs BASE_RHYTHM ||| b) % 256 &&& (0xFF ^^^ b) = x &&& (0xFF ^^^ b) := by
      rw [keep_mask_or _ _ _ hm hb, hx]
    refine ⟨WritesIn.setReg _ _ _ _ ⟨hB, e2⟩, ?_⟩
    rw [setReg_iCurrentRegs, hB, setAt_same]
    exact e2


theorem three_writes (p : Player) (V r1 a r2 b r3 c : Nat) (h1 : r1 % 256 ∈ voiceRegs V)
    (h2 : r2 % 256 ∈ voiceRegs V) (h3 : r3 % 256 ∈ voiceRegs V) :
    WritesIn (InVoice V) p (setReg (setReg (setReg p r1 a) r2 b) r3 c) ∧
      MirrorFrame (· ∈ voiceRegs V) p (setReg (setReg (setReg p r1 a) r2 b) r3 c) :=
  ⟨((WritesIn.setReg (InVoice V) p r1 a h1).trans
      (WritesIn.setReg (InVoice V) _ r2 b h2)).trans (WritesIn.setReg (InVoice V) _ r3 c h3),
   ((MirrorFrame.write (· ∈ voiceRegs V) p r1 a h1).comp
      (MirrorFrame.write (· ∈ voiceRegs V) _ r2 b h2)).comp
      (MirrorFrame.write (· ∈ voiceRegs V) _ r3 c h3)⟩

/-- The percussive note-on writes only registers of its voice and its own bit
of the rhythm register. -/
theorem noteOnPerc_writes (p : Player) (c n v blk f : Nat) (h1 : 11 ≤ c) (h2 : c ≤ 15)
    (hp : p.bPercussive = true) :
    WritesIn (VoiceWrite p (getPercChannel c) c) p (noteOnPerc p c n v blk f) ∧
      (noteOnPerc p c n v blk f).iCurrentRegs BASE_RHYTHM &&& (0xFF ^^^ percBit c) =
        p.iCurrentRegs BASE_RHYTHM &&& (0xFF ^^^ percBit c) := by
  obtain ⟨hm, hb, -, -, hBD, hL, hF, hK⟩ := percBit_facts c h1 h2
  have hperc : c > 10 ∧ p.bPercussive = true := ⟨by omega, hp⟩
  have W1 := mci_voice_perc p (getPercChannel c) c (toU8 (p.chMIDI c).iPatch) hperc
  have F1 := mci_frame_perc p (getPercChannel c) c (toU8 (p.chMIDI c).iPatch) hperc
  simp only [noteOnPerc]
  generalize MIDIchangeInstrument p (getPercChannel c) c (toU8 (p.chMIDI c).iPatch) = p1
    at W1 F1 ⊢
  obtain ⟨W4, F4⟩ := three_writes p1 (getPercChannel c) (percLevelReg c)
    (p1.iCurrentRegs (percLevelReg c) &&& 0xC0 ||| (percLevel v).toNat)
    (BASE_FNUM_L + getPercChannel c) (f &&& 0xFF)
    (BASE_KEYON_FREQ + getPercChannel c) (blk <<< 2 ||| (f >>> 8) &&& 0x03) hL hF hK
  generalize setReg (setReg (setReg p1 (percLevelReg c)
    (p1.iCurrentRegs (percLevelReg c) &&& 0xC0 ||| (percLevel v).toNat))
    (BASE_FNUM_L + getPercChannel c) (f &&& 0xFF))
    (BASE_KEYON_FREQ + getPercChannel c) (blk <<< 2 ||| (f >>> 8) &&& 0x03) = p4 at W4 F4 ⊢
  have hx : p4.iCurrentRegs BASE_RHYTHM = p.iCurrentRegs BASE_RHYTHM := (F1.comp F4) _ hBD
  obtain ⟨W5, E5⟩ := retrigger_writes p4 (percBit c) (p.iCurrentRegs BASE_RHYTHM) hm hb
    (by rw [hx])
  refine ⟨?_, ?_⟩
  · refine WritesIn.congr_right (((W1.trans W4).mono ?_).trans (W5.mono ?_)) (startNote_out _ _ _ _)
    · exact fun r val h => Or.inl h
    · exact fun r val h => Or.inr h
  · rw [startNote_iCurrentRegs]
    exact E5

/-- The percussive note-off of the note that the voice records writes only the
channel's own bit of the rhythm register, and frees the voice. -/
theorem noteOffPerc_writes (q : Player) (c n x : Nat) (h1 : 11 ≤ c) (h2 : c ≤ 15)
    (hn : (q.chOPL (getPercChannel c)).iMIDINote = (n : Int))
    (hx : q.iCurrentRegs BASE_RHYTHM &&& (0xFF ^^^ percBit c) = x &&& (0xFF ^^^ percBit c)) :
    WritesIn (fun r val => r = BASE_RHYTHM ∧
        val &&& (0xFF ^^^ percBit c) = x &&& (0xFF ^^^ percBit c)) q (noteOffPerc q c n) ∧
      (noteOffPerc q c n).chOPL = setAt q.chOPL (getPercChannel c)
        { q.chOPL (getPercChannel c) with iNoteStart := 0 } := by
  obtain ⟨hm, -, hbit, -, -, -, -, -⟩ := percBit_facts c h1 h2
  have hB : BASE_RHYTHM % 256 = BASE_RHYTHM := by decide
  simp only [noteOffPerc, hn, ne_eq, not_true_eq_false, if_false, hbit]
  refine ⟨WritesIn.congr_right (WritesIn.setReg _ q _ _ ⟨hB, ?_⟩) (freeVoice_out _ _), ?_⟩
  · rw [keep_mask_and _ _ hm, hx]
  · simp [hn]


theorem voiceRegs_lo (V : Nat) (hV : V ≤ 8) :
    (BASE_FNUM_L + V) % 256 ∈ voiceRegs V ∧ (BASE_KEYON_FREQ + V) % 256 ∈ voiceRegs V := by
  simp only [voiceRegs, OPLOFFSET, List.mem_cons, List.mem_singleton, BASE_FNUM_L,
    BASE_KEYON_FREQ]
  omega

theorem chooseVoice_le (p : Player) (c : Nat) : chooseVoice p c ≤ 8 := by
  have h := chooseVoice_lt p c
  unfold numChannels at h
  split_ifs at h <;> omega

/-- The melodic note-on writes only registers of the voice it chooses. -/
theorem noteOnMelodic_writes (p : Player) (c n blk f : Nat)
    (hm : ¬ (c > 10 ∧ p.bPercussive = true)) :
    WritesIn (InVoice (chooseVoice p c)) p (noteOnMelodic p c n blk f) := by
  have hV := chooseVoice_le p c
  obtain ⟨hF, hK⟩ := voiceRegs_lo _ hV
  have W1 : WritesIn (InVoice (chooseVoice p c)) p (rebind p (chooseVoice p c) c) := by
    unfold rebind
    split_ifs
    · exact mci_voice_melodic p _ c _ hV hm
    · exact WritesIn.refl _ p
  simp only [noteOnMelodic]
  generalize rebind p (chooseVoice p c) c = p1 at W1 ⊢
  exact (W1.trans ((WritesIn.refl _ p1).congr_right (startNote_out p1 _ _ _))).trans
    ((WritesIn.setReg _ _ _ _ hF).trans (WritesIn.setReg _ _ _ _ hK))

/-- The melodic note-off of a note that voice `V` is the first to record frees
`V` and writes only its key-on register. -/
theorem noteOffMelodic_writes (q : Player) (c n V : Nat) (hV : V ≤ 8)
    (hf : findNote q c n = some V) :
    WritesIn (InVoice V) q (noteOffMelodic q c n) ∧
      (noteOffMelodic q c n).chOPL = setAt q.chOPL V { q.chOPL V with iNoteStart := 0 } := by
  simp only [noteOffMelodic, hf]
  exact ⟨(WritesIn.refl _ (freeVoice q V)).congr_left (freeVoice_out q V) |>.trans
    (WritesIn.setReg _ _ _ _ (voiceRegs_lo V hV).2), by simp⟩


/-- After a melodic note-on, the search of the note-off finds the voice of the
note-on when no lower voice sounds the same pair. -/
theorem findNote_noteOn (p : Player) (c n v : Nat) (hm : ¬ (c > 10 ∧ p.bPercussive = true))
    (hcount : 0 ≤ p.iNoteCount)
    (hlow : ∀ i, i < chooseVoice p c →
      ¬ (sounding p i = true ∧ (p.chOPL i).iMIDIChannel = (c : Int) ∧
        (p.chOPL i).iMIDINote = (n : Int))) :
    findNote (cmfNoteOn p c n v) c n = some (chooseVoice p c) := by
  have hV : noteOnVoice p c = chooseVoice p c := by unfold noteOnVoice; rw [if_neg hm]
  obtain ⟨s1, s2, s3⟩ := noteOn_chOPL_self p c n v
  rw [hV] at s1 s2 s3
  unfold findNote
  rw [List.find?_range_eq_some]
  refine ⟨?_, ?_, ?_⟩
  · simp only [s1, s2, s3, decide_True, Bool.true_and, decide_eq_true_eq]
    omega
  · rw [List.mem_range]
    have h := chooseVoice_lt p c
    simpa [numChannels] using h
  · intro j hj
    have hne : j ≠ noteOnVoice p c := by rw [hV]; omega
    rw [noteOn_chOPL_ne p c n v j hne]
    have := hlow j hj
    simp only [sounding, decide_eq_true_eq] at this
    simp only [Bool.not_eq_true', Bool.and_eq_false_imp, Bool.and_eq_true, decide_eq_true_eq,
      decide_eq_false_iff_not, and_imp, Bool.not_eq_eq_eq_not, Bool.not_true]
    intro a b hs
    exact this ⟨hs, a, b⟩

/-- The tick on the music stream `00 90 3C 7F` after `init` returns `true`. -/
theorem tick_single_noteOn (heap : Nat → SBI) :
    ∃ q, tick zeroU 0 (init heap (playerOf 120 0 [0x00, 0x90, 60, 127])) = .ok (true, q) := by
  have t := tick_status zeroU 0 (init heap (playerOf 120 0 [0x00, 0x90, 60, 127])) [0x00]
    [60, 127] 0x90 (init_playerOf_good heap 120 _) (init_playerOf_rest heap 120 _)
    isVarLen_zero (by decide) (by decide) (fun _ => by rw [init_tps]; decide)
  have hr : ((init heap (playerOf 120 0 [0x00, 0x90, 60, 127])).data.skip 2).rest = [60, 127] :=
    rest_advance _ [0x00, 0x90] [60, 127] (init_playerOf_rest heap 120 _)
  have hg : ((init heap (playerOf 120 0 [0x00, 0x90, 60, 127])).data.skip 2).good = true := by
    rw [skip_good]; exact init_playerOf_good heap 120 _
  rw [tickEvent_noteOn zeroU 0 _ 0x90 60 127 [] (by decide) (by simpa using hg)
    (by simpa using hr) (by decide)] at t
  exact ⟨_, t⟩

/-! ## Block, transpose -/

theorem oplFNum_eq (n : Nat) (pb t : Int) (blk : Nat) :
    oplFNum n pb t blk = fnumOfExponent (freqExponent n pb t blk) := rfl

theorem tdiv_small (t : Int) (h1 : -128 < t) (h2 : t < 128) : Int.tdiv t 128 = 0 := by
  rcases Int.lt_or_le t 0 with h | h
  · have : Int.tdiv (-t) 128 = 0 := Int.tdiv_eq_zero_of_lt (by omega) (by omega)
    have e : t = -(-t) := by omega
    rw [e, Int.neg_tdiv, this]; rfl
  · exact Int.tdiv_eq_zero_of_lt h h2

theorem noteBlock_le (n : Nat) (h : n ≤ 107) : noteBlock n ≤ 7 := by
  unfold noteBlock
  simp only []
  split_ifs <;> omega

theorem noteBlock_high (n : Nat) (h1 : 108 ≤ n) (h2 : n ≤ 127) :
    8 ≤ noteBlock n ∧ noteBlock n ≤ 9 := by
  unfold noteBlock
  simp only []
  split_ifs <;> omega

/-! ## Rhythm mode -/

theorem init_rhythm (heap : Nat → SBI) (p : Player) :
    (init heap p).iCurrentRegs BASE_RHYTHM = 0xC0 := by
  simp [init, setAt, BASE_RHYTHM]

theorem or_0x20_facts (x : Nat) :
    (x ||| 0x20) &&& 0xDF = x &&& 0xDF ∧ (x ||| 0x20) &&& 0x20 = 0x20 ∧
    (x &&& 0xDF) &&& 0xDF = x &&& 0xDF ∧ (x &&& 0xDF) &&& 0x20 = 0 := by
  refine ⟨?_, ?_, ?_, ?_⟩
  · rw [Nat.and_comm, Nat.and_or_distrib_left]
    have : (0xDF &&& 0x20 : Nat) = 0 := by decide
    rw [this, Nat.or_zero, Nat.and_comm]
  · rw [Nat.and_comm, Nat.and_or_distrib_left, Nat.and_self]
    apply Nat.eq_of_testBit_eq
    intro i
    simp only [Nat.testBit_or, Nat.testBit_and]
    cases h : Nat.testBit 0x20 i <;> simp
  · rw [Nat.and_assoc, Nat.and_self]
  · rw [Nat.and_assoc]
    have : (0xDF &&& 0x20 : Nat) = 0 := by decide
    rw [this, Nat.and_zero]

theorem noteOffMelodic_chOPL_high (q : Player) (c n i : Nat) (hi : numChannels q ≤ i) :
    (noteOffMelodic q c n).chOPL i = q.chOPL i := by
  unfold noteOffMelodic
  cases h : findNote q c n with
  | none => rfl
  | some j =>
    have hj : j < numChannels q := by
      unfold findNote at h
      rw [List.find?_range_eq_some] at h
      exact List.mem_range.1 h.2.1
    simp [setAt]
    intro e
    omega

/-! ## Program change and pitch bend -/

theorem nibblesCE (c : Nat) (h : c < 16) :
    (0xC0 ||| c) &&& 0xF0 = 0xC0 ∧ (0xC0 ||| c) &&& 0x0F = c ∧
    (0xE0 ||| c) &&& 0xF0 = 0xE0 ∧ (0xE0 ||| c) &&& 0x0F = c ∧
    128 ≤ (0xC0 ||| c) ∧ (0xC0 ||| c) < 256 ∧ 128 ≤ (0xE0 ||| c) ∧ (0xE0 ||| c) < 256 := by
  interval_cases c <;> decide

theorem tickEvent_programChange (u : Nat → Nat) (fuel : Nat) (p : Player) (c a : Nat)
    (tl : List Nat) (hc : c &&& 0xF0 = 0xC0) (hg : p.data.good = true)
    (hr : p.data.rest = a :: tl) :
    tickEvent u fuel p c =
      .ok (true, setPatch (p.setData (p.data.skip 1)) (c &&& 0x0F) ((a % 256 : Nat) : Int)) := by
  simp [tickEvent, channelEvent, hc, u8_step p.data (u 5 % 256) a tl hg hr]

theorem tickEvent_pitchBend (u : Nat → Nat) (fuel : Nat) (p : Player) (c a b : Nat)
    (tl : List Nat) (hc : c &&& 0xF0 = 0xE0) (hg : p.data.good = true)
    (hr : p.data.rest = a :: b :: tl) :
    tickEvent u fuel p c =
      .ok (true, setPitchbend (p.setData (p.data.skip 2)) (c &&& 0x0F)
        ((((((b % 256) &&& 0x7F) <<< 7) ||| ((a % 256) &&& 0x7F)) % 65536 : Nat) : Int)) := by
  simp [tickEvent, channelEvent, hc, read2_step u p.data a b tl hg hr]

theorem bend_lt (a b : Nat) : ((b &&& 0x7F) <<< 7) ||| (a &&& 0x7F) < 16384 := by
  have h1 : b &&& 0x7F ≤ 0x7F := Nat.and_le_right
  have h2 : a &&& 0x7F ≤ 0x7F := Nat.and_le_right
  have h3 : (b &&& 0x7F) <<< 7 < 2 ^ 14 := by
    rw [Nat.shiftLeft_eq]; omega
  exact Nat.or_lt_two_pow (n := 14) h3 (by omega)

theorem toU8_natCast (x : Nat) (h : x < 256) : toU8 (x : Int) = x := by
  unfold toU8
  have : ((x : Int) % 256) = x := Int.emod_eq_of_lt (by omega) (by omega)
  rw [this]; rfl

/-- After a note-on the voice that took the note carries the patch of its
channel. -/
theorem noteOn_patch (q : Player) (c n v x : Nat) (hx : x < 256)
    (hp : (q.chMIDI c).iPatch = (x : Int)) :
    ((cmfNoteOn q c n v).chOPL (noteOnVoice q c)).iMIDIPatch = (x : Int) := by
  unfold noteOnVoice cmfNoteOn
  split_ifs with h
  · simp [noteOnPerc, setAt, hp, toU8_natCast x hx]
  · simp only [noteOnMelodic, rebind]
    split_ifs with h2
    · simp [setAt, hp, toU8_natCast x hx]
    · simp only [setReg_chOPL, startNote_chOPL, setAt_same]
      rw [← hp]
      exact not_not.1 h2

/-! ## Percussion retrigger -/

theorem player_fileWithFive (u : Nat → Nat) (tps : Nat) (music : List Nat) (ht : tps < 256) :
    player u (fileWithFive tps music) = .ok (playerFive tps music) := by
  have h1 : tps % 256 = tps := Nat.mod_eq_of_lt ht
  simp [player, fileWithFive, headerFive, IStream.ofBytes, IStream.readN, IStream.u16le, IStream.good,
    IStream.skip, playerFive, h1]

theorem ctl_rhythm_lt (p : Player) (ch v : Nat) :
    (MIDIcontroller p ch 0x67 v).iCurrentRegs BASE_RHYTHM < 256 := by
  have hB : BASE_RHYTHM % 256 = BASE_RHYTHM := by decide
  simp only [MIDIcontroller]
  simp only [show (0x67 : Nat) ≠ 0x63 by decide, show (0x67 : Nat) ≠ 0x66 by decide, if_false,
    if_true]
  split_ifs <;> simp only [setReg_iCurrentRegs, hB, setAt_same] <;> exact Nat.mod_lt _ (by decide)

theorem rhythmWrites_append (a b : List Out) :
    rhythmWrites (a ++ b) = rhythmWrites a ++ rhythmWrites b := by
  induction a with
  | nil => rfl
  | cons x t ih =>
    cases x with
    | reg r v =>
      simp only [List.cons_append, rhythmWrites]
      split_ifs <;> simp [ih]
    | delay d => simpa [rhythmWrites] using ih

theorem rhythmWrites_voice (V : Nat) (p q : Player) (h : WritesIn (InVoice V) p q)
    (hV : BASE_RHYTHM ∉ voiceRegs V) : rhythmWrites q.out = rhythmWrites p.out := by
  obtain ⟨w, e, a⟩ := h
  rw [e, rhythmWrites_append]
  suffices hw : rhythmWrites w = [] by rw [hw, List.append_nil]
  clear e
  induction w with
  | nil => rfl
  | cons x t ih =>
    obtain ⟨r, v, hx, hr⟩ := a x (List.mem_cons_self _ _)
    subst hx
    have hne : r ≠ BASE_RHYTHM := fun e => hV (e ▸ hr)
    simp only [rhythmWrites, if_neg hne]
    exact ih (fun o ho => a o (List.mem_cons_of_mem _ ho))

theorem testBit_of_lt_256 (x i : Nat) (hx : x < 256) (hi : 8 ≤ i) : x.testBit i = false :=
  Nat.testBit_lt_two_pow (lt_of_lt_of_le hx (Nat.pow_le_pow_right (n := 2) (by decide) hi))

theorem testBit_255 (i : Nat) (hi : i < 8) : Nat.testBit 0xFF i = true := by
  interval_cases i <;> decide

theorem or_clear_set (x b : Nat) (hx : x < 256) :
    (x &&& (0xFF ^^^ b)) ||| b = x ||| b := by
  apply Nat.eq_of_testBit_eq
  intro i
  simp only [Nat.testBit_or, Nat.testBit_and, Nat.testBit_xor]
  cases hb : b.testBit i
  · by_cases hi : i < 8
    · simp [testBit_255 i hi]
    · simp [testBit_of_lt_256 x i hx (by omega)]
  · simp

theorem or_bit_facts (x b : Nat) (hb : b < 256) :
    (x &&& (0xFF ^^^ b)) &&& b = 0 ∧ (x ||| b) &&& b = b ∧
    (x ||| b) &&& (0xFF ^^^ b) = x &&& (0xFF ^^^ b) := by
  refine ⟨?_, ?_, ?_⟩ <;>
  · apply Nat.eq_of_testBit_eq
    intro i
    simp only [Nat.testBit_or, Nat.testBit_and, Nat.testBit_xor, Nat.zero_testBit]
    by_cases hi : i < 8
    · try simp only [testBit_255 i hi]
      cases b.testBit i <;> cases x.testBit i <;> rfl
    · try simp only [testBit_of_lt_256 b i hb (by omega)]
      cases x.testBit i <;> cases Nat.testBit 0xFF i <;> rfl

/-- The rhythm-register writes of `percRetrigger`, exactly. -/
theorem retrigger_out (p : Player) (b : Nat) (hx : p.iCurrentRegs BASE_RHYTHM < 256)
    (hb : b < 256) :
    (percRetrigger p b).out = p.out ++
      (if p.iCurrentRegs BASE_RHYTHM &&& b ≠ 0 then
        [Out.reg BASE_RHYTHM (p.iCurrentRegs BASE_RHYTHM &&& (0xFF ^^^ b)),
         Out.reg BASE_RHYTHM (p.iCurrentRegs BASE_RHYTHM ||| b)]
      else [Out.reg BASE_RHYTHM (p.iCurrentRegs BASE_RHYTHM ||| b)]) ∧
    (percRetrigger p b).iCurrentRegs BASE_RHYTHM = p.iCurrentRegs BASE_RHYTHM ||| b := by
  have hB : BASE_RHYTHM % 256 = BASE_RHYTHM := by decide
  have l1 : p.iCurrentRegs BASE_RHYTHM &&& (0xFF ^^^ b) < 256 :=
    lt_of_le_of_lt Nat.and_le_left hx
  have l2 : p.iCurrentRegs BASE_RHYTHM ||| b < 256 := Nat.or_lt_two_pow (n := 8) hx hb
  have m1 := Nat.mod_eq_of_lt l1
  have m2 := Nat.mod_eq_of_lt l2
  have e := or_clear_set (p.iCurrentRegs BASE_RHYTHM) b hx
  simp only [percRetrigger]
  split_ifs with h
  · simp only [setReg_out, setReg_iCurrentRegs, hB, setAt_same, m1, e, m2, List.append_assoc,
      List.singleton_append, and_self]
  · simp only [setReg_out, setReg_iCurrentRegs, hB, setAt_same, m2, and_self]


theorem ctl_rhythm_on_init (heap : Nat → SBI) (p : Player) (ch : Nat) :
    (MIDIcontroller (init heap p) ch 0x67 1).iCurrentRegs BASE_RHYTHM = 0xE0 := by
  have hB : BASE_RHYTHM % 256 = BASE_RHYTHM := by decide
  simp only [MIDIcontroller]
  simp only [show (0x67 : Nat) ≠ 0x63 by decide, show (0x67 : Nat) ≠ 0x66 by decide, if_false,
    if_true, show decide ((1 : Nat) ≠ 0) = true by decide, setReg_iCurrentRegs, hB, setAt_same]
  show (((init heap p).iCurrentRegs BASE_RHYTHM) ||| 0x20) % 256 = 0xE0
  rw [init_rhythm]
  decide

/-- The rhythm-register writes of a percussive note-on, exactly. -/
theorem noteOnPerc_rhythm (p : Player) (c n v blk f : Nat) (h1 : 11 ≤ c) (h2 : c ≤ 15)
    (hp : p.bPercussive = true) (hreg : p.iCurrentRegs BASE_RHYTHM < 256) :
    rhythmWrites (noteOnPerc p c n v blk f).out = rhythmWrites p.out ++
      (if p.iCurrentRegs BASE_RHYTHM &&& percBit c ≠ 0 then
        [p.iCurrentRegs BASE_RHYTHM &&& (0xFF ^^^ percBit c),
         p.iCurrentRegs BASE_RHYTHM ||| percBit c]
      else [p.iCurrentRegs BASE_RHYTHM ||| percBit c]) ∧
    (noteOnPerc p c n v blk f).iCurrentRegs BASE_RHYTHM =
      p.iCurrentRegs BASE_RHYTHM ||| percBit c := by
  obtain ⟨-, -, -, -, hBD, hL, hF, hK⟩ := percBit_facts c h1 h2
  have hbit : percBit c < 256 := Nat.mod_lt _ (by decide)
  have hperc : c > 10 ∧ p.bPercussive = true := ⟨by omega, hp⟩
  have W1 := mci_voice_perc p (getPercChannel c) c (toU8 (p.chMIDI c).iPatch) hperc
  have F1 := mci_frame_perc p (getPercChannel c) c (toU8 (p.chMIDI c).iPatch) hperc
  simp only [noteOnPerc]
  generalize MIDIchangeInstrument p (getPercChannel c) c (toU8 (p.chMIDI c).iPatch) = p1
    at W1 F1 ⊢
  obtain ⟨W4, F4⟩ := three_writes p1 (getPercChannel c) (percLevelReg c)
    (p1.iCurrentRegs (percLevelReg c) &&& 0xC0 ||| (percLevel v).toNat)
    (BASE_FNUM_L + getPercChannel c) (f &&& 0xFF)
    (BASE_KEYON_FREQ + getPercChannel c) (blk <<< 2 ||| (f >>> 8) &&& 0x03) hL hF hK
  generalize setReg (setReg (setReg p1 (percLevelReg c)
    (p1.iCurrentRegs (percLevelReg c) &&& 0xC0 ||| (percLevel v).toNat))
    (BASE_FNUM_L + getPercChannel c) (f &&& 0xFF))
    (BASE_KEYON_FREQ + getPercChannel c) (blk <<< 2 ||| (f >>> 8) &&& 0x03) = p4 at W4 F4 ⊢
  have hx : p4.iCurrentRegs BASE_RHYTHM = p.iCurrentRegs BASE_RHYTHM := (F1.comp F4) _ hBD
  have hw : rhythmWrites p4.out = rhythmWrites p.out :=
    rhythmWrites_voice _ p p4 (W1.trans W4) hBD
  obtain ⟨E1, E2⟩ := retrigger_out p4 (percBit c) (by rw [hx]; exact hreg) hbit
  rw [hx] at E1 E2
  refine ⟨?_, by rw [startNote_iCurrentRegs]; exact E2⟩
  rw [startNote_out]
  show rhythmWrites (percRetrigger p4 (percBit c)).out = _
  rw [E1, rhythmWrites_append, hw]
  split_ifs <;> simp [rhythmWrites]

/-! ## Loading the instrument table -/

theorem loadInstruments_succ (k i : Nat) (p : Player) :
    loadInstruments (k + 1) i p = loadInstruments k (i + 1)
      ((p.setData ((readSBI p.data (p.pInstruments i)).2.seekCur 5)).setInstr
        (setAt p.pInstruments i (readSBI p.data (p.pInstruments i)).1)) := rfl

theorem defaultSBI_eq (i : Nat) : defaultSBI i = sbiOfBytes (tableEntry (i % 16)) := by
  have h : i % 16 < 16 := Nat.mod_lt _ (by decide)
  unfold defaultSBI
  generalize i % 16 = k at h
  interval_cases k <;> rfl

/-- The byte that the `k`-th read from `s` delivers. -/
theorem u8_at (s : IStream) (k d : Nat) (hg : s.good = true) (hk : s.pos + k < s.bytes.length) :
    (s.skip k).u8 d = (s.bytes.getD (s.pos + k) 0 % 256, s.skip (k + 1)) := by
  have h1 : (s.skip k).bytes[(s.skip k).pos]? = some (s.bytes.getD (s.pos + k) 0) := by
    simp [IStream.skip, List.getD_eq_getElem?_getD, List.getElem?_eq_getElem hk]
  rw [u8_of_getElem? (s.skip k) d _ (by simpa using hg) h1, skip_skip]

theorem recordBytes_getD (bytes : List Nat) (off i k : Nat) (hk : k < 11)
    (hlen : off + 16 * i + 11 ≤ bytes.length) :
    (recordBytes bytes off i).getD k 0 = bytes.getD (off + 16 * i + k) 0 % 256 := by
  have h1 : off + 16 * i + k < bytes.length := by omega
  simp [recordBytes, List.getD_eq_getElem?_getD, List.getElem?_take, hk,
    List.getElem?_eq_getElem h1]


/-- One record of the instrument block is decoded from its first eleven bytes;
the stream is then behind them. -/
theorem readSBI_step (s : IStream) (old : SBI) (hg : s.good = true)
    (hlen : s.pos + 11 ≤ s.bytes.length) :
    readSBI s old = (sbiOfBytes (recordBytes s.bytes s.pos 0), s.skip 11) := by
  have r : ∀ k, k < 11 → (recordBytes s.bytes s.pos 0).getD k 0 =
      s.bytes.getD (s.pos + k) 0 % 256 := fun k hk => by
    have := recordBytes_getD s.bytes s.pos 0 k hk (by omega)
    simpa using this
  have e0 : ∀ d, s.u8 d = (s.bytes.getD (s.pos + 0) 0 % 256, s.skip 1) :=
    fun d => u8_at s 0 d hg (by omega)
  have e : ∀ k, k + 1 < 11 → ∀ d, (s.skip (k + 1)).u8 d =
      (s.bytes.getD (s.pos + (k + 1)) 0 % 256, s.skip (k + 1 + 1)) :=
    fun k hk d => u8_at s (k + 1) d hg (by omega)
  simp only [readSBI, e0, e 0 (by decide), e 1 (by decide), e 2 (by decide), e 3 (by decide),
    e 4 (by decide), e 5 (by decide), e 6 (by decide), e 7 (by decide), e 8 (by decide),
    e 9 (by decide), sbiOfBytes, r 0 (by decide), r 1 (by decide), r 2 (by decide),
    r 3 (by decide), r 4 (by decide), r 5 (by decide), r 6 (by decide), r 7 (by decide),
    r 8 (by decide), r 9 (by decide), r 10 (by decide)]

theorem seekCur_skip (s : IStream) (k n : Nat) (hg : s.good = true) :
    (s.skip k).seekCur (n : Int) = s.skip (k + n) := by
  have hf := good_failbit s hg
  unfold IStream.seekCur
  have h1 : (s.skip k).failbit = false := hf
  have h2 : ¬ (((s.skip k).pos : Int) + (n : Int) < 0) := by omega
  rw [h1, if_neg (by decide), if_neg h2]
  simp only [IStream.skip]
  congr 1
  all_goals first | omega | exact hf.symm | exact (good_eofbit s hg).symm

/-- The first loop of `init` on a good stream that holds `k` more records. -/
theorem loadInstruments_spec (k i0 : Nat) (p : Player) (hg : p.data.good = true)
    (hlen : p.data.pos + 16 * k ≤ p.data.bytes.length) :
    (loadInstruments k i0 p).data = p.data.skip (16 * k) ∧
    ∀ j, (loadInstruments k i0 p).pInstruments j =
      if i0 ≤ j ∧ j < i0 + k then sbiOfBytes (recordBytes p.data.bytes p.data.pos (j - i0))
      else p.pInstruments j := by
  induction k generalizing i0 p with
  | zero =>
    refine ⟨rfl, fun j => ?_⟩
    have : ¬ (i0 ≤ j ∧ j < i0 + 0) := by omega
    rw [if_neg this]; rfl
  | succ k ih =>
    have hr := readSBI_step p.data (p.pInstruments i0) hg (by omega)
    have hs : (p.data.skip 11).seekCur 5 = p.data.skip 16 := seekCur_skip p.data 11 5 hg
    rw [loadInstruments_succ, hr]
    simp only [hs]
    obtain ⟨d1, d2⟩ := ih (i0 + 1)
      ((p.setData (p.data.skip 16)).setInstr
        (setAt p.pInstruments i0 (sbiOfBytes (recordBytes p.data.bytes p.data.pos 0))))
      (by simpa [Player.setInstr] using hg) (by simp [IStream.skip, Player.setInstr]; omega)
    refine ⟨by rw [d1]; simp [IStream.skip, Player.setInstr]; omega, fun j => ?_⟩
    rw [d2]
    by_cases c1 : i0 + 1 ≤ j ∧ j < i0 + 1 + k
    · have c2 : i0 ≤ j ∧ j < i0 + (k + 1) := by omega
      rw [if_pos c1, if_pos c2]
      have : p.data.pos + 16 + 16 * (j - (i0 + 1)) = p.data.pos + 16 * (j - i0) := by omega
      simp only [recordBytes, Player.setData, Player.setInstr, IStream.skip, this]
    · rw [if_neg c1]
      by_cases c3 : j = i0
      · subst c3
        have c2 : j ≤ j ∧ j < j + (k + 1) := by omega
        rw [if_pos c2]
        simp [setAt, Player.setInstr]
      · have c2 : ¬ (i0 ≤ j ∧ j < i0 + (k + 1)) := by omega
        rw [if_neg c2]
        simp [setAt, c3, Player.setInstr]


/-- The slots below the declared count, after `init`, on a good stream whose
instrument block is complete. -/
theorem init_pInstruments_loaded (heap : Nat → SBI) (p : Player) (j : Nat)
    (hg : p.data.good = true)
    (hlen : p.cmfHeader.iInstrumentBlockOffset + 16 * p.cmfHeader.iNumInstruments ≤
      p.data.bytes.length)
    (hj : j < p.cmfHeader.iNumInstruments) :
    (init heap p).pInstruments j =
      sbiOfBytes (recordBytes p.data.bytes p.cmfHeader.iInstrumentBlockOffset j) := by
  simp only [init, setReg_pInstruments, setData_pInstruments, setPrev_pInstruments,
    presetPercussion_pInstruments, fillDefaults_pInstruments, loadInstruments_cmfHeader,
    setData_cmfHeader]
  rw [if_neg (by omega)]
  have hs := seekBeg_good p.data p.cmfHeader.iInstrumentBlockOffset hg
  rw [(loadInstruments_spec _ _ _ ?_ ?_).2 j]
  · rw [if_pos (by omega)]
    simp [hs]
  · simp only [setData_data, hs]
    simpa [IStream.good] using hg
  · simp only [setData_data, hs]
    exact hlen


theorem init_pInstruments_high (heap : Nat → SBI) (p : Player) (j : Nat)
    (hg : p.data.good = true)
    (hlen : p.cmfHeader.iInstrumentBlockOffset + 16 * p.cmfHeader.iNumInstruments ≤
      p.data.bytes.length)
    (hn : p.cmfHeader.iNumInstruments ≤ 128) (hj : 128 ≤ j) :
    (init heap p).pInstruments j = heap j := by
  simp only [init, setReg_pInstruments, setData_pInstruments, setPrev_pInstruments,
    presetPercussion_pInstruments, fillDefaults_pInstruments, loadInstruments_cmfHeader,
    setData_cmfHeader]
  rw [if_neg (by omega)]
  have hs := seekBeg_good p.data p.cmfHeader.iInstrumentBlockOffset hg
  rw [(loadInstruments_spec _ _ _ ?_ ?_).2 j]
  · rw [if_neg (by omega)]
  · simp only [setData_data, hs]
    simpa [IStream.good] using hg
  · simp only [setData_data, hs]
    exact hlen

theorem recordBytes_length (bytes : List Nat) (off i : Nat)
    (hlen : off + 16 * i + 11 ≤ bytes.length) : (recordBytes bytes off i).length = 11 := by
  simp [recordBytes]
  omega

/-- The first eleven bytes of a record do not depend on the padding bytes. -/
theorem recordBytes_congr (b1 b2 : List Nat) (off i : Nat) (hl : b2.length = b1.length)
    (hlen : off + 16 * i + 11 ≤ b1.length)
    (h : ∀ k, k < off ∨ (k - off) % 16 < 11 → b2.getD k 0 = b1.getD k 0) :
    recordBytes b2 off i = recordBytes b1 off i := by
  have l1 := recordBytes_length b1 off i hlen
  have l2 := recordBytes_length b2 off i (by omega)
  apply List.ext_getElem (by rw [l1, l2])
  intro k h1 h2
  have hk : k < 11 := by omega
  rw [← List.getD_eq_getElem _ 0 h1, ← List.getD_eq_getElem _ 0 h2,
    recordBytes_getD b2 off i k hk (by omega), recordBytes_getD b1 off i k hk hlen,
    h (off + 16 * i + k) (Or.inr (by omega))]

/-! ## The voice search of the melodic note-on -/

/-- The first loop finds the highest free voice with the wanted patch. -/
theorem findFree_match (chOPL : Nat → OPLCHANNEL) (P : Int) (n i : Nat) (acc : Int)
    (hi : i < n) (hf : (chOPL i).iNoteStart = 0) (hm : (chOPL i).iMIDIPatch = P)
    (hmax : ∀ j, i < j → j < n → ¬ ((chOPL j).iNoteStart = 0 ∧ (chOPL j).iMIDIPatch = P)) :
    findFree chOPL P n acc = (i : Int) := by
  induction n generalizing acc with
  | zero => omega
  | succ n ih =>
    simp only [findFree]
    by_cases e : i = n
    · subst e
      rw [if_pos hf, if_pos hm]
    · have hlt : i < n := by omega
      have hn := hmax n hlt (by omega)
      split_ifs with h1 h2
      · exact absurd ⟨h1, h2⟩ hn
      · exact ih _ hlt (fun j a b => hmax j a (by omega))
      · exact ih _ hlt (fun j a b => hmax j a (by omega))

/-- Without a free voice the first loop leaves its accumulator alone. -/
theorem findFree_none (chOPL : Nat → OPLCHANNEL) (P : Int) (n : Nat) (acc : Int)
    (h : ∀ j, j < n → (chOPL j).iNoteStart ≠ 0) : findFree chOPL P n acc = acc := by
  induction n generalizing acc with
  | zero => rfl
  | succ n ih =>
    simp only [findFree]
    rw [if_neg (h n (by omega))]
    exact ih acc (fun j hj => h j (by omega))

/-- Without a free voice of the wanted patch the first loop finds the lowest
free voice. -/
theorem findFree_lowest (chOPL : Nat → OPLCHANNEL) (P : Int) (n i : Nat) (acc : Int)
    (hi : i < n) (hf : (chOPL i).iNoteStart = 0)
    (hlow : ∀ j, j < i → (chOPL j).iNoteStart ≠ 0)
    (hno : ∀ j, j < n → ¬ ((chOPL j).iNoteStart = 0 ∧ (chOPL j).iMIDIPatch = P)) :
    findFree chOPL P n acc = (i : Int) := by
  induction n generalizing acc with
  | zero => omega
  | succ n ih =>
    simp only [findFree]
    by_cases e : i = n
    · subst e
      rw [if_pos hf, if_neg (fun h => hno i (by omega) ⟨hf, h⟩)]
      exact findFree_none chOPL P i _ hlow
    · have hlt : i < n := by omega
      split_ifs with h1 h2
      · exact absurd ⟨h1, h2⟩ (hno n (by omega))
      · exact ih _ hlt (fun j hj => hno j (by omega))
      · exact ih _ hlt (fun j hj => hno j (by omega))

/-- The second loop keeps the earliest voice seen so far, the lowest among
equals. -/
theorem foldl_earliest_spec (chOPL : Nat → OPLCHANNEL) (m k : Nat) (st : Nat × Int)
    (h1 : st.2 = (chOPL st.1).iNoteStart) (h2 : st.1 < k)
    (h3 : ∀ i, i < k → (chOPL st.1).iNoteStart ≤ (chOPL i).iNoteStart)
    (h4 : ∀ i, i < st.1 → (chOPL st.1).iNoteStart < (chOPL i).iNoteStart) :
    ((List.range' k m).foldl (fun (st : Nat × Int) i =>
        if (chOPL i).iNoteStart < st.2 then (i, (chOPL i).iNoteStart) else st) st).1 < k + m ∧
    (∀ i, i < k + m →
      (chOPL ((List.range' k m).foldl (fun (st : Nat × Int) i =>
        if (chOPL i).iNoteStart < st.2 then (i, (chOPL i).iNoteStart) else st) st).1).iNoteStart
        ≤ (chOPL i).iNoteStart) ∧
    (∀ i, i < ((List.range' k m).foldl (fun (st : Nat × Int) i =>
        if (chOPL i).iNoteStart < st.2 then (i, (chOPL i).iNoteStart) else st) st).1 →
      (chOPL ((List.range' k m).foldl (fun (st : Nat × Int) i =>
        if (chOPL i).iNoteStart < st.2 then (i, (chOPL i).iNoteStart) else st) st).1).iNoteStart
        < (chOPL i).iNoteStart) := by
  induction m generalizing k st with
  | zero => exact ⟨by simpa using h2, by simpa using h3, by simpa using h4⟩
  | succ m ih =>
    rw [List.range'_succ, List.foldl_cons]
    have e : k + (m + 1) = (k + 1) + m := by omega
    rw [e]
    by_cases c : (chOPL k).iNoteStart < st.2
    · rw [if_pos c]
      rw [h1] at c
      apply ih (k + 1) (k, (chOPL k).iNoteStart) rfl (by simp)
      · intro i hi
        by_cases e2 : i = k
        · subst e2; exact le_refl _
        · exact le_of_lt (lt_of_lt_of_le c (h3 i (by omega)))
      · intro i hi
        exact lt_of_lt_of_le c (h3 i hi)
    · rw [if_neg c]
      rw [h1] at c
      apply ih (k + 1) st h1 (by omega)
      · intro i hi
        by_cases e2 : i = k
        · subst e2; exact not_lt.1 c
        · exact h3 i (by omega)
      · exact h4

theorem findEarliest_spec (chOPL : Nat → OPLCHANNEL) (n : Nat) (hn : 0 < n) :
    findEarliest chOPL n < n ∧
    (∀ i, i < n → (chOPL (findEarliest chOPL n)).iNoteStart ≤ (chOPL i).iNoteStart) ∧
    (∀ i, i < findEarliest chOPL n →
      (chOPL (findEarliest chOPL n)).iNoteStart < (chOPL i).iNoteStart) := by
  have h := foldl_earliest_spec chOPL (n - 1) 1 (0, (chOPL 0).iNoteStart) rfl (by simp)
    (fun i hi => by have : i = 0 := by omega
                    subst this; exact le_refl _)
    (fun i hi => by simp at hi)
  have e : 1 + (n - 1) = n := by omega
  rw [e] at h
  exact h


theorem chooseVoice_of_findFree (p : Player) (c m : Nat)
    (h : findFree p.chOPL (p.chMIDI c).iPatch (numChannels p) (-1) = (m : Int)) :
    chooseVoice p c = m := by
  unfold chooseVoice
  simp only [h]
  rw [if_neg (by omega)]
  rfl

/-! ## Register writes of `writeInstrumentSettings` -/

/-- The six register writes of `writeInstrumentSettings`, exactly. -/
theorem wis_out (p : Player) (ch src dst ins : Nat) :
    (writeInstrumentSettings p ch src dst ins).out = p.out ++
      [Out.reg ((BASE_CHAR_MULT + (if dst ≠ 0 then (OPLOFFSET ch % 256 + 3) % 256
          else OPLOFFSET ch % 256)) % 256) (((p.pInstruments ins).op src).iCharMult % 256),
       Out.reg ((BASE_SCAL_LEVL + (if dst ≠ 0 then (OPLOFFSET ch % 256 + 3) % 256
          else OPLOFFSET ch % 256)) % 256) (((p.pInstruments ins).op src).iScalingOutput % 256),
       Out.reg ((BASE_ATCK_DCAY + (if dst ≠ 0 then (OPLOFFSET ch % 256 + 3) % 256
          else OPLOFFSET ch % 256)) % 256) (((p.pInstruments ins).op src).iAttackDecay % 256),
       Out.reg ((BASE_SUST_RLSE + (if dst ≠ 0 then (OPLOFFSET ch % 256 + 3) % 256
          else OPLOFFSET ch % 256)) % 256) (((p.pInstruments ins).op src).iSustainRelease % 256),
       Out.reg ((BASE_WAVE + (if dst ≠ 0 then (OPLOFFSET ch % 256 + 3) % 256
          else OPLOFFSET ch % 256)) % 256) (((p.pInstruments ins).op src).iWaveSel % 256),
       Out.reg ((BASE_FEED_CONN + ch) % 256) ((p.pInstruments ins).iConnection % 256)] := by
  simp [writeInstrumentSettings]

/-! ## Register writes of the melodic note-on -/

theorem noteBlock_le_20 (n : Nat) (h : n < 256) : noteBlock n ≤ 20 := by
  unfold noteBlock
  simp only []
  split_ifs <;> omega

theorem fnum_high_bits (f : Nat) : (f &&& 0x300) >>> 8 = (f >>> 8) &&& 3 := by
  apply Nat.eq_of_testBit_eq
  intro j
  have h : Nat.testBit 0x300 (8 + j) = Nat.testBit 3 j := by
    rw [← Nat.testBit_shiftRight]; rfl
  simp only [Nat.testBit_shiftRight, Nat.testBit_and, h]

theorem keyon_value (blk f : Nat) (hb : blk ≤ 20) :
    (OPLBIT_KEYON ||| (blk <<< 2) ||| ((f &&& 0x300) >>> 8)) % 256 =
      0x20 ||| (blk <<< 2) ||| ((f >>> 8) &&& 3) := by
  rw [fnum_high_bits]
  have h1 : blk <<< 2 < 2 ^ 8 := by rw [Nat.shiftLeft_eq]; omega
  have h2 : (f >>> 8) &&& 3 < 2 ^ 8 := lt_of_le_of_lt Nat.and_le_right (by decide)
  exact Nat.mod_eq_of_lt (Nat.or_lt_two_pow (Nat.or_lt_two_pow (by decide) h1) h2)

theorem low_byte (f : Nat) : (f &&& 0xFF) % 256 = f &&& 0xFF :=
  Nat.mod_eq_of_lt (lt_of_le_of_lt Nat.and_le_right (by decide))

/-- The register writes of the melodic note-on behind the instrument check. -/
theorem noteOnMelodic_out (p : Player) (c n blk f : Nat) (hb : blk ≤ 20) :
    (noteOnMelodic p c n blk f).out = (rebind p (chooseVoice p c) c).out ++
      [Out.reg (0xA0 + chooseVoice p c) (f &&& 0xFF),
       Out.reg (0xB0 + chooseVoice p c) (0x20 ||| (blk <<< 2) ||| ((f >>> 8) &&& 3))] := by
  have hV := chooseVoice_le p c
  have r1 : (BASE_FNUM_L + chooseVoice p c) % 256 = 0xA0 + chooseVoice p c := by
    simp only [BASE_FNUM_L]; omega
  have r2 : (BASE_KEYON_FREQ + chooseVoice p c) % 256 = 0xB0 + chooseVoice p c := by
    simp only [BASE_KEYON_FREQ]; omega
  simp only [noteOnMelodic, setReg_out, startNote_out, r1, r2, low_byte, keyon_value blk f hb,
    List.append_assoc, List.singleton_append]

theorem mci_out_length (p : Player) (v c k : Nat) (hm : ¬ (c > 10 ∧ p.bPercussive = true)) :
    ∃ b : List Out, b.length = 12 ∧ (MIDIchangeInstrument p v c k).out = p.out ++ b := by
  simp only [MIDIchangeInstrument, if_neg hm, setOPLPatch_out, wis_out, List.append_assoc]
  exact ⟨_, by simp, rfl⟩

/-! ## Register writes of an instrument change -/

/-- The twelve register writes of a melodic instrument change, exactly. -/
theorem mci_out_melodic (p : Player) (v c k : Nat) (hv : v ≤ 8)
    (hm : ¬ (c > 10 ∧ p.bPercussive = true)) (hb : (p.pInstruments k).isBytes) :
    (MIDIchangeInstrument p v c k).out = p.out ++ bindingWrites (p.pInstruments k) v := by
  obtain ⟨⟨a1, a2, a3, a4, a5⟩, ⟨b1, b2, b3, b4, b5⟩, hc⟩ := hb
  have e0 : (p.pInstruments k).op 0 = (p.pInstruments k).op0 := rfl
  have e1 : (p.pInstruments k).op 1 = (p.pInstruments k).op1 := rfl
  simp only [MIDIchangeInstrument, if_neg hm, setOPLPatch_out, wis_out, wis_pInstruments,
    List.append_assoc, e0, e1, Nat.mod_eq_of_lt a1,
    Nat.mod_eq_of_lt a2, Nat.mod_eq_of_lt a3, Nat.mod_eq_of_lt a4, Nat.mod_eq_of_lt a5,
    Nat.mod_eq_of_lt b1, Nat.mod_eq_of_lt b2, Nat.mod_eq_of_lt b3, Nat.mod_eq_of_lt b4,
    Nat.mod_eq_of_lt b5, Nat.mod_eq_of_lt hc]
  interval_cases v <;>
    simp [bindingWrites, specOffset, OPLOFFSET, BASE_CHAR_MULT, BASE_SCAL_LEVL, BASE_ATCK_DCAY,
      BASE_SUST_RLSE, BASE_WAVE, BASE_FEED_CONN]

theorem bindingWrites_voice (t : SBI) (v : Nat) :
    ∀ o ∈ bindingWrites t v, ∃ r val, o = Out.reg r val ∧ r ∈ voiceRegs v := by
  intro o ho
  simp only [bindingWrites, List.mem_cons, List.mem_singleton, List.not_mem_nil, or_false] at ho
  rcases ho with h | h | h | h | h | h | h | h | h | h | h | h <;>
    exact ⟨_, _, h, by simp [voiceRegs, specOffset, OPLOFFSET]⟩

theorem voiceRegs_disjoint (v w : Nat) (hv : v ≤ 8) (hw : w ≤ 8) (hne : v ≠ w) :
    ∀ r ∈ voiceRegs v, r ∉ voiceRegs w := by
  intro r hr hr2
  simp only [voiceRegs, OPLOFFSET, List.mem_cons, List.mem_singleton, List.not_mem_nil,
    or_false] at hr hr2
  omega

theorem specOffset_injective (v w a b : Nat) (hv : v ≤ 8) (hw : w ≤ 8)
    (ha : a = 0 ∨ a = 3) (hb : b = 0 ∨ b = 3)
    (h : specOffset v + a = specOffset w + b) : v = w ∧ a = b := by
  unfold specOffset at h
  omega


theorem playerFive_slot_zero :
    (init zeroHeap (playerFive 120 [])).pInstruments 0 =
      ⟨⟨0x01, 0x4F, 0xF1, 0x53, 0x00⟩, ⟨0x11, 0x00, 0xD2, 0x74, 0x00⟩, 0x06⟩ :=
  init_pInstruments_loaded zeroHeap (playerFive 120 []) 0 rfl (by decide) (by decide)

/-! ## The register mirror holds bytes; the melodic note-off -/

theorem mirrorBytes_of_eq {p q : Player} (h : MirrorBytes p)
    (e : q.iCurrentRegs = p.iCurrentRegs) : MirrorBytes q := fun r => by rw [e]; exact h r

theorem mirrorBytes_setReg {p : Player} (h : MirrorBytes p) (a b : Nat) :
    MirrorBytes (setReg p a b) := by
  intro r
  simp only [setReg_iCurrentRegs, setAt]
  split_ifs
  · exact Nat.mod_lt _ (by decide)
  · exact h r

theorem mirrorBytes_wis {p : Player} (h : MirrorBytes p) (a b c d : Nat) :
    MirrorBytes (writeInstrumentSettings p a b c d) := by
  unfold writeInstrumentSettings
  simp only []
  exact mirrorBytes_setReg (mirrorBytes_setReg (mirrorBytes_setReg (mirrorBytes_setReg
    (mirrorBytes_setReg (mirrorBytes_setReg h _ _) _ _) _ _) _ _) _ _) _ _

theorem mirrorBytes_mci {p : Player} (h : MirrorBytes p) (a b c : Nat) :
    MirrorBytes (MIDIchangeInstrument p a b c) := by
  simp only [MIDIchangeInstrument]
  split_ifs with h0 h1 h2 h3 h4 h5
  · exact mirrorBytes_of_eq (mirrorBytes_wis (mirrorBytes_wis h 6 0 0 c) 6 1 1 c)
      (setOPLPatch_iCurrentRegs _ _ _)
  · exact mirrorBytes_of_eq (mirrorBytes_wis h 7 0 1 c) (setOPLPatch_iCurrentRegs _ _ _)
  · exact mirrorBytes_of_eq (mirrorBytes_wis h 8 0 0 c) (setOPLPatch_iCurrentRegs _ _ _)
  · exact mirrorBytes_of_eq (mirrorBytes_wis h 8 0 1 c) (setOPLPatch_iCurrentRegs _ _ _)
  · exact mirrorBytes_of_eq (mirrorBytes_wis h 7 0 0 c) (setOPLPatch_iCurrentRegs _ _ _)
  · exact mirrorBytes_of_eq h (setOPLPatch_iCurrentRegs _ _ _)
  · exact mirrorBytes_of_eq (mirrorBytes_wis (mirrorBytes_wis h a 0 0 c) a 1 1 c)
      (setOPLPatch_iCurrentRegs _ _ _)

theorem mirrorBytes_preset {p : Player} (h : MirrorBytes p) (n : Nat) (i : Int) (j : Nat) :
    MirrorBytes (presetPercussion n i j p) := by
  induction n generalizing i j p with
  | zero => exact h
  | succ n ih =>
    simp only [presetPercussion]
    exact ih (mirrorBytes_mci (p := setPatch p j i)
      (mirrorBytes_of_eq h (setPatch_iCurrentRegs p j i)) (getPercChannel j) j (toU8 i))
      (i + 1) (j + 1)

theorem setAt_lt (f : Nat → Nat) (a b r : Nat) (hb : b < 256) (hf : f r < 256) :
    setAt f a b r < 256 := by
  unfold setAt
  split_ifs
  · exact hb
  · exact hf

theorem mirrorBytes_init {p : Player} (h : MirrorBytes p) (heap : Nat → SBI) :
    MirrorBytes (init heap p) := by
  intro r
  simp only [init, setPrev_iCurrentRegs, setReg_iCurrentRegs, setData_iCurrentRegs]
  iterate 9 apply setAt_lt _ _ _ _ (Nat.mod_lt _ (by decide))
  apply mirrorBytes_preset
  intro r
  simp only [fillDefaults_iCurrentRegs, loadInstruments_iCurrentRegs, setData_iCurrentRegs]
  exact h r

theorem mirrorBytes_mkPlayer (s : IStream) (hdr : CMFHEADER) : MirrorBytes (mkPlayer s hdr) :=
  fun _ => by simp [mkPlayer]

theorem findNote_some (p : Player) (c n v : Nat) (hv : v < numChannels p)
    (hs : soundsNote p c n v) (hlow : ∀ j, j < v → ¬ soundsNote p c n j) :
    findNote p c n = some v := by
  unfold findNote
  rw [List.find?_range_eq_some]
  obtain ⟨a, b, d⟩ := hs
  refine ⟨by simp [a, b, d], List.mem_range.2 hv, fun j hj => ?_⟩
  have := hlow j hj
  simp only [soundsNote] at this
  simp only [Bool.not_eq_true', Bool.and_eq_false_imp, Bool.and_eq_true, decide_eq_true_eq,
    decide_eq_false_iff_not, and_imp, Bool.not_eq_eq_eq_not, Bool.not_true]
  intro x y z
  exact this ⟨x, y, z⟩

theorem findNote_none (p : Player) (c n : Nat)
    (h : ∀ i, i < numChannels p → ¬ soundsNote p c n i) : findNote p c n = none := by
  unfold findNote
  rw [List.find?_range_eq_none]
  intro i hi
  have := h i hi
  simp only [soundsNote] at this
  simp only [Bool.not_eq_true', Bool.and_eq_false_imp, Bool.and_eq_true, decide_eq_true_eq,
    decide_eq_false_iff_not, and_imp, Bool.not_eq_eq_eq_not, Bool.not_true]
  intro x y z
  exact this ⟨x, y, z⟩

/-- The melodic note-off with its search resolved. -/
theorem noteOffMelodic_found (p : Player) (c n v : Nat) (hv : v ≤ 8)
    (hf : findNote p c n = some v) (hreg : p.iCurrentRegs (0xB0 + v) < 256) :
    (noteOffMelodic p c n).out =
      p.out ++ [Out.reg (0xB0 + v) (p.iCurrentRegs (0xB0 + v) &&& 0xDF)] ∧
    (noteOffMelodic p c n).iCurrentRegs =
      setAt p.iCurrentRegs (0xB0 + v) (p.iCurrentRegs (0xB0 + v) &&& 0xDF) ∧
    (noteOffMelodic p c n).chOPL = (freeVoice p v).chOPL := by
  have r : (BASE_KEYON_FREQ + v) % 256 = 0xB0 + v := by simp only [BASE_KEYON_FREQ]; omega
  have r2 : BASE_KEYON_FREQ + v = 0xB0 + v := rfl
  have m : (p.iCurrentRegs (0xB0 + v) &&& (0xFF ^^^ OPLBIT_KEYON)) % 256 =
      p.iCurrentRegs (0xB0 + v) &&& 0xDF :=
    Nat.mod_eq_of_lt (lt_of_le_of_lt Nat.and_le_left hreg)
  have r3 : (0xB0 + v) % 256 = 0xB0 + v := by omega
  simp only [noteOffMelodic, hf, setReg_out, setReg_iCurrentRegs, setReg_chOPL, freeVoice_out,
    freeVoice_iCurrentRegs, r, r2, r3, m, and_self]

theorem perc_value (blk f : Nat) (hb : blk ≤ 20) :
    ((blk <<< 2) ||| ((f >>> 8) &&& 0x03)) % 256 = (blk <<< 2) ||| ((f >>> 8) &&& 3) := by
  have h1 : blk <<< 2 < 2 ^ 8 := by rw [Nat.shiftLeft_eq]; omega
  have h2 : (f >>> 8) &&& 3 < 2 ^ 8 := lt_of_le_of_lt Nat.and_le_right (by decide)
  exact Nat.mod_eq_of_lt (Nat.or_lt_two_pow h1 h2)

theorem perc_value_no_keyon (blk f : Nat) (hb : blk ≤ 7) :
    ((blk <<< 2) ||| ((f >>> 8) &&& 3)) &&& 0x20 = 0 := by
  have h1 : blk <<< 2 < 2 ^ 5 := by rw [Nat.shiftLeft_eq]; omega
  have h2 : (f >>> 8) &&& 3 < 2 ^ 5 := lt_of_le_of_lt Nat.and_le_right (by decide)
  have h3 := Nat.or_lt_two_pow h1 h2
  have h4 := and_two_pow_eq ((blk <<< 2) ||| ((f >>> 8) &&& 3)) 5
  rw [Nat.testBit_lt_two_pow h3] at h4
  simpa using h4

theorem retrigger_exists (p : Player) (b : Nat) :
    ∃ w2 : List Out, (percRetrigger p b).out = p.out ++ w2 ∧
      ∀ o ∈ w2, ∃ val, o = Out.reg BASE_RHYTHM val := by
  have hB : BASE_RHYTHM % 256 = BASE_RHYTHM := by decide
  simp only [percRetrigger]
  split_ifs
  · refine ⟨[Out.reg BASE_RHYTHM ((p.iCurrentRegs BASE_RHYTHM &&& (0xFF ^^^ b)) % 256),
      Out.reg BASE_RHYTHM (((setReg p BASE_RHYTHM
        (p.iCurrentRegs BASE_RHYTHM &&& (0xFF ^^^ b))).iCurrentRegs BASE_RHYTHM ||| b) % 256)],
      ?_, ?_⟩
    · simp only [setReg_out, hB, List.append_assoc, List.singleton_append]
    · intro o ho
      simp only [List.mem_cons, List.mem_singleton, List.not_mem_nil, or_false] at ho
      rcases ho with h | h <;> exact ⟨_, h⟩
  · refine ⟨[Out.reg BASE_RHYTHM ((p.iCurrentRegs BASE_RHYTHM ||| b) % 256)], ?_, ?_⟩
    · simp only [setReg_out, hB]
    · intro o ho
      simp only [List.mem_singleton] at ho
      exact ⟨_, ho⟩

/-- The register writes of the percussive note-on, in order: the instrument
change, the level, the two frequency registers, the rhythm register. -/
theorem noteOnPerc_out (p : Player) (c n v blk f : Nat) (h1 : 11 ≤ c) (h2 : c ≤ 15)
    (hb : blk ≤ 20) :
    ∃ w2 : List Out,
      (noteOnPerc p c n v blk f).out =
        (MIDIchangeInstrument p (getPercChannel c) c (toU8 (p.chMIDI c).iPatch)).out ++
          [Out.reg (percLevelReg c)
             ((((MIDIchangeInstrument p (getPercChannel c) c
                (toU8 (p.chMIDI c).iPatch)).iCurrentRegs (percLevelReg c) &&& 0xC0) |||
               (percLevel v).toNat) % 256),
           Out.reg (0xA0 + getPercChannel c) (f &&& 0xFF),
           Out.reg (0xB0 + getPercChannel c) ((blk <<< 2) ||| ((f >>> 8) &&& 3))] ++ w2 ∧
      (∀ o ∈ w2, ∃ val, o = Out.reg BASE_RHYTHM val) := by
  have r0 : percLevelReg c % 256 = percLevelReg c := by interval_cases c <;> decide
  have r1 : (BASE_FNUM_L + getPercChannel c) % 256 = 0xA0 + getPercChannel c := by
    interval_cases c <;> decide
  have r2 : (BASE_KEYON_FREQ + getPercChannel c) % 256 = 0xB0 + getPercChannel c := by
    interval_cases c <;> decide
  simp only [noteOnPerc, startNote_out]
  generalize MIDIchangeInstrument p (getPercChannel c) c (toU8 (p.chMIDI c).iPatch) = p1
  obtain ⟨w2, e, hw⟩ := retrigger_exists
    (setReg (setReg (setReg p1 (percLevelReg c)
      (p1.iCurrentRegs (percLevelReg c) &&& 0xC0 ||| (percLevel v).toNat))
      (BASE_FNUM_L + getPercChannel c) (f &&& 0xFF))
      (BASE_KEYON_FREQ + getPercChannel c) (blk <<< 2 ||| (f >>> 8) &&& 0x03))
    ((1 <<< (15 - c)) % 256)
  refine ⟨w2, ?_, hw⟩
  rw [e]
  simp only [setReg_out, r0, r1, r2, low_byte, perc_value blk f hb, List.append_assoc,
    List.singleton_append, List.cons_append, List.nil_append]

theorem percVoice_eq (c : Nat) (h1 : 11 ≤ c) (h2 : c ≤ 15) :
    getPercChannel c = specPercVoice c := by
  interval_cases c <;> decide

/-- Six register writes of `writeInstrumentSettings`, each in a set `R` that
holds its six registers. -/
theorem wis_where (R : Nat → Prop) (p : Player) (ch src dst ins : Nat)
    (h1 : R ((BASE_CHAR_MULT + (if dst ≠ 0 then (OPLOFFSET ch % 256 + 3) % 256
      else OPLOFFSET ch % 256)) % 256))
    (h2 : R ((BASE_SCAL_LEVL + (if dst ≠ 0 then (OPLOFFSET ch % 256 + 3) % 256
      else OPLOFFSET ch % 256)) % 256))
    (h3 : R ((BASE_ATCK_DCAY + (if dst ≠ 0 then (OPLOFFSET ch % 256 + 3) % 256
      else OPLOFFSET ch % 256)) % 256))
    (h4 : R ((BASE_SUST_RLSE + (if dst ≠ 0 then (OPLOFFSET ch % 256 + 3) % 256
      else OPLOFFSET ch % 256)) % 256))
    (h5 : R ((BASE_WAVE + (if dst ≠ 0 then (OPLOFFSET ch % 256 + 3) % 256
      else OPLOFFSET ch % 256)) % 256))
    (h6 : R ((BASE_FEED_CONN + ch) % 256)) :
    WritesIn (fun r _ => R r) p (writeInstrumentSettings p ch src dst ins) := by
  unfold writeInstrumentSettings
  simp only []
  exact (((((WritesIn.setReg _ _ _ _ h1).trans (WritesIn.setReg _ _ _ _ h2)).trans
    (WritesIn.setReg _ _ _ _ h3)).trans (WritesIn.setReg _ _ _ _ h4)).trans
    (WritesIn.setReg _ _ _ _ h5)).trans (WritesIn.setReg _ _ _ _ h6)

/-- The instrument change of a percussion channel in rhythm mode writes no
timbre register outside the drum's own operator slots. -/
theorem mci_own_timbre (p : Player) (a c k : Nat) (h1 : 11 ≤ c) (h2 : c ≤ 15)
    (hp : p.bPercussive = true) :
    WritesIn (OwnTimbre c) p (MIDIchangeInstrument p a c k) := by
  have hm : c > 10 ∧ p.bPercussive = true := ⟨by omega, hp⟩
  simp only [MIDIchangeInstrument, if_pos hm]
  interval_cases c
  · exact ((wis_where (fun r => OwnTimbre 11 r 0) p 6 0 0 k (by decide) (by decide) (by decide)
      (by decide) (by decide) (by decide)).trans
      (wis_where (fun r => OwnTimbre 11 r 0) _ 6 1 1 k (by decide) (by decide) (by decide)
      (by decide) (by decide) (by decide))).congr_right (setOPLPatch_out _ _ _)
  · exact (wis_where (fun r => OwnTimbre 12 r 0) p 7 0 1 k (by decide) (by decide) (by decide)
      (by decide) (by decide) (by decide)).congr_right (setOPLPatch_out _ _ _)
  · exact (wis_where (fun r => OwnTimbre 13 r 0) p 8 0 0 k (by decide) (by decide) (by decide)
      (by decide) (by decide) (by decide)).congr_right (setOPLPatch_out _ _ _)
  · exact (wis_where (fun r => OwnTimbre 14 r 0) p 8 0 1 k (by decide) (by decide) (by decide)
      (by decide) (by decide) (by decide)).congr_right (setOPLPatch_out _ _ _)
  · exact (wis_where (fun r => OwnTimbre 15 r 0) p 7 0 0 k (by decide) (by decide) (by decide)
      (by decide) (by decide) (by decide)).congr_right (setOPLPatch_out _ _ _)

/-- Bits of the value that the percussive note-off writes to the rhythm
register. -/
theorem clear_bit_testBit (m k i : Nat) (hm : m < 256) (hk : k < 8) :
    ((m &&& (0xFF ^^^ (1 <<< k))) % 256).testBit i = (decide (i ≠ k) && m.testBit i) := by
  have h0 : m &&& (0xFF ^^^ (1 <<< k)) < 256 := lt_of_le_of_lt Nat.and_le_left hm
  rw [Nat.mod_eq_of_lt h0, Nat.testBit_and, Nat.testBit_xor, Nat.shiftLeft_eq, Nat.one_mul,
    Nat.testBit_two_pow]
  by_cases hi : i < 8
  · rw [testBit_255 i hi]
    by_cases hik : i = k
    · subst hik; simp
    · have : ¬ k = i := fun h => hik h.symm
      simp [hik, this]
  · rw [testBit_of_lt_256 m i hm (by omega)]
    simp

theorem noteOffPerc_ne (p : Player) (c n : Nat)
    (h : (p.chOPL (getPercChannel c)).iMIDINote ≠ (n : Int)) : noteOffPerc p c n = p := by
  simp only [noteOffPerc, if_pos h]

theorem noteOffPerc_eq (p : Player) (c n : Nat)
    (h : (p.chOPL (getPercChannel c)).iMIDINote = (n : Int)) :
    noteOffPerc p c n = freeVoice (setReg p BASE_RHYTHM
      (p.iCurrentRegs BASE_RHYTHM &&& (0xFF ^^^ (1 <<< (15 - c))))) (getPercChannel c) := by
  simp only [noteOffPerc, h, ne_eq, not_true_eq_false, if_false]

/-! Traces of a snare note-on and of a cymbal note-on in rhythm mode. -/

set_option maxRecDepth 100000 in
theorem snare_before :
    (playFile zeroHeap (fileWithFive 120 [0x00, 0xB0, 0x67, 0x01, 0x00, 0x9C, 38, 100]) 1).map
      (fun q => (q.bPercussive, q.iCurrentRegs 0x51)) = some (true, 135) := by decide!

set_option maxRecDepth 100000 in
theorem snare_after :
    (playFile zeroHeap (fileWithFive 120 [0x00, 0xB0, 0x67, 0x01, 0x00, 0x9C, 38, 100]) 2).map
      (fun q => (q.iCurrentRegs 0x51, q.out.drop 46)) =
        some (128, [Out.reg 0x34 7, Out.reg 0x54 79, Out.reg 0x74 242, Out.reg 0x94 96,
          Out.reg 0xF4 0, Out.reg 0xC7 8, Out.reg 0x51 128, Out.reg 0xA7 129, Out.reg 0xB7 9,
          Out.reg 0xBD 232]) := by decide!

set_option maxRecDepth 100000 in
theorem cymbal_before :
    (playFile zeroHeap (fileWithFive 120 [0x00, 0xB0, 0x67, 0x01, 0x00, 0x9E, 49, 100]) 1).map
      (fun q => (q.bPercussive, q.iCurrentRegs 0x52)) = some (true, 28) := by decide!

set_option maxRecDepth 100000 in
theorem cymbal_after :
    (playFile zeroHeap (fileWithFive 120 [0x00, 0xB0, 0x67, 0x01, 0x00, 0x9E, 49, 100]) 2).map
      (fun q => (q.iCurrentRegs 0x52, q.out.drop 46)) =
        some (0, [Out.reg 0x35 49, Out.reg 0x55 28, Out.reg 0x75 65, Out.reg 0x95 11,
          Out.reg 0xF5 0, Out.reg 0xC8 14, Out.reg 0x52 0, Out.reg 0xA8 107, Out.reg 0xB8 13,
          Out.reg 0xBD 226]) := by decide!

set_option maxRecDepth 100000 in
theorem bass_drum_state :
    (playFile zeroHeap (fileWithFive 120 [0x00, 0xB0, 0x67, 0x01, 0x00, 0x9B, 36, 127]) 2).map
      (fun q => (q.bPercussive, q.iCurrentRegs 0xBD, (q.chOPL 6).iMIDINote)) =
        some (true, 0xF0, 36) := by decide!

/-! ## The integer root and the frequency formula -/

/-- The binary search keeps the root between `r` and `r + 2 ^ b`. -/
theorem irootAux_spec (q N : Nat) (hq : 0 < q) : ∀ (b r : Nat), r ^ q ≤ N →
    N < (r + 2 ^ b) ^ q → (irootAux q N b r) ^ q ≤ N ∧ N < (irootAux q N b r + 1) ^ q
  | 0, r, h1, h2 => by
    rw [irootAux]
    exact ⟨h1, by simpa using h2⟩
  | b + 1, r, h1, h2 => by
    rw [irootAux]
    split_ifs with h
    · apply irootAux_spec q N hq b _ h
      have e : r + 2 ^ b + 2 ^ b = r + 2 ^ (b + 1) := by rw [pow_succ]; ring
      rw [e]
      exact h2
    · exact irootAux_spec q N hq b r h1 (not_le.1 h)

/-- `iroot q N bits` is the integer `q`-th root of `N` when `N` is below
`(2 ^ bits) ^ q`. -/
theorem iroot_spec (q N bits : Nat) (hq : 0 < q) (hN : N < (2 ^ bits) ^ q) :
    (iroot q N bits) ^ q ≤ N ∧ N < (iroot q N bits + 1) ^ q := by
  unfold iroot
  apply irootAux_spec q N hq bits 0
  · rw [zero_pow hq.ne']
    exact Nat.zero_le _
  · simpa using hN

theorem iroot_lt (q N bits : Nat) (hq : 0 < q) (hN : N < (2 ^ bits) ^ q) :
    iroot q N bits < 2 ^ bits := by
  have h := (iroot_spec q N bits hq hN).1
  exact lt_of_pow_lt_pow_left₀ q (Nat.zero_le _) (lt_of_le_of_lt h hN)

/-- The search range of `oplFNum` is wide enough. -/
theorem root_bound (a q : Nat) (hq : 0 < q) : 2 ^ a * 11 ^ q < (2 ^ (a / q + 5)) ^ q := by
  have h1 : a < q * (a / q + 1) := Nat.lt_mul_div_succ a hq
  have h2 : 2 ^ a < 2 ^ (q * (a / q + 1)) := Nat.pow_lt_pow_right (by norm_num) h1
  have h3 : 11 ^ q < 16 ^ q := Nat.pow_lt_pow_left (by norm_num) hq.ne'
  calc 2 ^ a * 11 ^ q < 2 ^ (q * (a / q + 1)) * 16 ^ q := Nat.mul_lt_mul'' h2 h3
    _ = (2 ^ (a / q + 5)) ^ q := by
      rw [show (16 : Nat) = 2 ^ 4 by norm_num, ← pow_mul, ← pow_add, ← pow_mul]
      congr 1
      ring

/-- The integer root of `2 ^ a * 11 ^ q` is the floor of the real number
`2 ^ (a / q) * 11`. -/
theorem real_root (a q R : Nat) (hq : 0 < q) (h1 : R ^ q ≤ 2 ^ a * 11 ^ q)
    (h2 : 2 ^ a * 11 ^ q < (R + 1) ^ q) :
    (R : ℝ) ≤ (2 : ℝ) ^ ((a : ℝ) / q) * 11 ∧ (2 : ℝ) ^ ((a : ℝ) / q) * 11 < R + 1 := by
  have hy0 : (0 : ℝ) ≤ (2 : ℝ) ^ ((a : ℝ) / q) * 11 := by positivity
  have hq' : (q : ℝ) ≠ 0 := Nat.cast_ne_zero.2 hq.ne'
  have hyq : ((2 : ℝ) ^ ((a : ℝ) / q) * 11) ^ q = (2 : ℝ) ^ a * 11 ^ q := by
    rw [mul_pow, ← Real.rpow_natCast ((2 : ℝ) ^ ((a : ℝ) / q)) q,
      ← Real.rpow_mul (by norm_num), div_mul_cancel₀ _ hq', Real.rpow_natCast]
  constructor
  · by_contra h
    push_neg at h
    have h3 := pow_lt_pow_left₀ h hy0 hq.ne'
    rw [hyq] at h3
    have h1' : ((R ^ q : ℕ) : ℝ) ≤ ((2 ^ a * 11 ^ q : ℕ) : ℝ) := Nat.cast_le.2 h1
    push_cast at h1'
    linarith
  · by_contra h
    push_neg at h
    have h3 := pow_le_pow_left₀ (by positivity : (0 : ℝ) ≤ (R : ℝ) + 1) h q
    rw [hyq] at h3
    have h2' : ((2 ^ a * 11 ^ q : ℕ) : ℝ) < (((R + 1) ^ q : ℕ) : ℝ) := Nat.cast_lt.2 h2
    push_cast at h2'
    linarith

/-- Halving with rounding: `(R / 20000 + 1) / 2` is the floor of
`y / 40000 + 1 / 2` when `R` is the floor of `y`. -/
theorem round_half (R : Nat) (y : ℝ) (h1 : (R : ℝ) ≤ y) (h2 : y < R + 1) :
    (((R / 20000 + 1) / 2 : ℕ) : ℝ) ≤ y / 40000 + 1 / 2 ∧
      y / 40000 + 1 / 2 < (((R / 20000 + 1) / 2 : ℕ) : ℝ) + 1 := by
  have a1 : 20000 * (R / 20000) ≤ R := Nat.mul_div_le R 20000
  have a2 : R + 1 ≤ 20000 * (R / 20000 + 1) := Nat.lt_mul_div_succ R (by norm_num)
  have b1 : 2 * ((R / 20000 + 1) / 2) ≤ R / 20000 + 1 := Nat.mul_div_le _ 2
  have b2 : R / 20000 + 1 + 1 ≤ 2 * ((R / 20000 + 1) / 2 + 1) :=
    Nat.lt_mul_div_succ _ (by norm_num)
  have a1' : (20000 : ℝ) * ((R / 20000 : ℕ) : ℝ) ≤ R := by exact_mod_cast a1
  have a2' : (R : ℝ) + 1 ≤ 20000 * (((R / 20000 : ℕ) : ℝ) + 1) := by exact_mod_cast a2
  have b1' : (2 : ℝ) * (((R / 20000 + 1) / 2 : ℕ) : ℝ) ≤ ((R / 20000 : ℕ) : ℝ) + 1 := by
    exact_mod_cast b1
  have b2' : ((R / 20000 : ℕ) : ℝ) + 1 + 1 ≤ 2 * ((((R / 20000 + 1) / 2 : ℕ) : ℝ) + 1) := by
    exact_mod_cast b2
  constructor <;> linarith

/-- The F-number of the exponent `A / 98304` is the floor of
`2 ^ (A / 98304) * 11 / 40000 + 1 / 2`. -/
theorem fnumOfExponent_nearest (A : Nat) (hA : A < 23 * 98304) :
    ((fnumOfExponent (A : Int) : ℕ) : ℝ) ≤ (2 : ℝ) ^ ((A : ℝ) / 98304) * 11 / 40000 + 1 / 2 ∧
      (2 : ℝ) ^ ((A : ℝ) / 98304) * 11 / 40000 + 1 / 2 <
        ((fnumOfExponent (A : Int) : ℕ) : ℝ) + 1 := by
  have hg : 0 < Nat.gcd A 98304 := Nat.gcd_pos_of_pos_right _ (by norm_num)
  obtain ⟨q, hq⟩ : Nat.gcd A 98304 ∣ 98304 := Nat.gcd_dvd_right _ _
  obtain ⟨a, ha⟩ : Nat.gcd A 98304 ∣ A := Nat.gcd_dvd_left _ _
  have hq0 : 0 < q := by
    rcases Nat.eq_zero_or_pos q with h | h
    · rw [h, Nat.mul_zero] at hq
      exact absurd hq (by norm_num)
    · exact h
  have eq1 : 98304 / Nat.gcd A 98304 = q := Nat.div_eq_of_eq_mul_right hg hq
  have ea1 : A / Nat.gcd A 98304 = a := Nat.div_eq_of_eq_mul_right hg ha
  have hneg : ¬ ((A : Int) < 0) := by omega
  have hF : fnumOfExponent (A : Int) =
      ((iroot q (2 ^ a * 11 ^ q) (a / q + 5) / 20000 + 1) / 2) % 65536 := by
    simp only [fnumOfExponent, if_neg hneg, Int.toNat_ofNat, eq1, ea1]
  have hN := root_bound a q hq0
  obtain ⟨r1, r2⟩ := iroot_spec q _ _ hq0 hN
  have hlt := iroot_lt q _ _ hq0 hN
  have haq : a / q < 23 := by
    rw [Nat.div_lt_iff_lt_mul hq0]
    have : Nat.gcd A 98304 * a < Nat.gcd A 98304 * (23 * q) := by
      rw [← ha]
      calc A < 23 * 98304 := hA
        _ = Nat.gcd A 98304 * (23 * q) := by
          conv_lhs => rw [hq]
          ring
    exact Nat.lt_of_mul_lt_mul_left this
  have hR : iroot q (2 ^ a * 11 ^ q) (a / q + 5) < 2 ^ 27 :=
    lt_of_lt_of_le hlt (Nat.pow_le_pow_right (by norm_num) (by omega))
  have hmod : ((iroot q (2 ^ a * 11 ^ q) (a / q + 5) / 20000 + 1) / 2) % 65536 =
      (iroot q (2 ^ a * 11 ^ q) (a / q + 5) / 20000 + 1) / 2 := by
    apply Nat.mod_eq_of_lt
    omega
  obtain ⟨y1, y2⟩ := real_root a q _ hq0 r1 r2
  have hexp : (a : ℝ) / q = (A : ℝ) / 98304 := by
    have hgR : ((Nat.gcd A 98304 : ℕ) : ℝ) ≠ 0 := Nat.cast_ne_zero.2 hg.ne'
    have hqR : (q : ℝ) ≠ 0 := Nat.cast_ne_zero.2 hq0.ne'
    have e1 : (A : ℝ) = (Nat.gcd A 98304 : ℕ) * a := by exact_mod_cast ha
    have e2 : (98304 : ℝ) = (Nat.gcd A 98304 : ℕ) * q := by exact_mod_cast hq
    have key : ∀ g x : ℝ, g ≠ 0 → x = g * a → (98304 : ℝ) = g * q → (a : ℝ) / q = x / 98304 := by
      intro g x h0 h1 h2
      rw [h1, h2]
      field_simp
      ring
    exact key _ _ hgR e1 e2
  rw [hexp] at y1 y2
  rw [hF, hmod]
  exact round_half _ _ y1 y2

/-- The exponent of a note-on with transpose 0 is a natural number below
`23 * 98304`. -/
theorem freqExponent_range (n b : Nat) (hn : n ≤ 127) (hb : b ≤ 16383) :
    ∃ A : Nat, freqExponent n (b : Int) 0 (noteBlock n) = (A : Int) ∧ A < 23 * 98304 := by
  have h0 : Int.tdiv 0 128 = 0 := by decide
  have hblk : noteBlock n ≤ 9 ∧ n ≤ 12 * noteBlock n + 23 := by
    unfold noteBlock
    simp only []
    split_ifs <;> omega
  refine ⟨(freqExponent n (b : Int) 0 (noteBlock n)).toNat, ?_, ?_⟩
  · rw [Int.toNat_of_nonneg]
    simp only [freqExponent, h0]
    omega
  · simp only [freqExponent, h0]
    omega

/-! ## Pitch bend -/

set_option maxRecDepth 100000 in
theorem bend_zero_note_62 :
    (playFile zeroHeap (fileWithFive 120 [0x00, 0xE0, 0x00, 0x00, 0x00, 0x90, 62, 127]) 2).map
      (fun q => ((q.chMIDI 0).iPitchbend, q.out.drop 45)) =
        some (0, [Out.reg 0xA6 0x6B, Out.reg 0xB6 0x31]) := by decide!

set_option maxRecDepth 100000 in
theorem centre_note_61 :
    (playFile zeroHeap (fileWithFive 120 [0x00, 0x90, 61, 127]) 1).map
      (fun q => ((q.chMIDI 0).iPitchbend, q.out.drop 45)) =
        some (8192, [Out.reg 0xA6 0x6B, Out.reg 0xB6 0x31]) := by decide!

set_option maxRecDepth 100000 in
theorem centre_note_60 :
    (playFile zeroHeap (fileWithFive 120 [0x00, 0x90, 60, 127]) 1).map
      (fun q => ((q.chMIDI 0).iPitchbend, q.out.drop 45)) =
        some (8192, [Out.reg 0xA6 0x57, Out.reg 0xB6 0x31]) := by decide!

/-! ## Instrument indices -/

theorem preset_index_low (n k : Nat) (h1 : 5 ≤ n) (h2 : n ≤ 128) (hk : k < 5) :
    toU8 ((n : Int) - 5 + k) < 128 := by
  unfold toU8
  omega

theorem preset_index_high (n k : Nat) (h1 : n < 5) (hk : k < 5 - n) :
    toU8 ((n : Int) - 5 + k) = 251 + n + k := by
  unfold toU8
  omega

/-- A melodic note-on that binds the voice writes the instrument in the slot
that the channel's patch names. -/
theorem noteOn_reads_slot (p : Player) (c n vel x : Nat)
    (hm : ¬ (c > 10 ∧ p.bPercussive = true)) (hn : n < 256) (hx : x < 256)
    (hp : (p.chMIDI c).iPatch = (x : Int))
    (hd : (p.chOPL (noteOnVoice p c)).iMIDIPatch ≠ (x : Int))
    (hb : (p.pInstruments x).isBytes) :
    (cmfNoteOn p c n vel).out = p.out ++ bindingWrites (p.pInstruments x) (noteOnVoice p c) ++
      [Out.reg (0xA0 + noteOnVoice p c)
         (oplFNum n (p.chMIDI c).iPitchbend p.iTranspose (noteBlock n) &&& 0xFF),
       Out.reg (0xB0 + noteOnVoice p c)
         (0x20 ||| (noteBlock n <<< 2) |||
           ((oplFNum n (p.chMIDI c).iPitchbend p.iTranspose (noteBlock n) >>> 8) &&& 3))] := by
  have hV : noteOnVoice p c = chooseVoice p c := by unfold noteOnVoice; rw [if_neg hm]
  rw [hV] at hd ⊢
  simp only [cmfNoteOn, if_neg hm, noteOnMelodic_out p c n _ _ (noteBlock_le_20 n hn)]
  simp only [rebind, hp, toU8_natCast x hx]
  rw [if_pos hd, mci_out_melodic p (chooseVoice p c) c x (chooseVoice_le p c) hm hb]

set_option maxRecDepth 100000 in
theorem no_instruments_zero :
    (playFile zeroHeap (headerBytes 120 0) 0).map
      (fun q => ([11, 12, 13, 14, 15].map (fun j => (q.chMIDI j).iPatch),
        [6, 7, 8].map (fun j => (q.chOPL j).iMIDIPatch), q.out.take 6)) =
      some ([-5, -4, -3, -2, -1], [251, 255, 254],
        [Out.reg 0x30 0, Out.reg 0x50 0, Out.reg 0x70 0, Out.reg 0x90 0, Out.reg 0xF0 0,
         Out.reg 0xC6 0]) := by decide!

set_option maxRecDepth 100000 in
theorem no_instruments_behind :
    (playFile (heapBehind 0x55) (headerBytes 120 0) 0).map (fun q => q.out.take 6) =
      some [Out.reg 0x30 0x55, Out.reg 0x50 0x55, Out.reg 0x70 0x55, Out.reg 0x90 0x55,
        Out.reg 0xF0 0x55, Out.reg 0xC6 0x55] := by decide!

set_option maxRecDepth 100000 in
theorem patch_200_zero :
    (playFile zeroHeap (fileWithFive 120 [0x00, 0xC0, 200, 0x00, 0x90, 60, 127]) 2).map
      (fun q => ((q.chMIDI 0).iPatch, (q.chOPL 0).iMIDIPatch, (q.out.drop 45).take 6)) =
      some (200, 200, [Out.reg 0x20 0, Out.reg 0x40 0, Out.reg 0x60 0, Out.reg 0x80 0,
        Out.reg 0xE0 0, Out.reg 0xC0 0]) := by decide!

set_option maxRecDepth 100000 in
theorem patch_200_behind :
    (playFile (heapBehind 0x55) (fileWithFive 120 [0x00, 0xC0, 200, 0x00, 0x90, 60, 127]) 2).map
      (fun q => ((q.chMIDI 0).iPatch, (q.chOPL 0).iMIDIPatch, (q.out.drop 45).take 6)) =
      some (200, 200, [Out.reg 0x20 0x55, Out.reg 0x40 0x55, Out.reg 0x60 0x55,
        Out.reg 0x80 0x55, Out.reg 0xE0 0x55, Out.reg 0xC0 0x55]) := by decide!

/-! ## The register mirror follows the callbacks -/

theorem lastWritten_reg (l : List Out) (a b r : Nat) :
    lastWritten (l ++ [Out.reg a b]) r = if a = r then b else lastWritten l r := by
  simp [lastWritten, List.foldl_append]

theorem lastWritten_delay (l : List Out) (d r : Nat) :
    lastWritten (l ++ [Out.delay d]) r = lastWritten l r := by
  simp [lastWritten, List.foldl_append]

theorem synced_of_eq {p q : Player} (h : Synced p) (e1 : q.iCurrentRegs = p.iCurrentRegs)
    (e2 : q.out = p.out) : Synced q := fun r => by rw [e1, e2]; exact h r

theorem synced_setData {p : Player} (h : Synced p) (s : IStream) : Synced (p.setData s) :=
  synced_of_eq h (setData_iCurrentRegs _ _) (setData_out _ _)

theorem synced_write (f : Nat → Nat) (out : List Out) (a b : Nat)
    (h : ∀ r, f r = lastWritten out r) :
    ∀ r, setAt f a b r = lastWritten (out ++ [Out.reg a b]) r := by
  intro r
  rw [lastWritten_reg]
  unfold setAt
  by_cases e : r = a
  · subst e; simp
  · have e2 : ¬ a = r := fun x => e x.symm
    rw [if_neg e, if_neg e2]
    exact h r

theorem synced_setReg {p : Player} (h : Synced p) (a b : Nat) : Synced (setReg p a b) :=
  synced_write _ _ _ _ h

theorem synced_wis {p : Player} (h : Synced p) (a b c d : Nat) :
    Synced (writeInstrumentSettings p a b c d) := by
  unfold writeInstrumentSettings
  simp only []
  exact synced_setReg (synced_setReg (synced_setReg (synced_setReg
    (synced_setReg (synced_setReg h _ _) _ _) _ _) _ _) _ _) _ _

theorem synced_mci {p : Player} (h : Synced p) (a b c : Nat) :
    Synced (MIDIchangeInstrument p a b c) := by
  simp only [MIDIchangeInstrument]
  split_ifs with h0 h1 h2 h3 h4 h5
  · exact synced_of_eq (synced_wis (synced_wis h 6 0 0 c) 6 1 1 c)
      (setOPLPatch_iCurrentRegs _ _ _) (setOPLPatch_out _ _ _)
  · exact synced_of_eq (synced_wis h 7 0 1 c) (setOPLPatch_iCurrentRegs _ _ _)
      (setOPLPatch_out _ _ _)
  · exact synced_of_eq (synced_wis h 8 0 0 c) (setOPLPatch_iCurrentRegs _ _ _)
      (setOPLPatch_out _ _ _)
  · exact synced_of_eq (synced_wis h 8 0 1 c) (setOPLPatch_iCurrentRegs _ _ _)
      (setOPLPatch_out _ _ _)
  · exact synced_of_eq (synced_wis h 7 0 0 c) (setOPLPatch_iCurrentRegs _ _ _)
      (setOPLPatch_out _ _ _)
  · exact synced_of_eq h (setOPLPatch_iCurrentRegs _ _ _) (setOPLPatch_out _ _ _)
  · exact synced_of_eq (synced_wis (synced_wis h a 0 0 c) a 1 1 c)
      (setOPLPatch_iCurrentRegs _ _ _) (setOPLPatch_out _ _ _)

theorem synced_preset {p : Player} (h : Synced p) (n : Nat) (i : Int) (j : Nat) :
    Synced (presetPercussion n i j p) := by
  induction n generalizing i j p with
  | zero => exact h
  | succ n ih =>
    simp only [presetPercussion]
    exact ih (synced_mci (p := setPatch p j i)
      (synced_of_eq h (setPatch_iCurrentRegs p j i) (setPatch_out p j i))
      (getPercChannel j) j (toU8 i)) (i + 1) (j + 1)

theorem synced_mkPlayer (s : IStream) (hdr : CMFHEADER) : Synced (mkPlayer s hdr) :=
  fun _ => by simp [mkPlayer, lastWritten]

theorem synced_init {p : Player} (h : Synced p) (heap : Nat → SBI) :
    Synced (init heap p) := by
  intro r
  simp only [init, setPrev_iCurrentRegs, setReg_iCurrentRegs, setData_iCurrentRegs, setPrev_out,
    setReg_out, setData_out]
  revert r
  iterate 9 apply synced_write
  apply synced_preset
  intro r
  simp only [fillDefaults_iCurrentRegs, loadInstruments_iCurrentRegs, setData_iCurrentRegs,
    fillDefaults_out, loadInstruments_out, setData_out]
  exact h r

theorem synced_retrigger {p : Player} (h : Synced p) (b : Nat) :
    Synced (percRetrigger p b) := by
  simp only [percRetrigger]
  split_ifs
  · exact synced_setReg (synced_setReg h _ _) _ _
  · exact synced_setReg h _ _

theorem synced_rebind {p : Player} (h : Synced p) (a b : Nat) : Synced (rebind p a b) := by
  unfold rebind
  split_ifs
  · exact synced_mci h _ _ _
  · exact h

theorem synced_noteOn {p : Player} (h : Synced p) (c n v : Nat) :
    Synced (cmfNoteOn p c n v) := by
  simp only [cmfNoteOn]
  split_ifs
  · simp only [noteOnPerc]
    exact synced_of_eq (synced_retrigger (synced_setReg (synced_setReg (synced_setReg
      (synced_mci h _ _ _) _ _) _ _) _ _) _) (startNote_iCurrentRegs _ _ _ _)
      (startNote_out _ _ _ _)
  · simp only [noteOnMelodic]
    exact synced_setReg (synced_setReg (synced_of_eq (synced_rebind h _ _)
      (startNote_iCurrentRegs _ _ _ _) (startNote_out _ _ _ _)) _ _) _ _

theorem synced_noteOff {p : Player} (h : Synced p) (c n v : Nat) :
    Synced (cmfNoteOff p c n v) := by
  simp only [cmfNoteOff]
  split_ifs
  · simp only [noteOffPerc]
    split_ifs
    · exact h
    · exact synced_of_eq (synced_setReg h _ _) (freeVoice_iCurrentRegs _ _) (freeVoice_out _ _)
  · unfold noteOffMelodic
    split
    · exact h
    · exact synced_setReg (synced_of_eq h (freeVoice_iCurrentRegs _ _) (freeVoice_out _ _)) _ _

theorem synced_controller {p : Player} (h : Synced p) (c k v : Nat) :
    Synced (MIDIcontroller p c k v) := by
  simp only [MIDIcontroller]
  split_ifs
  all_goals
    first
      | exact h
      | exact synced_setReg h _ _

theorem synced_channelEvent {p : Player} (h : Synced p) (u : Nat → Nat) (c : Nat) :
    Synced (channelEvent u p c) := by
  simp only [channelEvent]
  split_ifs
  · exact synced_noteOff (synced_setData h _) _ _ _
  · exact synced_noteOn (synced_setData h _) _ _ _
  · exact synced_noteOff (synced_setData h _) _ _ _
  · exact synced_setData h _
  · exact synced_controller (synced_setData h _) _ _ _
  · exact synced_of_eq (synced_setData h _) (setPatch_iCurrentRegs _ _ _) (setPatch_out _ _ _)
  · exact synced_setData h _
  · exact synced_of_eq (synced_setData h _) (setPitchbend_iCurrentRegs _ _ _)
      (setPitchbend_out _ _ _)
  · exact h

theorem synced_tickEntry {p : Player} (h : Synced p) (u : Nat → Nat) :
    Synced (tickEntry u p) := by
  intro r
  rw [tickEntry_iCurrentRegs, tickEntry_out]
  split_ifs
  · rw [List.append_nil]; exact h r
  · rw [lastWritten_delay]; exact h r

/-! ## The rhythm flag and bit 0x20 of register 0xBD -/

theorem and_0x20_of_testBit (x y : Nat) (h : x.testBit 5 = y.testBit 5) :
    x &&& 0x20 = y &&& 0x20 := by
  have hx := and_two_pow_eq x 5
  have hy := and_two_pow_eq y 5
  rw [h] at hx
  exact hx.trans hy.symm

theorem and_0x20_ne_zero (x : Nat) : x &&& 0x20 ≠ 0 ↔ x.testBit 5 = true := by
  have hx := and_two_pow_eq x 5
  have e : (2 : Nat) ^ 5 = 0x20 := rfl
  rw [e] at hx
  rw [hx]
  cases x.testBit 5 <;> simp

theorem testBit5_mod (x : Nat) : (x % 256).testBit 5 = x.testBit 5 := by
  rw [show (256 : Nat) = 2 ^ 8 from rfl, Nat.testBit_mod_two_pow]
  simp

theorem testBit5_clear (m b : Nat) (hb : b.testBit 5 = false) :
    ((m &&& (0xFF ^^^ b)) % 256).testBit 5 = m.testBit 5 := by
  rw [testBit5_mod, Nat.testBit_and, Nat.testBit_xor, hb, testBit_255 5 (by decide)]
  simp

theorem testBit5_set (m b : Nat) (hb : b.testBit 5 = false) :
    ((m ||| b) % 256).testBit 5 = m.testBit 5 := by
  rw [testBit5_mod, Nat.testBit_or, hb]
  simp

theorem testBit5_depth (m v : Nat) :
    (((m &&& 0x3F) ||| (v <<< 6)) % 256).testBit 5 = m.testBit 5 ∧
      ((m &&& 0x3F) % 256).testBit 5 = m.testBit 5 := by
  have h3 : Nat.testBit 0x3F 5 = true := by decide
  constructor
  · rw [testBit5_mod, Nat.testBit_or, Nat.testBit_and, Nat.testBit_shiftLeft, h3]
    simp
  · rw [testBit5_mod, Nat.testBit_and, h3]
    simp

theorem percBit_testBit5 (c : Nat) (hc : c > 10) :
    ((1 <<< (15 - c)) % 256).testBit 5 = false ∧ (1 <<< (15 - c)).testBit 5 = false := by
  have h : 15 - c ≤ 4 := by omega
  generalize 15 - c = k at h
  interval_cases k <;> decide

theorem rhythm_not_voice (v : Nat) (hv : v ≤ 8) : BASE_RHYTHM ∉ voiceRegs v := by
  interval_cases v <;> decide

theorem mci_frame_melodic (p : Player) (a b c : Nat) (ha : a ≤ 8)
    (hm : ¬ (b > 10 ∧ p.bPercussive = true)) :
    MirrorFrame (· ∈ voiceRegs a) p (MIDIchangeInstrument p a b c) := by
  simp only [MIDIchangeInstrument, if_neg hm]
  exact ((wis_frame p a 0 0 c ha).comp (wis_frame _ a 1 1 c ha)).mirror_eq
    (setOPLPatch_iCurrentRegs _ _ _)

/-- A note-on leaves the mirror of register `0xBD` as it is (melodic branch)
or changes only the drum's bit (percussive branch). -/
theorem noteOn_rhythm_bit (p : Player) (c n v : Nat) :
    ((cmfNoteOn p c n v).iCurrentRegs BASE_RHYTHM).testBit 5 =
      (p.iCurrentRegs BASE_RHYTHM).testBit 5 := by
  simp only [cmfNoteOn]
  split_ifs with hm
  · have F1 := mci_frame_perc p (getPercChannel c) c (toU8 (p.chMIDI c).iPatch) hm
    have hV : getPercChannel c ≤ 8 := by
      unfold getPercChannel
      split_ifs <;> omega
    have hBD := rhythm_not_voice _ hV
    have hL : percLevelReg c % 256 ∈ voiceRegs (getPercChannel c) := by
      unfold percLevelReg getPercChannel
      split_ifs <;> decide
    obtain ⟨hF, hK⟩ := voiceRegs_lo _ hV
    obtain ⟨hb, -⟩ := percBit_testBit5 c hm.1
    simp only [noteOnPerc, startNote_iCurrentRegs]
    generalize MIDIchangeInstrument p (getPercChannel c) c (toU8 (p.chMIDI c).iPatch) = p1
      at F1 ⊢
    have F4 : MirrorFrame (· ∈ voiceRegs (getPercChannel c)) p1
        (setReg (setReg (setReg p1 (percLevelReg c)
          (p1.iCurrentRegs (percLevelReg c) &&& 0xC0 ||| (percLevel v).toNat))
          (BASE_FNUM_L + getPercChannel c)
          (oplFNum n (p.chMIDI c).iPitchbend p.iTranspose (noteBlock n) &&& 0xFF))
          (BASE_KEYON_FREQ + getPercChannel c)
          (noteBlock n <<< 2 |||
            (oplFNum n (p.chMIDI c).iPitchbend p.iTranspose (noteBlock n) >>> 8) &&& 0x03)) :=
      ((MirrorFrame.write _ _ _ _ hL).comp (MirrorFrame.write _ _ _ _ hF)).comp
        (MirrorFrame.write _ _ _ _ hK)
    have e := (F1.comp F4) _ hBD
    generalize setReg (setReg (setReg p1 (percLevelReg c)
          (p1.iCurrentRegs (percLevelReg c) &&& 0xC0 ||| (percLevel v).toNat))
          (BASE_FNUM_L + getPercChannel c)
          (oplFNum n (p.chMIDI c).iPitchbend p.iTranspose (noteBlock n) &&& 0xFF))
          (BASE_KEYON_FREQ + getPercChannel c)
          (noteBlock n <<< 2 |||
            (oplFNum n (p.chMIDI c).iPitchbend p.iTranspose (noteBlock n) >>> 8) &&& 0x03) = p4
      at e ⊢
    have hB : BASE_RHYTHM % 256 = BASE_RHYTHM := by decide
    rw [← e]
    simp only [percRetrigger]
    split_ifs
    · simp only [setReg_iCurrentRegs, hB, setAt_same]
      rw [testBit5_set _ _ hb, testBit5_clear _ _ hb]
    · simp only [setReg_iCurrentRegs, hB, setAt_same]
      rw [testBit5_set _ _ hb]
  · have hV := chooseVoice_le p c
    obtain ⟨hF, hK⟩ := voiceRegs_lo _ hV
    have F1 : MirrorFrame (· ∈ voiceRegs (chooseVoice p c)) p (rebind p (chooseVoice p c) c) := by
      unfold rebind
      split_ifs
      · exact mci_frame_melodic p _ c _ hV hm
      · exact MirrorFrame.same _ p
    simp only [noteOnMelodic]
    generalize rebind p (chooseVoice p c) c = p1 at F1 ⊢
    have F2 : MirrorFrame (· ∈ voiceRegs (chooseVoice p c)) p1
        (startNote p1 (chooseVoice p c) c n) :=
      (MirrorFrame.same _ p1).mirror_eq (startNote_iCurrentRegs _ _ _ _)
    have F := ((F1.comp F2).comp (MirrorFrame.write _ _ (BASE_FNUM_L + chooseVoice p c)
      (oplFNum n (p.chMIDI c).iPitchbend p.iTranspose (noteBlock n) &&& 0xFF) hF)).comp
      (MirrorFrame.write _ _ (BASE_KEYON_FREQ + chooseVoice p c)
      (OPLBIT_KEYON ||| (noteBlock n <<< 2) |||
        ((oplFNum n (p.chMIDI c).iPitchbend p.iTranspose (noteBlock n) &&& 0x300) >>> 8)) hK)
    rw [F _ (rhythm_not_voice _ hV)]

theorem noteOff_rhythm_bit (p : Player) (c n v : Nat) :
    ((cmfNoteOff p c n v).iCurrentRegs BASE_RHYTHM).testBit 5 =
      (p.iCurrentRegs BASE_RHYTHM).testBit 5 := by
  have hB : BASE_RHYTHM % 256 = BASE_RHYTHM := by decide
  simp only [cmfNoteOff]
  split_ifs with hm
  · simp only [noteOffPerc]
    split_ifs
    · rfl
    · simp only [freeVoice_iCurrentRegs, setReg_iCurrentRegs, hB, setAt_same]
      exact testBit5_clear _ _ (percBit_testBit5 c hm.1).2
  · unfold noteOffMelodic
    split
    · rfl
    · rename_i i hi
      have hlt : i < numChannels p := by
        unfold findNote at hi
        rw [List.find?_range_eq_some] at hi
        exact List.mem_range.1 hi.2.1
      have hV : i ≤ 8 := by
        unfold numChannels at hlt
        split_ifs at hlt <;> omega
      have F := MirrorFrame.write (· ∈ voiceRegs i) (freeVoice p i) (BASE_KEYON_FREQ + i)
        ((freeVoice p i).iCurrentRegs (BASE_KEYON_FREQ + i) &&& (0xFF ^^^ OPLBIT_KEYON))
        (voiceRegs_lo i hV).2
      rw [F _ (rhythm_not_voice i hV)]
      rfl

theorem flag_of_eq {p q : Player} (h : FlagOK p) (e1 : q.bPercussive = p.bPercussive)
    (e2 : (q.iCurrentRegs BASE_RHYTHM).testBit 5 = (p.iCurrentRegs BASE_RHYTHM).testBit 5) :
    FlagOK q := by
  unfold FlagOK at h ⊢
  rw [e1, and_0x20_of_testBit _ _ e2]
  exact h

theorem flag_setData {p : Player} (h : FlagOK p) (s : IStream) : FlagOK (p.setData s) :=
  flag_of_eq h (setData_bPercussive _ _) (by rw [setData_iCurrentRegs])

theorem flag_controller {p : Player} (h : FlagOK p) (c k v : Nat) :
    FlagOK (MIDIcontroller p c k v) := by
  have hB : BASE_RHYTHM % 256 = BASE_RHYTHM := by decide
  have t32 : Nat.testBit 0x20 5 = true := by decide
  have t255 : Nat.testBit 0xFF 5 = true := by decide
  simp only [MIDIcontroller]
  split_ifs with h1 h2 h3 h4 h5 h6 h7
  · refine flag_of_eq h rfl ?_
    simp only [setReg_iCurrentRegs, hB, setAt_same]
    exact (testBit5_depth _ _).1
  · refine flag_of_eq h rfl ?_
    simp only [setReg_iCurrentRegs, hB, setAt_same]
    exact (testBit5_depth _ 0).2
  · exact h
  · unfold FlagOK
    simp only [setReg_iCurrentRegs, hB, setAt_same, setReg_bPercussive, and_0x20_ne_zero,
      testBit5_mod, Nat.testBit_or]
    simp only [decide_eq_true_eq] at h5
    simp [h5, t32]
  · unfold FlagOK
    simp only [setReg_iCurrentRegs, hB, setAt_same, setReg_bPercussive, and_0x20_ne_zero,
      testBit5_mod, Nat.testBit_and, Nat.testBit_xor]
    simp only [decide_eq_true_eq] at h5
    simp [h5, t32, t255]
  · exact flag_of_eq h rfl rfl
  · exact flag_of_eq h rfl rfl
  · exact h

theorem flag_channelEvent {p : Player} (h : FlagOK p) (u : Nat → Nat) (c : Nat) :
    FlagOK (channelEvent u p c) := by
  simp only [channelEvent]
  split_ifs
  · exact flag_of_eq (flag_setData h _) (noteOff_bPercussive _ _ _ _)
      (noteOff_rhythm_bit _ _ _ _)
  · exact flag_of_eq (flag_setData h _) (noteOn_bPercussive _ _ _ _) (noteOn_rhythm_bit _ _ _ _)
  · exact flag_of_eq (flag_setData h _) (noteOff_bPercussive _ _ _ _)
      (noteOff_rhythm_bit _ _ _ _)
  · exact flag_setData h _
  · exact flag_controller (flag_setData h _) _ _ _
  · exact flag_of_eq (flag_setData h _) (setPatch_bPercussive _ _ _)
      (by rw [setPatch_iCurrentRegs])
  · exact flag_setData h _
  · exact flag_of_eq (flag_setData h _) (setPitchbend_bPercussive _ _ _)
      (by rw [setPitchbend_iCurrentRegs])
  · exact h

theorem flag_init (heap : Nat → SBI) (p : Player) : FlagOK (init heap p) := by
  unfold FlagOK
  rw [init_rhythm, init_bPercussive]
  decide

/-- The two properties together: what `init` establishes and every tick keeps. -/
theorem consistent_tick (u : Nat → Nat) (fuel : Nat) (p q : Player) (b : Bool)
    (h1 : FlagOK p) (h2 : Synced p) (h : tick u fuel p = .ok (b, q)) :
    FlagOK q ∧ Synced q := by
  by_cases he : p.data.eofbit = true
  · rw [tick_eof u fuel p he] at h
    injection h with h; injection h with ha hb; subst hb
    exact ⟨h1, h2⟩
  · have he2 : p.data.eofbit = false := by simpa using he
    by_cases hd : tickDelay u p ≠ 0 ∧ p.cmfHeader.iTicksPerSecond = 0
    · rw [tick_divByZero u fuel p he2 hd.1 hd.2] at h
      cases h
    · have ht : tickDelay u p ≠ 0 → p.cmfHeader.iTicksPerSecond ≠ 0 := fun a b => hd ⟨a, b⟩
      rw [tick_unfold u fuel p he2 ht] at h
      have f1 : FlagOK (tickEntry u p) :=
        flag_of_eq h1 (tickEntry_bPercussive u p) (by rw [tickEntry_iCurrentRegs])
      have s1 := synced_tickEntry h2 u
      split_ifs at h
      · injection h with h; injection h with ha hb; subst hb
        exact ⟨f1, s1⟩
      · unfold tickEvent at h
        split_ifs at h
        · have e := systemEvent_ok u fuel _ q _ b h
          rw [e]
          exact ⟨flag_setData f1 _, synced_setData s1 _⟩
        · injection h with h; injection h with ha hb; subst hb
          exact ⟨flag_channelEvent f1 u _, synced_channelEvent s1 u _⟩

theorem consistent_runTicks (u : Nat → Nat) (fuel : Nat) :
    ∀ (n : Nat) (p q : Player), FlagOK p → Synced p → runTicks u fuel n p = some q →
      FlagOK q ∧ Synced q
  | 0, p, q, h1, h2, h => by
    simp only [runTicks] at h
    injection h with h; subst h
    exact ⟨h1, h2⟩
  | n + 1, p, q, h1, h2, h => by
    simp only [runTicks] at h
    split at h
    · cases h
    · rename_i q1 ht
      obtain ⟨a, b⟩ := consistent_tick u fuel p q1 true h1 h2 ht
      exact consistent_runTicks u fuel n q1 q a b h
    · rename_i q1 ht
      injection h with h; subst h
      exact consistent_tick u fuel p q1 false h1 h2 ht

set_option maxRecDepth 100000 in
theorem rhythm_drum_run :
    (runTicks zeroU 0 2 (init zeroHeap (playerFive 120
      [0x00, 0xB0, 0x67, 0x01, 0x00, 0x9B, 36, 127]))).map
      (fun q => (q.bPercussive, q.iCurrentRegs 0xBD, lastWritten q.out 0xBD,
        q.iCurrentRegs 0xB6, lastWritten q.out 0xB6)) = some (true, 0xF0, 0xF0, 9, 9) := by
  decide!

/-! ## A truncated instrument block; a header without ticks per second -/

set_option maxRecDepth 100000 in
theorem truncated_init :
    (player zeroU (headerFive 120)).toOption.map
      (fun p => ((init zeroHeap p).out.length, (init zeroHeap p).data.eofbit,
        (init zeroHeap p).data.failbit)) = some (45, false, true) := by
  decide!

set_option maxRecDepth 100000 in
theorem truncated_heap :
    (player zeroU (headerFive 120)).toOption.map
      (fun p => ((init (constHeap 7) p).out.length, (init (constHeap 7) p).out.take 6)) =
      some (45, [Out.reg 0x30 7, Out.reg 0x50 7, Out.reg 0x70 7, Out.reg 0x90 7, Out.reg 0xF0 7,
        Out.reg 0xC6 7]) := by
  decide!

set_option maxRecDepth 100000 in
theorem truncated_tick_zero :
    (player zeroU (headerFive 120)).toOption.map
      (fun p => (tick zeroU 0 (init zeroHeap p)).toOption.map
        (fun r => (r.1, r.2.out.length))) = some (some (false, 45)) := by
  decide!

set_option maxRecDepth 100000 in
theorem truncated_tick_stale :
    (player zeroU (headerFive 120)).toOption.map
      (fun p => (tick staleNoteOn 0 (init zeroHeap p)).toOption.map
        (fun r => (r.1, r.2.out.drop 45, r.2.data.eofbit, r.2.data.failbit))) =
      some (some (true, [Out.reg 0xA6 0x57, Out.reg 0xB6 0x31], false, true)) := by
  decide!

set_option maxRecDepth 100000 in
theorem no_tps_delta :
    tickDelay zeroU (init zeroHeap (playerOf 0 0 [0x01, 0xFC])) = 1 ∧
      tickCommand zeroU (init zeroHeap (playerOf 0 0 [0x01, 0xFC])) = 0xFC := by
  decide!

/-! # The claims -/

/-- C1: for a CMF file accepted by the constructor with its header read completely,
zero declared instruments and the music stream `00 90 3C 7F 00 80 3C 40`, the
first tick after `init` returns `true` and makes exactly the twelve
instrument-load writes of default patch 0 on voice 0, then `(0xA0, 0x57)` and
the key-on `(0xB0, 0x31)`; the second tick returns `true` and makes exactly the
key-off write `(0xB0, 0x11)`; no delay callback is made by either tick. -/
theorem c1_end_to_end (u0 u1 u2 : Nat → Nat) (heap : Nat → SBI) (fuel1 fuel2 : Nat)
    (bytes : List Nat) (p : Player)
    (hp : player u0 bytes = .ok p) (hgood : p.data.good = true)
    (hn : p.cmfHeader.iNumInstruments = 0)
    (hm : bytes.drop p.cmfHeader.iMusicOffset =
      [0x00, 0x90, 0x3C, 0x7F, 0x00, 0x80, 0x3C, 0x40]) :
    ∃ p1 p2,
      tick u1 fuel1 (init heap p) = .ok (true, p1) ∧
      p1.out = (init heap p).out ++
        [Out.reg 0x20 0x01, Out.reg 0x40 0x4F, Out.reg 0x60 0xF1, Out.reg 0x80 0x53,
         Out.reg 0xE0 0x00, Out.reg 0xC0 0x06, Out.reg 0x23 0x11, Out.reg 0x43 0x00,
         Out.reg 0x63 0xD2, Out.reg 0x83 0x74, Out.reg 0xE3 0x00, Out.reg 0xC0 0x06,
         Out.reg 0xA0 0x57, Out.reg 0xB0 0x31] ∧
      tick u2 fuel2 p1 = .ok (true, p2) ∧
      p2.out = p1.out ++ [Out.reg 0xB0 0x11] := by
  obtain ⟨hmk, hb⟩ := player_ok u0 bytes p hp
  -- the state after init
  have hdata : (init heap p).data = ⟨bytes, p.cmfHeader.iMusicOffset, p.data.eofbit, p.data.failbit⟩ := by
    rw [init_data_zero heap p hn, seekBeg_good _ _ hgood, seekBeg_good _ _ (by simpa [IStream.good] using hgood), hb]
  have hg0 : (init heap p).data.good = true := by
    rw [hdata]; simpa [IStream.good] using hgood
  have hr0 : (init heap p).data.rest = [0] ++ 0x90 :: [0x3C, 0x7F, 0x00, 0x80, 0x3C, 0x40] := by
    rw [hdata]; simpa [IStream.rest] using hm
  have t1 := tick_status u1 fuel1 (init heap p) [0] _ 0x90 hg0 hr0 isVarLen_zero (by norm_num)
    (by norm_num) (by simp [concat7])
  have hg1 : ((init heap p).data.skip 2).good = true := by simpa using hg0
  have hr1 : ((init heap p).data.skip 2).rest = 0x3C :: 0x7F :: [0x00, 0x80, 0x3C, 0x40] := by
    rw [skip_rest, hr0]; rfl
  have e1 := tickEvent_noteOn u1 fuel1
    (((waitDelay (init heap p) (concat7 [0])).setData ((init heap p).data.skip (([0] : List Nat).length + 1))).setPrev 0x90)
    0x90 0x3C 0x7F _ (by decide) (by simpa using hg0) (by simpa using hr1) (by decide)
  rw [e1] at t1
  have hch : p.chOPL = fun _ => ⟨0, 0, 0, -1⟩ := by rw [hmk]; rfl
  have hmidi : p.chMIDI = fun _ => ⟨0, 8192⟩ := by rw [hmk]; rfl
  have htr : p.iTranspose = 0 := by rw [hmk]; rfl
  have hcz : concat7 [0] = 0 := by simp [concat7]
  simp only [hcz, waitDelay_zero, List.length_singleton, setData_data, setPrev_data,
    skip_skip] at t1
  have h15 : (144 &&& 15 : Nat) = 0 := by decide
  have h15b : (128 &&& 15 : Nat) = 0 := by decide
  have hnc : p.iNoteCount = 0 := by rw [hmk]; rfl
  have hv : chooseVoice ((((init heap p).setData ((init heap p).data.skip 2)).setPrev 144).setData
      ((init heap p).data.skip 4)) 0 = 0 := by
    simp [chooseVoice, numChannels, findFree, init_chOPL, hch, hn, toU8, init_chMIDI_low, hmidi]
  have hi0 := init_pInstruments_default heap p 0 (by omega) (by omega)
  simp only [Nat.reduceAdd, Nat.reduceMod, h15] at t1
  generalize hq : cmfNoteOn ((((init heap p).setData ((init heap p).data.skip 2)).setPrev 144).setData
      ((init heap p).data.skip 4)) 0 60 127 = q at t1
  have hout : q.out = (init heap p).out ++
        [Out.reg 0x20 0x01, Out.reg 0x40 0x4F, Out.reg 0x60 0xF1, Out.reg 0x80 0x53,
         Out.reg 0xE0 0x00, Out.reg 0xC0 0x06, Out.reg 0x23 0x11, Out.reg 0x43 0x00,
         Out.reg 0x63 0xD2, Out.reg 0x83 0x74, Out.reg 0xE3 0x00, Out.reg 0xC0 0x06,
         Out.reg 0xA0 0x57, Out.reg 0xB0 0x31] := by
    rw [← hq]
    simp [cmfNoteOn, init_chMIDI_low, hmidi, htr, noteBlock, oplFNum_60, noteOnMelodic, hv,
      rebind, init_chOPL, hch, toU8, MIDIchangeInstrument, writeInstrumentSettings, hi0,
      defaultSBI_zero, OPLOFFSET, SBI.op, BASE_CHAR_MULT,
      BASE_SCAL_LEVL, BASE_ATCK_DCAY, BASE_SUST_RLSE, BASE_WAVE, BASE_FEED_CONN, BASE_FNUM_L,
      BASE_KEYON_FREQ, OPLBIT_KEYON]
    decide
  have hq0 : q.chOPL 0 = ⟨1, 60, 0, 0⟩ := by
    rw [← hq]
    simp [cmfNoteOn, init_chMIDI_low, hmidi, htr, noteBlock, oplFNum_60, noteOnMelodic, hv,
      rebind, init_chOPL, hch, toU8, hnc]
  have hqr : q.iCurrentRegs 0xB0 = 0x31 := by
    rw [← hq]
    simp [cmfNoteOn, init_chMIDI_low, hmidi, htr, noteBlock, oplFNum_60, noteOnMelodic, hv,
      BASE_FNUM_L, BASE_KEYON_FREQ, OPLBIT_KEYON, setAt]
    decide
  have hqd : q.data = (init heap p).data.skip 4 := by rw [← hq]; simp
  have hqp : q.bPercussive = false := by rw [← hq]; simp
  have hg2 : q.data.good = true := by rw [hqd]; simpa using hg0
  have hr2 : q.data.rest = [0] ++ 0x80 :: [0x3C, 0x40] := by
    rw [hqd, skip_rest, hr0]; rfl
  have t2 := tick_status u2 fuel2 q [0] _ 0x80 hg2 hr2 isVarLen_zero (by norm_num)
    (by norm_num) (by simp [concat7])
  have hr3 : (q.data.skip 2).rest = 0x3C :: 0x40 :: [] := by
    rw [skip_rest, hr2]; rfl
  have e2 := tickEvent_noteOff u2 fuel2
    (((waitDelay q (concat7 [0])).setData (q.data.skip (([0] : List Nat).length + 1))).setPrev 0x80)
    0x80 0x3C 0x40 _ (by decide) (by simpa using hg2) (by simpa using hr3)
  rw [e2] at t2
  simp only [hcz, waitDelay_zero, List.length_singleton, setData_data, setPrev_data,
    skip_skip, Nat.reduceAdd, Nat.reduceMod, h15b] at t2
  refine ⟨q, _, t1, hout, t2, ?_⟩
  have hf : findNote (((q.setData (q.data.skip 2)).setPrev 128).setData (q.data.skip 4)) 0 60 =
      some 0 := by
    simp [findNote, numChannels, hqp, List.range_succ, hq0]
  simp [cmfNoteOff, hqp, noteOffMelodic, hf, hqr, BASE_KEYON_FREQ, OPLBIT_KEYON]
  decide



theorem c1_end_to_end_witness :
    ∃ p1 p2,
      tick zeroU 0 (init zeroHeap (playerOf 120 0 [0x00, 0x90, 0x3C, 0x7F, 0x00, 0x80, 0x3C, 0x40]))
        = .ok (true, p1) ∧
      p1.out = (init zeroHeap
          (playerOf 120 0 [0x00, 0x90, 0x3C, 0x7F, 0x00, 0x80, 0x3C, 0x40])).out ++
        [Out.reg 0x20 0x01, Out.reg 0x40 0x4F, Out.reg 0x60 0xF1, Out.reg 0x80 0x53,
         Out.reg 0xE0 0x00, Out.reg 0xC0 0x06, Out.reg 0x23 0x11, Out.reg 0x43 0x00,
         Out.reg 0x63 0xD2, Out.reg 0x83 0x74, Out.reg 0xE3 0x00, Out.reg 0xC0 0x06,
         Out.reg 0xA0 0x57, Out.reg 0xB0 0x31] ∧
      tick zeroU 0 p1 = .ok (true, p2) ∧
      p2.out = p1.out ++ [Out.reg 0xB0 0x11] :=
  c1_end_to_end zeroU zeroU zeroU zeroHeap 0 0
    (headerBytes 120 0 ++ [0x00, 0x90, 0x3C, 0x7F, 0x00, 0x80, 0x3C, 0x40])
    (playerOf 120 0 [0x00, 0x90, 0x3C, 0x7F, 0x00, 0x80, 0x3C, 0x40])
    (player_headerBytes zeroU 120 0 _ (by decide) (by decide)) rfl rfl rfl

/-- C2 (counterexample): the file with 0 ticks per second and music `01 FC`, a
Stop message after a delta-time of 1.  The stream is not at its end and the
status byte of the tick is `0xFC`, but the tick does not return `false`: it
divides by the ticks-per-second value before it reads the status byte, and
does not return at all. -/
theorem c2_division_before_status :
    (init zeroHeap (playerOf 0 0 [0x01, 0xFC])).data.eofbit = false ∧
    (init zeroHeap (playerOf 0 0 [0x01, 0xFC])).cmfHeader.iTicksPerSecond = 0 ∧
    tickDelay zeroU (init zeroHeap (playerOf 0 0 [0x01, 0xFC])) = 1 ∧
    tickCommand zeroU (init zeroHeap (playerOf 0 0 [0x01, 0xFC])) = 0xFC ∧
    tick zeroU 0 (init zeroHeap (playerOf 0 0 [0x01, 0xFC])) = .error Fault.divByZero ∧
    ¬ ∃ q, tick zeroU 0 (init zeroHeap (playerOf 0 0 [0x01, 0xFC])) = .ok (false, q) := by
  have he : (init zeroHeap (playerOf 0 0 [0x01, 0xFC])).data.eofbit = false :=
    good_eofbit _ (init_playerOf_good zeroHeap 0 _)
  have ht := init_tps zeroHeap 0 0 [0x01, 0xFC]
  obtain ⟨hd, hc⟩ := no_tps_delta
  have hz := tick_divByZero zeroU 0 (init zeroHeap (playerOf 0 0 [0x01, 0xFC])) he
    (by rw [hd]; decide) ht
  refine ⟨he, ht, hd, hc, hz, ?_⟩
  rintro ⟨q, hq⟩
  rw [hz] at hq
  cases hq

/-- C2 (amended): when ticks-per-second is non-zero or the delta-time of the
tick is zero, `tick` returns `false` exactly when `eofbit` is set on entry, or
the command byte after running-status resolution has its high bit clear, or is
`0xFC`, or is `0xFF` followed by `0x2F`; a tick that returns `false` makes no
register write and leaves the channel, voice and register-mirror state as it
was; on the stream `00 FF 2F` the tick returns `false` with no callback at
all. -/
theorem c2_tick_false (u : Nat → Nat) (fuel : Nat) (p : Player)
    (ht : tickDelay u p ≠ 0 → p.cmfHeader.iTicksPerSecond ≠ 0) :
    ((∃ q, tick u fuel p = .ok (false, q)) ↔
      (p.data.eofbit = true ∨ tickCommand u p &&& 0x80 = 0 ∨ tickCommand u p = 0xFC ∨
        (tickCommand u p = 0xFF ∧ ((tickStream u p).u8 (u 8 % 256)).1 = 0x2F))) ∧
    (∀ q, tick u fuel p = .ok (false, q) →
      (∀ o ∈ emitted p q, o.isReg = false) ∧ q.chMIDI = p.chMIDI ∧ q.chOPL = p.chOPL ∧
        q.iCurrentRegs = p.iCurrentRegs ∧ q.bPercussive = p.bPercussive ∧
        q.iTranspose = p.iTranspose ∧ q.iNoteCount = p.iNoteCount ∧
        q.pInstruments = p.pInstruments) ∧
    (∀ tl, p.data.good = true → p.data.rest = [0x00, 0xFF, 0x2F] ++ tl →
      ∃ q, tick u fuel p = .ok (false, q) ∧ q.out = p.out) := by
  refine ⟨?_, ?_, ?_⟩
  · by_cases he : p.data.eofbit = true
    · simp [tick_eof u fuel p he, he]
    · have he' : p.data.eofbit = false := by simpa using he
      rw [tick_unfold u fuel p he' ht]
      by_cases hc : tickCommand u p &&& 0x80 = 0
      · simp [hc]
      · rw [if_neg hc, tickEvent_false_iff, tickEntry_data]
        simp [he', hc]
  · intro q hq
    by_cases he : p.data.eofbit = true
    · rw [tick_eof u fuel p he] at hq
      injection hq with hq; injection hq with h1 h2; subst h2
      simp [emitted]
    · have he' : p.data.eofbit = false := by simpa using he
      rw [tick_unfold u fuel p he' ht] at hq
      have key : q = (tickEntry u p).setData q.data := by
        by_cases hc : tickCommand u p &&& 0x80 = 0
        · rw [if_pos hc] at hq
          injection hq with hq; injection hq with h1 h2; subst h2; rfl
        · rw [if_neg hc] at hq
          exact tickEvent_false_frame u fuel _ q _ hq
      have hout : q.out = (tickEntry u p).out := by rw [key]; rfl
      rw [tickEntry_out] at hout
      rw [emitted_append p q _ hout]
      refine ⟨?_, ?_⟩
      · intro o ho
        split_ifs at ho
        · simp at ho
        · simp only [List.mem_singleton] at ho; subst ho; rfl
      · rw [key]; simp
  · intro tl hg hr
    have t := tick_status u fuel p [0] (0x2F :: tl) 0xFF hg (by simpa using hr) isVarLen_zero
      (by norm_num) (by norm_num) (by simp [concat7])
    have hcz : concat7 [0] = 0 := by simp [concat7]
    have hr2 : (p.data.skip 2).rest = 0x2F :: tl := by rw [skip_rest, hr]; rfl
    have e := u8_step (p.data.skip 2) (u 8 % 256) 0x2F tl (by simpa using hg) hr2
    have t2 : tick u fuel p = .ok (false,
        ((p.setData (p.data.skip 2)).setPrev 255).setData (p.data.skip 3)) := by
      rw [t]
      have h240 : (255 &&& 240 : Nat) = 240 := by decide
      simp [tickEvent, systemEvent, hcz, e, h240]
    exact ⟨_, t2, rfl⟩

theorem c2_tick_false_witness :
    ∃ q, tick zeroU 0 (init zeroHeap (playerOf 120 0 [0x00, 0xFF, 0x2F])) = .ok (false, q) ∧
      q.out = (init zeroHeap (playerOf 120 0 [0x00, 0xFF, 0x2F])).out :=
  (c2_tick_false zeroU 0 (init zeroHeap (playerOf 120 0 [0x00, 0xFF, 0x2F]))
    (fun _ => by rw [init_tps]; decide)).2.2 [] (by decide) (by decide)

/-- C3 (failing input): on the music stream `00 F0 01`, a Sysex whose
terminating byte is missing, the call of `tick` never returns: whatever the
fuel, the Sysex loop is still running. -/
theorem c3_truncated_sysex_diverges (u : Nat → Nat) (heap : Nat → SBI) (fuel : Nat) :
    tick u fuel (init heap (playerOf 120 0 [0x00, 0xF0, 0x01])) = .error Fault.fuel := by
  have hd : (init heap (playerOf 120 0 [0x00, 0xF0, 0x01])).data =
      ⟨headerBytes 120 0 ++ [0x00, 0xF0, 0x01], 40, false, false⟩ := by
    rw [init_data_zero heap _ rfl]; rfl
  have hg : (init heap (playerOf 120 0 [0x00, 0xF0, 0x01])).data.good = true := by
    rw [hd]; rfl
  have hr : (init heap (playerOf 120 0 [0x00, 0xF0, 0x01])).data.rest = [0] ++ 0xF0 :: [0x01] := by
    rw [hd]; rfl
  rw [tick_status u fuel _ [0] [0x01] 0xF0 hg hr isVarLen_zero (by norm_num) (by norm_num)
    (by simp [concat7])]
  have h240 : (240 &&& 240 : Nat) = 240 := by decide
  simp only [tickEvent, h240, if_true, systemEvent, setPrev_data, setData_data,
    List.length_singleton]
  have hr2 : ((init heap (playerOf 120 0 [0x00, 0xF0, 0x01])).data.skip (1 + 1)).rest = [0x01] := by
    rw [skip_rest, hr]; rfl
  have hl : sysexLoop fuel ((init heap (playerOf 120 0 [0x00, 0xF0, 0x01])).data.skip (1 + 1))
      (u 7 % 256) = none := by
    cases fuel with
    | zero => rfl
    | succ n =>
      have e := u8_step _ (u 7 % 256) 0x01 [] (by simpa using hg) hr2
      have h1 : (1 % 256 &&& 0x80 : Nat) = 0 := by decide
      simp only [sysexLoop, e, h1, if_true]
      exact sysexLoop_at_end n _ _ (rest_skip_one _ _ _ hr2) h1
  rw [hl]

/-- C4 (counterexample): with one tick per second and a delta-time of 66, the
delay callback receives 464, not `66 * 1000 / 1 = 66000`. -/
theorem c4_delay_truncated :
    tickDelay zeroU (init zeroHeap (playerOf 1 0 [0x42, 0xF6])) = 66 ∧
    (init zeroHeap (playerOf 1 0 [0x42, 0xF6])).cmfHeader.iTicksPerSecond = 1 ∧
    (∃ q, tick zeroU 0 (init zeroHeap (playerOf 1 0 [0x42, 0xF6])) = .ok (true, q) ∧
      emitted (init zeroHeap (playerOf 1 0 [0x42, 0xF6])) q = [Out.delay 464]) ∧
    66 * 1000 / 1 ≠ 464 := by
  have hd : (init zeroHeap (playerOf 1 0 [0x42, 0xF6])).data =
      ⟨headerBytes 1 0 ++ [0x42, 0xF6], 40, false, false⟩ := by
    rw [init_data_zero zeroHeap _ rfl]; rfl
  have hg : (init zeroHeap (playerOf 1 0 [0x42, 0xF6])).data.good = true := by
    rw [hd]; rfl
  have hr : (init zeroHeap (playerOf 1 0 [0x42, 0xF6])).data.rest = [0x42] ++ 0xF6 :: [] := by
    rw [hd]; rfl
  have hv := isVarLen_single 0x42 (by norm_num)
  have hc := concat7_single 0x42 (by norm_num)
  have htps := init_tps zeroHeap 1 0 [0x42, 0xF6]
  refine ⟨?_, htps, ?_, by decide⟩
  · rw [tickDelay, (readMIDINumber_decodes zeroU _ [0x42] [0xF6] hg hr hv).1, hc]
  · have t := tick_status zeroU 0 _ [0x42] [] 0xF6 hg hr hv (by norm_num) (by norm_num)
      (by rw [htps]; decide)
    have h240 : (246 &&& 240 : Nat) = 240 := by decide
    have t2 : tick zeroU 0 (init zeroHeap (playerOf 1 0 [0x42, 0xF6])) = .ok (true,
        (((waitDelay (init zeroHeap (playerOf 1 0 [0x42, 0xF6])) 66).setData
          ((init zeroHeap (playerOf 1 0 [0x42, 0xF6])).data.skip 2)).setPrev 246)) := by
      rw [t]
      simp [tickEvent, systemEvent, hc, h240]
    refine ⟨_, t2, ?_⟩
    apply emitted_append
    simp [waitDelay_out, playerOf, mkPlayer, headerOf]

/-- C4 (amended): for a tick entered with `eofbit` clear, ticks-per-second
`tps > 0` and decoded delta-time `d` such that `d * 1000` fits in 32 bits and
`d * 1000 / tps` in 16 bits: the callbacks of the tick are, in order, the delay
`d * 1000 / tps` (exactly once, and only if `d > 0`) and then register writes
only.  The tick returns unless its command byte is a Sysex `0xF0`. -/
theorem c4_delay_value (u : Nat → Nat) (fuel : Nat) (p : Player)
    (he : p.data.eofbit = false) (ht : 0 < p.cmfHeader.iTicksPerSecond)
    (h32 : tickDelay u p * 1000 < 2 ^ 32)
    (h16 : tickDelay u p * 1000 / p.cmfHeader.iTicksPerSecond < 65536) :
    (∀ b q, tick u fuel p = .ok (b, q) →
      ∃ w, q.out = p.out ++
          (if tickDelay u p = 0 then []
            else [Out.delay (tickDelay u p * 1000 / p.cmfHeader.iTicksPerSecond)]) ++ w ∧
        ∀ o ∈ w, o.isReg = true) ∧
    (tickCommand u p ≠ 0xF0 → ∃ b q, tick u fuel p = .ok (b, q)) := by
  have hu := tick_unfold u fuel p he (fun _ => by omega)
  have ho := tickEntry_out u p
  rw [Nat.mod_eq_of_lt h32, Nat.mod_eq_of_lt h16] at ho
  refine ⟨?_, ?_⟩
  · intro b q hq
    rw [hu] at hq
    by_cases hc : tickCommand u p &&& 0x80 = 0
    · rw [if_pos hc] at hq
      injection hq with hq; injection hq with h1 h2; subst h2
      exact ⟨[], by rw [ho]; simp, by simp⟩
    · rw [if_neg hc] at hq
      obtain ⟨w, hw, ha⟩ := any_tickEvent u fuel _ q _ b hq
      refine ⟨w, by rw [hw, ho], ?_⟩
      intro o hmem
      obtain ⟨r, v, h1, -⟩ := ha o hmem
      subst h1; rfl
  · intro hne
    rw [hu]
    by_cases hc : tickCommand u p &&& 0x80 = 0
    · rw [if_pos hc]; exact ⟨_, _, rfl⟩
    · rw [if_neg hc]; exact tickEvent_returns u fuel _ _ hne

theorem c4_delay_value_witness :
    ∃ w, (((waitDelay (init zeroHeap (playerOf 120 0 [0x0C, 0xF6])) 12).setData
          ((init zeroHeap (playerOf 120 0 [0x0C, 0xF6])).data.skip 2)).setPrev 246).out =
        (init zeroHeap (playerOf 120 0 [0x0C, 0xF6])).out ++
          (if tickDelay zeroU (init zeroHeap (playerOf 120 0 [0x0C, 0xF6])) = 0 then []
            else [Out.delay (tickDelay zeroU (init zeroHeap (playerOf 120 0 [0x0C, 0xF6])) * 1000 /
              (init zeroHeap (playerOf 120 0 [0x0C, 0xF6])).cmfHeader.iTicksPerSecond)]) ++ w ∧
        ∀ o ∈ w, o.isReg = true := by
  have hd : (init zeroHeap (playerOf 120 0 [0x0C, 0xF6])).data =
      ⟨headerBytes 120 0 ++ [0x0C, 0xF6], 40, false, false⟩ := by
    rw [init_data_zero zeroHeap _ rfl]; rfl
  have hg : (init zeroHeap (playerOf 120 0 [0x0C, 0xF6])).data.good = true := by
    rw [hd]; rfl
  have hr : (init zeroHeap (playerOf 120 0 [0x0C, 0xF6])).data.rest = [0x0C] ++ 0xF6 :: [] := by
    rw [hd]; rfl
  have hv := isVarLen_single 0x0C (by norm_num)
  have hc := concat7_single 0x0C (by norm_num)
  have htps := init_tps zeroHeap 120 0 [0x0C, 0xF6]
  have hdel : tickDelay zeroU (init zeroHeap (playerOf 120 0 [0x0C, 0xF6])) = 12 := by
    rw [tickDelay, (readMIDINumber_decodes zeroU _ [0x0C] [0xF6] hg hr hv).1, hc]
  have t := tick_status zeroU 0 _ [0x0C] [] 0xF6 hg hr hv (by norm_num) (by norm_num)
    (by rw [htps]; decide)
  have h240 : (246 &&& 240 : Nat) = 240 := by decide
  have t2 : tick zeroU 0 (init zeroHeap (playerOf 120 0 [0x0C, 0xF6])) = .ok (true,
      (((waitDelay (init zeroHeap (playerOf 120 0 [0x0C, 0xF6])) 12).setData
        ((init zeroHeap (playerOf 120 0 [0x0C, 0xF6])).data.skip 2)).setPrev 246)) := by
    rw [t]
    simp [tickEvent, systemEvent, hc, h240]
  exact (c4_delay_value zeroU 0 (init zeroHeap (playerOf 120 0 [0x0C, 0xF6]))
    (by rw [hd]) (by rw [htps]; decide) (by rw [hdel]; decide)
    (by rw [hdel, htps]; decide)).1 _ _ t2

/-- C5: on a good stream that starts with a complete delta-time encoding `bs`
(one to four bytes, ending at the first byte with the high bit clear or at the
fourth byte), `readMIDINumber` consumes exactly the bytes of `bs` and returns
the big-endian concatenation of their low seven bits, a value below `2 ^ 28`.
A single byte `V < 128` decodes to `V`, and `81 00` decodes to 128. -/
theorem c5_readMIDINumber (u : Nat → Nat) (s : IStream) (bs tl : List Nat)
    (hg : s.good = true) (hr : s.rest = bs ++ tl) (hv : IsVarLen bs) :
    readMIDINumber u s = (concat7 bs, s.skip bs.length) ∧ bs.length ≤ 4 ∧
      concat7 bs < 2 ^ 28 ∧
      (∀ V, V < 128 → bs = [V] → readMIDINumber u s = (V, s.skip 1)) ∧
      (bs = [0x81, 0x00] → readMIDINumber u s = (128, s.skip 2)) := by
  obtain ⟨h1, h2⟩ := readMIDINumber_decodes u s bs tl hg hr hv
  refine ⟨h1, hv.2.1, h2, ?_, ?_⟩
  · intro V hV hbs
    subst hbs
    rw [h1, concat7_single V hV]; rfl
  · intro hbs
    subst hbs
    rw [h1]; rfl

theorem c5_readMIDINumber_witness :
    readMIDINumber zeroU (IStream.ofBytes [0x81, 0x00, 0x90]) =
      (128, (IStream.ofBytes [0x81, 0x00, 0x90]).skip 2) :=
  (c5_readMIDINumber zeroU (IStream.ofBytes [0x81, 0x00, 0x90]) [0x81, 0x00] [0x90] rfl rfl
    ⟨by simp, by simp, by simp, by simp, Or.inr (by simp)⟩).2.2.2.2 rfl

/-- C6: running status is the same as repeating the status byte.  Let the stored
previous status `s` have its high bit set, `delta` be a complete delta-time
encoding and `d < 0x80`.  A tick on a state whose stream continues with
`delta ++ [d] ++ tl` and a tick on the same state with a stream that continues
with `delta ++ [s, d] ++ tl` have the same outcome: the same returned value,
the same callbacks and state (everything but the stream is equal), and the
same unread remainder and state bits of the stream. -/
theorem c6_running_status (u : Nat → Nat) (fuel : Nat) (pA pB : Player) (delta tl : List Nat)
    (d : Nat) (hs1 : 128 ≤ pA.iPrevCommand) (hs2 : pA.iPrevCommand < 256) (hd : d < 128)
    (hv : IsVarLen delta)
    (hgA : pA.data.good = true) (hrA : pA.data.rest = delta ++ d :: tl)
    (hAB : pB.setData pA.data = pA)
    (hgB : pB.data.good = true) (hrB : pB.data.rest = delta ++ pA.iPrevCommand :: d :: tl) :
    ResultEq (tick u fuel pA) (tick u fuel pB) := by
  have hprev : pB.iPrevCommand = pA.iPrevCommand := by rw [← hAB]; rfl
  have hhdr : pB.cmfHeader = pA.cmfHeader := by rw [← hAB]; rfl
  have hdA : tickDelay u pA = concat7 delta :=
    congrArg Prod.fst (readMIDINumber_decodes u pA.data delta _ hgA hrA hv).1
  have hdB : tickDelay u pB = concat7 delta :=
    congrArg Prod.fst (readMIDINumber_decodes u pB.data delta _ hgB hrB hv).1
  by_cases hz : concat7 delta ≠ 0 ∧ pA.cmfHeader.iTicksPerSecond = 0
  · rw [tick_divByZero u fuel pA (good_eofbit _ hgA) (by rw [hdA]; exact hz.1) hz.2,
      tick_divByZero u fuel pB (good_eofbit _ hgB) (by rw [hdB]; exact hz.1)
        (by rw [hhdr]; exact hz.2)]
    exact rfl
  · have htA : concat7 delta ≠ 0 → pA.cmfHeader.iTicksPerSecond ≠ 0 := fun h1 h2 => hz ⟨h1, h2⟩
    have htB : concat7 delta ≠ 0 → pB.cmfHeader.iTicksPerSecond ≠ 0 := by rwa [hhdr]
    rw [tick_running u fuel pA delta tl d hgA hrA hv hd hs1 hs2 htA,
      tick_status u fuel pB delta (d :: tl) pA.iPrevCommand hgB hrB hv hs1 hs2 htB]
    have hw : waitDelay pB (concat7 delta) = (waitDelay pA (concat7 delta)).setData pB.data := by
      rw [← waitDelay_setData, ← hAB]; rfl
    have hB2 : (((waitDelay pB (concat7 delta)).setData (pB.data.skip (delta.length + 1))).setPrev
        pA.iPrevCommand) =
        (waitDelay pA (concat7 delta)).setData (pB.data.skip (delta.length + 1)) := by
      rw [hw]
      have : (waitDelay pA (concat7 delta)).iPrevCommand = pA.iPrevCommand := by simp
      rw [← this]; rfl
    rw [hB2]
    apply tickEvent_congr
    refine ⟨?_, ?_, ?_⟩
    · rw [rest_advance _ _ _ hrA]
      have := rest_advance pB.data (delta ++ [pA.iPrevCommand]) (d :: tl) (by simpa using hrB)
      simpa using this.symm
    · simp [good_eofbit _ hgA, good_eofbit _ hgB]
    · simp [good_failbit _ hgA, good_failbit _ hgB]

theorem c6_running_status_witness :
    ResultEq
      (tick zeroU 0 ((init zeroHeap (playerOf 120 0 [0x00, 0x3C, 0x7F])).setPrev 0x90))
      (tick zeroU 0 (((init zeroHeap (playerOf 120 0 [0x00, 0x3C, 0x7F])).setPrev 0x90).setData
        (IStream.ofBytes [0x00, 0x90, 0x3C, 0x7F]))) :=
  c6_running_status zeroU 0 ((init zeroHeap (playerOf 120 0 [0x00, 0x3C, 0x7F])).setPrev 0x90)
    (((init zeroHeap (playerOf 120 0 [0x00, 0x3C, 0x7F])).setPrev 0x90).setData
        (IStream.ofBytes [0x00, 0x90, 0x3C, 0x7F]))
    [0x00] [0x7F] 0x3C (by simp) (by simp) (by decide)
    isVarLen_zero (by rw [setPrev_data]; exact init_playerOf_good zeroHeap 120 _)
    (by rw [setPrev_data]; exact init_playerOf_rest zeroHeap 120 _)
    (by rw [setData_setData, setPrev_data, setPrev_setData_self])
    rfl rfl

/-- C7: a Note On with velocity 0 is a Note Off.  From the same player state,
a tick that reads `delta, 0x90|c, n, 0` and a tick that reads
`delta, 0x80|c, n, v` both return `true` and end with the same callback
record, voices, channels, register mirror, rhythm flag, transpose and note
counter; and a tick that reads `delta, 0x90|c, n, w` with `w ≠ 0` ends in the
state that `cmfNoteOn` produces, with the note counter advanced by one (a Note
Off never advances it). -/
theorem c7_noteOn_zero_is_noteOff (u : Nat → Nat) (fuel : Nat) (p : Player)
    (sA sB sC : IStream) (delta tlA tlB tlC : List Nat) (c n v w : Nat)
    (hc : c < 16) (hn : n < 256) (hv : v < 256) (hw : w < 256) (hw0 : w ≠ 0)
    (hd : IsVarLen delta)
    (hgA : sA.good = true) (hrA : sA.rest = delta ++ (0x90 ||| c) :: n :: 0 :: tlA)
    (hgB : sB.good = true) (hrB : sB.rest = delta ++ (0x80 ||| c) :: n :: v :: tlB)
    (hgC : sC.good = true) (hrC : sC.rest = delta ++ (0x90 ||| c) :: n :: w :: tlC)
    (ht : concat7 delta ≠ 0 → p.cmfHeader.iTicksPerSecond ≠ 0) :
    ∃ qA qB qC,
      tick u fuel (p.setData sA) = .ok (true, qA) ∧
      tick u fuel (p.setData sB) = .ok (true, qB) ∧
      tick u fuel (p.setData sC) = .ok (true, qC) ∧
      qA.out = qB.out ∧ qA.chOPL = qB.chOPL ∧ qA.chMIDI = qB.chMIDI ∧
      qA.iCurrentRegs = qB.iCurrentRegs ∧ qA.bPercussive = qB.bPercussive ∧
      qA.iTranspose = qB.iTranspose ∧ qA.iNoteCount = qB.iNoteCount ∧
      qB.iNoteCount = p.iNoteCount ∧
      qC = cmfNoteOn ((((waitDelay p (concat7 delta)).setData (sC.skip (delta.length + 1))).setPrev
          (0x90 ||| c)).setData (sC.skip (delta.length + 1 + 2))) c n w ∧
      qC.iNoteCount = p.iNoteCount + 1 := by
  obtain ⟨n1, n2, n3, n4, n5, n6, n7, n8⟩ := nibbles c hc
  have hn' : n % 256 = n := Nat.mod_eq_of_lt hn
  have hv' : v % 256 = v := Nat.mod_eq_of_lt hv
  have hw' : w % 256 = w := Nat.mod_eq_of_lt hw
  -- tick A
  have tA := tick_status u fuel (p.setData sA) delta _ _ hgA hrA hd n5 n6 ht
  have rA : (sA.skip (delta.length + 1)).rest = n :: 0 :: tlA := by
    have := rest_advance sA (delta ++ [0x90 ||| c]) (n :: 0 :: tlA) (by simpa using hrA)
    simpa using this
  rw [tickEvent_noteOn_zero u fuel _ _ n 0 tlA n1 (by simpa using hgA) (by simpa using rA) rfl]
    at tA
  -- tick B
  have tB := tick_status u fuel (p.setData sB) delta _ _ hgB hrB hd n7 n8 ht
  have rB : (sB.skip (delta.length + 1)).rest = n :: v :: tlB := by
    have := rest_advance sB (delta ++ [0x80 ||| c]) (n :: v :: tlB) (by simpa using hrB)
    simpa using this
  rw [tickEvent_noteOff u fuel _ _ n v tlB n3 (by simpa using hgB) (by simpa using rB)] at tB
  -- tick C
  have tC := tick_status u fuel (p.setData sC) delta _ _ hgC hrC hd n5 n6 ht
  have rC : (sC.skip (delta.length + 1)).rest = n :: w :: tlC := by
    have := rest_advance sC (delta ++ [0x90 ||| c]) (n :: w :: tlC) (by simpa using hrC)
    simpa using this
  rw [tickEvent_noteOn u fuel _ _ n w tlC n1 (by simpa using hgC) (by simpa using rC)
    (by rw [hw']; exact hw0)] at tC
  simp only [n2, n4, hn', hv', hw', setData_data, setPrev_data, waitDelay_setData,
    setData_setData, skip_skip, Nat.zero_mod] at tA tB tC
  refine ⟨_, _, _, tA, tB, tC, ?_⟩
  simp only [noteOff_setData, noteOff_setPrev, noteOff_velocity _ c n v, setData_out,
    setPrev_out, setData_chOPL, setPrev_chOPL, setData_chMIDI, setPrev_chMIDI,
    setData_iCurrentRegs, setPrev_iCurrentRegs, setData_bPercussive, setPrev_bPercussive,
    setData_iTranspose, setPrev_iTranspose, setData_iNoteCount, setPrev_iNoteCount,
    noteOff_iNoteCount, waitDelay_iNoteCount, noteOn_iNoteCount, true_and]

theorem c7_noteOn_zero_is_noteOff_witness :
    ∃ qA qB,
      tick zeroU 0 ((init zeroHeap (playerOf 120 0 [])).setData
        (IStream.ofBytes [0x00, 0x90, 0x3C, 0x00])) = .ok (true, qA) ∧
      tick zeroU 0 ((init zeroHeap (playerOf 120 0 [])).setData
        (IStream.ofBytes [0x00, 0x80, 0x3C, 0x40])) = .ok (true, qB) ∧
      qA.out = qB.out ∧ qA.chOPL = qB.chOPL := by
  obtain ⟨qA, qB, _, h1, h2, _, h3, h4, _⟩ :=
    c7_noteOn_zero_is_noteOff zeroU 0 (init zeroHeap (playerOf 120 0 []))
      (IStream.ofBytes [0x00, 0x90, 0x3C, 0x00]) (IStream.ofBytes [0x00, 0x80, 0x3C, 0x40])
      (IStream.ofBytes [0x00, 0x90, 0x3C, 0x7F]) [0x00] [] [] [] 0 0x3C 0x40 0x7F
      (by decide) (by decide) (by decide) (by decide) (by decide) isVarLen_zero
      rfl rfl rfl rfl rfl rfl (fun _ => by rw [init_tps]; decide)
  exact ⟨qA, qB, h1, h2, h3, h4⟩

set_option maxRecDepth 100000 in
/-- C8 (counterexample): after seven note-ons on channel 0 and controller 0x67
with value 1, rhythm mode is active and seven voices have a non-zero
note-start. -/
theorem c8_seven_sounding_in_rhythm_mode :
    (voicesAfter sevenNotesThenRhythm 8 []).map (fun r => r.2) = some (true, 7) := by
  decide!

/-- C8 (amended): in every player state, so after `init` and after every tick,
at most 9 voices have a non-zero note-start, and at most 6 when voices 6 to 8
are free.  While rhythm mode is active, a note-on on a melodic channel
(channel at most 10) starts its note on a voice in 0..5 and leaves voices 6
to 8 as they are. -/
theorem c8_polyphony_bound :
    (∀ p : Player, soundingCount p ≤ 9) ∧
    (∀ p : Player, (∀ i, 6 ≤ i → i < 9 → sounding p i = false) → soundingCount p ≤ 6) ∧
    (∀ (p : Player) (c n v : Nat), p.bPercussive = true → c ≤ 10 →
      noteOnVoice p c < 6 ∧ ∀ i, 6 ≤ i → (cmfNoteOn p c n v).chOPL i = p.chOPL i) := by
  refine ⟨soundingCount_le, soundingCount_le_six, ?_⟩
  intro p c n v hp hc
  have hv : noteOnVoice p c < 6 := by
    have h1 : noteOnVoice p c = chooseVoice p c := by
      unfold noteOnVoice; rw [if_neg]; omega
    have h2 := chooseVoice_lt p c
    rw [h1]
    simpa [numChannels, hp] using h2
  exact ⟨hv, fun i hi => noteOn_chOPL_ne p c n v i (by omega)⟩

theorem c8_polyphony_bound_witness :
    noteOnVoice (MIDIcontroller (init zeroHeap (playerOf 120 0 [])) 0 0x67 1) 0 < 6 :=
  (c8_polyphony_bound.2.2 (MIDIcontroller (init zeroHeap (playerOf 120 0 [])) 0 0x67 1) 0 60 127
    (by simp [MIDIcontroller]) (by decide)).1

set_option maxRecDepth 100000 in
/-- C10 (counterexample): two note-ons for note 60 on channel 0 followed by a
note-off for the same pair.  The second note-on is handled by voice 1, the
note-off that follows it frees voice 0, and voice 1 keeps sounding. -/
theorem c10_note_off_frees_other_voice :
    voicesAfter [0x00, 0x90, 60, 127, 0x00, 0x90, 60, 127] 2 [0, 1] =
        some ([⟨1, 60, 0, 0⟩, ⟨2, 60, 0, 0⟩], false, 2) ∧
      voicesAfter [0x00, 0x90, 60, 127, 0x00, 0x90, 60, 127, 0x00, 0x80, 60, 64] 3 [0, 1] =
        some ([⟨0, 60, 0, 0⟩, ⟨2, 60, 0, 0⟩], false, 1) := by
  decide!

/-- C10 (amended): in a state whose note counter is not negative, a note-on for
(channel, note) makes its voice sound; when, in the melodic case, no
lower-numbered voice already sounds the same (channel, note), the note-off that
follows frees that voice, leaves the note-start of every other voice as it was,
and every register write of the two events addresses a register of that voice
or is a write to the rhythm register that keeps all bits but the channel's
own. -/
theorem c10_note_on_off (p : Player) (c n v v2 : Nat) (hc : c ≤ 15)
    (hcount : 0 ≤ p.iNoteCount)
    (hlow : ¬ (c > 10 ∧ p.bPercussive = true) → ∀ i, i < noteOnVoice p c →
      ¬ (sounding p i = true ∧ (p.chOPL i).iMIDIChannel = (c : Int) ∧
        (p.chOPL i).iMIDINote = (n : Int))) :
    sounding (cmfNoteOn p c n v) (noteOnVoice p c) = true ∧
    sounding (cmfNoteOff (cmfNoteOn p c n v) c n v2) (noteOnVoice p c) = false ∧
    (∀ i, i ≠ noteOnVoice p c →
      ((cmfNoteOff (cmfNoteOn p c n v) c n v2).chOPL i).iNoteStart = (p.chOPL i).iNoteStart) ∧
    WritesIn (VoiceWrite p (noteOnVoice p c) c) p (cmfNoteOff (cmfNoteOn p c n v) c n v2) := by
  obtain ⟨s1, s2, s3⟩ := noteOn_chOPL_self p c n v
  have hon : sounding (cmfNoteOn p c n v) (noteOnVoice p c) = true := by
    simp only [sounding, s1, decide_eq_true_eq]
    omega
  have key : (cmfNoteOff (cmfNoteOn p c n v) c n v2).chOPL =
        setAt (cmfNoteOn p c n v).chOPL (noteOnVoice p c)
          { (cmfNoteOn p c n v).chOPL (noteOnVoice p c) with iNoteStart := 0 } ∧
      WritesIn (VoiceWrite p (noteOnVoice p c) c) p
        (cmfNoteOff (cmfNoteOn p c n v) c n v2) := by
    by_cases hm : c > 10 ∧ p.bPercussive = true
    · have hV : noteOnVoice p c = getPercChannel c := by unfold noteOnVoice; rw [if_pos hm]
      have hq : (c > 10 ∧ (cmfNoteOn p c n v).bPercussive = true) := by simpa using hm
      have hon2 : cmfNoteOn p c n v =
          noteOnPerc p c n v (noteBlock n)
            (oplFNum n (p.chMIDI c).iPitchbend p.iTranspose (noteBlock n)) := by
        simp only [cmfNoteOn, if_pos hm]
      rw [hV] at s2 ⊢
      obtain ⟨W1, E1⟩ := noteOnPerc_writes p c n v (noteBlock n)
        (oplFNum n (p.chMIDI c).iPitchbend p.iTranspose (noteBlock n)) (by omega) hc hm.2
      rw [← hon2] at W1 E1
      obtain ⟨W2, E2⟩ := noteOffPerc_writes (cmfNoteOn p c n v) c n
        (p.iCurrentRegs BASE_RHYTHM) (by omega) hc s2 E1
      simp only [cmfNoteOff, if_pos hq]
      exact ⟨E2, W1.trans (W2.mono (fun r val h => Or.inr h))⟩
    · have hV : noteOnVoice p c = chooseVoice p c := by unfold noteOnVoice; rw [if_neg hm]
      have hq : ¬ (c > 10 ∧ (cmfNoteOn p c n v).bPercussive = true) := by simpa using hm
      have hon2 : cmfNoteOn p c n v =
          noteOnMelodic p c n (noteBlock n)
            (oplFNum n (p.chMIDI c).iPitchbend p.iTranspose (noteBlock n)) := by
        simp only [cmfNoteOn, if_neg hm]
      have hl := hlow hm
      rw [hV] at hl ⊢
      have W1 := noteOnMelodic_writes p c n (noteBlock n)
        (oplFNum n (p.chMIDI c).iPitchbend p.iTranspose (noteBlock n)) hm
      rw [← hon2] at W1
      obtain ⟨W2, E2⟩ := noteOffMelodic_writes (cmfNoteOn p c n v) c n (chooseVoice p c)
        (chooseVoice_le p c) (findNote_noteOn p c n v hm hcount hl)
      simp only [cmfNoteOff, if_neg hq]
      exact ⟨E2, (W1.trans W2).mono (fun r val h => Or.inl h)⟩
  refine ⟨hon, ?_, ?_, key.2⟩
  · simp only [sounding, key.1, setAt_same]
    simp
  · intro i hi
    rw [key.1, setAt_ne _ _ _ _ hi, noteOn_chOPL_ne p c n v i hi]

theorem c10_note_on_off_witness :
    sounding (cmfNoteOn (init zeroHeap (playerOf 120 0 [])) 0 60 127)
        (noteOnVoice (init zeroHeap (playerOf 120 0 [])) 0) = true ∧
    sounding (cmfNoteOff (cmfNoteOn (init zeroHeap (playerOf 120 0 [])) 0 60 127) 0 60 64)
        (noteOnVoice (init zeroHeap (playerOf 120 0 [])) 0) = false ∧
    (∀ i, i ≠ noteOnVoice (init zeroHeap (playerOf 120 0 [])) 0 →
      ((cmfNoteOff (cmfNoteOn (init zeroHeap (playerOf 120 0 [])) 0 60 127) 0 60 64).chOPL
        i).iNoteStart = ((init zeroHeap (playerOf 120 0 [])).chOPL i).iNoteStart) ∧
    WritesIn (VoiceWrite (init zeroHeap (playerOf 120 0 []))
        (noteOnVoice (init zeroHeap (playerOf 120 0 [])) 0) 0)
      (init zeroHeap (playerOf 120 0 []))
      (cmfNoteOff (cmfNoteOn (init zeroHeap (playerOf 120 0 [])) 0 60 127) 0 60 64) :=
  c10_note_on_off (init zeroHeap (playerOf 120 0 [])) 0 60 127 64 (by decide)
    (by rw [init_iNoteCount]; simp [playerOf, mkPlayer])
    (fun _ i _ hi => by
      have : sounding (init zeroHeap (playerOf 120 0 [])) i = false := by
        simp only [sounding, init_chOPL]
        split_ifs <;> simp [playerOf, mkPlayer]
      rw [this] at hi
      cases hi.1)

set_option maxRecDepth 100000 in
/-- C11 (counterexample): the file with music `00 B0 67 01 00 9B 23 7F` switches
rhythm mode on and then starts the bass drum, which is not sounding.  The
writes to `0xBD` up to the note-on are `0xC0` (by `init`) and `0xE0` (by the
controller); the note-on itself writes `0xBD` once, with value `0xF0`: there
is no write with bit `0x10` cleared. -/
theorem c11_single_write_when_drum_silent :
    (playFile zeroHeap (fileWithFive 120 [0x00, 0xB0, 0x67, 0x01, 0x00, 0x9B, 35, 127]) 2).map
      (fun q => (rhythmWrites (q.out.take 46), rhythmWrites (q.out.drop 46))) =
      some ([0xC0, 0xE0], [0xF0]) := by
  decide!

/-- C11 (amended): in a state with rhythm mode active whose mirror of `0xBD`
is a byte, a note-on on a percussion channel `c` in 11..15 writes to `0xBD` as
follows.  When the bit `1 << (15 - c)` is set in the mirror (the drum is
sounding), it writes the mirrored value with that bit cleared and then the
value with that bit set; when the bit is clear it writes once, the value with
the bit set.  In both cases the mirror of `0xBD` afterwards is the old value
with that bit set: the bit is set and all other bits are as before. -/
theorem c11_percussion_retrigger (p : Player) (c n v : Nat) (h1 : 11 ≤ c) (h2 : c ≤ 15)
    (hp : p.bPercussive = true) (hreg : p.iCurrentRegs BASE_RHYTHM < 256) :
    rhythmWrites (cmfNoteOn p c n v).out = rhythmWrites p.out ++
      (if p.iCurrentRegs BASE_RHYTHM &&& percBit c ≠ 0 then
        [p.iCurrentRegs BASE_RHYTHM &&& (0xFF ^^^ percBit c),
         p.iCurrentRegs BASE_RHYTHM ||| percBit c]
      else [p.iCurrentRegs BASE_RHYTHM ||| percBit c]) ∧
    (cmfNoteOn p c n v).iCurrentRegs BASE_RHYTHM = p.iCurrentRegs BASE_RHYTHM ||| percBit c ∧
    (p.iCurrentRegs BASE_RHYTHM &&& (0xFF ^^^ percBit c)) &&& percBit c = 0 ∧
    (p.iCurrentRegs BASE_RHYTHM ||| percBit c) &&& percBit c = percBit c ∧
    (p.iCurrentRegs BASE_RHYTHM ||| percBit c) &&& (0xFF ^^^ percBit c) =
      p.iCurrentRegs BASE_RHYTHM &&& (0xFF ^^^ percBit c) := by
  have hbit : percBit c < 256 := Nat.mod_lt _ (by decide)
  have hperc : c > 10 ∧ p.bPercussive = true := ⟨by omega, hp⟩
  obtain ⟨f1, f2, f3⟩ := or_bit_facts (p.iCurrentRegs BASE_RHYTHM) (percBit c) hbit
  obtain ⟨E1, E2⟩ := noteOnPerc_rhythm p c n v (noteBlock n)
    (oplFNum n (p.chMIDI c).iPitchbend p.iTranspose (noteBlock n)) h1 h2 hp hreg
  have hon : cmfNoteOn p c n v = noteOnPerc p c n v (noteBlock n)
      (oplFNum n (p.chMIDI c).iPitchbend p.iTranspose (noteBlock n)) := by
    simp only [cmfNoteOn, if_pos hperc]
  rw [hon]
  exact ⟨E1, E2, f1, f2, f3⟩

theorem c11_percussion_retrigger_witness :
    rhythmWrites (cmfNoteOn (MIDIcontroller (init zeroHeap (playerFive 120 [])) 0 0x67 1)
        11 35 127).out =
      rhythmWrites (MIDIcontroller (init zeroHeap (playerFive 120 [])) 0 0x67 1).out ++ [0xF0] ∧
    (cmfNoteOn (MIDIcontroller (init zeroHeap (playerFive 120 [])) 0 0x67 1)
        11 35 127).iCurrentRegs BASE_RHYTHM = 0xF0 := by
  have hA := c11_percussion_retrigger (MIDIcontroller (init zeroHeap (playerFive 120 [])) 0 0x67 1)
    11 35 127 (by decide) (by decide) (by simp [MIDIcontroller]) (ctl_rhythm_lt _ _ _)
  rw [ctl_rhythm_on_init] at hA
  exact ⟨hA.1, hA.2.1⟩

/-- C13: on a good stream whose instrument block holds the `n ≤ 128` declared
records, slot `i < n` after `init` is decoded from the first eleven of the 16
bytes at offset `iInstrumentBlockOffset + 16 * i`, in the order modulator
char/mult, carrier char/mult, modulator scaling/level, carrier scaling/level,
modulator attack/decay, carrier attack/decay, modulator sustain/release,
carrier sustain/release, modulator wave, carrier wave, connection.  The bytes
11..15 of a record influence no slot: a file that differs only in such bytes
gives the same instrument table. -/
theorem c13_instrument_records (heap : Nat → SBI) (p : Player)
    (hn : p.cmfHeader.iNumInstruments ≤ 128) (hg : p.data.good = true)
    (hlen : p.cmfHeader.iInstrumentBlockOffset + 16 * p.cmfHeader.iNumInstruments ≤
      p.data.bytes.length) :
    (∀ i, i < p.cmfHeader.iNumInstruments →
      (init heap p).pInstruments i =
        sbiOfBytes (recordBytes p.data.bytes p.cmfHeader.iInstrumentBlockOffset i)) ∧
    (∀ bytes2 : List Nat, bytes2.length = p.data.bytes.length →
      (∀ k, k < p.cmfHeader.iInstrumentBlockOffset ∨
          (k - p.cmfHeader.iInstrumentBlockOffset) % 16 < 11 →
        bytes2.getD k 0 = p.data.bytes.getD k 0) →
      ∀ j, (init heap (p.setData (p.data.setBytes bytes2))).pInstruments j =
        (init heap p).pInstruments j) := by
  refine ⟨fun i hi => init_pInstruments_loaded heap p i hg hlen hi, ?_⟩
  intro bytes2 hl h j
  have hg2 : (p.setData (p.data.setBytes bytes2)).data.good = true := hg
  have hlen2 : (p.setData (p.data.setBytes bytes2)).cmfHeader.iInstrumentBlockOffset +
      16 * (p.setData (p.data.setBytes bytes2)).cmfHeader.iNumInstruments ≤
      (p.setData (p.data.setBytes bytes2)).data.bytes.length := by
    show _ ≤ bytes2.length
    rw [hl]; exact hlen
  by_cases h1 : j < p.cmfHeader.iNumInstruments
  · rw [init_pInstruments_loaded heap _ j hg2 hlen2 h1, init_pInstruments_loaded heap p j hg hlen h1]
    show sbiOfBytes (recordBytes bytes2 p.cmfHeader.iInstrumentBlockOffset j) = _
    rw [recordBytes_congr p.data.bytes bytes2 _ j hl (by omega) h]
  · by_cases h2 : j < 128
    · rw [init_pInstruments_default heap (p.setData (p.data.setBytes bytes2)) j
          (show p.cmfHeader.iNumInstruments ≤ j by omega) h2,
        init_pInstruments_default heap p j (by omega) h2]
    · rw [init_pInstruments_high heap (p.setData (p.data.setBytes bytes2)) j hg2 hlen2 hn
          (by omega),
        init_pInstruments_high heap p j hg hlen hn (by omega)]

theorem c13_instrument_records_witness :
    (init zeroHeap (playerFive 120 [])).pInstruments 2 =
      ⟨⟨0x31, 0x1C, 0x51, 0x03, 0x00⟩, ⟨0xA1, 0x80, 0x54, 0x67, 0x00⟩, 0x0E⟩ :=
  (c13_instrument_records zeroHeap (playerFive 120 []) (by decide) rfl (by decide)).1 2
    (by decide)

/-- C14 (failing input): the 40-byte file `headerFive 120`, a header that
declares five instruments with nothing behind it.  The constructor accepts it,
and `init` returns without any failure, having made 45 register writes; the
instrument values among them are what the memory of the five unread slots held
(7 where that memory holds 7).  The stream is left failed but with `eofbit`
cleared by the last `seekg`, so the first `tick` is not stopped by its
end-of-file test: its extractions fail and leave its locals as they were.
With zero in those locals it returns `false`; with the stale bytes `90 3C 7F`
in them it processes a note-on, writes `0x57`, `0x31` to `0xA6`, `0xB6`, and
returns `true`. -/
theorem c14_truncated_block_not_reported :
    (player zeroU (headerFive 120)).toOption.map
      (fun p => ((init zeroHeap p).out.length, (init zeroHeap p).data.eofbit,
        (init zeroHeap p).data.failbit)) = some (45, false, true) ∧
    (player zeroU (headerFive 120)).toOption.map
      (fun p => ((init (constHeap 7) p).out.length, (init (constHeap 7) p).out.take 6)) =
      some (45, [Out.reg 0x30 7, Out.reg 0x50 7, Out.reg 0x70 7, Out.reg 0x90 7, Out.reg 0xF0 7,
        Out.reg 0xC6 7]) ∧
    (player zeroU (headerFive 120)).toOption.map
      (fun p => (tick zeroU 0 (init zeroHeap p)).toOption.map
        (fun r => (r.1, r.2.out.length))) = some (some (false, 45)) ∧
    (player zeroU (headerFive 120)).toOption.map
      (fun p => (tick staleNoteOn 0 (init zeroHeap p)).toOption.map
        (fun r => (r.1, r.2.out.drop 45, r.2.data.eofbit, r.2.data.failbit))) =
      some (some (true, [Out.reg 0xA6 0x57, Out.reg 0xB6 0x31], false, true)) :=
  ⟨truncated_init, truncated_heap, truncated_tick_zero, truncated_tick_stale⟩

/-- C15: a tick that reads `delta, 0xC0|c, x` (program change) returns `true`
and sets the patch of channel `c` to `x`.  Nothing else changes: the callbacks
made are the delay of `delta` only (no register write), and the pitch bend of
channel `c`, every other channel, every voice, the register mirror, the rhythm
flag, the transpose, the note counter and the instrument table are as before.
The voice is rebound later: after any following note-on on channel `c` the
voice that took the note carries patch `x`. -/
theorem c15_program_change (u : Nat → Nat) (fuel : Nat) (p : Player) (s : IStream)
    (delta tl : List Nat) (c x : Nat) (hc : c < 16) (hx : x < 256) (hd : IsVarLen delta)
    (hg : s.good = true) (hr : s.rest = delta ++ (0xC0 ||| c) :: x :: tl)
    (ht : concat7 delta ≠ 0 → p.cmfHeader.iTicksPerSecond ≠ 0) :
    ∃ q, tick u fuel (p.setData s) = .ok (true, q) ∧
      (q.chMIDI c).iPatch = (x : Int) ∧
      (q.chMIDI c).iPitchbend = (p.chMIDI c).iPitchbend ∧
      (∀ j, j ≠ c → q.chMIDI j = p.chMIDI j) ∧
      q.chOPL = p.chOPL ∧ q.iCurrentRegs = p.iCurrentRegs ∧
      q.bPercussive = p.bPercussive ∧ q.iTranspose = p.iTranspose ∧
      q.iNoteCount = p.iNoteCount ∧ q.pInstruments = p.pInstruments ∧
      q.out = p.out ++ (if concat7 delta = 0 then [] else
        [Out.delay (((concat7 delta * 1000) % 2 ^ 32 / p.cmfHeader.iTicksPerSecond) % 65536)]) ∧
      (∀ n v, ((cmfNoteOn q c n v).chOPL (noteOnVoice q c)).iMIDIPatch = (x : Int)) := by
  obtain ⟨n1, n2, -, -, n5, n6, -, -⟩ := nibblesCE c hc
  have hx' : x % 256 = x := Nat.mod_eq_of_lt hx
  have t := tick_status u fuel (p.setData s) delta _ _ hg hr hd n5 n6 ht
  have r : (s.skip (delta.length + 1)).rest = x :: tl := by
    have := rest_advance s (delta ++ [0xC0 ||| c]) (x :: tl) (by simpa using hr)
    simpa using this
  rw [tickEvent_programChange u fuel _ _ x tl n1 (by simpa using hg) (by simpa using r)] at t
  simp only [n2, hx', setData_data, setPrev_data, waitDelay_setData, setData_setData,
    skip_skip] at t
  refine ⟨_, t, ?_⟩
  have hpatch : ((setPatch (((waitDelay p (concat7 delta)).setPrev (0xC0 ||| c)).setData
      (s.skip (delta.length + 1 + 1))) c (x : Int)).chMIDI c).iPatch = (x : Int) := by
    simp [setAt]
  refine ⟨hpatch, by simp [setAt], ?_, by simp, by simp, by simp, by simp, by simp, by simp,
    ?_, ?_⟩
  · intro j hj
    simp [setAt, hj]
  · simp [waitDelay_out]
  · intro n v
    exact noteOn_patch _ c n v x hx hpatch

theorem c15_program_change_witness :
    ∃ q, tick zeroU 0 ((init zeroHeap (playerFive 120 [])).setData
        (IStream.ofBytes [0x00, 0xC3, 0x05])) = .ok (true, q) ∧
      (q.chMIDI 3).iPatch = 5 ∧ q.out = (init zeroHeap (playerFive 120 [])).out ∧
      q.chOPL = (init zeroHeap (playerFive 120 [])).chOPL := by
  obtain ⟨q, h1, h2, -, -, h3, -, -, -, -, -, h4, -⟩ :=
    c15_program_change zeroU 0 (init zeroHeap (playerFive 120 []))
      (IStream.ofBytes [0x00, 0xC3, 0x05]) [0x00] [] 3 5 (by decide) (by decide) isVarLen_zero
      rfl rfl (fun h => absurd (concat7_single 0 (by decide)) h)
  rw [concat7_single 0 (by decide), if_pos rfl, List.append_nil] at h4
  exact ⟨q, h1, h2, h4, h3⟩

/-- C16: a tick that reads `delta, 0xE0|c, lsb, msb` (pitch bend) returns
`true` and stores `((msb & 0x7F) << 7) | (lsb & 0x7F)` as the pitch bend of
channel `c`; for every pair of bytes that value is below 16384.  The callbacks
made are the delay of `delta` only (no register write), and the patch of
channel `c`, every other channel, every voice, the register mirror, the rhythm
flag, the transpose, the note counter and the instrument table are as before. -/
theorem c16_pitch_bend (u : Nat → Nat) (fuel : Nat) (p : Player) (s : IStream)
    (delta tl : List Nat) (c lsb msb : Nat) (hc : c < 16) (hl : lsb < 256) (hm : msb < 256)
    (hd : IsVarLen delta) (hg : s.good = true)
    (hr : s.rest = delta ++ (0xE0 ||| c) :: lsb :: msb :: tl)
    (ht : concat7 delta ≠ 0 → p.cmfHeader.iTicksPerSecond ≠ 0) :
    ∃ q, tick u fuel (p.setData s) = .ok (true, q) ∧
      (q.chMIDI c).iPitchbend = ((((msb &&& 0x7F) <<< 7) ||| (lsb &&& 0x7F) : Nat) : Int) ∧
      ((msb &&& 0x7F) <<< 7) ||| (lsb &&& 0x7F) < 16384 ∧
      (q.chMIDI c).iPatch = (p.chMIDI c).iPatch ∧
      (∀ j, j ≠ c → q.chMIDI j = p.chMIDI j) ∧
      q.chOPL = p.chOPL ∧ q.iCurrentRegs = p.iCurrentRegs ∧
      q.bPercussive = p.bPercussive ∧ q.iTranspose = p.iTranspose ∧
      q.iNoteCount = p.iNoteCount ∧ q.pInstruments = p.pInstruments ∧
      q.out = p.out ++ (if concat7 delta = 0 then [] else
        [Out.delay (((concat7 delta * 1000) % 2 ^ 32 / p.cmfHeader.iTicksPerSecond) % 65536)]) := by
  obtain ⟨-, -, n3, n4, -, -, n7, n8⟩ := nibblesCE c hc
  have hl' : lsb % 256 = lsb := Nat.mod_eq_of_lt hl
  have hm' : msb % 256 = msb := Nat.mod_eq_of_lt hm
  have hb := bend_lt lsb msb
  have hb' : (((msb &&& 0x7F) <<< 7) ||| (lsb &&& 0x7F)) % 65536 =
      ((msb &&& 0x7F) <<< 7) ||| (lsb &&& 0x7F) := Nat.mod_eq_of_lt (by omega)
  have t := tick_status u fuel (p.setData s) delta _ _ hg hr hd n7 n8 ht
  have r : (s.skip (delta.length + 1)).rest = lsb :: msb :: tl := by
    have := rest_advance s (delta ++ [0xE0 ||| c]) (lsb :: msb :: tl) (by simpa using hr)
    simpa using this
  rw [tickEvent_pitchBend u fuel _ _ lsb msb tl n3 (by simpa using hg) (by simpa using r)] at t
  simp only [n4, hl', hm', hb', setData_data, setPrev_data, waitDelay_setData, setData_setData,
    skip_skip] at t
  refine ⟨_, t, by simp [setAt], hb, by simp [setAt], ?_, by simp, by simp, by simp, by simp,
    by simp, by simp, ?_⟩
  · intro j hj
    simp [setAt, hj]
  · simp [waitDelay_out]

theorem c16_pitch_bend_witness :
    ∃ q, tick zeroU 0 ((init zeroHeap (playerFive 120 [])).setData
        (IStream.ofBytes [0x00, 0xE3, 0xFF, 0xFF])) = .ok (true, q) ∧
      (q.chMIDI 3).iPitchbend = 16383 ∧ q.out = (init zeroHeap (playerFive 120 [])).out := by
  obtain ⟨q, h1, h2, -, -, -, -, -, -, -, -, -, h4⟩ :=
    c16_pitch_bend zeroU 0 (init zeroHeap (playerFive 120 []))
      (IStream.ofBytes [0x00, 0xE3, 0xFF, 0xFF]) [0x00] [] 3 0xFF 0xFF (by decide) (by decide)
      (by decide) isVarLen_zero rfl rfl (fun h => absurd (concat7_single 0 (by decide)) h)
  rw [concat7_single 0 (by decide), if_pos rfl, List.append_nil] at h4
  exact ⟨q, h1, h2, h4⟩

/-- C17: controller 0x67 with value `v` sets the rhythm flag to `v ≠ 0` and
makes exactly one register write, to `0xBD`: the mirrored value with bit `0x20`
set when `v ≠ 0` and cleared when `v = 0`, every other bit unchanged; the new
value is mirrored.  Afterwards the melodic branch of note-on and note-off works
on 6 voices when the flag is set and on 9 when it is clear: a melodic note-on
starts its note on a voice below that count, and neither a melodic note-on nor
a melodic note-off changes a voice from that count on. -/
theorem c17_rhythm_mode (p : Player) (ch v : Nat) (hreg : p.iCurrentRegs BASE_RHYTHM < 256) :
    (MIDIcontroller p ch 0x67 v).bPercussive = decide (v ≠ 0) ∧
    (MIDIcontroller p ch 0x67 v).out = p.out ++ [Out.reg BASE_RHYTHM
      (if v ≠ 0 then p.iCurrentRegs BASE_RHYTHM ||| 0x20
        else p.iCurrentRegs BASE_RHYTHM &&& 0xDF)] ∧
    (MIDIcontroller p ch 0x67 v).iCurrentRegs BASE_RHYTHM =
      (if v ≠ 0 then p.iCurrentRegs BASE_RHYTHM ||| 0x20
        else p.iCurrentRegs BASE_RHYTHM &&& 0xDF) ∧
    (MIDIcontroller p ch 0x67 v).iCurrentRegs BASE_RHYTHM &&& 0xDF =
      p.iCurrentRegs BASE_RHYTHM &&& 0xDF ∧
    (MIDIcontroller p ch 0x67 v).iCurrentRegs BASE_RHYTHM &&& 0x20 = (if v ≠ 0 then 0x20 else 0) ∧
    numChannels (MIDIcontroller p ch 0x67 v) = (if v ≠ 0 then 6 else 9) ∧
    (∀ c n vel, ¬ (c > 10 ∧ (MIDIcontroller p ch 0x67 v).bPercussive = true) →
      noteOnVoice (MIDIcontroller p ch 0x67 v) c < numChannels (MIDIcontroller p ch 0x67 v) ∧
      ∀ i, numChannels (MIDIcontroller p ch 0x67 v) ≤ i →
        (cmfNoteOn (MIDIcontroller p ch 0x67 v) c n vel).chOPL i =
          (MIDIcontroller p ch 0x67 v).chOPL i ∧
        (cmfNoteOff (MIDIcontroller p ch 0x67 v) c n vel).chOPL i =
          (MIDIcontroller p ch 0x67 v).chOPL i) := by
  obtain ⟨f1, f2, f3, f4⟩ := or_0x20_facts (p.iCurrentRegs BASE_RHYTHM)
  have hB : BASE_RHYTHM = BASE_RHYTHM := rfl
  have hor : (p.iCurrentRegs BASE_RHYTHM ||| 0x20) % 256 = p.iCurrentRegs BASE_RHYTHM ||| 0x20 :=
    Nat.mod_eq_of_lt (Nat.or_lt_two_pow (n := 8) hreg (by decide))
  have hand : (p.iCurrentRegs BASE_RHYTHM &&& (0xFF ^^^ 0x20)) % 256 =
      p.iCurrentRegs BASE_RHYTHM &&& 0xDF :=
    Nat.mod_eq_of_lt (lt_of_le_of_lt Nat.and_le_left hreg)
  generalize hq : MIDIcontroller p ch 0x67 v = q
  have hval : q.bPercussive = decide (v ≠ 0) ∧
      q.out = p.out ++ [Out.reg BASE_RHYTHM
        (if v ≠ 0 then p.iCurrentRegs BASE_RHYTHM ||| 0x20
          else p.iCurrentRegs BASE_RHYTHM &&& 0xDF)] ∧
      q.iCurrentRegs BASE_RHYTHM = (if v ≠ 0 then p.iCurrentRegs BASE_RHYTHM ||| 0x20
          else p.iCurrentRegs BASE_RHYTHM &&& 0xDF) := by
    subst hq
    have hB0 : BASE_RHYTHM % 256 = BASE_RHYTHM := by decide
    have hBlt : BASE_RHYTHM < 256 := by decide
    have l1 : p.iCurrentRegs BASE_RHYTHM ||| 0x20 < 256 :=
      Nat.or_lt_two_pow (n := 8) hreg (by decide)
    have l2 : p.iCurrentRegs BASE_RHYTHM &&& 0xDF < 256 := lt_of_le_of_lt Nat.and_le_left hreg
    by_cases hv : v = 0
    · subst hv
      simp [MIDIcontroller, setReg, setAt, hB0, hBlt, l2, Nat.mod_eq_of_lt l2]
    · simp [MIDIcontroller, setReg, setAt, hv, hB0, hBlt, l1, Nat.mod_eq_of_lt l1]
  obtain ⟨h1, h2, h3⟩ := hval
  refine ⟨h1, h2, h3, ?_, ?_, ?_, ?_⟩
  · rw [h3]; split_ifs
    · exact f1
    · exact f3
  · rw [h3]; split_ifs
    · exact f2
    · exact f4
  · unfold numChannels
    rw [h1]
    by_cases hv : v = 0 <;> simp [hv]
  · intro c n vel hm
    have hV : noteOnVoice q c = chooseVoice q c := by unfold noteOnVoice; rw [if_neg hm]
    refine ⟨by rw [hV]; exact chooseVoice_lt q c, ?_⟩
    intro i hi
    refine ⟨noteOn_chOPL_ne q c n vel i ?_, ?_⟩
    · have := chooseVoice_lt q c
      rw [hV]; omega
    · simp only [cmfNoteOff, if_neg hm]
      exact noteOffMelodic_chOPL_high q c n i hi

theorem c17_rhythm_mode_witness :
    (MIDIcontroller (init zeroHeap (playerFive 120 [])) 0 0x67 1).bPercussive = true ∧
    (MIDIcontroller (init zeroHeap (playerFive 120 [])) 0 0x67 1).out =
      (init zeroHeap (playerFive 120 [])).out ++ [Out.reg 0xBD 0xE0] ∧
    numChannels (MIDIcontroller (init zeroHeap (playerFive 120 [])) 0 0x67 1) = 6 := by
  have h := c17_rhythm_mode (init zeroHeap (playerFive 120 [])) 0 1
    (by rw [init_rhythm]; decide)
  rw [init_rhythm] at h
  exact ⟨h.1, h.2.1, h.2.2.2.2.2.1⟩

set_option maxRecDepth 100000 in
/-- C18 (failing input): controller 0x68 with value 64, then a note-on for note
60.  The controllers 0x68 and 0x69 overwrite the transpose with `v` and `-v`, but
the note-on divides it by 128 as an integer: for every `v < 128` the exponent
of the frequency is that of transpose 0.  With transpose 64 the F-number of
note 60 is 343, as without transpose; a shift of half a semitone gives 353.
The file with music `00 B0 68 40 00 90 3C 7F` writes `0x57`, `0x31` to
`0xA6`, `0xB6`, as the file without the controller does. -/
theorem c18_transpose_truncated :
    (∀ (p : Player) (ch v : Nat), (MIDIcontroller p ch 0x68 v).iTranspose = (v : Int) ∧
      (MIDIcontroller p ch 0x69 v).iTranspose = -(v : Int)) ∧
    (∀ (p : Player) (ch v n blk : Nat) (pb : Int), v < 128 →
      oplFNum n pb (MIDIcontroller p ch 0x68 v).iTranspose blk = oplFNum n pb 0 blk ∧
      oplFNum n pb (MIDIcontroller p ch 0x69 v).iTranspose blk = oplFNum n pb 0 blk) ∧
    oplFNum 60 8192 64 4 = 343 ∧ fnumOfExponent (specFreqExponent 60 8192 64 4) = 353 ∧
    (playFile zeroHeap (fileWithFive 120 [0x00, 0xB0, 0x68, 0x40, 0x00, 0x90, 60, 127]) 2).map
      (fun q => q.out.drop 45) = some [Out.reg 0xA6 0x57, Out.reg 0xB6 0x31] ∧
    (playFile zeroHeap (fileWithFive 120 [0x00, 0x90, 60, 127]) 1).map
      (fun q => q.out.drop 45) = some [Out.reg 0xA6 0x57, Out.reg 0xB6 0x31] := by
  refine ⟨fun p ch v => ⟨by simp [MIDIcontroller], by simp [MIDIcontroller]⟩, ?_, by decide!,
    by decide!, by decide!, by decide!⟩
  intro p ch v n blk pb hv
  have e1 : (MIDIcontroller p ch 0x68 v).iTranspose = (v : Int) := by simp [MIDIcontroller]
  have e2 : (MIDIcontroller p ch 0x69 v).iTranspose = -(v : Int) := by simp [MIDIcontroller]
  rw [e1, e2]
  simp only [oplFNum_eq, freqExponent]
  rw [tdiv_small (v : Int) (by omega) (by omega), tdiv_small (-(v : Int)) (by omega) (by omega)]
  simp

set_option maxRecDepth 100000 in
/-- C19 (failing input): a note-on for MIDI note 108.  The block is at most 7
for the notes 0..107, but it is 8 or 9 for the notes 108..127; for note 108 the
shifted block `8 << 2` is the key-on bit `0x20`, and the note-on of the file
with music `00 90 6C 7F` writes `0x21` to register `0xB6`: key-on with block
bits 2..4 all zero. -/
theorem c19_block_overflows :
    (∀ n, n ≤ 107 → noteBlock n ≤ 7) ∧
    (∀ n, 108 ≤ n → n ≤ 127 → 8 ≤ noteBlock n ∧ noteBlock n ≤ 9) ∧
    noteBlock 108 = 8 ∧ noteBlock 108 <<< 2 = OPLBIT_KEYON ∧
    (playFile zeroHeap (fileWithFive 120 [0x00, 0x90, 108, 127]) 1).map
      (fun q => q.out.drop 45) = some [Out.reg 0xA6 0x57, Out.reg 0xB6 0x21] :=
  ⟨noteBlock_le, noteBlock_high, by decide, by decide, by decide!⟩

set_option maxRecDepth 100000 in
/-- C20 (failing input): the file with 100 ticks per second and music
`0A C0 00 14 90 3C 7F`: a program change after 10 ticks, a note-on after 20
more.  The player passes 100 and then 200 to the delay callback before the
next register write; the host keeps only the last value, so at speed 560 the
delay field in front of that write is `200 * 560 / 1000 = 112`, not
`300 * 560 / 1000 = 168`.  In general a delay that is followed by another
delay before the next register write has no effect on the output. -/
theorem c20_delay_overwritten :
    (∀ (speed : Int) (h : Host) (d1 d2 r v : Nat),
      hostRun speed h [Out.delay d1, Out.delay d2, Out.reg r v] =
        hostRun speed h [Out.delay d2, Out.reg r v]) ∧
    (playFile zeroHeap (fileWithFive 100 [0x0A, 0xC0, 0x00, 0x14, 0x90, 60, 127]) 2).map
      (fun q => (q.out.drop 45, ((hostRun 560 ⟨0, []⟩ q.out).imf.drop 45))) =
      some ([Out.delay 100, Out.delay 200, Out.reg 0xA6 0x57, Out.reg 0xB6 0x31],
        [(112, 0xA6, 0x57), (0, 0xB6, 0x31)]) :=
  ⟨fun _ _ _ _ _ _ => rfl, by decide!⟩

/-- C21: a note-on that takes the melodic path chooses its voice among the
first `N` voices, `N = 6` in rhythm mode and `9` otherwise: (a) if a voice
below `N` is free and loaded with the channel's instrument, the chosen voice is
the highest such voice; (b) if no such voice exists but a voice below `N` is
free, the chosen voice is the lowest free voice; (c) if no voice below `N` is
free, the chosen voice has the smallest note-start among the voices below `N`,
and is the lowest voice with that note-start. -/
theorem c21_voice_selection (p : Player) (c : Nat) (hm : ¬ (c > 10 ∧ p.bPercussive = true)) :
    numChannels p = (if p.bPercussive = true then 6 else 9) ∧
    noteOnVoice p c < numChannels p ∧
    (∀ i, i < numChannels p → isFreeMatch p c i →
      isFreeMatch p c (noteOnVoice p c) ∧ i ≤ noteOnVoice p c) ∧
    ((∀ i, i < numChannels p → ¬ isFreeMatch p c i) →
      ∀ i, i < numChannels p → isFree p i →
        isFree p (noteOnVoice p c) ∧ noteOnVoice p c ≤ i) ∧
    ((∀ i, i < numChannels p → ¬ isFree p i) →
      (∀ i, i < numChannels p →
        (p.chOPL (noteOnVoice p c)).iNoteStart ≤ (p.chOPL i).iNoteStart) ∧
      ∀ i, i < noteOnVoice p c →
        (p.chOPL (noteOnVoice p c)).iNoteStart < (p.chOPL i).iNoteStart) := by
  classical
  have hV : noteOnVoice p c = chooseVoice p c := by unfold noteOnVoice; rw [if_neg hm]
  have hN : 0 < numChannels p := by unfold numChannels; split_ifs <;> decide
  rw [hV]
  refine ⟨by unfold numChannels; split_ifs <;> rfl, chooseVoice_lt p c, ?_, ?_, ?_⟩
  · intro i hi hfm
    have hle : i ≤ numChannels p - 1 := by omega
    have hs := Nat.findGreatest_spec (P := fun j => isFreeMatch p c j) hle hfm
    have hg := Nat.le_findGreatest (P := fun j => isFreeMatch p c j) hle hfm
    have hb := Nat.findGreatest_le (P := fun j => isFreeMatch p c j) (numChannels p - 1)
    have e := chooseVoice_of_findFree p c _
      (findFree_match p.chOPL (p.chMIDI c).iPatch (numChannels p)
        (Nat.findGreatest (fun j => isFreeMatch p c j) (numChannels p - 1)) (-1)
        (by omega) hs.1 hs.2
        (fun j h1 h2 hj => Nat.findGreatest_is_greatest (P := fun j => isFreeMatch p c j)
          h1 (by omega) hj))
    rw [e]
    exact ⟨hs, hg⟩
  · intro hno i hi hf
    have hs := Nat.find_spec (p := fun j => isFree p j) ⟨i, hf⟩
    have hle := Nat.find_min' (p := fun j => isFree p j) ⟨i, hf⟩ hf
    have e := chooseVoice_of_findFree p c _
      (findFree_lowest p.chOPL (p.chMIDI c).iPatch (numChannels p)
        (Nat.find (p := fun j => isFree p j) ⟨i, hf⟩) (-1) (by omega) hs
        (fun j hj => Nat.find_min (p := fun j => isFree p j) ⟨i, hf⟩ hj)
        (fun j hj => hno j hj))
    rw [e]
    exact ⟨hs, hle⟩
  · intro hno
    have e : chooseVoice p c = findEarliest p.chOPL (numChannels p) := by
      unfold chooseVoice
      simp only [findFree_none p.chOPL (p.chMIDI c).iPatch (numChannels p) (-1) hno, if_true]
    rw [e]
    exact (findEarliest_spec p.chOPL (numChannels p) hN).2

theorem c21_voice_selection_witness :
    noteOnVoice (init zeroHeap (playerFive 120 [])) 0 < 9 ∧
    (∀ i, i < 9 → isFreeMatch (init zeroHeap (playerFive 120 [])) 0 i →
      i ≤ noteOnVoice (init zeroHeap (playerFive 120 [])) 0) := by
  have h := c21_voice_selection (init zeroHeap (playerFive 120 [])) 0 (by decide)
  rw [h.1] at h
  exact ⟨h.2.1, fun i hi hf => (h.2.2.1 i hi hf).2⟩

/-- C22: a note-on on the melodic path, for a note byte `n`, advances the note
counter by one; the chosen voice records the new counter as its note-start,
together with the note and the channel; the last two register writes are
`(0xA0+v, fnum & 0xFF)` and `(0xB0+v, 0x20 | (block << 2) | ((fnum >> 8) & 3))`;
and no other voice changes in any field. -/
theorem c22_melodic_note_on (p : Player) (c n vel : Nat)
    (hm : ¬ (c > 10 ∧ p.bPercussive = true)) (hn : n < 256) :
    (cmfNoteOn p c n vel).iNoteCount = p.iNoteCount + 1 ∧
    ((cmfNoteOn p c n vel).chOPL (noteOnVoice p c)).iNoteStart = p.iNoteCount + 1 ∧
    ((cmfNoteOn p c n vel).chOPL (noteOnVoice p c)).iMIDINote = (n : Int) ∧
    ((cmfNoteOn p c n vel).chOPL (noteOnVoice p c)).iMIDIChannel = (c : Int) ∧
    (∃ w, (cmfNoteOn p c n vel).out = p.out ++ w ++
      [Out.reg (0xA0 + noteOnVoice p c)
         (oplFNum n (p.chMIDI c).iPitchbend p.iTranspose (noteBlock n) &&& 0xFF),
       Out.reg (0xB0 + noteOnVoice p c)
         (0x20 ||| (noteBlock n <<< 2) |||
           ((oplFNum n (p.chMIDI c).iPitchbend p.iTranspose (noteBlock n) >>> 8) &&& 3))]) ∧
    (∀ i, i ≠ noteOnVoice p c → (cmfNoteOn p c n vel).chOPL i = p.chOPL i) := by
  obtain ⟨s1, s2, s3⟩ := noteOn_chOPL_self p c n vel
  refine ⟨noteOn_iNoteCount p c n vel, s1, s2, s3, ?_, fun i hi => noteOn_chOPL_ne p c n vel i hi⟩
  have hV : noteOnVoice p c = chooseVoice p c := by unfold noteOnVoice; rw [if_neg hm]
  rw [hV]
  simp only [cmfNoteOn, if_neg hm, noteOnMelodic_out p c n _ _ (noteBlock_le_20 n hn)]
  unfold rebind
  split_ifs with h
  · obtain ⟨b, -, e⟩ := mci_out_length p (chooseVoice p c) c (toU8 (p.chMIDI c).iPatch) hm
    exact ⟨b, by rw [e]⟩
  · exact ⟨[], by simp⟩

theorem c22_melodic_note_on_witness :
    (cmfNoteOn (init zeroHeap (playerFive 120 [])) 0 60 127).iNoteCount = 1 ∧
    ∃ w, (cmfNoteOn (init zeroHeap (playerFive 120 [])) 0 60 127).out =
      (init zeroHeap (playerFive 120 [])).out ++ w ++
        [Out.reg (0xA0 + noteOnVoice (init zeroHeap (playerFive 120 [])) 0) 0x57,
         Out.reg (0xB0 + noteOnVoice (init zeroHeap (playerFive 120 [])) 0) 0x31] := by
  have h := c22_melodic_note_on (init zeroHeap (playerFive 120 [])) 0 60 127 (by decide)
    (by decide)
  have e1 : ((init zeroHeap (playerFive 120 [])).chMIDI 0).iPitchbend = 8192 := by
    rw [init_chMIDI_low zeroHeap _ 0 (by decide)]; rfl
  have e2 : noteBlock 60 = 4 := by decide
  rw [e1, init_iTranspose, init_iNoteCount, e2] at h
  have e3 : (playerFive 120 []).iTranspose = 0 := rfl
  rw [e3, oplFNum_60] at h
  exact ⟨h.1, h.2.2.2.2.1⟩

set_option maxRecDepth 100000 in
/-- C23 (failing input): the file with no instruments and music
`00 9B 3C 7F 00 8B 3C 00 00 9B 3C 7F` (rhythm mode off): note-on, note-off and
note-on again on channel 11.  A melodic note-on makes exactly its two frequency
writes when the chosen voice already carries the channel's patch, and twelve
binding writes before them when it does not; when the channel's patch is a
byte, the chosen voice carries it afterwards.  But `init` has preset channel 11
to patch `-5`: the first note-on binds voice 0 to instrument 251 (59 callbacks
so far), so the voice is never found to carry the channel's patch, and the
second note-on binds it again (74 callbacks after the third tick, 14 more than
the 60 before it). -/
theorem c23_rebinding_negative_patch :
    (∀ (p : Player) (c n vel : Nat), ¬ (c > 10 ∧ p.bPercussive = true) → n < 256 →
      ((p.chOPL (noteOnVoice p c)).iMIDIPatch = (p.chMIDI c).iPatch →
        (cmfNoteOn p c n vel).out = p.out ++
          [Out.reg (0xA0 + noteOnVoice p c)
             (oplFNum n (p.chMIDI c).iPitchbend p.iTranspose (noteBlock n) &&& 0xFF),
           Out.reg (0xB0 + noteOnVoice p c)
             (0x20 ||| (noteBlock n <<< 2) |||
               ((oplFNum n (p.chMIDI c).iPitchbend p.iTranspose (noteBlock n) >>> 8) &&& 3))]) ∧
      ((p.chOPL (noteOnVoice p c)).iMIDIPatch ≠ (p.chMIDI c).iPatch →
        ∃ b : List Out, b.length = 12 ∧ (cmfNoteOn p c n vel).out = p.out ++ b ++
          [Out.reg (0xA0 + noteOnVoice p c)
             (oplFNum n (p.chMIDI c).iPitchbend p.iTranspose (noteBlock n) &&& 0xFF),
           Out.reg (0xB0 + noteOnVoice p c)
             (0x20 ||| (noteBlock n <<< 2) |||
               ((oplFNum n (p.chMIDI c).iPitchbend p.iTranspose (noteBlock n) >>> 8) &&& 3))])) ∧
    (∀ (p : Player) (c n vel x : Nat), x < 256 → (p.chMIDI c).iPatch = (x : Int) →
      ((cmfNoteOn p c n vel).chOPL (noteOnVoice p c)).iMIDIPatch = (p.chMIDI c).iPatch) ∧
    (playFile zeroHeap (headerBytes 120 0 ++ [0x00, 0x9B, 60, 127, 0x00, 0x8B, 60, 0,
        0x00, 0x9B, 60, 127]) 1).map
      (fun q => ((q.chMIDI 11).iPatch, (q.chOPL 0).iMIDIPatch, (q.chOPL 0).iNoteStart,
        q.out.length)) = some (-5, 251, 1, 59) ∧
    (playFile zeroHeap (headerBytes 120 0 ++ [0x00, 0x9B, 60, 127, 0x00, 0x8B, 60, 0,
        0x00, 0x9B, 60, 127]) 2).map
      (fun q => ((q.chMIDI 11).iPatch, (q.chOPL 0).iMIDIPatch, (q.chOPL 0).iNoteStart,
        q.out.length)) = some (-5, 251, 0, 60) ∧
    (playFile zeroHeap (headerBytes 120 0 ++ [0x00, 0x9B, 60, 127, 0x00, 0x8B, 60, 0,
        0x00, 0x9B, 60, 127]) 3).map
      (fun q => ((q.chMIDI 11).iPatch, (q.chOPL 0).iMIDIPatch, (q.chOPL 0).iNoteStart,
        q.out.length)) = some (-5, 251, 2, 74) := by
  refine ⟨?_, ?_, by decide!, by decide!, by decide!⟩
  · intro p c n vel hm hn
    have hV : noteOnVoice p c = chooseVoice p c := by unfold noteOnVoice; rw [if_neg hm]
    rw [hV]
    simp only [cmfNoteOn, if_neg hm, noteOnMelodic_out p c n _ _ (noteBlock_le_20 n hn)]
    refine ⟨fun h => ?_, fun h => ?_⟩
    · simp only [rebind, h, ne_eq, not_true_eq_false, if_false]
    · obtain ⟨b, hb, e⟩ := mci_out_length p (chooseVoice p c) c (toU8 (p.chMIDI c).iPatch) hm
      refine ⟨b, hb, ?_⟩
      simp only [rebind, if_pos h, e]
  · intro p c n vel x hx hp
    rw [hp]
    exact noteOn_patch p c n vel x hx hp

/-- C24: on the melodic path, binding instrument `k` (whose fields are bytes) to
voice `v ≤ 8` makes exactly the writes of `bindingWrites`: with
`o = (v / 3) * 8 + v % 3`, the modulator's char/mult, scaling/level,
attack/decay, sustain/release and wave to `0x20+o`, `0x40+o`, `0x60+o`,
`0x80+o`, `0xE0+o`, the connection byte to `0xC0+v`, then the carrier's five
values to the same bases at `o+3` and the connection byte to `0xC0+v` once
more.  Every register written belongs to voice `v` and to no other voice, and
the operator offsets `o`, `o+3` of the nine voices are pairwise distinct. -/
theorem c24_melodic_binding (p : Player) (v c k : Nat) (hv : v ≤ 8)
    (hm : ¬ (c > 10 ∧ p.bPercussive = true)) (hb : (p.pInstruments k).isBytes) :
    (MIDIchangeInstrument p v c k).out = p.out ++ bindingWrites (p.pInstruments k) v ∧
    (∀ o ∈ bindingWrites (p.pInstruments k) v, ∃ r val, o = Out.reg r val ∧
      r ∈ voiceRegs v ∧ ∀ w, w ≤ 8 → w ≠ v → r ∉ voiceRegs w) ∧
    (∀ w a b, w ≤ 8 → (a = 0 ∨ a = 3) → (b = 0 ∨ b = 3) →
      specOffset v + a = specOffset w + b → v = w ∧ a = b) ∧
    specOffset v = OPLOFFSET v := by
  refine ⟨mci_out_melodic p v c k hv hm hb, ?_, ?_, rfl⟩
  · intro o ho
    obtain ⟨r, val, h1, h2⟩ := bindingWrites_voice _ v o ho
    exact ⟨r, val, h1, h2, fun w hw hne => voiceRegs_disjoint v w hv hw (Ne.symm hne) r h2⟩
  · intro w a b hw ha hb2 h
    exact specOffset_injective v w a b hv hw ha hb2 h

theorem c24_melodic_binding_witness :
    (MIDIchangeInstrument (init zeroHeap (playerFive 120 [])) 4 0 0).out =
      (init zeroHeap (playerFive 120 [])).out ++
        [Out.reg 0x29 0x01, Out.reg 0x49 0x4F, Out.reg 0x69 0xF1, Out.reg 0x89 0x53,
         Out.reg 0xE9 0x00, Out.reg 0xC4 0x06, Out.reg 0x2C 0x11, Out.reg 0x4C 0x00,
         Out.reg 0x6C 0xD2, Out.reg 0x8C 0x74, Out.reg 0xEC 0x00, Out.reg 0xC4 0x06] := by
  have h := (c24_melodic_binding (init zeroHeap (playerFive 120 [])) 4 0 0 (by decide)
    (by decide) (by rw [playerFive_slot_zero]; simp [SBI.isBytes, OPERATOR.isBytes])).1
  rw [playerFive_slot_zero] at h
  exact h

/-- C25: a note-off on the melodic path, in a state whose register mirror holds
bytes, with `N = numChannels` (6 in rhythm mode, 9 otherwise).  If `v` is the
lowest voice below `N` that is sounding and records the event's channel and
note, then `v` gets note-start 0 and keeps its other fields, no other voice
changes, and exactly one register write is made: `0xB0+v` receives its
mirrored value with bit `0x20` cleared and the other bits kept (and the mirror
follows).  If no voice below `N` is sounding the pair, the state is unchanged
and so nothing is written. -/
theorem c25_melodic_note_off (p : Player) (c n vel : Nat)
    (hm : ¬ (c > 10 ∧ p.bPercussive = true)) (hreg : MirrorBytes p) :
    numChannels p = (if p.bPercussive = true then 6 else 9) ∧
    (∀ v, v < numChannels p → soundsNote p c n v → (∀ j, j < v → ¬ soundsNote p c n j) →
      ((cmfNoteOff p c n vel).chOPL v).iNoteStart = 0 ∧
      ((cmfNoteOff p c n vel).chOPL v).iMIDINote = (p.chOPL v).iMIDINote ∧
      ((cmfNoteOff p c n vel).chOPL v).iMIDIChannel = (p.chOPL v).iMIDIChannel ∧
      ((cmfNoteOff p c n vel).chOPL v).iMIDIPatch = (p.chOPL v).iMIDIPatch ∧
      (∀ i, i ≠ v → (cmfNoteOff p c n vel).chOPL i = p.chOPL i) ∧
      (cmfNoteOff p c n vel).out =
        p.out ++ [Out.reg (0xB0 + v) (p.iCurrentRegs (0xB0 + v) &&& 0xDF)] ∧
      (cmfNoteOff p c n vel).iCurrentRegs =
        setAt p.iCurrentRegs (0xB0 + v) (p.iCurrentRegs (0xB0 + v) &&& 0xDF) ∧
      (p.iCurrentRegs (0xB0 + v) &&& 0xDF) &&& 0x20 = 0 ∧
      (p.iCurrentRegs (0xB0 + v) &&& 0xDF) &&& 0xDF = p.iCurrentRegs (0xB0 + v) &&& 0xDF) ∧
    ((∀ i, i < numChannels p → ¬ soundsNote p c n i) → cmfNoteOff p c n vel = p) := by
  refine ⟨by unfold numChannels; split_ifs <;> rfl, ?_, ?_⟩
  · intro v hv hs hlow
    have hv8 : v ≤ 8 := by
      have : numChannels p ≤ 9 := by unfold numChannels; split_ifs <;> decide
      omega
    obtain ⟨e1, e2, e3⟩ := noteOffMelodic_found p c n v hv8 (findNote_some p c n v hv hs hlow)
      (hreg _)
    obtain ⟨-, -, f3, f4⟩ := or_0x20_facts (p.iCurrentRegs (0xB0 + v))
    simp only [cmfNoteOff, if_neg hm, e1, e2, e3, freeVoice_chOPL, setAt_same]
    exact ⟨trivial, trivial, trivial, trivial, fun i hi => setAt_ne _ _ _ _ hi, trivial, trivial, f4, f3⟩
  · intro hno
    simp only [cmfNoteOff, if_neg hm, noteOffMelodic, findNote_none p c n hno]

theorem c25_melodic_note_off_witness :
    cmfNoteOff (init zeroHeap (playerFive 120 [])) 0 60 64 = init zeroHeap (playerFive 120 []) :=
  (c25_melodic_note_off (init zeroHeap (playerFive 120 [])) 0 60 64 (by decide)
    (mirrorBytes_init (mirrorBytes_mkPlayer _ _) zeroHeap)).2.2
    (fun i _ hs => hs.2.2 (by
      simp only [init_chOPL]
      split_ifs <;> rfl))

set_option maxRecDepth 100000 in
/-- C26 (failing input): in rhythm mode, a note-on for MIDI note 108 on
channel 11 (music `00 B0 67 01 00 9B 6C 7F`).  Every percussion note-on uses
the fixed voice, writes `(0xA0 + voice, fnum & 0xFF)` and
`(0xB0 + voice, (block << 2) | ((fnum >> 8) & 3))` after the instrument and
level writes and before the rhythm-register writes, records the incremented
note counter, the note and the channel on the voice and leaves every other
voice as it was; and for the notes 0..107 the value written to `0xB0 + voice`
has the key-on bit `0x20` clear.  For note 108 the block is 8, `8 << 2` is the
key-on bit, and the value written to `0xB6` is `0x21`. -/
theorem c26_percussion_key_on_bit :
    (∀ (p : Player) (c n vel : Nat), 11 ≤ c → c ≤ 15 → p.bPercussive = true → n < 256 →
      noteOnVoice p c = specPercVoice c ∧
      (∃ w2 : List Out,
        (cmfNoteOn p c n vel).out =
          (MIDIchangeInstrument p (specPercVoice c) c (toU8 (p.chMIDI c).iPatch)).out ++
            [Out.reg (percLevelReg c)
               ((((MIDIchangeInstrument p (specPercVoice c) c
                  (toU8 (p.chMIDI c).iPatch)).iCurrentRegs (percLevelReg c) &&& 0xC0) |||
                 (percLevel vel).toNat) % 256),
             Out.reg (0xA0 + specPercVoice c)
               (oplFNum n (p.chMIDI c).iPitchbend p.iTranspose (noteBlock n) &&& 0xFF),
             Out.reg (0xB0 + specPercVoice c)
               ((noteBlock n <<< 2) |||
                 ((oplFNum n (p.chMIDI c).iPitchbend p.iTranspose (noteBlock n) >>> 8) &&& 3))]
            ++ w2 ∧
        (∀ o ∈ w2, ∃ val, o = Out.reg BASE_RHYTHM val)) ∧
      (n ≤ 107 →
        ((noteBlock n <<< 2) |||
          ((oplFNum n (p.chMIDI c).iPitchbend p.iTranspose (noteBlock n) >>> 8) &&& 3))
            &&& 0x20 = 0) ∧
      (cmfNoteOn p c n vel).iNoteCount = p.iNoteCount + 1 ∧
      ((cmfNoteOn p c n vel).chOPL (specPercVoice c)).iNoteStart = p.iNoteCount + 1 ∧
      ((cmfNoteOn p c n vel).chOPL (specPercVoice c)).iMIDINote = (n : Int) ∧
      ((cmfNoteOn p c n vel).chOPL (specPercVoice c)).iMIDIChannel = (c : Int) ∧
      (∀ i, i ≠ specPercVoice c → (cmfNoteOn p c n vel).chOPL i = p.chOPL i)) ∧
    noteBlock 108 = 8 ∧ (8 : Nat) <<< 2 = OPLBIT_KEYON ∧
    (playFile zeroHeap (fileWithFive 120 [0x00, 0xB0, 0x67, 0x01, 0x00, 0x9B, 108, 127]) 2).map
      (fun q => (q.bPercussive, q.out.drop 59)) =
        some (true, [Out.reg 0xA6 0x57, Out.reg 0xB6 0x21, Out.reg 0xBD 0xF0]) ∧
    0x21 &&& OPLBIT_KEYON ≠ 0 := by
  refine ⟨?_, by decide, by decide, by decide!, by decide⟩
  intro p c n vel h1 h2 hp hn
  have hm : c > 10 ∧ p.bPercussive = true := ⟨by omega, hp⟩
  have hV : noteOnVoice p c = specPercVoice c := by
    unfold noteOnVoice; rw [if_pos hm]; exact percVoice_eq c h1 h2
  have hs := noteOn_chOPL_self p c n vel
  rw [hV] at hs
  refine ⟨hV, ?_, fun h => perc_value_no_keyon _ _ (noteBlock_le n h), ?_, hs.1, hs.2.1, hs.2.2,
    fun i hi => noteOn_chOPL_ne p c n vel i (by rw [hV]; exact hi)⟩
  · rw [← percVoice_eq c h1 h2]
    simp only [cmfNoteOn, if_pos hm]
    exact noteOnPerc_out p c n vel _ _ h1 h2 (noteBlock_le_20 n hn)
  · simp [cmfNoteOn, if_pos hm, noteOnPerc, startNote]

/-- C27 (failing input): in rhythm mode, a note-on on the snare channel 12
(music `00 B0 67 01 00 9C 26 64`) or on the cymbal channel 14
(`00 B0 67 01 00 9E 31 64`).  The instrument change of a percussion note-on
writes no timbre register outside the drum's own operator slots, but the level
write that follows it is made for every drum, to the carrier of voice 6 for
the bass drum and to the modulator of the drum's voice otherwise: register
`0x51` for the snare, which is the hi-hat's slot `0x11`, and register `0x52`
for the cymbal, which is the tom's slot `0x12`.  In the two traces the snare
note-on changes register `0x51` from 135 to 128 and the cymbal note-on changes
register `0x52` from 28 to 0. -/
theorem c27_level_write_cross_talk :
    (∀ (p : Player) (c : Nat), 11 ≤ c → c ≤ 15 → p.bPercussive = true →
      WritesIn (OwnTimbre c) p
        (MIDIchangeInstrument p (getPercChannel c) c (toU8 (p.chMIDI c).iPatch))) ∧
    (∀ (p : Player) (c n vel : Nat), 11 ≤ c → c ≤ 15 → p.bPercussive = true → n < 256 →
      ∃ w2 : List Out,
        (cmfNoteOn p c n vel).out =
          (MIDIchangeInstrument p (getPercChannel c) c (toU8 (p.chMIDI c).iPatch)).out ++
            Out.reg (percLevelReg c)
               ((((MIDIchangeInstrument p (getPercChannel c) c
                  (toU8 (p.chMIDI c).iPatch)).iCurrentRegs (percLevelReg c) &&& 0xC0) |||
                 (percLevel vel).toNat) % 256) :: w2) ∧
    [11, 12, 13, 14, 15].map percLevelReg = [0x53, 0x51, 0x52, 0x52, 0x51] ∧
    ownTimbre 12 (percLevelReg 12) = false ∧ ownTimbre 15 (percLevelReg 12) = true ∧
    ownTimbre 14 (percLevelReg 14) = false ∧ ownTimbre 13 (percLevelReg 14) = true ∧
    (playFile zeroHeap (fileWithFive 120 [0x00, 0xB0, 0x67, 0x01, 0x00, 0x9C, 38, 100]) 1).map
      (fun q => (q.bPercussive, q.iCurrentRegs 0x51)) = some (true, 135) ∧
    (playFile zeroHeap (fileWithFive 120 [0x00, 0xB0, 0x67, 0x01, 0x00, 0x9C, 38, 100]) 2).map
      (fun q => (q.iCurrentRegs 0x51, q.out.drop 46)) =
        some (128, [Out.reg 0x34 7, Out.reg 0x54 79, Out.reg 0x74 242, Out.reg 0x94 96,
          Out.reg 0xF4 0, Out.reg 0xC7 8, Out.reg 0x51 128, Out.reg 0xA7 129, Out.reg 0xB7 9,
          Out.reg 0xBD 232]) ∧
    (playFile zeroHeap (fileWithFive 120 [0x00, 0xB0, 0x67, 0x01, 0x00, 0x9E, 49, 100]) 1).map
      (fun q => (q.bPercussive, q.iCurrentRegs 0x52)) = some (true, 28) ∧
    (playFile zeroHeap (fileWithFive 120 [0x00, 0xB0, 0x67, 0x01, 0x00, 0x9E, 49, 100]) 2).map
      (fun q => (q.iCurrentRegs 0x52, q.out.drop 46)) =
        some (0, [Out.reg 0x35 49, Out.reg 0x55 28, Out.reg 0x75 65, Out.reg 0x95 11,
          Out.reg 0xF5 0, Out.reg 0xC8 14, Out.reg 0x52 0, Out.reg 0xA8 107, Out.reg 0xB8 13,
          Out.reg 0xBD 226]) := by
  refine ⟨?_, ?_, ?_, ?_, ?_, ?_, ?_, ?_, ?_, ?_, ?_⟩
  · intro p c h1 h2 hp
    exact mci_own_timbre p (getPercChannel c) c (toU8 (p.chMIDI c).iPatch) h1 h2 hp
  rotate_left
  · decide
  · decide
  · decide
  · decide
  · decide
  · exact snare_before
  · exact snare_after
  · exact cymbal_before
  · exact cymbal_after
  intro p c n vel h1 h2 hp hn
  have hm : c > 10 ∧ p.bPercussive = true := ⟨by omega, hp⟩
  obtain ⟨w2, e, -⟩ := noteOnPerc_out p c n vel (noteBlock n)
    (oplFNum n (p.chMIDI c).iPitchbend p.iTranspose (noteBlock n)) h1 h2 (noteBlock_le_20 n hn)
  refine ⟨[Out.reg (0xA0 + getPercChannel c)
      (oplFNum n (p.chMIDI c).iPitchbend p.iTranspose (noteBlock n) &&& 0xFF),
    Out.reg (0xB0 + getPercChannel c) ((noteBlock n <<< 2) |||
      ((oplFNum n (p.chMIDI c).iPitchbend p.iTranspose (noteBlock n) >>> 8) &&& 3))] ++ w2, ?_⟩
  have e2 : cmfNoteOn p c n vel = noteOnPerc p c n vel (noteBlock n)
      (oplFNum n (p.chMIDI c).iPitchbend p.iTranspose (noteBlock n)) := by
    simp only [cmfNoteOn, if_pos hm]
  rw [e2, e]
  simp only [List.append_assoc, List.cons_append, List.nil_append]

/-- C28: percussion note-off.  In rhythm mode, for a note-off on channel `c` in
11..15 with fixed voice `specPercVoice c`: if the note recorded on that voice
differs from the released note the state is returned unchanged (so nothing is
written); otherwise exactly one register write is made, to `0xBD`, of the
mirror's value of `0xBD` with bit `15 - c` cleared and every other bit kept,
the voice's note-start becomes 0 and its other fields and every other voice
stay as they were. -/
theorem c28_percussion_note_off (p : Player) (c n vel : Nat) (h1 : 11 ≤ c) (h2 : c ≤ 15)
    (hp : p.bPercussive = true) (hreg : p.iCurrentRegs 0xBD < 256) :
    ((p.chOPL (specPercVoice c)).iMIDINote ≠ (n : Int) → cmfNoteOff p c n vel = p) ∧
    ((p.chOPL (specPercVoice c)).iMIDINote = (n : Int) →
      ∃ val : Nat, (cmfNoteOff p c n vel).out = p.out ++ [Out.reg 0xBD val] ∧
        (∀ i, val.testBit i = (decide (i ≠ 15 - c) && (p.iCurrentRegs 0xBD).testBit i)) ∧
        (cmfNoteOff p c n vel).iCurrentRegs 0xBD = val ∧
        ((cmfNoteOff p c n vel).chOPL (specPercVoice c)).iNoteStart = 0 ∧
        ((cmfNoteOff p c n vel).chOPL (specPercVoice c)).iMIDINote =
          (p.chOPL (specPercVoice c)).iMIDINote ∧
        ((cmfNoteOff p c n vel).chOPL (specPercVoice c)).iMIDIChannel =
          (p.chOPL (specPercVoice c)).iMIDIChannel ∧
        ((cmfNoteOff p c n vel).chOPL (specPercVoice c)).iMIDIPatch =
          (p.chOPL (specPercVoice c)).iMIDIPatch ∧
        (∀ i, i ≠ specPercVoice c → (cmfNoteOff p c n vel).chOPL i = p.chOPL i)) := by
  have hm : c > 10 ∧ p.bPercussive = true := ⟨by omega, hp⟩
  have hV := percVoice_eq c h1 h2
  have hB : BASE_RHYTHM = 0xBD := rfl
  rw [← hV]
  simp only [cmfNoteOff, if_pos hm]
  refine ⟨noteOffPerc_ne p c n, fun h => ?_⟩
  rw [noteOffPerc_eq p c n h]
  refine ⟨(p.iCurrentRegs 0xBD &&& (0xFF ^^^ (1 <<< (15 - c)))) % 256, ?_,
    fun i => clear_bit_testBit _ _ i hreg (by omega), ?_, ?_, ?_, ?_, ?_, ?_⟩
  · simp [freeVoice, setReg, hB]
  · simp [freeVoice, setReg, hB, setAt]
  · simp [freeVoice, setReg, setAt]
  · simp [freeVoice, setReg, setAt]
  · simp [freeVoice, setReg, setAt]
  · simp [freeVoice, setReg, setAt]
  · intro i hi
    simp [freeVoice, setReg, setAt, hi]

/-- C28 at the state reached by the file with music `00 B0 67 01 00 9B 24 7F`
(rhythm mode on, bass drum note 36): the note-off for note 36 on channel 11
writes `0xE0` to `0xBD` (the mirror held `0xF0`) and frees voice 6. -/
theorem c28_percussion_note_off_witness :
    ∃ p, playFile zeroHeap
        (fileWithFive 120 [0x00, 0xB0, 0x67, 0x01, 0x00, 0x9B, 36, 127]) 2 = some p ∧
      p.bPercussive = true ∧ p.iCurrentRegs 0xBD = 0xF0 ∧
      (p.chOPL 6).iMIDINote = 36 ∧
      (cmfNoteOff p 11 36 0).out = p.out ++ [Out.reg 0xBD 0xE0] ∧
      ((cmfNoteOff p 11 36 0).chOPL 6).iNoteStart = 0 := by
  obtain ⟨p, hp, hq⟩ := Option.map_eq_some'.1 bass_drum_state
  have h1 : p.bPercussive = true := congrArg Prod.fst hq
  have h2 : p.iCurrentRegs 0xBD = 0xF0 := congrArg (fun x => x.2.1) hq
  have h3 : (p.chOPL 6).iMIDINote = 36 := congrArg (fun x => x.2.2) hq
  refine ⟨p, hp, h1, h2, h3, ?_⟩
  obtain ⟨-, k⟩ := c28_percussion_note_off p 11 36 0 (by decide) (by decide) h1
    (by rw [h2]; decide)
  obtain ⟨val, e, hb, -, hs, -⟩ := k h3
  have hv : val = 0xE0 := by
    apply Nat.eq_of_testBit_eq
    intro i
    rw [hb i, h2]
    by_cases h8 : i < 8
    · interval_cases i <;> decide
    · rw [testBit_of_lt_256 0xF0 i (by decide) (by omega),
        testBit_of_lt_256 0xE0 i (by decide) (by omega)]
      simp
  rw [hv] at e
  exact ⟨e, hs⟩

set_option maxRecDepth 100000 in
/-- C29: frequency calculation.  For every note `n` in 0..127 and pitch bend `b`
in 0..16383 with transpose 0, the F-number computed by the note-on for block
`noteBlock n` (`n / 12`, less one when above 1) is the integer nearest to
`d = 2^((n + (b - 8192)/8192 - 9)/12 + 20 - block) * 440 / 32 / 50000`: it is
the floor of `d + 1/2`, so it differs from `d` by at most `1/2`.  Note 42 at
centre bend gives block 2 and F-number 485; note 60 gives block 4 and F-number
343. -/
theorem c29_frequency (n b : Nat) (hn : n ≤ 127) (hb : b ≤ 16383) :
    ((oplFNum n (b : Int) 0 (noteBlock n) : ℕ) : ℝ) ≤
        (2 : ℝ) ^ (((n : ℝ) + ((b : ℝ) - 8192) / 8192 - 9) / 12 + 20 - (noteBlock n : ℝ))
          * 440 / 32 / 50000 + 1 / 2 ∧
    (2 : ℝ) ^ (((n : ℝ) + ((b : ℝ) - 8192) / 8192 - 9) / 12 + 20 - (noteBlock n : ℝ))
          * 440 / 32 / 50000 + 1 / 2 < ((oplFNum n (b : Int) 0 (noteBlock n) : ℕ) : ℝ) + 1 ∧
    |(2 : ℝ) ^ (((n : ℝ) + ((b : ℝ) - 8192) / 8192 - 9) / 12 + 20 - (noteBlock n : ℝ))
          * 440 / 32 / 50000 - ((oplFNum n (b : Int) 0 (noteBlock n) : ℕ) : ℝ)| ≤ 1 / 2 ∧
    noteBlock n = (if n / 12 > 1 then n / 12 - 1 else n / 12) ∧
    noteBlock 42 = 2 ∧ oplFNum 42 8192 0 2 = 485 ∧
    noteBlock 60 = 4 ∧ oplFNum 60 8192 0 4 = 343 := by
  obtain ⟨A, hA, hlt⟩ := freqExponent_range n b hn hb
  obtain ⟨k1, k2⟩ := fnumOfExponent_nearest A hlt
  have hexp : ((n : ℝ) + ((b : ℝ) - 8192) / 8192 - 9) / 12 + 20 - (noteBlock n : ℝ) =
      (A : ℝ) / 98304 := by
    have h0 : Int.tdiv 0 128 = 0 := by decide
    have e : ((A : ℤ) : ℝ) = ((freqExponent n (b : Int) 0 (noteBlock n) : ℤ) : ℝ) := by rw [hA]
    simp only [freqExponent, h0] at e
    push_cast at e
    rw [e]
    ring
  have hd : (2 : ℝ) ^ ((A : ℝ) / 98304) * 440 / 32 / 50000 =
      (2 : ℝ) ^ ((A : ℝ) / 98304) * 11 / 40000 := by ring
  rw [oplFNum_eq, hA, hexp, hd]
  refine ⟨k1, k2, ?_, rfl, by decide, by decide!, by decide, by decide!⟩
  rw [abs_le]
  constructor <;> linarith

set_option maxRecDepth 100000 in
/-- C29 at note 60 with centre bend: block 4, and the F-number 343 is the
floor of `2^((60 + 0/8192 - 9)/12 + 20 - 4) * 440 / 32 / 50000 + 1/2`. -/
theorem c29_frequency_witness :
    noteBlock 60 = 4 ∧ oplFNum 60 8192 0 4 = 343 ∧
    (343 : ℝ) ≤ (2 : ℝ) ^ (((60 : ℝ) + ((8192 : ℝ) - 8192) / 8192 - 9) / 12 + 20 - 4)
      * 440 / 32 / 50000 + 1 / 2 ∧
    (2 : ℝ) ^ (((60 : ℝ) + ((8192 : ℝ) - 8192) / 8192 - 9) / 12 + 20 - 4)
      * 440 / 32 / 50000 + 1 / 2 < 344 := by
  have h := c29_frequency 60 8192 (by decide) (by decide)
  have hb : noteBlock 60 = 4 := by decide
  have hf : oplFNum 60 ((8192 : ℕ) : ℤ) 0 4 = 343 := oplFNum_60
  rw [hb, hf] at h
  obtain ⟨h1, h2, -⟩ := h
  norm_num at h1 h2 ⊢
  exact ⟨hb, oplFNum_60, h1, h2⟩

set_option maxRecDepth 100000 in
/-- C30 (failing input): pitch bend 0 on channel 0, then a note-on for note 62
(music `00 E0 00 00 00 90 3E 7F`).  The note-on adds `(b - 8192) / 8192`
semitones to the note, not twice that: the exponent for note `n + 1` with
bend 0 is the exponent for note `n` at centre bend, and the exponent for note
`n + 2` with bend 0 is not.  With bend 0 the F-number of note 62 is 363, that of
note 61 at centre bend; note 60 at centre bend has F-number 343, which is what
a shift of two semitones gives.  The file writes `0x6B`, `0x31` to `0xA6`,
`0xB6`, as the file with a note-on for note 61 and no bend does, while the file
with a note-on for note 60 writes `0x57`, `0x31`. -/
theorem c30_bend_one_semitone :
    (∀ (n : Nat) (b t : Int) (blk : Nat),
      freqExponent n b t blk = freqExponent n 8192 t blk + (b - 8192)) ∧
    (∀ (n : Nat) (t : Int) (blk : Nat),
      freqExponent (n + 1) 0 t blk = freqExponent n 8192 t blk) ∧
    (∀ (n : Nat) (t : Int) (blk : Nat),
      freqExponent (n + 2) 0 t blk ≠ freqExponent n 8192 t blk) ∧
    (∀ (n : Nat) (t : Int) (blk : Nat),
      specBendExponent (n + 2) 0 t blk = freqExponent n 8192 t blk) ∧
    oplFNum 62 0 0 4 = 363 ∧ oplFNum 61 8192 0 4 = 363 ∧ oplFNum 60 8192 0 4 = 343 ∧
    fnumOfExponent (specBendExponent 62 0 0 4) = 343 ∧
    (playFile zeroHeap (fileWithFive 120 [0x00, 0xE0, 0x00, 0x00, 0x00, 0x90, 62, 127]) 2).map
      (fun q => ((q.chMIDI 0).iPitchbend, q.out.drop 45)) =
        some (0, [Out.reg 0xA6 0x6B, Out.reg 0xB6 0x31]) ∧
    (playFile zeroHeap (fileWithFive 120 [0x00, 0x90, 61, 127]) 1).map
      (fun q => ((q.chMIDI 0).iPitchbend, q.out.drop 45)) =
        some (8192, [Out.reg 0xA6 0x6B, Out.reg 0xB6 0x31]) ∧
    (playFile zeroHeap (fileWithFive 120 [0x00, 0x90, 60, 127]) 1).map
      (fun q => ((q.chMIDI 0).iPitchbend, q.out.drop 45)) =
        some (8192, [Out.reg 0xA6 0x57, Out.reg 0xB6 0x31]) := by
  refine ⟨?_, ?_, ?_, ?_, by decide!, by decide!, oplFNum_60, by decide!, bend_zero_note_62,
    centre_note_61, centre_note_60⟩
  · intro n b t blk
    simp only [freqExponent]
    ring
  · intro n t blk
    simp only [freqExponent]
    push_cast
    ring
  · intro n t blk
    simp only [freqExponent]
    push_cast
    omega
  · intro n t blk
    simp only [freqExponent, specBendExponent]
    push_cast
    ring

/-- C31 (failing inputs): a file that declares no instruments, and a file with
five instruments whose music is `00 C0 C8 00 90 3C 7F` (program change to 200
on channel 0, then a note-on).  The percussion presetting of `init` passes the
indices `n - 5 .. n - 1`, converted to `uint8_t`, to the instrument change: they
are below 128 when `5 ≤ n ≤ 128`, but they are `251 + n ..` for the channels
whose index is negative when `n < 5`.  A melodic note-on that binds its voice
writes the instrument in the slot named by the channel's patch, which a program
change sets to any byte.  In both traces the register writes are those of a
slot behind the 128 slots of the bank: they are zero when the memory behind the
bank is zero and `0x55` when it holds `0x55`, the bank itself being the same. -/
theorem c31_index_outside_bank :
    (∀ (n : Nat) (i : Int) (j : Nat) (p : Player),
      presetPercussion (n + 1) i j p = presetPercussion n (i + 1) (j + 1)
        (MIDIchangeInstrument (setPatch p j i) (getPercChannel j) j (toU8 i))) ∧
    (∀ n k : Nat, 5 ≤ n → n ≤ 128 → k < 5 → toU8 ((n : Int) - 5 + k) < 128) ∧
    (∀ n k : Nat, n < 5 → k < 5 - n → toU8 ((n : Int) - 5 + k) = 251 + n + k) ∧
    (∀ (p : Player) (c n vel x : Nat), ¬ (c > 10 ∧ p.bPercussive = true) → n < 256 → x < 256 →
      (p.chMIDI c).iPatch = (x : Int) → (p.chOPL (noteOnVoice p c)).iMIDIPatch ≠ (x : Int) →
      (p.pInstruments x).isBytes →
      (cmfNoteOn p c n vel).out =
        p.out ++ bindingWrites (p.pInstruments x) (noteOnVoice p c) ++
          [Out.reg (0xA0 + noteOnVoice p c)
             (oplFNum n (p.chMIDI c).iPitchbend p.iTranspose (noteBlock n) &&& 0xFF),
           Out.reg (0xB0 + noteOnVoice p c)
             (0x20 ||| (noteBlock n <<< 2) |||
               ((oplFNum n (p.chMIDI c).iPitchbend p.iTranspose (noteBlock n) >>> 8) &&& 3))]) ∧
    (∀ v i : Nat, i < 128 → heapBehind v i = zeroHeap i) ∧
    (playFile zeroHeap (headerBytes 120 0) 0).map
      (fun q => ([11, 12, 13, 14, 15].map (fun j => (q.chMIDI j).iPatch),
        [6, 7, 8].map (fun j => (q.chOPL j).iMIDIPatch), q.out.take 6)) =
      some ([-5, -4, -3, -2, -1], [251, 255, 254],
        [Out.reg 0x30 0, Out.reg 0x50 0, Out.reg 0x70 0, Out.reg 0x90 0, Out.reg 0xF0 0,
         Out.reg 0xC6 0]) ∧
    (playFile (heapBehind 0x55) (headerBytes 120 0) 0).map (fun q => q.out.take 6) =
      some [Out.reg 0x30 0x55, Out.reg 0x50 0x55, Out.reg 0x70 0x55, Out.reg 0x90 0x55,
        Out.reg 0xF0 0x55, Out.reg 0xC6 0x55] ∧
    (playFile zeroHeap (fileWithFive 120 [0x00, 0xC0, 200, 0x00, 0x90, 60, 127]) 2).map
      (fun q => ((q.chMIDI 0).iPatch, (q.chOPL 0).iMIDIPatch, (q.out.drop 45).take 6)) =
      some (200, 200, [Out.reg 0x20 0, Out.reg 0x40 0, Out.reg 0x60 0, Out.reg 0x80 0,
        Out.reg 0xE0 0, Out.reg 0xC0 0]) ∧
    (playFile (heapBehind 0x55) (fileWithFive 120 [0x00, 0xC0, 200, 0x00, 0x90, 60, 127]) 2).map
      (fun q => ((q.chMIDI 0).iPatch, (q.chOPL 0).iMIDIPatch, (q.out.drop 45).take 6)) =
      some (200, 200, [Out.reg 0x20 0x55, Out.reg 0x40 0x55, Out.reg 0x60 0x55,
        Out.reg 0x80 0x55, Out.reg 0xE0 0x55, Out.reg 0xC0 0x55]) := by
  refine ⟨fun _ _ _ _ => rfl, preset_index_low, preset_index_high, noteOn_reads_slot, ?_,
    no_instruments_zero, no_instruments_behind, patch_200_zero, patch_200_behind⟩
  intro v i hi
  simp only [heapBehind, if_pos hi]

/-- C32: the rhythm flag and the register mirror stay consistent.  For every
file that the constructor accepts, after `init` and after each of the following
ticks (`n` is the number of ticks made, the last of which may have returned
`false`), the rhythm flag is set if and only if bit `0x20` of the mirror of
register `0xBD` is set, and the mirror of every register is the last value
passed to the register-write callback for that register, or 0 if the register
has never been written; and the same holds after one more tick that returns,
whatever the contents of its uninitialised locals. -/
theorem c32_flag_and_mirror (u : Nat → Nat) (fuel : Nat) (heap : Nat → SBI) (bytes : List Nat)
    (p0 q : Player) (n : Nat) (h0 : player u bytes = .ok p0)
    (hr : runTicks u fuel n (init heap p0) = some q) :
    (q.bPercussive = true ↔ q.iCurrentRegs 0xBD &&& 0x20 ≠ 0) ∧
    (∀ r, q.iCurrentRegs r = lastWritten q.out r) ∧
    (∀ (u2 : Nat → Nat) (fuel2 : Nat) (b : Bool) (q2 : Player),
      tick u2 fuel2 q = .ok (b, q2) →
        (q2.bPercussive = true ↔ q2.iCurrentRegs 0xBD &&& 0x20 ≠ 0) ∧
        (∀ r, q2.iCurrentRegs r = lastWritten q2.out r)) := by
  have hs : Synced p0 := by
    rw [(player_ok u bytes p0 h0).1]
    exact synced_mkPlayer _ _
  obtain ⟨a, b⟩ := consistent_runTicks u fuel n (init heap p0) q (flag_init heap p0)
    (synced_init hs heap) hr
  exact ⟨a, b, fun u2 fuel2 b2 q2 h => consistent_tick u2 fuel2 q q2 b2 a b h⟩

/-- C32 on the file with music `00 B0 67 01 00 9B 24 7F` (rhythm mode on, then
a bass drum note): after the two ticks the flag is set, the mirror of `0xBD`
holds `0xF0`, and the mirror of every register is the last value written. -/
theorem c32_flag_and_mirror_witness :
    ∃ q, runTicks zeroU 0 2 (init zeroHeap (playerFive 120
        [0x00, 0xB0, 0x67, 0x01, 0x00, 0x9B, 36, 127])) = some q ∧
      q.bPercussive = true ∧ q.iCurrentRegs 0xBD = 0xF0 ∧
      q.iCurrentRegs 0xBD &&& 0x20 ≠ 0 ∧ ∀ r, q.iCurrentRegs r = lastWritten q.out r := by
  obtain ⟨q, hq, he⟩ := Option.map_eq_some'.1 rhythm_drum_run
  have h1 : q.bPercussive = true := congrArg Prod.fst he
  have h2 : q.iCurrentRegs 0xBD = 0xF0 := congrArg (fun x => x.2.1) he
  have h := c32_flag_and_mirror zeroU 0 zeroHeap
    (fileWithFive 120 [0x00, 0xB0, 0x67, 0x01, 0x00, 0x9B, 36, 127])
    (playerFive 120 [0x00, 0xB0, 0x67, 0x01, 0x00, 0x9B, 36, 127]) q 2
    (player_fileWithFive zeroU 120 _ (by decide)) hq
  exact ⟨q, hq, h1, h2, h.1.1 h1, h.2.1⟩

end cmf
